import Mathlib

/-!
# SHforHLSL sample framework: mesh asset pipeline

A shallow embedding of the serialization framework (`Serialization.h`), the
meshlet packing helpers (`Mesh_Shared.h`) and the buffer bookkeeping of
`Model.cpp`, together with the properties established about them.

Machine integers are natural numbers reduced modulo `2 ^ w` wherever the source
narrows or wraps; floating point members are carried as their bit patterns,
because the serializers copy object representations and never compute on them.
-/

namespace SampleFramework12

/-! ## Bytes and object representations -/

/-- One byte of a file or of memory. -/
abbrev Byte := Fin 256

/-- The object representation of an unsigned bit pattern `n` in `w` bytes,
least significant byte first (the layout of the x64 targets of the framework). -/
def toBytes : Nat → Nat → List Byte
  | 0, _ => []
  | w + 1, n => ⟨n % 256, Nat.mod_lt n (by decide)⟩ :: toBytes w (n / 256)

/-- The bit pattern held by a run of bytes, least significant byte first. -/
def fromBytes : List Byte → Nat
  | [] => 0
  | b :: bs => b.val + 256 * fromBytes bs

/-- Memory of `count` elements of `w` bytes each, reinterpreted as the element
bit patterns (the view `TValue*` gives of a `void*` range). -/
def fromChunks (w : Nat) : Nat → List Byte → List Nat
  | 0, _ => []
  | count + 1, mem => fromBytes (mem.take w) :: fromChunks w count (mem.drop w)

/-- The bytes occupied by a contiguous run of `w`-byte elements. -/
def toChunks (w : Nat) (elems : List Nat) : List Byte :=
  elems.flatMap (toBytes w)

/-! ## The three serializer drivers -/

/-- The interface the traversal requires of a `TSerializer`: the member
templates `SerializeItem<T>(T&)` (given `sizeof(T)` and the referenced bit
pattern, yielding the pattern left in the referenced object) and
`SerializeData(size, data)` (given the byte count and the addressed memory,
yielding the memory afterwards), each acting on the driver state `σ`. A driver
fails (`none`) where the file has fewer bytes than requested. -/
structure Serializer (σ : Type) where
  SerializeItem : Nat → Nat → σ → Option (Nat × σ)
  SerializeData : Nat → List Byte → σ → Option (List Byte × σ)
  IsReadSerializer : Bool
  IsWriteSerializer : Bool

/-- Modelled from the spec: `File::Write(size, data)` of the absent `FileIO.h`,
appending `size` bytes of the addressed memory to the file. -/
def File.Write (size : Nat) (data : List Byte) (file : List Byte) : List Byte :=
  file ++ data.take size

/-- Modelled from the spec: `File::Read(size, data)` of the absent `FileIO.h`,
taking the next `size` bytes of the file; it fails when fewer remain. -/
def File.Read (size : Nat) (file : List Byte) : Option (List Byte × List Byte) :=
  if size ≤ file.length then some (file.take size, file.drop size) else none

/-- The `FileWriteSerializer` class: the state is the content of the file
written so far; the referenced objects are only read. -/
def FileWriteSerializer : Serializer (List Byte) where
  SerializeItem := fun sizeofT data file => some (data, File.Write sizeofT (toBytes sizeofT data) file)
  SerializeData := fun size data file => some (data, File.Write size data file)
  IsReadSerializer := false
  IsWriteSerializer := true

/-- The `FileReadSerializer` class: the state is the unread remainder of the
file; the referenced objects are overwritten with what is read. -/
def FileReadSerializer : Serializer (List Byte) where
  SerializeItem := fun sizeofT _ file =>
    (File.Read sizeofT file).map (fun r => (fromBytes r.1, r.2))
  SerializeData := fun size data file =>
    (File.Read size file).map (fun r => (r.1 ++ data.drop size, r.2))
  IsReadSerializer := true
  IsWriteSerializer := false

/-- The `ComputeSizeSerializer` class: the state is the `uint64 numBytes`. -/
def ComputeSizeSerializer : Serializer Nat where
  SerializeItem := fun sizeofT data numBytes => some (data, (numBytes + sizeofT) % 2 ^ 64)
  SerializeData := fun size data numBytes => some (data, (numBytes + size) % 2 ^ 64)
  IsReadSerializer := false
  IsWriteSerializer := true

/-- The member `ComputeSizeSerializer::Size`. -/
def ComputeSizeSerializer.Size (numBytes : Nat) : Nat := numBytes

/-! ## Supported value types -/

/-- The scalar types with a specialised `SerializeItem` overload. -/
inductive Prim
  | uint8 | int8 | uint16 | int16 | uint32 | int32 | uint64 | int64 | float | double
  deriving DecidableEq, Repr

/-- The value of `sizeof` at a scalar type. -/
def Prim.sizeof : Prim → Nat
  | .uint8 => 1 | .int8 => 1
  | .uint16 => 2 | .int16 => 2
  | .uint32 => 4 | .int32 => 4 | .float => 4
  | .uint64 => 8 | .int64 => 8 | .double => 8

/-- The static types the traversal is specialised for: scalars, the vector and
quaternion aggregates, `std::basic_string<TString>`, `Array<TValue>` and
`List<TValue>`. -/
inductive Ty
  | prim (p : Prim)
  | float2 | float3 | float4 | quaternion
  | string (TString : Prim)
  | array (TValue : Ty)
  | list (TValue : Ty)
  deriving DecidableEq, Repr

/-- The aggregate `Float2` over a carrier `F` of its `float` members. -/
structure Float2 (F : Type) where
  x : F
  y : F
  deriving DecidableEq, Repr

/-- The aggregate `Float3` over a carrier `F` of its `float` members. -/
structure Float3 (F : Type) where
  x : F
  y : F
  z : F
  deriving DecidableEq, Repr

/-- The aggregate `Float4` over a carrier `F` of its `float` members. -/
structure Float4 (F : Type) where
  x : F
  y : F
  z : F
  w : F
  deriving DecidableEq, Repr

/-- The aggregate `Quaternion` over a carrier `F` of its `float` members. -/
structure Quaternion (F : Type) where
  x : F
  y : F
  z : F
  w : F
  deriving DecidableEq, Repr

/-- The objects of a static type. A scalar is its bit pattern (two's complement
for the signed types, IEEE encoding for the floating ones), a string the
sequence of its code units, a container the sequence of its elements. -/
@[reducible] def Ty.Val : Ty → Type
  | .prim _ => Nat
  | .float2 => Float2 Nat
  | .float3 => Float3 Nat
  | .float4 => Float4 Nat
  | .quaternion => Quaternion Nat
  | .string _ => List Nat
  | .array t => List t.Val
  | .list t => List t.Val

/-- Modelled from the spec: the object a container holds in a freshly allocated
slot (`new T[n]` in the absent `Containers.h`): empty strings and containers,
and for scalars, whose slots are left uninitialised, the zero pattern. Every
slot is overwritten by the read that follows an allocation. -/
def Ty.init : (t : Ty) → t.Val
  | .prim _ => (0 : Nat)
  | .float2 => ⟨0, 0⟩
  | .float3 => ⟨0, 0, 0⟩
  | .float4 => ⟨0, 0, 0, 0⟩
  | .quaternion => ⟨0, 0, 0, 0⟩
  | .string _ => ([] : List Nat)
  | .array _ => []
  | .list _ => []

/-- Modelled from the spec: `Array<T>::Init(numElements)` of the absent
`Containers.h`, replacing the storage by `numElements` fresh slots. -/
def Array_Init (t : Ty) (numElements : Nat) : List t.Val :=
  List.replicate numElements t.init

/-- Modelled from the spec: `List<T>::Init(maxCount, initialCount)` of the absent
`Containers.h`, replacing the storage by one of capacity `maxCount` whose first
`initialCount` slots are live. -/
def List_Init (t : Ty) (_maxCount : Nat) (initialCount : Nat) : List t.Val :=
  List.replicate initialCount t.init

/-- The member `std::basic_string::resize(n)`: keep the first `n` code units and
pad with zero code units up to length `n`. -/
def basic_string_resize (str : List Nat) (n : Nat) : List Nat :=
  str.take n ++ List.replicate (n - str.length) 0

/-- The values an object of the type can hold in a 64-bit address space: every
scalar fits its width, every string occupies fewer than `2 ^ 64` bytes and every
container has fewer than `2 ^ 64` elements. -/
def Ty.representable : (t : Ty) → t.Val → Bool
  | .prim p, v => decide (v < 256 ^ p.sizeof)
  | .float2, v => decide (v.x < 256 ^ 4) && decide (v.y < 256 ^ 4)
  | .float3, v => decide (v.x < 256 ^ 4) && decide (v.y < 256 ^ 4) && decide (v.z < 256 ^ 4)
  | .float4, v =>
    decide (v.x < 256 ^ 4) && decide (v.y < 256 ^ 4) && decide (v.z < 256 ^ 4) && decide (v.w < 256 ^ 4)
  | .quaternion, v =>
    decide (v.x < 256 ^ 4) && decide (v.y < 256 ^ 4) && decide (v.z < 256 ^ 4) && decide (v.w < 256 ^ 4)
  | .string c, str =>
    decide (c.sizeof * str.length < 2 ^ 64) && str.all (fun ch => decide (ch < 256 ^ c.sizeof))
  | .array t, a => decide (a.length < 2 ^ 64) && a.all (Ty.representable t)
  | .list t, l => decide (l.length < 2 ^ 64) && l.all (Ty.representable t)

/-! ## The generic traversal -/

/-- The function template `SerializeArray`: the element loop over `array[0]`,
..., `array[numElements - 1]`, `numElements` being the length of the sequence
at each of its call sites. -/
def SerializeArray {σ α : Type} (item : α → σ → Option (α × σ)) :
    List α → σ → Option (List α × σ)
  | [], s => some ([], s)
  | a :: rest, s =>
    match item a s with
    | none => none
    | some (a1, s1) =>
      match SerializeArray item rest s1 with
      | none => none
      | some (rest1, s2) => some (a1 :: rest1, s2)

/-- The function template `BulkSerializeArray`: one `SerializeData` call over the
`sizeof(TValue) * numElements` bytes (a `uint64` product) of the element
storage. -/
def BulkSerializeArray {σ : Type} (serializer : Serializer σ) (sizeofTValue : Nat)
    (array : List Nat) (numElements : Nat) (s : σ) : Option (List Nat × σ) :=
  match serializer.SerializeData ((sizeofTValue * numElements) % 2 ^ 64)
      (toChunks sizeofTValue array) s with
  | none => none
  | some (mem, s1) => some (fromChunks sizeofTValue array.length mem, s1)

/-- The overload set `SerializeItem(TSerializer&, T&)`, one traversal for every
driver: the object is passed by reference, so the traversal yields the object
as it is left together with the new driver state. -/
def SerializeItem {σ : Type} (serializer : Serializer σ) : (t : Ty) → t.Val → σ → Option (t.Val × σ)
  | .prim p, val, s => serializer.SerializeItem p.sizeof val s
  | .float2, val, s =>
    match serializer.SerializeItem 4 val.x s with
    | none => none
    | some (x, s1) =>
      match serializer.SerializeItem 4 val.y s1 with
      | none => none
      | some (y, s2) => some (⟨x, y⟩, s2)
  | .float3, val, s =>
    match serializer.SerializeItem 4 val.x s with
    | none => none
    | some (x, s1) =>
      match serializer.SerializeItem 4 val.y s1 with
      | none => none
      | some (y, s2) =>
        match serializer.SerializeItem 4 val.z s2 with
        | none => none
        | some (z, s3) => some (⟨x, y, z⟩, s3)
  | .float4, val, s =>
    match serializer.SerializeItem 4 val.x s with
    | none => none
    | some (x, s1) =>
      match serializer.SerializeItem 4 val.y s1 with
      | none => none
      | some (y, s2) =>
        match serializer.SerializeItem 4 val.z s2 with
        | none => none
        | some (z, s3) =>
          match serializer.SerializeItem 4 val.w s3 with
          | none => none
          | some (w, s4) => some (⟨x, y, z, w⟩, s4)
  | .quaternion, val, s =>
    match serializer.SerializeItem 4 val.x s with
    | none => none
    | some (x, s1) =>
      match serializer.SerializeItem 4 val.y s1 with
      | none => none
      | some (y, s2) =>
        match serializer.SerializeItem 4 val.z s2 with
        | none => none
        | some (z, s3) =>
          match serializer.SerializeItem 4 val.w s3 with
          | none => none
          | some (w, s4) => some (⟨x, y, z, w⟩, s4)
  | .string c, str, s =>
    match serializer.SerializeItem 8 str.length s with
    | none => none
    | some (numChars, s1) =>
      let str1 := if str.length ≠ numChars then basic_string_resize str numChars else str
      if numChars = 0 then some (str1, s1)
      else BulkSerializeArray serializer c.sizeof str1 numChars s1
  | .array t, array, s =>
    match serializer.SerializeItem 8 array.length s with
    | none => none
    | some (numElements, s1) =>
      let array1 := if array.length ≠ numElements then Array_Init t numElements else array
      if numElements = 0 then some (array1, s1)
      else SerializeArray (SerializeItem serializer t) array1 s1
  | .list t, list, s =>
    match serializer.SerializeItem 8 list.length s with
    | none => none
    | some (numElements, s1) =>
      let list1 := if list.length ≠ numElements then List_Init t numElements numElements else list
      if numElements = 0 then some (list1, s1)
      else SerializeArray (SerializeItem serializer t) list1 s1

/-! ## Meshlet records (`Mesh_Shared.h`) -/

/-- The three components of a `ShaderUint3`. -/
structure ShaderUint3 where
  x : Nat
  y : Nat
  z : Nat
  deriving DecidableEq, Repr

/-- The struct `MeshletTriangle`: one 32-bit word. -/
structure MeshletTriangle where
  Packed : Nat
  deriving DecidableEq, Repr

/-- The static member `MeshletTriangle::Pack`, in `uint32_t` arithmetic. -/
def MeshletTriangle.Pack (v0 v1 v2 : Nat) : MeshletTriangle :=
  { Packed := (v0 ||| (v1 <<< 8) ||| (v2 <<< 16)) % 2 ^ 32 }

/-- The member `MeshletTriangle::Unpack`. -/
def MeshletTriangle.Unpack (tri : MeshletTriangle) : ShaderUint3 :=
  let idx0 := tri.Packed &&& 0xFF
  let idx1 := (tri.Packed >>> 8) &&& 0xFF
  let idx2 := (tri.Packed >>> 16) &&& 0xFF
  { x := idx0, y := idx1, z := idx2 }

/-- The constant `MaxMeshletVertices`. -/
def MaxMeshletVertices : Nat := 64

/-- The constant `MaxMeshletTriangles`. -/
def MaxMeshletTriangles : Nat := 64

/-! ## Loops and stores -/

/-- The loop `for (i = 0; i < n; ++i) body`, threading the state it updates. -/
def forRange {σ : Type} (n : Nat) (body : Nat → σ → σ) (s : σ) : σ :=
  (List.range n).foldl (fun acc i => body i acc) s

/-- The stores `ptr[0] = bytes[0]`, `ptr[1] = bytes[1]`, ... through a byte
pointer `ptr = &mem[addr]`. -/
def storeBytes (mem : List Byte) (addr : Nat) (bytes : List Byte) : List Byte :=
  forRange bytes.length (fun i m => match bytes[i]? with
    | some b => m.set (addr + i) b
    | none => m) mem

/-- The load of a `w`-byte integer through a pointer `&mem[addr]`. -/
def loadBytes (mem : List Byte) (addr w : Nat) : Nat :=
  fromBytes ((mem.drop addr).take w)

/-! ## Meshes and models (`Model.cpp`) -/

/-- The enumeration `IndexType`. -/
inductive IndexType
  | Index16Bit
  | Index32Bit
  deriving DecidableEq, Repr

/-- The struct `MeshVertex` of `Mesh_Shared.h`. -/
structure MeshVertex (F : Type) where
  Position : Float3 F
  Normal : Float3 F
  UV : Float2 F
  Tangent : Float3 F
  Bitangent : Float3 F
  deriving DecidableEq, Repr

/-- The struct `MeshPart`, with the members `Model.cpp` assigns. -/
structure MeshPart where
  VertexStart : Nat
  VertexCount : Nat
  IndexStart : Nat
  IndexCount : Nat
  MaterialIdx : Nat
  deriving DecidableEq, Repr

/-- The class `Mesh`, with the members `Model.cpp` assigns. The pointers
`vertices` and `indices` into the arrays of the owning model are kept as the
element index and the byte index they address. -/
structure Mesh (F : Type) where
  meshParts : List MeshPart
  numVertices : Nat
  numIndices : Nat
  vtxOffset : Nat
  idxOffset : Nat
  indexType : IndexType
  vertices : Nat
  indices : Nat
  aabbMin : Float3 F
  aabbMax : Float3 F
  numMeshlets : Nat
  meshletOffset : Nat
  deriving DecidableEq, Repr

/-- The component-wise `Min` of two `Float3`. -/
def Float3.Min {F : Type} [LinearOrder F] (a b : Float3 F) : Float3 F :=
  { x := min a.x b.x, y := min a.y b.y, z := min a.z b.z }

/-- The component-wise `Max` of two `Float3`. -/
def Float3.Max {F : Type} [LinearOrder F] (a b : Float3 F) : Float3 F :=
  { x := max a.x b.x, y := max a.y b.y, z := max a.z b.z }

/-- The `Float3` with all components equal, as built from one `float`. -/
def Float3.splat {F : Type} (v : F) : Float3 F := { x := v, y := v, z := v }

/-- The member `Mesh::IndexSize` and `Model::IndexSize`: bytes per index. -/
def IndexType.IndexSize : IndexType → Nat
  | .Index32Bit => 4
  | .Index16Bit => 2

/-- The struct `Meshlet` of `Mesh_Shared.h`. -/
structure Meshlet where
  VertexOffset : Nat
  TriangleOffset : Nat
  VertexCount : Nat
  TriangleCount : Nat
  MeshIndex : Nat
  MaterialIndex : Nat
  MeshVertexOffset : Nat
  deriving DecidableEq, Repr

/-- The struct `MeshletBounds` of `Mesh_Shared.h`. -/
structure MeshletBounds (F : Type) where
  Center : Float3 F
  Radius : F
  deriving DecidableEq, Repr

/-- A wide string (`std::wstring`, or the string a `const wchar*` addresses): its
16-bit code units, without the terminator. -/
abbrev wstring := List Nat

/-- The wide string literal `L"..."` of plain ASCII text. -/
def L (text : String) : wstring := text.toList.map Char.toNat

/-- Modelled from the spec: the struct `Texture` of the absent `Textures.h`, kept
as an opaque handle to a loaded texture. -/
structure Texture where
  Resource : Nat
  deriving DecidableEq, Repr

/-- The struct `MaterialTexture`: an entry of the texture pool of a model, a
loaded texture under the path it was loaded from. -/
structure MaterialTexture where
  Name : wstring
  Texture : Texture
  deriving DecidableEq, Repr

/-- The enumeration `MaterialTextures` of the texture slots of a material, in
the order of the table `DefaultTextures`. -/
inductive MaterialTextures
  | Albedo | Normal | Roughness | Metallic | Opacity | Emissive
  deriving DecidableEq, Repr

/-- The enumerator `MaterialTextures::Count`. -/
def MaterialTextures.Count : Nat := 6

/-- The conversion `uint64(MaterialTextures::...)`. -/
def MaterialTextures.toNat : MaterialTextures → Nat
  | .Albedo => 0 | .Normal => 1 | .Roughness => 2 | .Metallic => 3 | .Opacity => 4 | .Emissive => 5

/-- An array `T[uint64(MaterialTextures::Count)]`, one entry per texture slot. -/
structure TextureArray (α : Type) where
  Albedo : α
  Normal : α
  Roughness : α
  Metallic : α
  Opacity : α
  Emissive : α
  deriving DecidableEq, Repr

/-- The element `array[texType]` of a per-slot array, for `texType` below
`Count`. -/
def TextureArray.get {α : Type} (a : TextureArray α) (texType : Nat) : α :=
  match texType with
  | 0 => a.Albedo | 1 => a.Normal | 2 => a.Roughness | 3 => a.Metallic | 4 => a.Opacity
  | _ => a.Emissive

/-- The assignment `array[texType] = v` to a per-slot array, for `texType` below
`Count`. -/
def TextureArray.set {α : Type} (a : TextureArray α) (texType : Nat) (v : α) : TextureArray α :=
  match texType with
  | 0 => { a with Albedo := v } | 1 => { a with Normal := v } | 2 => { a with Roughness := v }
  | 3 => { a with Metallic := v } | 4 => { a with Opacity := v } | 5 => { a with Emissive := v }
  | _ => a

/-- The struct `MeshMaterial`, with the members `Model.cpp` assigns. A pointer
`Textures[i]` into the texture pool of the model is kept as the index of the
pool entry whose texture it addresses; `none` is the null pointer. -/
structure MeshMaterial where
  Name : List Nat
  TextureNames : TextureArray wstring
  Textures : TextureArray (Option Nat)
  TextureIndices : TextureArray Nat
  Opaque : Bool
  deriving DecidableEq, Repr

/-- The class `Model`, with the members the mesh pipeline of `Model.cpp`
assigns: the global vertex array, the global index byte array, the meshes, the
model bounds and the four meshlet arrays; and the members its material loading
assigns: the colour space flag, the texture directory, the materials and the
texture pool. -/
structure Model (F : Type) where
  meshes : List (Mesh F)
  vertices : List (MeshVertex F)
  indices : List Byte
  indexType : IndexType
  aabbMin : Float3 F
  aabbMax : Float3 F
  meshlets : List Meshlet
  meshletVertices : List Nat
  meshletTriangles : List MeshletTriangle
  meshletBounds : List (MeshletBounds F)
  forceSRGB : Bool
  textureDirectory : wstring
  meshMaterials : List MeshMaterial
  materialTextures : List MaterialTexture
  deriving DecidableEq, Repr

/-- The struct `meshopt_Meshlet` of the meshoptimizer library. -/
structure meshopt_Meshlet where
  vertex_offset : Nat
  triangle_offset : Nat
  vertex_count : Nat
  triangle_count : Nat
  deriving DecidableEq, Repr

/-- What one call of `meshopt_buildMeshlets` leaves behind: the clusters it
stored in its first output buffer (their number is the value it returns), and
the entries it stored from the start of its `meshlet_vertices` and
`meshlet_triangles` output buffers. -/
structure BuildMeshletsOutput where
  meshlets : List meshopt_Meshlet
  meshlet_vertices : List Nat
  meshlet_triangles : List Byte
  deriving DecidableEq, Repr

/-- What `Model.cpp` takes from outside `src/`: the constant `FloatMax` and the
matrix transforms of the framework's math header, the objects `Init` puts in a
new slot of a container (default constructors of absent headers), and the
collaborators meshoptimizer and DirectXMath. `F` carries the `float` values,
`M` the `Float4x4` matrices. The clustering functions receive the arguments of
the source in order: index pointer, index size (the overload chosen by the
index type), index count, vertex pointer, vertex count, and the two caps. -/
structure Externals (F M : Type) where
  FloatMax : F
  Transform : Float3 F → M → Float3 F
  TransformDirection : Float3 F → M → Float3 F
  freshMesh : Mesh F
  freshVertex : MeshVertex F
  freshMeshlet : Meshlet
  freshBounds : MeshletBounds F
  meshopt_buildMeshletsBound : Nat → Nat → Nat → Nat
  meshopt_buildMeshlets :
    List Byte → Nat → Nat → List (MeshVertex F) → Nat → Nat → Nat → BuildMeshletsOutput
  CreateFromPoints : List (Float3 F) → MeshletBounds F

/-- The assignment `l[i].member = ...` to a member of an element in place. -/
def modifyAt {α : Type} (l : List α) (i : Nat) (f : α → α) : List α :=
  match l[i]? with
  | some v => l.set i (f v)
  | none => l

/-- The stores `ptr[0] = vals[0]`, `ptr[1] = vals[1]`, ... through an element
pointer `ptr = &l[start]` (what a collaborator does to an output buffer). -/
def storeRange {α : Type} (l : List α) (start : Nat) (vals : List α) : List α :=
  forRange vals.length (fun i acc => match vals[i]? with
    | some v => acc.set (start + i) v
    | none => acc) l

/-! ### Import of an Assimp scene -/

/-- The struct `aiMesh` of Assimp, with the members `Model.cpp` reads; an absent
array is a null pointer. `mFaces[i]` is the index list `mIndices` of face `i`. -/
structure aiMesh (F : Type) where
  mNumVertices : Nat
  mNumFaces : Nat
  mVertices : Option (List (Float3 F))
  mNormals : Option (List (Float3 F))
  mTextureCoords0 : Option (List (Float3 F))
  mTangents : Option (List (Float3 F))
  mBitangents : Option (List (Float3 F))
  mFaces : List (List Nat)
  mMaterialIndex : Nat
  deriving DecidableEq, Repr

/-- The struct `ModelLoadSettings`, with the members `Model.cpp` reads. The two
`const wchar*` members are kept as the strings they address; `none` is the null
pointer. -/
structure ModelLoadSettings (F : Type) where
  FilePath : Option wstring
  TextureDir : Option wstring
  SceneScale : F
  ForceSRGB : Bool
  ConvertFromZUp : Bool
  MergeMeshes : Bool
  GenerateMeshlets : Bool
  deriving DecidableEq, Repr

section Import

variable {F M : Type} [LinearOrder F] [Mul F] [Neg F] [One F]

/-- The product `Float3 * float`. -/
def Float3.scale (v : Float3 F) (s : F) : Float3 F :=
  { x := v.x * s, y := v.y * s, z := v.z * s }

/-- The position stored for one source vertex (lines 167-175 of `Model.cpp`):
matrix transform, scene scale, and the remap from Z-up when requested. -/
def InitFromAssimpMesh.position (ext : Externals F M) (loadSettings : ModelLoadSettings F)
    (transform : M) (src : Float3 F) : Float3 F :=
  let position := ext.Transform src transform
  let position := position.scale loadSettings.SceneScale
  if loadSettings.ConvertFromZUp then
    let z := position.z
    { x := position.x, y := -z, z := position.y }
  else position

/-- One iteration of the position loop of `InitFromAssimpMesh`, on the state
(`aabbMin`, `aabbMax`, vertex array). -/
def InitFromAssimpMesh.positionBody (ext : Externals F M) (loadSettings : ModelLoadSettings F)
    (transform : M) (mVertices : List (Float3 F)) (dstVertices : Nat) (i : Nat)
    (st : Float3 F × Float3 F × List (MeshVertex F)) : Float3 F × Float3 F × List (MeshVertex F) :=
  match mVertices[i]? with
  | none => st
  | some src =>
    let position := InitFromAssimpMesh.position ext loadSettings transform src
    (Float3.Min st.1 position, Float3.Max st.2.1 position,
      modifyAt st.2.2 (dstVertices + i) (fun v => { v with Position := position }))

/-- The store of element `e` of a `uint16` array addressed by a byte pointer. -/
def store16 (mem : List Byte) (base e val : Nat) : List Byte :=
  storeBytes mem (base + 2 * e) (toBytes 2 (val % 2 ^ 16))

/-- The store of element `e` of a `uint32` array addressed by a byte pointer. -/
def store32 (mem : List Byte) (base e val : Nat) : List Byte :=
  storeBytes mem (base + 4 * e) (toBytes 4 (val % 2 ^ 32))

/-- The block `if(assimpMesh.HasPositions())` of `InitFromAssimpMesh` (lines
159-182), on the mesh bounds and the vertex array. `HasPositions` is Assimp's
`mVertices != nullptr && mNumVertices > 0`, and likewise for the other arrays. -/
def InitFromAssimpMesh.copyPositions (ext : Externals F M) (loadSettings : ModelLoadSettings F)
    (transform : M) (assimpMesh : aiMesh F) (dstVertices : Nat)
    (st : Float3 F × Float3 F × List (MeshVertex F)) : Float3 F × Float3 F × List (MeshVertex F) :=
  match assimpMesh.mVertices with
  | some mVertices =>
    if 0 < assimpMesh.mNumVertices then
      forRange assimpMesh.mNumVertices
        (InitFromAssimpMesh.positionBody ext loadSettings transform mVertices dstVertices)
        (Float3.splat ext.FloatMax, Float3.splat (-ext.FloatMax), st.2.2)
    else st
  | none => st

/-- The block `if(assimpMesh.HasNormals())` of `InitFromAssimpMesh`. -/
def InitFromAssimpMesh.copyNormals (ext : Externals F M) (transform : M) (assimpMesh : aiMesh F)
    (dstVertices : Nat) (vertexArray : List (MeshVertex F)) : List (MeshVertex F) :=
  match assimpMesh.mNormals with
  | some mNormals =>
    if 0 < assimpMesh.mNumVertices then
      forRange assimpMesh.mNumVertices (fun i acc => match mNormals[i]? with
        | some n => modifyAt acc (dstVertices + i)
            (fun v => { v with Normal := ext.TransformDirection n transform })
        | none => acc) vertexArray
    else vertexArray
  | none => vertexArray

/-- The block `if(assimpMesh.HasTextureCoords(0))` of `InitFromAssimpMesh`. -/
def InitFromAssimpMesh.copyUVs (assimpMesh : aiMesh F) (dstVertices : Nat)
    (vertexArray : List (MeshVertex F)) : List (MeshVertex F) :=
  match assimpMesh.mTextureCoords0 with
  | some mTextureCoords =>
    if 0 < assimpMesh.mNumVertices then
      forRange assimpMesh.mNumVertices (fun i acc => match mTextureCoords[i]? with
        | some uv => modifyAt acc (dstVertices + i) (fun v => { v with UV := ⟨uv.x, uv.y⟩ })
        | none => acc) vertexArray
    else vertexArray
  | none => vertexArray

/-- The block `if(assimpMesh.HasTangentsAndBitangents())` of `InitFromAssimpMesh`. -/
def InitFromAssimpMesh.copyTangents (ext : Externals F M) (transform : M) (assimpMesh : aiMesh F)
    (dstVertices : Nat) (vertexArray : List (MeshVertex F)) : List (MeshVertex F) :=
  match assimpMesh.mTangents, assimpMesh.mBitangents with
  | some mTangents, some mBitangents =>
    if 0 < assimpMesh.mNumVertices then
      forRange assimpMesh.mNumVertices (fun i acc => match mTangents[i]?, mBitangents[i]? with
        | some t, some b => modifyAt acc (dstVertices + i) (fun v => { v with
            Tangent := ext.TransformDirection t transform,
            Bitangent := ext.TransformDirection (b.scale (-1)) transform })
        | _, _ => acc) vertexArray
    else vertexArray
  | _, _ => vertexArray

/-- The copy of the index data in `InitFromAssimpMesh` (lines 205-226): three
indices per face, narrowed to `uint16` for 16-bit models. -/
def InitFromAssimpMesh.copyIndices (assimpMesh : aiMesh F) (indexType_ : IndexType)
    (dstIndices : Nat) (indexArray : List Byte) : List Byte :=
  let numTriangles := assimpMesh.mNumFaces
  match indexType_ with
  | .Index16Bit =>
    forRange numTriangles (fun triIdx acc =>
      let mIndices := assimpMesh.mFaces.getD triIdx []
      let acc := store16 acc dstIndices (triIdx * 3 + 0) (mIndices.getD 0 0)
      let acc := store16 acc dstIndices (triIdx * 3 + 1) (mIndices.getD 1 0)
      store16 acc dstIndices (triIdx * 3 + 2) (mIndices.getD 2 0)) indexArray
  | .Index32Bit =>
    forRange numTriangles (fun triIdx acc =>
      let mIndices := assimpMesh.mFaces.getD triIdx []
      let acc := store32 acc dstIndices (triIdx * 3 + 0) (mIndices.getD 0 0)
      let acc := store32 acc dstIndices (triIdx * 3 + 1) (mIndices.getD 1 0)
      store32 acc dstIndices (triIdx * 3 + 2) (mIndices.getD 2 0)) indexArray

/-- The member `Mesh::InitFromAssimpMesh`. The destinations `dstVertices` and
`dstIndices` are pointers into the vertex array and the index byte array of the
model, which are passed along and returned with the stores made. -/
def Mesh.InitFromAssimpMesh (ext : Externals F M) (self : Mesh F) (assimpMesh : aiMesh F)
    (loadSettings : ModelLoadSettings F) (vertexArray : List (MeshVertex F)) (dstVertices : Nat)
    (indexArray : List Byte) (dstIndices : Nat) (indexType_ : IndexType) (transform : M) :
    Mesh F × List (MeshVertex F) × List Byte :=
  let numVertices := assimpMesh.mNumVertices
  let numIndices := (assimpMesh.mNumFaces * 3) % 2 ^ 32
  let pos := InitFromAssimpMesh.copyPositions ext loadSettings transform assimpMesh dstVertices
    (self.aabbMin, self.aabbMax, vertexArray)
  let vertexArray := InitFromAssimpMesh.copyNormals ext transform assimpMesh dstVertices pos.2.2
  let vertexArray := InitFromAssimpMesh.copyUVs assimpMesh dstVertices vertexArray
  let vertexArray := InitFromAssimpMesh.copyTangents ext transform assimpMesh dstVertices vertexArray
  let indexArray := InitFromAssimpMesh.copyIndices assimpMesh indexType_ dstIndices indexArray
  let part : MeshPart :=
    { IndexStart := 0, IndexCount := numIndices, VertexStart := 0, VertexCount := numVertices,
      MaterialIdx := assimpMesh.mMaterialIndex }
  ({ self with
      numVertices := numVertices, numIndices := numIndices, indexType := indexType_,
      vertices := dstVertices, indices := dstIndices, aabbMin := pos.1, aabbMax := pos.2.1,
      meshParts := [part] },
    vertexArray, indexArray)

end Import

/-! ### Meshlet generation -/

/-- Modelled from the spec: `SafeCast<uint16>` of the absent `Utility.h`, the
narrowing cast to `uint16` (which asserts in debug builds that nothing is lost). -/
def SafeCast_uint16 (val : Nat) : Nat := val % 2 ^ 16

/-- Modelled from the spec: `List<T>::Trim(n)` of the absent `Containers.h`,
which cuts the list down to its first `n` elements. -/
def Trim {α : Type} (l : List α) (n : Nat) : List α := l.take n

/-- The running offsets of the mesh loop of `GenerateMeshlets`, with the model. -/
structure GenerateMeshlets.State (F : Type) where
  model : Model F
  globalMeshletOffset : Nat
  globalVertexOffset : Nat
  globalTriangleOffset : Nat

/-- The running offsets of the meshlet loop of `GenerateMeshlets`, with the model. -/
structure GenerateMeshlets.Local (F : Type) where
  model : Model F
  localTriangleOffset : Nat
  localVertexOffset : Nat

section Meshlets

variable {F M : Type}

/-- The word packed for triangle `triIdx` of a cluster (lines 893-896): three
bytes of the library's triangle buffer, read at `uint32` indices. A read at an
index outside the buffer, which the source does not guard against, is read as
zero. -/
def GenerateMeshlets.packed (meshOptTriangles : List Byte) (srcMeshlet : meshopt_Meshlet)
    (triIdx : Nat) : MeshletTriangle :=
  let v0 := (meshOptTriangles.getD ((srcMeshlet.triangle_offset + triIdx * 3 + 0) % 2 ^ 32) 0).val
  let v1 := (meshOptTriangles.getD ((srcMeshlet.triangle_offset + triIdx * 3 + 1) % 2 ^ 32) 0).val
  let v2 := (meshOptTriangles.getD ((srcMeshlet.triangle_offset + triIdx * 3 + 2) % 2 ^ 32) 0).val
  { Packed := (v0 ||| (v1 <<< 8) ||| (v2 <<< 16)) % 2 ^ 32 }

/-- One iteration of the triangle loop (lines 891-897): the packed word is
stored in `meshletTriangles`. -/
def GenerateMeshlets.triangleBody (meshOptTriangles : List Byte) (srcMeshlet : meshopt_Meshlet)
    (dstTriangleOffset : Nat) (triIdx : Nat) (meshletTriangles : List MeshletTriangle) :
    List MeshletTriangle :=
  meshletTriangles.set ((dstTriangleOffset + triIdx) % 2 ^ 32)
    (GenerateMeshlets.packed meshOptTriangles srcMeshlet triIdx)

/-- The record written for one cluster (lines 881-889). -/
def GenerateMeshlets.dstMeshlet (mesh : Mesh F) (meshIdx : Nat) (srcMeshlet : meshopt_Meshlet)
    (globalVertexOffset globalTriangleOffset localTriangleOffset : Nat) : Meshlet :=
  { VertexOffset := (srcMeshlet.vertex_offset + globalVertexOffset) % 2 ^ 32
    TriangleOffset := (localTriangleOffset + globalTriangleOffset) % 2 ^ 32
    VertexCount := SafeCast_uint16 srcMeshlet.vertex_count
    TriangleCount := SafeCast_uint16 srcMeshlet.triangle_count
    MeshIndex := SafeCast_uint16 meshIdx
    MaterialIndex := SafeCast_uint16 ((mesh.meshParts.head?.map (fun p => p.MaterialIdx)).getD 0)
    MeshVertexOffset := mesh.vtxOffset }

/-- The positions gathered for the bounding sphere of one cluster (lines
899-906). -/
def GenerateMeshlets.meshletPositions (model : Model F) (mesh : Mesh F)
    (srcMeshlet : meshopt_Meshlet) (globalVertexOffset VertexCount : Nat) : List (Float3 F) :=
  forRange VertexCount (fun meshletVertexIndex acc =>
    let meshVertexIndex := model.meshletVertices.getD
      ((globalVertexOffset + meshletVertexIndex + srcMeshlet.vertex_offset) % 2 ^ 32) 0
    match model.vertices[mesh.vertices + meshVertexIndex]? with
    | some v => acc ++ [v.Position]
    | none => acc) []

/-- One iteration of the meshlet loop (lines 876-914). -/
def GenerateMeshlets.meshletBody (ext : Externals F M) (mesh : Mesh F) (meshIdx : Nat)
    (meshOptMeshlets : List meshopt_Meshlet) (meshOptTriangles : List Byte)
    (globalMeshletOffset globalVertexOffset globalTriangleOffset : Nat) (meshMeshletIdx : Nat)
    (st : GenerateMeshlets.Local F) : GenerateMeshlets.Local F :=
  match meshOptMeshlets[meshMeshletIdx]? with
  | none => st
  | some srcMeshlet =>
    let dstMeshlet := GenerateMeshlets.dstMeshlet mesh meshIdx srcMeshlet globalVertexOffset
      globalTriangleOffset st.localTriangleOffset
    let meshlets := st.model.meshlets.set ((meshMeshletIdx + globalMeshletOffset) % 2 ^ 32) dstMeshlet
    let meshletTriangles := forRange srcMeshlet.triangle_count
      (GenerateMeshlets.triangleBody meshOptTriangles srcMeshlet dstMeshlet.TriangleOffset)
      st.model.meshletTriangles
    let meshletPositions := GenerateMeshlets.meshletPositions st.model mesh srcMeshlet
      globalVertexOffset dstMeshlet.VertexCount
    let meshletBounds := st.model.meshletBounds.set ((meshMeshletIdx + globalMeshletOffset) % 2 ^ 32)
      (ext.CreateFromPoints meshletPositions)
    { model := { st.model with
        meshlets := meshlets, meshletTriangles := meshletTriangles, meshletBounds := meshletBounds }
      localVertexOffset := (st.localVertexOffset + srcMeshlet.vertex_count % 2 ^ 32) % 2 ^ 32
      localTriangleOffset := (st.localTriangleOffset + srcMeshlet.triangle_count % 2 ^ 32) % 2 ^ 32 }

/-- The call of `meshopt_buildMeshlets` for one mesh (lines 865-868). -/
def GenerateMeshlets.build (ext : Externals F M) (model : Model F) (mesh : Mesh F) :
    BuildMeshletsOutput :=
  ext.meshopt_buildMeshlets (model.indices.drop mesh.indices) mesh.indexType.IndexSize
    mesh.numIndices (model.vertices.drop mesh.vertices) mesh.numVertices MaxMeshletVertices
    MaxMeshletTriangles

/-- The temporary `meshOptTriangles` after the library call: an array of
`maxMeshletsForThisMesh * MaxMeshletTriangles` zero bytes (a `uint32` product)
into which the library has stored its triangle bytes. -/
def GenerateMeshlets.meshOptTriangles (maxMeshletsForThisMesh : Nat) (out : BuildMeshletsOutput) :
    List Byte :=
  storeRange (List.replicate ((maxMeshletsForThisMesh * MaxMeshletTriangles) % 2 ^ 32) 0) 0
    out.meshlet_triangles

/-- One iteration of the mesh loop (lines 853-919): the library clusters mesh
`meshIdx`, then its clusters are repacked into the global arrays. -/
def GenerateMeshlets.meshBody (ext : Externals F M) (maxMeshletsPerMesh : List Nat) (meshIdx : Nat)
    (st : GenerateMeshlets.State F) : GenerateMeshlets.State F :=
  match st.model.meshes[meshIdx]? with
  | none => st
  | some mesh =>
    let maxMeshletsForThisMesh := maxMeshletsPerMesh.getD meshIdx 0
    let out := GenerateMeshlets.build ext st.model mesh
    let meshOptMeshlets := out.meshlets
    let meshletVertices :=
      storeRange st.model.meshletVertices st.globalVertexOffset out.meshlet_vertices
    let meshOptTriangles := GenerateMeshlets.meshOptTriangles maxMeshletsForThisMesh out
    let numMeshMeshlets := meshOptMeshlets.length
    let mesh1 := { mesh with
      numMeshlets := numMeshMeshlets % 2 ^ 32, meshletOffset := st.globalMeshletOffset }
    let inner := forRange numMeshMeshlets
      (GenerateMeshlets.meshletBody ext mesh1 meshIdx meshOptMeshlets meshOptTriangles
        st.globalMeshletOffset st.globalVertexOffset st.globalTriangleOffset)
      { model := { st.model with
          meshes := st.model.meshes.set meshIdx mesh1, meshletVertices := meshletVertices }
        localTriangleOffset := 0
        localVertexOffset := 0 }
    { model := inner.model
      globalMeshletOffset := (st.globalMeshletOffset + numMeshMeshlets % 2 ^ 32) % 2 ^ 32
      globalVertexOffset := (st.globalVertexOffset + inner.localVertexOffset) % 2 ^ 32
      globalTriangleOffset := (st.globalTriangleOffset + inner.localTriangleOffset) % 2 ^ 32 }

/-- The `uint32` upper bound on the clusters of one mesh (line 838). -/
def GenerateMeshlets.bound (ext : Externals F M) (mesh : Mesh F) : Nat :=
  ext.meshopt_buildMeshletsBound mesh.numIndices MaxMeshletVertices MaxMeshletTriangles % 2 ^ 32

/-- The `uint32` total `maxMeshlets` of the upper bounds (lines 833-840). -/
def GenerateMeshlets.maxMeshlets (ext : Externals F M) (model : Model F) : Nat :=
  (model.meshes.map (GenerateMeshlets.bound ext)).foldl (fun acc b => (acc + b) % 2 ^ 32) 0

/-- The state in which the mesh loop starts: the four global arrays sized to the
upper bound (lines 842-845) and the three offsets at zero. -/
def GenerateMeshlets.initial (ext : Externals F M) (model : Model F) : GenerateMeshlets.State F :=
  let maxMeshlets := GenerateMeshlets.maxMeshlets ext model
  { model := { model with
      meshlets := List.replicate maxMeshlets ext.freshMeshlet
      meshletVertices := List.replicate ((maxMeshlets * MaxMeshletVertices) % 2 ^ 32) 0xFFFFFFFF
      meshletTriangles := List.replicate ((maxMeshlets * MaxMeshletTriangles) % 2 ^ 32) ⟨0⟩
      meshletBounds := List.replicate maxMeshlets ext.freshBounds }
    globalMeshletOffset := 0
    globalVertexOffset := 0
    globalTriangleOffset := 0 }

/-- The state in which the mesh loop ends. -/
def GenerateMeshlets.final (ext : Externals F M) (model : Model F) : GenerateMeshlets.State F :=
  forRange model.meshes.length
    (GenerateMeshlets.meshBody ext (model.meshes.map (GenerateMeshlets.bound ext)))
    (GenerateMeshlets.initial ext model)

/-- The member `Model::GenerateMeshlets`. -/
def Model.GenerateMeshlets (ext : Externals F M) (model : Model F) : Model F :=
  let st := GenerateMeshlets.final ext model
  { st.model with
    meshlets := Trim st.model.meshlets st.globalMeshletOffset
    meshletVertices := Trim st.model.meshletVertices st.globalVertexOffset
    meshletTriangles := Trim st.model.meshletTriangles st.globalTriangleOffset
    meshletBounds := Trim st.model.meshletBounds st.globalMeshletOffset }

end Meshlets

/-! ### Buffer bookkeeping and the constructors -/

section Constructors

variable {F M : Type} [LinearOrder F] [Mul F] [Neg F] [One F]

/-- The member `Mesh::InitCommon`; the buffer views, which only carry GPU
addresses, are left out. -/
def Mesh.InitCommon (self : Mesh F) (vertices_ indices_ vtxOffset_ idxOffset_ : Nat) : Mesh F :=
  { self with
    vertices := vertices_, indices := indices_,
    vtxOffset := vtxOffset_ % 2 ^ 32, idxOffset := idxOffset_ % 2 ^ 32 }

/-- The mesh loop of `Model::CreateBuffers` (lines 988-999), from the running
offsets `vtxOffset` and `idxOffset`. -/
def CreateBuffers.loop (indexSize : Nat) : List (Mesh F) → Nat → Nat → List (Mesh F)
  | [], _, _ => []
  | mesh :: rest, vtxOffset, idxOffset =>
    let ibOffset := idxOffset * indexSize
    let mesh1 := mesh.InitCommon vtxOffset ibOffset vtxOffset idxOffset
    mesh1 :: CreateBuffers.loop indexSize rest (vtxOffset + mesh1.numVertices)
      (idxOffset + mesh1.numIndices)

/-- The member `Model::CreateBuffers`; the creation of the GPU buffers, done by
collaborators, is left out. -/
def Model.CreateBuffers (model : Model F) : Model F :=
  { model with meshes := CreateBuffers.loop model.indexType.IndexSize model.meshes 0 0 }

/-- The first mesh loop of `CreateWithAssimp` (lines 604-619): the totals
`numVertices` and `numIndices` and the index type of the model. -/
def CreateWithAssimp.count (mMeshes : List (aiMesh F)) : Nat × Nat × IndexType :=
  mMeshes.foldl (fun acc assimpMesh =>
    (acc.1 + assimpMesh.mNumVertices, acc.2.1 + (assimpMesh.mNumFaces * 3) % 2 ^ 32,
      if (assimpMesh.mNumFaces * 3) % 2 ^ 32 > 0xFFFF then IndexType.Index32Bit else acc.2.2))
    (0, 0, IndexType.Index16Bit)

/-- The second mesh loop of `CreateWithAssimp` (lines 638-651), from the running
offsets `vtxOffset` and `idxOffset`: slot `i` of `meshes` is initialised from
source mesh `i` and its transform. The result is the mesh array with the vertex
array, the index array and the model bounds as the loop leaves them. -/
def CreateWithAssimp.loop (ext : Externals F M) (settings : ModelLoadSettings F)
    (indexType : IndexType) (indexSize : Nat) :
    List (aiMesh F × M) → Nat → Nat → List (MeshVertex F) → List Byte → Float3 F → Float3 F →
    List (Mesh F) × List (MeshVertex F) × List Byte × Float3 F × Float3 F
  | [], _, _, vertices, indices, aabbMin, aabbMax => ([], vertices, indices, aabbMin, aabbMax)
  | (assimpMesh, transform) :: rest, vtxOffset, idxOffset, vertices, indices, aabbMin, aabbMax =>
    let r := Mesh.InitFromAssimpMesh ext ext.freshMesh assimpMesh settings vertices vtxOffset
      indices idxOffset indexType transform
    let mesh := { r.1 with vtxOffset := vtxOffset % 2 ^ 32, idxOffset := idxOffset % 2 ^ 32 }
    let aabbMin := Float3.Min aabbMin mesh.aabbMin
    let aabbMax := Float3.Max aabbMax mesh.aabbMax
    let tail := CreateWithAssimp.loop ext settings indexType indexSize rest
      (vtxOffset + mesh.numVertices) (idxOffset + mesh.numIndices * indexSize) r.2.1 r.2.2
      aabbMin aabbMax
    (mesh :: tail.1, tail.2)

/-- The model as the second mesh loop of `CreateWithAssimp` leaves it (lines
604-651), given the meshes of the post-processed scene, each with the transform
gathered for it: index type, allocation of the two global arrays, mesh loop. -/
def CreateWithAssimp.assemble (ext : Externals F M) (settings : ModelLoadSettings F)
    (mMeshes : List (aiMesh F × M)) (self : Model F) : Model F :=
  let counts := CreateWithAssimp.count (mMeshes.map (fun p => p.1))
  let numVertices := counts.1
  let numIndices := counts.2.1
  let indexType := counts.2.2
  let indexSize := if indexType = IndexType.Index32Bit then 4 else 2
  let vertices := List.replicate numVertices ext.freshVertex
  let indices : List Byte := List.replicate (numIndices * indexSize) 0
  let r := CreateWithAssimp.loop ext settings indexType indexSize mMeshes 0 0 vertices indices
    (Float3.splat ext.FloatMax) (Float3.splat (-ext.FloatMax))
  { self with
    indexType := indexType, meshes := r.1, vertices := r.2.1, indices := r.2.2.1,
    aabbMin := r.2.2.2.1, aabbMax := r.2.2.2.2 }

/-- The geometry part of `Model::CreateWithAssimp` on the import path (lines
604-656): the assembly above, meshlet generation when requested, and
`CreateBuffers`. -/
def Model.CreateWithAssimp (ext : Externals F M) (settings : ModelLoadSettings F)
    (mMeshes : List (aiMesh F × M)) (self : Model F) : Model F :=
  let model := CreateWithAssimp.assemble ext settings mMeshes self
  let model := if settings.GenerateMeshlets then model.GenerateMeshlets ext else model
  model.CreateBuffers

/-- The struct `ProceduralModelInit`, with the members the geometry part of
`CreateProcedural` reads. -/
structure ProceduralModelInit (F : Type) where
  NumVertices : Nat
  Vertices : List (MeshVertex F)
  NumIndices : Nat
  Indices : List Nat
  GenerateMeshlets : Bool

/-- The model as `CreateProcedural` has filled it in before meshlets and buffers
(lines 777-820): vertex copy with the model bounds, index type and index copy,
and the single mesh record. -/
def CreateProcedural.fill (ext : Externals F M) (init : ProceduralModelInit F) (self : Model F) :
    Model F :=
  let vertices := List.replicate init.NumVertices ext.freshVertex
  let st := forRange init.NumVertices (fun i (st : Float3 F × Float3 F × List (MeshVertex F)) =>
    match init.Vertices[i]? with
    | some srcVtx =>
      (Float3.Min st.1 srcVtx.Position, Float3.Max st.2.1 srcVtx.Position, st.2.2.set i srcVtx)
    | none => st) (Float3.splat ext.FloatMax, Float3.splat (-ext.FloatMax), vertices)
  let indexType := if init.NumVertices > 64 * 1024 then IndexType.Index32Bit else IndexType.Index16Bit
  let indices : List Byte :=
    if init.NumVertices > 64 * 1024 then
      storeBytes (List.replicate (init.NumIndices * 4) 0) 0
        ((toChunks 4 init.Indices).take (init.NumIndices * 4))
    else
      forRange init.NumIndices (fun i acc => store16 acc 0 i (init.Indices.getD i 0))
        (List.replicate (init.NumIndices * 2) 0)
  let part : MeshPart :=
    { IndexStart := 0, IndexCount := init.NumIndices, VertexStart := 0,
      VertexCount := init.NumVertices, MaterialIdx := 0 }
  let mesh := { ext.freshMesh with
    indexType := indexType, numVertices := init.NumVertices, numIndices := init.NumIndices,
    vertices := 0, indices := 0, meshParts := [part] }
  { self with
    vertices := st.2.2, aabbMin := st.1, aabbMax := st.2.1, indexType := indexType,
    indices := indices, meshes := [mesh] }

/-- The geometry part of `Model::CreateProcedural` (lines 777-825): the filling
above, meshlet generation when requested, and `CreateBuffers`. -/
def Model.CreateProcedural (ext : Externals F M) (init : ProceduralModelInit F) (self : Model F) :
    Model F :=
  let model := CreateProcedural.fill ext init self
  let model := if init.GenerateMeshlets then model.GenerateMeshlets ext else model
  model.CreateBuffers

end Constructors

/-- A mesh record with its meshlet range cleared: everything `GenerateMeshlets`
leaves alone. -/
def Mesh.withoutMeshlets {F : Type} (mesh : Mesh F) : Mesh F :=
  { mesh with numMeshlets := 0, meshletOffset := 0 }

/-- Two models with the same geometry: equal vertex and index arrays, index
type and bounds, and the same meshes up to their meshlet ranges. -/
def Model.sameGeometry {F : Type} (a b : Model F) : Prop :=
  a.meshes.map Mesh.withoutMeshlets = b.meshes.map Mesh.withoutMeshlets ∧
  a.vertices = b.vertices ∧ a.indices = b.indices ∧ a.indexType = b.indexType ∧
  a.aabbMin = b.aabbMin ∧ a.aabbMax = b.aabbMax

/-- The sum of the first `i` entries of a list of counts. -/
def prefixSum (l : List Nat) (i : Nat) : Nat := (l.take i).sum

/-- The `uint32` value `mNumFaces * 3` that `InitFromAssimpMesh` stores as the
member `numIndices` of a mesh. -/
def aiMesh.numIndices {F : Type} (m : aiMesh F) : Nat := (m.mNumFaces * 3) % 2 ^ 32

/-! ### What the clustering collaborator is relied on for -/

/-- The number of vertex slots of a run of clusters. -/
def vertexTotal (cs : List meshopt_Meshlet) : Nat := (cs.map (fun c => c.vertex_count)).sum

/-- The number of triangles of a run of clusters. -/
def triangleTotal (cs : List meshopt_Meshlet) : Nat := (cs.map (fun c => c.triangle_count)).sum

/-- What the library returns for each mesh of the model, in mesh order. -/
def GenerateMeshlets.outputs {F M : Type} (ext : Externals F M) (model : Model F) :
    List BuildMeshletsOutput :=
  model.meshes.map (GenerateMeshlets.build ext model)

/-- The number of clusters of the meshes before mesh `i`. -/
def GenerateMeshlets.meshletStart {F M : Type} (ext : Externals F M) (model : Model F) (i : Nat) :
    Nat :=
  prefixSum ((GenerateMeshlets.outputs ext model).map (fun o => o.meshlets.length)) i

/-- The number of vertex slots of the clusters of the meshes before mesh `i`. -/
def GenerateMeshlets.vertexStart {F M : Type} (ext : Externals F M) (model : Model F) (i : Nat) :
    Nat :=
  prefixSum ((GenerateMeshlets.outputs ext model).map (fun o => vertexTotal o.meshlets)) i

/-- The number of triangles of the clusters of the meshes before mesh `i`. -/
def GenerateMeshlets.triangleStart {F M : Type} (ext : Externals F M) (model : Model F) (i : Nat) :
    Nat :=
  prefixSum ((GenerateMeshlets.outputs ext model).map (fun o => triangleTotal o.meshlets)) i

/-- The model is small enough for the `uint32` sizes of `GenerateMeshlets`: the
upper bounds of its meshes, times 64, add up to less than `2 ^ 32`. -/
def GenerateMeshlets.fits {F M : Type} (ext : Externals F M) (model : Model F) : Prop :=
  (model.meshes.map (GenerateMeshlets.bound ext)).sum * 64 < 2 ^ 32

/-- The clustering library honours the caps it is given, on every mesh of the
model: it returns at most the bound of clusters it announced, its triangle
output (which its clusters address by `unsigned int` offsets) has at most
`2 ^ 32` bytes, every cluster has at most 64 vertices and 64 triangles, and the
three bytes of each triangle of a cluster, bytes `triangle_offset + 3 * t + e`
of that triangle output, are local indices below the vertex count of the
cluster. All of this is about what the library returns; none of it is about the
buffer `GenerateMeshlets` hands to it. -/
def HonoursCaps {F M : Type} (ext : Externals F M) (model : Model F) : Prop :=
  ∀ mesh ∈ model.meshes,
    (GenerateMeshlets.build ext model mesh).meshlets.length ≤ GenerateMeshlets.bound ext mesh ∧
    (GenerateMeshlets.build ext model mesh).meshlet_triangles.length ≤ 2 ^ 32 ∧
    ∀ c ∈ (GenerateMeshlets.build ext model mesh).meshlets,
      c.vertex_count ≤ MaxMeshletVertices ∧ c.triangle_count ≤ MaxMeshletTriangles ∧
      ∀ t, t < c.triangle_count → ∀ e, e < 3 →
        c.triangle_offset + t * 3 + e <
          (GenerateMeshlets.build ext model mesh).meshlet_triangles.length ∧
        ((GenerateMeshlets.build ext model mesh).meshlet_triangles.getD
          (c.triangle_offset + t * 3 + e) 0).val < c.vertex_count

/-- The clustering library keeps within the caps it is given, on every mesh of
the model: it returns at most the bound of clusters it announced, and every
cluster has at most 64 vertices and 64 triangles. -/
def WithinCaps {F M : Type} (ext : Externals F M) (model : Model F) : Prop :=
  ∀ mesh ∈ model.meshes,
    (GenerateMeshlets.build ext model mesh).meshlets.length ≤ GenerateMeshlets.bound ext mesh ∧
    ∀ c ∈ (GenerateMeshlets.build ext model mesh).meshlets,
      c.vertex_count ≤ MaxMeshletVertices ∧ c.triangle_count ≤ MaxMeshletTriangles

/-- The vertex ranges of the clusters the library returns lie inside the vertex
entries it stored, and inside the first `vertexTotal` of them (as they do when
the ranges are consecutive from 0). -/
def VertexRangesStored {F M : Type} (ext : Externals F M) (model : Model F) : Prop :=
  ∀ mesh ∈ model.meshes,
    ∀ c ∈ (GenerateMeshlets.build ext model mesh).meshlets,
      c.vertex_offset + c.vertex_count ≤
        vertexTotal (GenerateMeshlets.build ext model mesh).meshlets ∧
      c.vertex_offset + c.vertex_count ≤
        (GenerateMeshlets.build ext model mesh).meshlet_vertices.length

/-- The state of the meshlet loop after `k` iterations, against the state `st0`
it started from: the offsets are the counts of the first `k` clusters, the
arrays keep their lengths, the entries below the starting offsets are kept, and
the first `k` clusters have their records and packed triangles in place. -/
structure MeshletLoopInv {F : Type} (mesh : Mesh F) (meshIdx : Nat) (cs : List meshopt_Meshlet)
    (tris : List Byte) (gmo gvo gto : Nat) (st0 : GenerateMeshlets.Local F) (k : Nat)
    (st : GenerateMeshlets.Local F) : Prop where
  lto : st.localTriangleOffset = triangleTotal (cs.take k)
  lvo : st.localVertexOffset = vertexTotal (cs.take k)
  len_meshlets : st.model.meshlets.length = st0.model.meshlets.length
  len_triangles : st.model.meshletTriangles.length = st0.model.meshletTriangles.length
  len_bounds : st.model.meshletBounds.length = st0.model.meshletBounds.length
  keep_meshlets : ∀ j : Nat, ¬ (gmo ≤ j ∧ j < gmo + k) →
    st.model.meshlets[j]? = st0.model.meshlets[j]?
  keep_triangles : ∀ j : Nat, ¬ (gto ≤ j ∧ j < gto + triangleTotal (cs.take k)) →
    st.model.meshletTriangles[j]? = st0.model.meshletTriangles[j]?
  meshlets : ∀ j c, j < k → cs[j]? = some c →
    st.model.meshlets[gmo + j]? = some
      (GenerateMeshlets.dstMeshlet mesh meshIdx c gvo gto (triangleTotal (cs.take j)))
  triangles : ∀ j c t, j < k → cs[j]? = some c → t < c.triangle_count →
    st.model.meshletTriangles[gto + triangleTotal (cs.take j) + t]? = some
      (GenerateMeshlets.packed tris c t)

/-- The state of the mesh loop of `GenerateMeshlets` after `i` iterations,
against the model it was called on: the meshes done carry their meshlet range
and the others are untouched, the geometry is kept, the three offsets are the
totals of the meshes done, the four arrays keep their allocated lengths, and
the clusters of the meshes done have their records, packed triangles and
vertex entries in place. -/
structure MeshLoopInv {F M : Type} (ext : Externals F M) (model : Model F) (i : Nat)
    (st : GenerateMeshlets.State F) : Prop where
  vertices_eq : st.model.vertices = model.vertices
  indices_eq : st.model.indices = model.indices
  meshes_len : st.model.meshes.length = model.meshes.length
  meshes_done : ∀ j mesh, j < i → model.meshes[j]? = some mesh →
    st.model.meshes[j]? = some { mesh with
      numMeshlets := (GenerateMeshlets.build ext model mesh).meshlets.length % 2 ^ 32
      meshletOffset := GenerateMeshlets.meshletStart ext model j }
  meshes_todo : ∀ j : Nat, i ≤ j → st.model.meshes[j]? = model.meshes[j]?
  gmo : st.globalMeshletOffset = GenerateMeshlets.meshletStart ext model i
  gvo : st.globalVertexOffset = GenerateMeshlets.vertexStart ext model i
  gto : st.globalTriangleOffset = GenerateMeshlets.triangleStart ext model i
  len_meshlets : st.model.meshlets.length = GenerateMeshlets.maxMeshlets ext model
  len_vertices : st.model.meshletVertices.length = GenerateMeshlets.maxMeshlets ext model * 64
  len_triangles : st.model.meshletTriangles.length = GenerateMeshlets.maxMeshlets ext model * 64
  len_bounds : st.model.meshletBounds.length = GenerateMeshlets.maxMeshlets ext model
  meshlets : ∀ j mesh k c, j < i → model.meshes[j]? = some mesh →
    (GenerateMeshlets.build ext model mesh).meshlets[k]? = some c →
    st.model.meshlets[GenerateMeshlets.meshletStart ext model j + k]? = some
      (GenerateMeshlets.dstMeshlet mesh j c (GenerateMeshlets.vertexStart ext model j)
        (GenerateMeshlets.triangleStart ext model j)
        (triangleTotal ((GenerateMeshlets.build ext model mesh).meshlets.take k)))
  triangles : ∀ j mesh k c t, j < i → model.meshes[j]? = some mesh →
    (GenerateMeshlets.build ext model mesh).meshlets[k]? = some c → t < c.triangle_count →
    st.model.meshletTriangles[GenerateMeshlets.triangleStart ext model j +
        triangleTotal ((GenerateMeshlets.build ext model mesh).meshlets.take k) + t]? = some
      (GenerateMeshlets.packed
        (GenerateMeshlets.meshOptTriangles (GenerateMeshlets.bound ext mesh)
          (GenerateMeshlets.build ext model mesh)) c t)
  vertices : ∀ j mesh x v, j < i → model.meshes[j]? = some mesh →
    x < vertexTotal (GenerateMeshlets.build ext model mesh).meshlets →
    (GenerateMeshlets.build ext model mesh).meshlet_vertices[x]? = some v →
    st.model.meshletVertices[GenerateMeshlets.vertexStart ext model j + x]? = some v

/-- Component `e` of a `ShaderUint3` (0 for `x`, 1 for `y`, otherwise `z`). -/
def ShaderUint3.corner (v : ShaderUint3) (e : Nat) : Nat :=
  if e = 0 then v.x else if e = 1 then v.y else v.z

/-- What `GenerateMeshlets` leaves in the model `final`, against the model it
was called on and what the library returned: each mesh carries its meshlet
range, the four arrays have the lengths produced, and every cluster of every
mesh has its record, its packed triangles and its vertex entries in place. -/
structure GeneratedMeshlets {F M : Type} (ext : Externals F M) (model final : Model F) : Prop where
  meshes : ∀ (j : Nat) (mesh : Mesh F), model.meshes[j]? = some mesh →
    final.meshes[j]? = some { mesh with
      numMeshlets := (GenerateMeshlets.build ext model mesh).meshlets.length
      meshletOffset := GenerateMeshlets.meshletStart ext model j }
  len_meshlets : final.meshlets.length =
    GenerateMeshlets.meshletStart ext model model.meshes.length
  len_bounds : final.meshletBounds.length =
    GenerateMeshlets.meshletStart ext model model.meshes.length
  len_vertices : final.meshletVertices.length =
    GenerateMeshlets.vertexStart ext model model.meshes.length
  len_triangles : final.meshletTriangles.length =
    GenerateMeshlets.triangleStart ext model model.meshes.length
  meshlets : ∀ j mesh k c, model.meshes[j]? = some mesh →
    (GenerateMeshlets.build ext model mesh).meshlets[k]? = some c →
    final.meshlets[GenerateMeshlets.meshletStart ext model j + k]? = some
      { VertexOffset := (c.vertex_offset + GenerateMeshlets.vertexStart ext model j) % 2 ^ 32
        TriangleOffset := GenerateMeshlets.triangleStart ext model j +
          triangleTotal ((GenerateMeshlets.build ext model mesh).meshlets.take k)
        VertexCount := c.vertex_count
        TriangleCount := c.triangle_count
        MeshIndex := SafeCast_uint16 j
        MaterialIndex :=
          SafeCast_uint16 ((mesh.meshParts.head?.map (fun p => p.MaterialIdx)).getD 0)
        MeshVertexOffset := mesh.vtxOffset }
  triangles : ∀ j mesh k c t, model.meshes[j]? = some mesh →
    (GenerateMeshlets.build ext model mesh).meshlets[k]? = some c → t < c.triangle_count →
    final.meshletTriangles[GenerateMeshlets.triangleStart ext model j +
        triangleTotal ((GenerateMeshlets.build ext model mesh).meshlets.take k) + t]? = some
      (GenerateMeshlets.packed
        (GenerateMeshlets.meshOptTriangles (GenerateMeshlets.bound ext mesh)
          (GenerateMeshlets.build ext model mesh)) c t)
  vertices : ∀ j mesh x v, model.meshes[j]? = some mesh →
    x < vertexTotal (GenerateMeshlets.build ext model mesh).meshlets →
    (GenerateMeshlets.build ext model mesh).meshlet_vertices[x]? = some v →
    final.meshletVertices[GenerateMeshlets.vertexStart ext model j + x]? = some v

/-- The mesh-local vertex index the library assigned to corner `e` of triangle
`t` of a cluster: the entry of its vertex output at the local index it stored
for that corner in its triangle output. -/
def GenerateMeshlets.libraryVertex (out : BuildMeshletsOutput) (c : meshopt_Meshlet)
    (t e : Nat) : Option Nat :=
  out.meshlet_vertices[c.vertex_offset +
    (out.meshlet_triangles.getD (c.triangle_offset + t * 3 + e) 0).val]?

/-- The global vertex index reached for corner `e` of triangle
`meshletTriangleIndex` of a meshlet, as `GetMeshletTriVertices` resolves it:
`MeshletVertexIndices[VertexOffset + local] + MeshVertexOffset`, the local index
unpacked from `MeshletTriangles[TriangleOffset + meshletTriangleIndex]`. -/
def GetMeshletTriVertices.vertexIndex {F : Type} (model : Model F) (meshlet : Meshlet)
    (meshletTriangleIndex e : Nat) : Option Nat :=
  match model.meshletTriangles[meshlet.TriangleOffset + meshletTriangleIndex]? with
  | none => none
  | some meshletTriangle =>
    (model.meshletVertices[meshletTriangle.Unpack.corner e + meshlet.VertexOffset]?).map
      (fun vertexIdx => vertexIdx + meshlet.MeshVertexOffset)

/-- The claim C7 as stated: every mesh records as `idxOffset` the byte offset of
its first index, the sum over the preceding meshes of `numIndices` times the
index size of the model. -/
def IdxOffsetIsByteOffset {F M : Type} (mMeshes : List (aiMesh F × M)) (model : Model F) : Prop :=
  ∀ i mesh, model.meshes[i]? = some mesh →
    mesh.idxOffset =
      prefixSum (mMeshes.map (fun p => p.1.numIndices)) i * model.indexType.IndexSize

/-- The claim C9 as stated: a procedural mesh with 70,000 indices gets 32-bit
indices and one with 1,000 indices gets 16-bit indices. -/
def IndexWidthByIndexCount {F : Type} (init : ProceduralModelInit F) (model : Model F) : Prop :=
  (init.NumIndices = 70000 → model.indexType = IndexType.Index32Bit) ∧
  (init.NumIndices = 1000 → model.indexType = IndexType.Index16Bit)

/-! ## Concrete inputs

Small scenes over integer coordinates on which the definitions above are
evaluated. The transforms are the identity, and the clustering collaborator
puts every triangle in a cluster of its own. -/

namespace Examples

/-- A vertex at the origin with zero attributes. -/
def vertex0 : MeshVertex Int :=
  { Position := ⟨0, 0, 0⟩, Normal := ⟨0, 0, 0⟩, UV := ⟨0, 0⟩, Tangent := ⟨0, 0, 0⟩,
    Bitangent := ⟨0, 0, 0⟩ }

/-- A mesh record with zero counts, null pointers and zero bounds. -/
def mesh0 : Mesh Int :=
  { meshParts := [], numVertices := 0, numIndices := 0, vtxOffset := 0, idxOffset := 0,
    indexType := IndexType.Index16Bit, vertices := 0, indices := 0, aabbMin := ⟨0, 0, 0⟩,
    aabbMax := ⟨0, 0, 0⟩, numMeshlets := 0, meshletOffset := 0 }

/-- One cluster per triangle: cluster `t` holds the three indices of triangle
`t` as its vertices and the local triangle `(0, 1, 2)`, padded to four bytes. -/
def buildMeshlets (indices : List Byte) (indexSize index_count : Nat) : BuildMeshletsOutput :=
  { meshlets := (List.range (index_count / 3)).map (fun t =>
      { vertex_offset := 3 * t, triangle_offset := 4 * t, vertex_count := 3, triangle_count := 1 })
    meshlet_vertices := (List.range (index_count / 3 * 3)).map (fun e =>
      loadBytes indices (indexSize * e) indexSize)
    meshlet_triangles := (List.range (index_count / 3)).flatMap (fun _ => [0, 1, 2, 0]) }

/-- The collaborators of the examples; the cluster bound is the one meshoptimizer
computes, the larger of `ceil(index_count / (max_vertices - 2))` and
`ceil(index_count / 3 / max_triangles)`. -/
def ext : Externals Int Unit :=
  { FloatMax := 1000000
    Transform := fun p _ => p
    TransformDirection := fun p _ => p
    freshMesh := mesh0
    freshVertex := vertex0
    freshMeshlet := ⟨0, 0, 0, 0, 0, 0, 0⟩
    freshBounds := ⟨⟨0, 0, 0⟩, 0⟩
    meshopt_buildMeshletsBound := fun index_count max_vertices max_triangles =>
      max ((index_count + (max_vertices - 2) - 1) / (max_vertices - 2))
        ((index_count / 3 + max_triangles - 1) / max_triangles)
    meshopt_buildMeshlets := fun indices indexSize index_count _ _ _ _ =>
      buildMeshlets indices indexSize index_count
    CreateFromPoints := fun _ => ⟨⟨0, 0, 0⟩, 0⟩ }

/-- A source mesh of one triangle. -/
def triangle : aiMesh Int :=
  { mNumVertices := 3, mNumFaces := 1,
    mVertices := some [⟨0, 0, 0⟩, ⟨1, 0, 0⟩, ⟨0, 1, 0⟩],
    mNormals := none, mTextureCoords0 := none, mTangents := none, mBitangents := none,
    mFaces := [[0, 1, 2]], mMaterialIndex := 0 }

/-- Load settings with unit scale and no meshlet generation. -/
def settings : ModelLoadSettings Int :=
  { FilePath := some (L "scene.fbx"), TextureDir := none, SceneScale := 1, ForceSRGB := false,
    ConvertFromZUp := false, MergeMeshes := false, GenerateMeshlets := false }

/-- A model before any constructor has run. -/
def model0 : Model Int :=
  { meshes := [], vertices := [], indices := [], indexType := IndexType.Index16Bit,
    aabbMin := ⟨0, 0, 0⟩, aabbMax := ⟨0, 0, 0⟩, meshlets := [], meshletVertices := [],
    meshletTriangles := [], meshletBounds := [], forceSRGB := false, textureDirectory := [],
    meshMaterials := [], materialTextures := [] }

/-- A scene of two one-triangle meshes. -/
def twoTriangles : List (aiMesh Int × Unit) := [(triangle, ()), (triangle, ())]

/-- The model assembled from the two one-triangle meshes, before meshlets. -/
def assembled : Model Int := CreateWithAssimp.assemble ext settings twoTriangles model0

/-- A procedural mesh of three vertices and 70,000 indices. -/
def manyIndices : ProceduralModelInit Int :=
  { NumVertices := 3, Vertices := [vertex0, vertex0, vertex0], NumIndices := 70000,
    Indices := List.replicate 70000 0, GenerateMeshlets := false }

/-- A procedural mesh of one vertex at `(1, 2, 3)` and no index. -/
def oneVertex : ProceduralModelInit Int :=
  { NumVertices := 1, Vertices := [{ vertex0 with Position := ⟨1, 2, 3⟩ }], NumIndices := 0,
    Indices := [], GenerateMeshlets := false }

end Examples

/-- What the three drivers do on one object `v` whose serialized form is
`bytes`: the writer appends `bytes` and leaves `v` alone, the reader turns any
object `d` accepted as destination into `v` consuming exactly `bytes`, and the
size driver adds the length of `bytes`. -/
def Serializes {α : Type} (wr rd : α → List Byte → Option (α × List Byte))
    (sz : α → Nat → Option (α × Nat)) (dest : α → Prop) (v : α) (bytes : List Byte) : Prop :=
  (∀ out, wr v out = some (v, out ++ bytes)) ∧
  (∀ d rest, dest d → rd d (bytes ++ rest) = some (v, rest)) ∧
  (∀ n, n < 2 ^ 64 → sz v n = some (v, (n + bytes.length) % 2 ^ 64))

/-! ## Sequences and bulk copies -/

/-- The length-prefixed sequence types: `std::basic_string`, `Array` and `List`. -/
def Ty.isSequence : Ty → Bool
  | .string _ => true
  | .array _ => true
  | .list _ => true
  | _ => false

/-- The number of elements of a sequence (`length()`, `Size()`, `Count()`);
zero at the types that are no sequences. -/
def Ty.count : (t : Ty) → t.Val → Nat
  | .string _, s => s.length
  | .array _, a => a.length
  | .list _, l => l.length
  | _, _ => 0

/-- The supported element types that are plain data, copied bytewise by the
bulk path: the scalars and the vector and quaternion aggregates. -/
inductive POD
  | prim (p : Prim)
  | float2 | float3 | float4 | quaternion
  deriving DecidableEq, Repr

/-- The static type of a plain-data element. -/
@[reducible] def POD.toTy : POD → Ty
  | .prim p => .prim p
  | .float2 => .float2
  | .float3 => .float3
  | .float4 => .float4
  | .quaternion => .quaternion

/-- The value of `sizeof` at a plain-data type; the aggregates hold their `float`
members one after the other. -/
def POD.sizeof : POD → Nat
  | .prim p => p.sizeof
  | .float2 => 8
  | .float3 => 12
  | .float4 => 16
  | .quaternion => 16

/-- The object representation of a plain-data object, as the bit pattern of its
`sizeof` bytes: the members in declaration order from the lowest address. -/
def POD.pattern : (p : POD) → p.toTy.Val → Nat
  | .prim _, v => v
  | .float2, v => v.x + 2 ^ 32 * v.y
  | .float3, v => v.x + 2 ^ 32 * v.y + 2 ^ 64 * v.z
  | .float4, v => v.x + 2 ^ 32 * v.y + 2 ^ 64 * v.z + 2 ^ 96 * v.w
  | .quaternion, v => v.x + 2 ^ 32 * v.y + 2 ^ 64 * v.z + 2 ^ 96 * v.w

/-- The plain-data object whose `sizeof` bytes hold a bit pattern. -/
def POD.object : (p : POD) → Nat → p.toTy.Val
  | .prim _, n => n
  | .float2, n => ⟨n % 2 ^ 32, n / 2 ^ 32 % 2 ^ 32⟩
  | .float3, n => ⟨n % 2 ^ 32, n / 2 ^ 32 % 2 ^ 32, n / 2 ^ 64 % 2 ^ 32⟩
  | .float4, n => ⟨n % 2 ^ 32, n / 2 ^ 32 % 2 ^ 32, n / 2 ^ 64 % 2 ^ 32, n / 2 ^ 96 % 2 ^ 32⟩
  | .quaternion, n => ⟨n % 2 ^ 32, n / 2 ^ 32 % 2 ^ 32, n / 2 ^ 64 % 2 ^ 32, n / 2 ^ 96 % 2 ^ 32⟩

/-- The overload `BulkSerializeItem(TSerializer&, Array<TValue>&)`: the element
storage is handed to the driver as one byte range, which leaves in it the
elements read back as objects. -/
def BulkSerializeItem_Array {σ : Type} (serializer : Serializer σ) (p : POD)
    (array : List p.toTy.Val) (s : σ) : Option (List p.toTy.Val × σ) :=
  match serializer.SerializeItem 8 array.length s with
  | none => none
  | some (numElements, s1) =>
    let array1 := if array.length ≠ numElements then Array_Init p.toTy numElements else array
    if numElements = 0 then some (array1, s1)
    else
      match BulkSerializeArray serializer p.sizeof (array1.map p.pattern) numElements s1 with
      | none => none
      | some (data, s2) => some (data.map p.object, s2)

/-- The overload `BulkSerializeItem(TSerializer&, List<TValue>&)`. -/
def BulkSerializeItem_List {σ : Type} (serializer : Serializer σ) (p : POD)
    (list : List p.toTy.Val) (s : σ) : Option (List p.toTy.Val × σ) :=
  match serializer.SerializeItem 8 list.length s with
  | none => none
  | some (numElements, s1) =>
    let list1 := if list.length ≠ numElements then List_Init p.toTy numElements numElements else list
    if numElements = 0 then some (list1, s1)
    else
      match BulkSerializeArray serializer p.sizeof (list1.map p.pattern) numElements s1 with
      | none => none
      | some (data, s2) => some (data.map p.object, s2)

/-! ### The box scene -/

/-- The constant `NumBoxVerts`. -/
def NumBoxVerts : Nat := 24

/-- The constant `NumBoxIndices`. -/
def NumBoxIndices : Nat := 36

/-- The struct `BoxSceneInit`, with the members the geometry part of
`GenerateBoxScene` reads. -/
structure BoxSceneInit (F : Type) where
  Dimensions : Float3 F
  Position : Float3 F
  Orientation : Quaternion F
  GenerateMeshlets : Bool

section Box

variable {F M : Type} [LinearOrderedField F]

/-- The component-wise product `Float3 * Float3`. -/
def Float3.mul (a b : Float3 F) : Float3 F := { x := a.x * b.x, y := a.y * b.y, z := a.z * b.z }

/-- The component-wise sum `Float3 + Float3`. -/
def Float3.add (a b : Float3 F) : Float3 F := { x := a.x + b.x, y := a.y + b.y, z := a.z + b.z }

/-- The static function `TransformVertex` (lines 119-128). `Transform` is the
overload of `Float3::Transform` that rotates by a quaternion, of the math header
outside `src/`. -/
def TransformVertex (Transform : Float3 F → Quaternion F → Float3 F) (v : MeshVertex F)
    (p s : Float3 F) (q : Quaternion F) : MeshVertex F :=
  let Position := v.Position.mul s
  let Position := Transform Position q
  let Position := Position.add p
  { v with
    Position := Position
    Normal := Transform v.Normal q
    Tangent := Transform v.Tangent q
    Bitangent := Transform v.Bitangent q }

/-- The 24 vertices `InitBox` stores (lines 247-281), in the order stored:
position, normal, UV, tangent, bitangent of the faces top, bottom, front, back,
left and right. -/
def InitBox.vertices : List (MeshVertex F) :=
  [ -- Top
    ⟨⟨-1, 1, 1⟩, ⟨0, 1, 0⟩, ⟨0, 0⟩, ⟨1, 0, 0⟩, ⟨0, 0, -1⟩⟩,
    ⟨⟨1, 1, 1⟩, ⟨0, 1, 0⟩, ⟨1, 0⟩, ⟨1, 0, 0⟩, ⟨0, 0, -1⟩⟩,
    ⟨⟨1, 1, -1⟩, ⟨0, 1, 0⟩, ⟨1, 1⟩, ⟨1, 0, 0⟩, ⟨0, 0, -1⟩⟩,
    ⟨⟨-1, 1, -1⟩, ⟨0, 1, 0⟩, ⟨0, 1⟩, ⟨1, 0, 0⟩, ⟨0, 0, -1⟩⟩,
    -- Bottom
    ⟨⟨-1, -1, -1⟩, ⟨0, -1, 0⟩, ⟨0, 0⟩, ⟨1, 0, 0⟩, ⟨0, 0, 1⟩⟩,
    ⟨⟨1, -1, -1⟩, ⟨0, -1, 0⟩, ⟨1, 0⟩, ⟨1, 0, 0⟩, ⟨0, 0, 1⟩⟩,
    ⟨⟨1, -1, 1⟩, ⟨0, -1, 0⟩, ⟨1, 1⟩, ⟨1, 0, 0⟩, ⟨0, 0, 1⟩⟩,
    ⟨⟨-1, -1, 1⟩, ⟨0, -1, 0⟩, ⟨0, 1⟩, ⟨1, 0, 0⟩, ⟨0, 0, 1⟩⟩,
    -- Front
    ⟨⟨-1, 1, -1⟩, ⟨0, 0, -1⟩, ⟨0, 0⟩, ⟨1, 0, 0⟩, ⟨0, -1, 0⟩⟩,
    ⟨⟨1, 1, -1⟩, ⟨0, 0, -1⟩, ⟨1, 0⟩, ⟨1, 0, 0⟩, ⟨0, -1, 0⟩⟩,
    ⟨⟨1, -1, -1⟩, ⟨0, 0, -1⟩, ⟨1, 1⟩, ⟨1, 0, 0⟩, ⟨0, -1, 0⟩⟩,
    ⟨⟨-1, -1, -1⟩, ⟨0, 0, -1⟩, ⟨0, 1⟩, ⟨1, 0, 0⟩, ⟨0, -1, 0⟩⟩,
    -- Back
    ⟨⟨1, 1, 1⟩, ⟨0, 0, 1⟩, ⟨0, 0⟩, ⟨-1, 0, 0⟩, ⟨0, -1, 0⟩⟩,
    ⟨⟨-1, 1, 1⟩, ⟨0, 0, 1⟩, ⟨1, 0⟩, ⟨-1, 0, 0⟩, ⟨0, -1, 0⟩⟩,
    ⟨⟨-1, -1, 1⟩, ⟨0, 0, 1⟩, ⟨1, 1⟩, ⟨-1, 0, 0⟩, ⟨0, -1, 0⟩⟩,
    ⟨⟨1, -1, 1⟩, ⟨0, 0, 1⟩, ⟨0, 1⟩, ⟨-1, 0, 0⟩, ⟨0, -1, 0⟩⟩,
    -- Left
    ⟨⟨-1, 1, 1⟩, ⟨-1, 0, 0⟩, ⟨0, 0⟩, ⟨0, 0, -1⟩, ⟨0, -1, 0⟩⟩,
    ⟨⟨-1, 1, -1⟩, ⟨-1, 0, 0⟩, ⟨1, 0⟩, ⟨0, 0, -1⟩, ⟨0, -1, 0⟩⟩,
    ⟨⟨-1, -1, -1⟩, ⟨-1, 0, 0⟩, ⟨1, 1⟩, ⟨0, 0, -1⟩, ⟨0, -1, 0⟩⟩,
    ⟨⟨-1, -1, 1⟩, ⟨-1, 0, 0⟩, ⟨0, 1⟩, ⟨0, 0, -1⟩, ⟨0, -1, 0⟩⟩,
    -- Right
    ⟨⟨1, 1, -1⟩, ⟨1, 0, 0⟩, ⟨0, 0⟩, ⟨0, 0, 1⟩, ⟨0, -1, 0⟩⟩,
    ⟨⟨1, 1, 1⟩, ⟨1, 0, 0⟩, ⟨1, 0⟩, ⟨0, 0, 1⟩, ⟨0, -1, 0⟩⟩,
    ⟨⟨1, -1, 1⟩, ⟨1, 0, 0⟩, ⟨1, 1⟩, ⟨0, 0, 1⟩, ⟨0, -1, 0⟩⟩,
    ⟨⟨1, -1, -1⟩, ⟨1, 0, 0⟩, ⟨0, 1⟩, ⟨0, 0, 1⟩, ⟨0, -1, 0⟩⟩ ]

/-- The 36 indices `InitBox` stores (lines 295-341), in the order stored. -/
def InitBox.indices : List Nat :=
  [ 0, 1, 2, 2, 3, 0,
    4 + 0, 4 + 1, 4 + 2, 4 + 2, 4 + 3, 4 + 0,
    8 + 0, 8 + 1, 8 + 2, 8 + 2, 8 + 3, 8 + 0,
    12 + 0, 12 + 1, 12 + 2, 12 + 2, 12 + 3, 12 + 0,
    16 + 0, 16 + 1, 16 + 2, 16 + 2, 16 + 3, 16 + 0,
    20 + 0, 20 + 1, 20 + 2, 20 + 2, 20 + 3, 20 + 0 ]

/-- One iteration of the vertex loop of `InitBox` (lines 285-291), on the state
(`aabbMin`, `aabbMax`, vertex array). -/
def InitBox.vertexBody (Transform : Float3 F → Quaternion F → Float3 F)
    (dimensions position : Float3 F) (orientation : Quaternion F) (dstVertices : Nat) (i : Nat)
    (st : Float3 F × Float3 F × List (MeshVertex F)) : Float3 F × Float3 F × List (MeshVertex F) :=
  match st.2.2[dstVertices + i]? with
  | none => st
  | some v =>
    let v1 := TransformVertex Transform v position (dimensions.scale (1 / 2)) orientation
    (Float3.Min st.1 v1.Position, Float3.Max st.2.1 v1.Position, st.2.2.set (dstVertices + i) v1)

/-- The member `Mesh::InitBox`. The destinations `dstVertices` and `dstIndices`
are pointers into the vertex array and the index byte array of the model, which
are passed along and returned with the stores made. -/
def Mesh.InitBox (ext : Externals F M) (Transform : Float3 F → Quaternion F → Float3 F)
    (self : Mesh F) (dimensions position : Float3 F) (orientation : Quaternion F)
    (materialIdx : Nat) (vertexArray : List (MeshVertex F)) (dstVertices : Nat)
    (indexArray : List Byte) (dstIndices : Nat) : Mesh F × List (MeshVertex F) × List Byte :=
  let vertexArray := storeRange vertexArray dstVertices InitBox.vertices
  let st := forRange NumBoxVerts
    (InitBox.vertexBody Transform dimensions position orientation dstVertices)
    (Float3.splat ext.FloatMax, Float3.splat (-ext.FloatMax), vertexArray)
  let indexArray := forRange NumBoxIndices
    (fun iIdx acc => store16 acc dstIndices iIdx (InitBox.indices.getD iIdx 0)) indexArray
  let numVertices := NumBoxVerts % 2 ^ 32
  let numIndices := NumBoxIndices % 2 ^ 32
  let part : MeshPart :=
    { IndexStart := 0, IndexCount := numIndices, VertexStart := 0, VertexCount := numVertices,
      MaterialIdx := materialIdx }
  ({ self with
      aabbMin := st.1, aabbMax := st.2.1, indexType := IndexType.Index16Bit,
      numVertices := numVertices, numIndices := numIndices, vertices := dstVertices,
      indices := dstIndices, meshParts := [part] },
    st.2.2, indexArray)

/-- The model as `GenerateBoxScene` has filled it in before meshlets and buffers
(lines 689-698). -/
def GenerateBoxScene.fill (ext : Externals F M) (Transform : Float3 F → Quaternion F → Float3 F)
    (init : BoxSceneInit F) (self : Model F) : Model F :=
  let vertices := List.replicate NumBoxVerts ext.freshVertex
  let indices : List Byte := List.replicate (NumBoxIndices * 2) 0
  let r := Mesh.InitBox ext Transform ext.freshMesh init.Dimensions init.Position init.Orientation
    0 vertices 0 indices 0
  { self with
    indexType := IndexType.Index16Bit, vertices := r.2.1, indices := r.2.2, meshes := [r.1],
    aabbMin := r.1.aabbMin, aabbMax := r.1.aabbMax }

/-- The geometry part of `Model::GenerateBoxScene` (lines 689-703): the filling
above, meshlet generation when requested, and `CreateBuffers`. -/
def Model.GenerateBoxScene (ext : Externals F M) (Transform : Float3 F → Quaternion F → Float3 F)
    (init : BoxSceneInit F) (self : Model F) : Model F :=
  let model := GenerateBoxScene.fill ext Transform init self
  let model := if init.GenerateMeshlets then model.GenerateMeshlets ext else model
  model.CreateBuffers

end Box

/-- The 16-bit index stored at position `i` of the index array of a model. -/
def Model.index16 {F : Type} (model : Model F) (i : Nat) : Nat := loadBytes model.indices (2 * i) 2

/-- The identity orientation, the quaternion `(0, 0, 0, 1)`. -/
def Quaternion.identity {F : Type} [Zero F] [One F] : Quaternion F := ⟨0, 0, 0, 1⟩

namespace Examples

/-- Rotation of a vector by a unit quaternion `(u, w)`:
`v + 2 w (u × v) + 2 u × (u × v)`. -/
def rotate (v : Float3 ℚ) (q : Quaternion ℚ) : Float3 ℚ :=
  let c : Float3 ℚ :=
    ⟨q.y * v.z - q.z * v.y, q.z * v.x - q.x * v.z, q.x * v.y - q.y * v.x⟩
  let d : Float3 ℚ :=
    ⟨q.y * c.z - q.z * c.y, q.z * c.x - q.x * c.z, q.x * c.y - q.y * c.x⟩
  ⟨v.x + 2 * q.w * c.x + 2 * d.x, v.y + 2 * q.w * c.y + 2 * d.y, v.z + 2 * q.w * c.z + 2 * d.z⟩

/-- The collaborators of the box example, over rational coordinates; `FloatMax`
is the largest finite `float`. -/
def extQ : Externals ℚ Unit :=
  { FloatMax := 340282346638528859811704183484516925440
    Transform := fun p _ => p
    TransformDirection := fun p _ => p
    freshMesh :=
      { meshParts := [], numVertices := 0, numIndices := 0, vtxOffset := 0, idxOffset := 0,
        indexType := IndexType.Index16Bit, vertices := 0, indices := 0, aabbMin := ⟨0, 0, 0⟩,
        aabbMax := ⟨0, 0, 0⟩, numMeshlets := 0, meshletOffset := 0 }
    freshVertex :=
      { Position := ⟨0, 0, 0⟩, Normal := ⟨0, 0, 0⟩, UV := ⟨0, 0⟩, Tangent := ⟨0, 0, 0⟩,
        Bitangent := ⟨0, 0, 0⟩ }
    freshMeshlet := ⟨0, 0, 0, 0, 0, 0, 0⟩
    freshBounds := ⟨⟨0, 0, 0⟩, 0⟩
    meshopt_buildMeshletsBound := ext.meshopt_buildMeshletsBound
    meshopt_buildMeshlets := fun indices indexSize index_count _ _ _ _ =>
      buildMeshlets indices indexSize index_count
    CreateFromPoints := fun _ => ⟨⟨0, 0, 0⟩, 0⟩ }

/-- The box of the scenario: dimensions `(2, 2, 2)` at the origin, not rotated,
with meshlets requested. -/
def unitBox : BoxSceneInit ℚ :=
  { Dimensions := ⟨2, 2, 2⟩, Position := ⟨0, 0, 0⟩, Orientation := Quaternion.identity,
    GenerateMeshlets := true }

/-- A model over rational coordinates before any constructor has run. -/
def modelQ : Model ℚ :=
  { meshes := [], vertices := [], indices := [], indexType := IndexType.Index32Bit,
    aabbMin := ⟨0, 0, 0⟩, aabbMax := ⟨0, 0, 0⟩, meshlets := [], meshletVertices := [],
    meshletTriangles := [], meshletBounds := [], forceSRGB := false, textureDirectory := [],
    meshMaterials := [], materialTextures := [] }

end Examples

/-! ### The world outside the model -/

/-- The enumeration `FileOpenMode`. -/
inductive FileOpenMode
  | Read
  | Write
  deriving DecidableEq, Repr

/-- The steps of Assimp post-processing `CreateWithAssimp` asks for. -/
inductive aiPostProcessSteps
  | CalcTangentSpace | Triangulate | JoinIdenticalVertices | MakeLeftHanded
  | RemoveRedundantMaterials | FlipUVs | FlipWindingOrder | PreTransformVertices | OptimizeMeshes
  deriving DecidableEq, Repr

/-- A call that reaches outside the program: to the file system, to the
Assimp importer or to the texture loader. -/
inductive Event
  | FileExists (path : wstring)
  | ReadFileAsByteArray (path : wstring)
  | ReadFile (pFile : List Nat)
  | ApplyPostProcessing (pFlags : List aiPostProcessSteps)
  | LoadTexture (filePath : wstring) (forceSRGB : Bool)
  | DirectoryExists (path : wstring)
  | CreateDirectory (path : wstring)
  | Open (path : wstring) (openMode : FileOpenMode)
  deriving DecidableEq, Repr

/-- Modelled from the spec: the file system behind the absent `FileIO.h` and the
Win32 calls, with paths taken as plain names: the files with their content, the
directories, the names under which nothing can be created or opened for
writing, and the calls made so far, oldest first. -/
structure World where
  files : List (wstring × List Byte)
  directories : List wstring
  denied : List wstring
  trace : List Event
  deriving DecidableEq, Repr

/-- The class `Exception`: the message it carries. -/
structure Exception where
  message : wstring
  deriving DecidableEq, Repr

/-- The world with one more call on record. -/
def World.log (w : World) (e : Event) : World := { w with trace := w.trace ++ [e] }

/-- Modelled from the spec: `FileExists` of the absent `FileIO.h`. -/
def World.FileExists (w : World) (path : wstring) : Bool × World :=
  ((w.files.lookup path).isSome, w.log (.FileExists path))

/-- Modelled from the spec: `DirectoryExists` of the absent `FileIO.h`. -/
def World.DirectoryExists (w : World) (path : wstring) : Bool × World :=
  (decide (path ∈ w.directories), w.log (.DirectoryExists path))

/-- Modelled from the spec: the Win32 call `CreateDirectory`, which returns
`FALSE` where the name is taken or creation is denied. -/
def World.CreateDirectory (w : World) (path : wstring) : Bool × World :=
  let w1 := w.log (.CreateDirectory path)
  if path ∈ w.denied ∨ path ∈ w.directories ∨ (w.files.lookup path).isSome = true then (false, w1)
  else (true, { w1 with directories := path :: w.directories })

/-- Modelled from the spec: `ReadFileAsByteArray` of the absent `FileIO.h`: the
content of the file, or nothing where there is no such file (the call throws). -/
def World.ReadFileAsByteArray (w : World) (path : wstring) : Option (List Byte) × World :=
  (w.files.lookup path, w.log (.ReadFileAsByteArray path))

/-- Modelled from the spec: `File::Open(path, FileOpenMode::Read)` of the absent
`FileIO.h`: the content to read, or nothing where there is no such file (the call
throws). -/
def World.OpenRead (w : World) (path : wstring) : Option (List Byte) × World :=
  (w.files.lookup path, w.log (.Open path .Read))

/-- Modelled from the spec: `File::Open(path, FileOpenMode::Write)` of the absent
`FileIO.h`: the file is created empty, or the call throws where that is denied. -/
def World.OpenWrite (w : World) (path : wstring) : Bool × World :=
  let w1 := w.log (.Open path .Write)
  if path ∈ w.denied ∨ path ∈ w.directories then (false, w1)
  else (true, { w1 with files := (path, []) :: w.files.filter (fun f => f.1 ≠ path) })

/-- The content of a file open for writing once the writes made to it are
flushed. -/
def World.store (w : World) (path : wstring) (content : List Byte) : World :=
  { w with files := (path, content) :: w.files.filter (fun f => f.1 ≠ path) }

/-! ### Material textures -/

/-- The table `DefaultTextures` (lines 46-54). -/
def DefaultTextures : TextureArray wstring :=
  { Albedo := L "..\\Content\\Textures\\DefaultBaseColor.dds"
    Normal := L "..\\Content\\Textures\\DefaultNormalMap.dds"
    Roughness := L "..\\Content\\Textures\\DefaultRoughness.dds"
    Metallic := L "..\\Content\\Textures\\DefaultBlack.dds"
    Opacity := L "..\\Content\\Textures\\Default.dds"
    Emissive := L "..\\Content\\Textures\\DefaultBlack.dds" }

/-- The state `LoadMaterialResources` works on: the material array and the
texture pool it was handed by reference, the world, and the exception that has
ended the call, if any. -/
structure LoadMaterialResources.State where
  materials : List MeshMaterial
  materialTextures : List MaterialTexture
  world : World
  error : Option Exception
  deriving DecidableEq, Repr

/-- The search loop of `LoadMaterialResources` (lines 93-102): the index of the
first pool entry, from index `i` on, whose `Name` is `path`. -/
def LoadMaterialResources.search (path : wstring) : List MaterialTexture → Nat → Option Nat
  | [], _ => none
  | t :: rest, i => if t.Name = path then some i else LoadMaterialResources.search path rest (i + 1)

/-- The path a texture slot resolves to (lines 87-89), with the world after the
`FileExists` call made for it, if any, and whether a file of the material was
found. -/
def LoadMaterialResources.resolve (directory : wstring) (material : MeshMaterial) (texType : Nat)
    (w : World) : wstring × Bool × World :=
  let path := directory ++ material.TextureNames.get texType
  if (material.TextureNames.get texType).length = 0 then (DefaultTextures.get texType, false, w)
  else
    let r := w.FileExists path
    if r.1 = false then (DefaultTextures.get texType, false, r.2) else (path, true, r.2)

/-- The start of an iteration of the slot loop (lines 85-91): the material with
the slot pointer cleared and the `Opaque` flag updated, the path the slot
resolves to, and the world after the `FileExists` call. -/
def LoadMaterialResources.prepare (directory : wstring) (material : MeshMaterial) (texType : Nat)
    (w : World) : MeshMaterial × wstring × World :=
  let material := { material with Textures := material.Textures.set texType none }
  let r := LoadMaterialResources.resolve directory material texType w
  let material :=
    if r.2.1 = true ∧ texType = MaterialTextures.Opacity.toNat then
      { material with Opaque := false }
    else material
  (material, r.1, r.2.2)

/-- The two assignments that bind a slot to pool entry `i` (lines 98-99 and
112-113): the pointer to its texture and the `uint32` index. -/
def LoadMaterialResources.assign (material : MeshMaterial) (texType : Nat) (i : Nat) :
    MeshMaterial :=
  { material with
    Textures := material.Textures.set texType (some i)
    TextureIndices := material.TextureIndices.set texType (i % 2 ^ 32) }

/-- One iteration of the slot loop of `LoadMaterialResources` (lines 85-114), for
slot `texType` of material `matIdx`. `LoadTexture` is the loader of the absent
`Textures.h`, which throws where it cannot load the file; an exception ends the
call, so that no later iteration does anything. -/
def LoadMaterialResources.slot (LoadTexture : wstring → Bool → Except Exception Texture)
    (directory : wstring) (forceSRGB : Bool) (matIdx texType : Nat)
    (st : LoadMaterialResources.State) : LoadMaterialResources.State :=
  match st.error, st.materials[matIdx]? with
  | some _, _ => st
  | none, none => st
  | none, some material =>
    let b := LoadMaterialResources.prepare directory material texType st.world
    let path := b.2.1
    match LoadMaterialResources.search path st.materialTextures 0 with
    | some i =>
      { st with
        materials := st.materials.set matIdx (LoadMaterialResources.assign b.1 texType i)
        world := b.2.2 }
    | none =>
      let useSRGB := forceSRGB && decide (texType = MaterialTextures.Albedo.toNat)
      let w := b.2.2.log (.LoadTexture path useSRGB)
      match LoadTexture path useSRGB with
      | .error e => { st with materials := st.materials.set matIdx b.1, world := w, error := some e }
      | .ok texture =>
        let newMatTexture : MaterialTexture := { Name := path, Texture := texture }
        let idx := st.materialTextures.length
        { st with
          materials := st.materials.set matIdx (LoadMaterialResources.assign b.1 texType idx)
          materialTextures := st.materialTextures ++ [newMatTexture]
          world := w }

/-- The static function `LoadMaterialResources` (lines 76-117). -/
def LoadMaterialResources (LoadTexture : wstring → Bool → Except Exception Texture)
    (materials : List MeshMaterial) (directory : wstring) (forceSRGB : Bool)
    (materialTextures : List MaterialTexture) (w : World) : LoadMaterialResources.State :=
  forRange materials.length (fun matIdx st =>
    forRange MaterialTextures.Count
      (LoadMaterialResources.slot LoadTexture directory forceSRGB matIdx) st)
    { materials := materials, materialTextures := materialTextures, world := w, error := none }

/-- The number of `LoadTexture` calls for a path on record. -/
def World.loads (w : World) (path : wstring) : Nat :=
  (w.trace.filter (fun e => match e with
    | .LoadTexture filePath _ => decide (filePath = path)
    | _ => false)).length

/-- The state of `LoadMaterialResources` once the slots of the first `k`
materials and the first `tt` slots of material `k` are done without an
exception, against the materials, the pool and the world it started from: the
file system and the slot names are as they were, the pool has grown at its end
by at most one entry per slot done and holds no name twice, every slot done
designates the pool entry named by the path it resolves to, and a path has been
loaded once if it names a new pool entry and not at all otherwise. -/
structure LoadMaterialResources.Inv (directory : wstring) (materials : List MeshMaterial)
    (pool : List MaterialTexture) (w : World) (k tt : Nat)
    (st : LoadMaterialResources.State) : Prop where
  files : st.world.files = w.files
  names : st.materials.map (fun m => m.TextureNames) = materials.map (fun m => m.TextureNames)
  grows : ∃ added, st.materialTextures = pool ++ added
  bound : st.materialTextures.length ≤ pool.length + MaterialTextures.Count * k + tt
  nodup : (st.materialTextures.map (fun t => t.Name)).Nodup
  slots : ∀ (j t : Nat) (material : MeshMaterial), j < k ∨ (j = k ∧ t < tt) →
    t < MaterialTextures.Count → materials[j]? = some material →
    ∃ (m1 : MeshMaterial) (entry : MaterialTexture), st.materials[j]? = some m1 ∧
      m1.Textures.get t = some (m1.TextureIndices.get t) ∧
      st.materialTextures[m1.TextureIndices.get t]? = some entry ∧
      entry.Name = (LoadMaterialResources.resolve directory material t w).1
  loads : ∀ path, st.world.loads path = w.loads path +
    (if path ∈ st.materialTextures.map (fun t => t.Name) ∧ path ∉ pool.map (fun t => t.Name)
      then 1 else 0)

namespace Examples

/-- A material with no texture named and no slot bound. -/
def material0 : MeshMaterial :=
  { Name := [], TextureNames := ⟨[], [], [], [], [], []⟩,
    Textures := ⟨none, none, none, none, none, none⟩, TextureIndices := ⟨0, 0, 0, 0, 0, 0⟩,
    Opaque := true }

/-- Two materials that name the same albedo map; the second also names a normal
map, of which there is no file. -/
def materials : List MeshMaterial :=
  [ { material0 with TextureNames := { material0.TextureNames with Albedo := L "a.png" } },
    { material0 with
      TextureNames := { material0.TextureNames with Albedo := L "a.png", Normal := L "n.png" } } ]

/-- A loader that loads every file. -/
def LoadTexture (filePath : wstring) (forceSRGB : Bool) : Except Exception Texture :=
  .ok { Resource := filePath.length + (if forceSRGB then 1 else 0) }

/-- A world holding the scene file and one texture next to it. -/
def world : World :=
  { files := [(L "scene.fbx", [1, 2, 3]), (L "tex\\a.png", [9])], directories := [],
    denied := [], trace := [] }

end Examples

/-! ### The cache path -/

/-- The constant `CacheVersion`. -/
def CacheVersion : Nat := 6

/-- The constant `CacheDir`. -/
def CacheDir : wstring := L "ModelCache"

/-- The decimal digits of `n` as code units, most significant first, put in
front of `acc`; `fuel` bounds the number of digits. -/
def MakeString.digits : Nat → Nat → wstring → wstring
  | 0, _, acc => acc
  | fuel + 1, n, acc =>
    if n / 10 = 0 then (48 + n % 10) :: acc
    else MakeString.digits fuel (n / 10) ((48 + n % 10) :: acc)

/-- The conversion `%llu` of the format strings of `MakeString`: the decimal
digits of a `uint64`. -/
def MakeString.llu (n : Nat) : wstring := MakeString.digits (n % 2 ^ 64 + 1) (n % 2 ^ 64) []

/-- The number a string of decimal digits stands for. -/
def MakeString.value (str : wstring) : Nat := str.foldl (fun a d => 10 * a + (d - 48)) 0

/-- The function `wcslen`: the number of code units before the first zero. -/
def wcslen (str : wstring) : Nat := (str.takeWhile (fun ch => decide (ch ≠ 0))).length

/-- The conversion `int32(n)` of a size. -/
def int32 (n : Nat) : Int :=
  if n % 2 ^ 32 < 2 ^ 31 then ((n % 2 ^ 32 : Nat) : Int) else ((n % 2 ^ 32 : Nat) : Int) - 2 ^ 32

/-- The bytes a call `GenerateHash(key, len)` is handed: the first `len` bytes of
the memory at `key`, none for a `len` that is not positive. -/
def byteRange (key : List Byte) (len : Int) : List Byte := key.take len.toNat

/-- The memory a `const wchar*` addresses: two bytes per code unit, then the
terminator. -/
def wstring.memory (str : wstring) : List Byte := toChunks 2 (str.map (fun ch => ch % 2 ^ 16)) ++ [0, 0]

/-- The bytes `MakeModelCachePath` hands to `GenerateHash` for a string (lines 138
and 140): the range `(str, int32(wcslen(str)))`. -/
def MakeModelCachePath.hashInput (str : wstring) : List Byte :=
  byteRange str.memory (int32 (wcslen str))

/-- What `MakeModelCachePath` takes from the absent `MurmurHash.h`: the hash of a
byte range, the combination of two hashes and the rendering of a hash as text;
and from the declaration of `ModelLoadSettings` in the absent `Model.h`: the
`sizeof(settings)` bytes of a settings object. `H` carries the hashes. -/
structure Hashing (F H : Type) where
  GenerateHash : List Byte → H
  CombineHashes : H → H → H
  ToString : H → wstring
  objectRepresentation : ModelLoadSettings F → List Byte

/-- The variable `settingsHash` of `MakeModelCachePath` (lines 138-144). A null
`FilePath`, which the caller asserts against, is read as the empty string. -/
def MakeModelCachePath.settingsHash {F H : Type} (hashing : Hashing F H)
    (settings : ModelLoadSettings F) : H :=
  let settingsHash :=
    hashing.GenerateHash (MakeModelCachePath.hashInput (settings.FilePath.getD []))
  let settingsHash :=
    match settings.TextureDir with
    | some TextureDir =>
      hashing.CombineHashes settingsHash
        (hashing.GenerateHash (MakeModelCachePath.hashInput TextureDir))
    | none => settingsHash
  let settings := { settings with FilePath := none, TextureDir := none }
  hashing.CombineHashes settingsHash
    (hashing.GenerateHash (hashing.objectRepresentation settings))

/-- The variable `modelHash` of `MakeModelCachePath` (line 146). -/
def MakeModelCachePath.modelHash {F H : Type} (hashing : Hashing F H) (fileData : List Byte) : H :=
  hashing.GenerateHash (byteRange fileData (int32 fileData.length))

/-- The call `MakeString(L"%ls\\%ls_%ls_%llu.modelcache", ...)` of line 148 as a
function of its four arguments, with the conversions of the format spelled
out. -/
def MakeModelCachePath.format (dir settingsHash modelHash : wstring) (version : Nat) : wstring :=
  dir ++ L "\\" ++ settingsHash ++ L "_" ++ modelHash ++ L "_" ++ MakeString.llu version
    ++ L ".modelcache"

/-- The static function `MakeModelCachePath` (lines 133-149): the path, unless
reading the source file throws, and the world after the read. -/
def MakeModelCachePath {F H : Type} (hashing : Hashing F H) (settings : ModelLoadSettings F)
    (w : World) : Option wstring × World :=
  let r := w.ReadFileAsByteArray (settings.FilePath.getD [])
  match r.1 with
  | none => (none, r.2)
  | some fileData =>
    let settingsHash := MakeModelCachePath.settingsHash hashing settings
    let modelHash := MakeModelCachePath.modelHash hashing fileData
    (some (MakeModelCachePath.format CacheDir (hashing.ToString settingsHash)
      (hashing.ToString modelHash) CacheVersion), r.2)

namespace Examples

/-- A toy hash: the sum of the bytes; hashes are combined by `31 a + b` and
rendered in decimal. The settings object is rendered as its four flags. -/
def hashing : Hashing Int Nat :=
  { GenerateHash := fun bytes => (bytes.map (fun b => b.val)).sum
    CombineHashes := fun a b => 31 * a + b
    ToString := fun h => MakeString.llu h
    objectRepresentation := fun s =>
      [if s.ForceSRGB then 1 else 0, if s.ConvertFromZUp then 1 else 0,
        if s.MergeMeshes then 1 else 0, if s.GenerateMeshlets then 1 else 0] }

end Examples

/-! ### Loading a model: cache lookup, import, cache write -/

/-- The class `aiMaterial` of Assimp, with what `CreateWithAssimp` asks of it:
the name stored under `AI_MATKEY_NAME` and, per texture type, the path
`GetTexture(type, 0, &path)` yields where it succeeds. -/
structure aiMaterial where
  Name : List Nat
  DIFFUSE : Option (List Nat)
  NORMALS : Option (List Nat)
  HEIGHT : Option (List Nat)
  SHININESS : Option (List Nat)
  AMBIENT : Option (List Nat)
  OPACITY : Option (List Nat)
  EMISSIVE : Option (List Nat)
  deriving DecidableEq, Repr

/-- The struct `aiNode` of Assimp: name, transformation, the indices of its
meshes and its children. -/
inductive aiNode (M : Type) where
  | mk (mName : List Nat) (mTransformation : M) (mMeshes : List Nat)
      (mChildren : List (aiNode M))

/-- The member `mTransformation` of a node. -/
def aiNode.mTransformation {M : Type} : aiNode M → M
  | .mk _ mTransformation _ _ => mTransformation

/-- The enumeration `aiLightSourceType` of Assimp. -/
inductive aiLightSourceType
  | UNDEFINED | DIRECTIONAL | POINT | SPOT | AMBIENT | AREA
  deriving DecidableEq, Repr

/-- The struct `aiLight` of Assimp, with the members `CreateWithAssimp` reads. -/
structure aiLight (F : Type) where
  mName : List Nat
  mType : aiLightSourceType
  mPosition : Float3 F
  mColorDiffuse : Float3 F
  mAngleInnerCone : F
  mAngleOuterCone : F
  deriving DecidableEq, Repr

/-- The struct `aiScene` of Assimp, with the members `CreateWithAssimp` reads;
`mNumMeshes`, `mNumMaterials` and `mNumLights` are the lengths of the three
arrays. -/
structure aiScene (F M : Type) where
  mMeshes : List (aiMesh F)
  mMaterials : List aiMaterial
  mLights : List (aiLight F)
  mRootNode : aiNode M

/-- What loading a model takes from outside `src/`, besides the collaborators of
the geometry and of the cache path: the string helpers of `Utility.h`, the
Assimp importer (its result for a file name, the error string it holds after a failed
read, its post-processing), the texture loader, the material `Init` puts in a
new slot, the member template `Model::Serialize` under a driver on files (it
yields the model as the traversal leaves it, and the driver state unless the
driver failed), the default `Float4x4`, the product
`Float4x4::Transpose(ConvertMatrix(a)) * b`, and the exception the file
functions and `Win32Call` throw for a path. -/
structure Collaborators (F M H : Type) extends Externals F M, Hashing F H where
  WStringToAnsi : wstring → List Nat
  AnsiToWString : List Nat → wstring
  GetFileName : wstring → wstring
  GetDirectoryFromFilePath : wstring → wstring
  ReadFile : List Nat → Option (aiScene F M)
  GetErrorString : List Nat → List Nat
  ApplyPostProcessing : aiScene F M → List aiPostProcessSteps → aiScene F M
  LoadTexture : wstring → Bool → Except Exception Texture
  freshMaterial : MeshMaterial
  Serialize : Serializer (List Byte) → Model F → List Byte → Model F × Option (List Byte)
  Float4x4 : M
  nodeTransform : M → M → M
  IOException : wstring → Exception

/-- How a call on a model ends: the model and the world as it leaves them, and
the exception it has thrown, if any. -/
structure Outcome (F : Type) where
  model : Model F
  world : World
  error : Option Exception

/-- The number of `ReadFile` calls to the importer on record. -/
def World.imports (w : World) : Nat :=
  (w.trace.filter (fun e => match e with
    | .ReadFile _ => true
    | _ => false)).length

section Load

variable {F M H : Type} [LinearOrder F] [Mul F] [Neg F] [One F]

mutual
/-- The static function `GatherMeshTransforms` (lines 453-462). -/
def GatherMeshTransforms (c : Collaborators F M H) : aiNode M → M → List M → List M
  | .mk _ mTransformation mMeshes mChildren, baseTransform, meshTransforms =>
    let nodeTransform := c.nodeTransform mTransformation baseTransform
    let meshTransforms := mMeshes.foldl (fun acc mesh => acc.set mesh nodeTransform) meshTransforms
    GatherMeshTransforms.children c mChildren nodeTransform meshTransforms
/-- The loop of `GatherMeshTransforms` over the children of a node. -/
def GatherMeshTransforms.children (c : Collaborators F M H) : List (aiNode M) → M → List M → List M
  | [], _, meshTransforms => meshTransforms
  | child :: rest, nodeTransform, meshTransforms =>
    GatherMeshTransforms.children c rest nodeTransform
      (GatherMeshTransforms c child nodeTransform meshTransforms)
end

/-- The assignment `material.TextureNames[texType] = GetFileName(AnsiToWString(path))`
made where `GetTexture` has succeeded with `path` (lines 580-597). -/
def CreateWithAssimp.textureName (c : Collaborators F M H) (material : MeshMaterial)
    (texType : MaterialTextures) (path : Option (List Nat)) : MeshMaterial :=
  match path with
  | some path =>
    { material with
      TextureNames := material.TextureNames.set texType.toNat (c.GetFileName (c.AnsiToWString path)) }
  | none => material

/-- The material `CreateWithAssimp` fills in for one material of the scene
(lines 567-597); the normal map is taken from the texture type `NORMALS` and,
failing that, from `HEIGHT`. -/
def CreateWithAssimp.material (c : Collaborators F M H) (mat : aiMaterial) : MeshMaterial :=
  let material := { c.freshMaterial with Name := mat.Name }
  let material := CreateWithAssimp.textureName c material .Albedo mat.DIFFUSE
  let material := CreateWithAssimp.textureName c material .Normal
    (match mat.NORMALS with
      | some normalMapPath => some normalMapPath
      | none => mat.HEIGHT)
  let material := CreateWithAssimp.textureName c material .Roughness mat.SHININESS
  let material := CreateWithAssimp.textureName c material .Metallic mat.AMBIENT
  let material := CreateWithAssimp.textureName c material .Opacity mat.OPACITY
  CreateWithAssimp.textureName c material .Emissive mat.EMISSIVE

/-- The post-processing flags `CreateWithAssimp` asks for (lines 549-558). -/
def CreateWithAssimp.flags (settings : ModelLoadSettings F) : List aiPostProcessSteps :=
  [.CalcTangentSpace, .Triangulate, .JoinIdenticalVertices, .MakeLeftHanded,
    .RemoveRedundantMaterials, .FlipUVs, .FlipWindingOrder] ++
  (if settings.MergeMeshes then [.PreTransformVertices, .OptimizeMeshes] else [])

/-- The member `Model::CreateFromMeshData` (lines 667-678). -/
def Model.CreateFromMeshData (c : Collaborators F M H) (filePath : wstring) (self : Model F)
    (w : World) : Outcome F :=
  let e := w.FileExists filePath
  if e.1 = false then
    { model := self, world := e.2,
      error := some ⟨L "Model file with path '" ++ filePath ++ L "' does not exist"⟩ }
  else
    let o := e.2.OpenRead filePath
    match o.1 with
    | none => { model := self, world := o.2, error := some (c.IOException filePath) }
    | some content =>
      let r := c.Serialize FileReadSerializer self content
      match r.2 with
      | none => { model := r.1, world := o.2, error := some (c.IOException filePath) }
      | some _ =>
        let model := r.1.CreateBuffers
        let l := LoadMaterialResources c.LoadTexture model.meshMaterials model.textureDirectory
          model.forceSRGB model.materialTextures o.2
        { model := { model with
            meshMaterials := l.materials, materialTextures := l.materialTextures }
          world := l.world, error := l.error }

/-- The end of `CreateWithAssimp` (lines 660-664): the cache directory is created
if there is none, and the model is serialized to the cache path. -/
def CreateWithAssimp.writeCache (c : Collaborators F M H) (cachePath : wstring) (self : Model F)
    (w : World) : Outcome F :=
  let d := w.DirectoryExists CacheDir
  let r := if d.1 = false then d.2.CreateDirectory CacheDir else (true, d.2)
  if r.1 = false then { model := self, world := r.2, error := some (c.IOException CacheDir) }
  else
    let o := r.2.OpenWrite cachePath
    if o.1 = false then { model := self, world := o.2, error := some (c.IOException cachePath) }
    else
      let s := c.Serialize FileWriteSerializer self []
      match s.2 with
      | none => { model := s.1, world := o.2, error := some (c.IOException cachePath) }
      | some content => { model := s.1, world := o.2.store cachePath content, error := none }

/-- The member `textureDirectory` as `CreateWithAssimp` sets it (lines 600-601). -/
def CreateWithAssimp.textureDirectory (c : Collaborators F M H) (settings : ModelLoadSettings F) :
    wstring :=
  let fileDirectory := c.GetDirectoryFromFilePath (settings.FilePath.getD [])
  match settings.TextureDir with
  | some TextureDir => fileDirectory ++ L "\\" ++ TextureDir ++ L "\\"
  | none => fileDirectory

/-- The materials of `CreateWithAssimp` (lines 562-602): one material per
material of the scene, then `LoadMaterialResources` on them and the texture pool
of the model. -/
def CreateWithAssimp.materials (c : Collaborators F M H) (settings : ModelLoadSettings F)
    (scene : aiScene F M) (self : Model F) (w : World) : LoadMaterialResources.State :=
  LoadMaterialResources c.LoadTexture (scene.mMaterials.map (CreateWithAssimp.material c))
    (CreateWithAssimp.textureDirectory c settings) settings.ForceSRGB self.materialTextures w

/-- The array `meshTransforms` of `CreateWithAssimp` (lines 621-627): one default
matrix per mesh, overwritten from the node hierarchy unless the meshes were
merged. -/
def CreateWithAssimp.meshTransforms (c : Collaborators F M H) (settings : ModelLoadSettings F)
    (scene : aiScene F M) : List M :=
  let meshTransforms := List.replicate scene.mMeshes.length c.Float4x4
  if settings.MergeMeshes = false then
    GatherMeshTransforms c scene.mRootNode c.Float4x4 meshTransforms
  else meshTransforms

/-- The import proper of `CreateWithAssimp` (lines 500-664), from a scene that
has passed the checks: post-processing, materials and their textures, geometry,
cache write. The light extraction of lines 502-546, which reaches nothing
outside the scene and cannot fail, is `CreateWithAssimp.lights` below; the two
light arrays are not among the members of `Model` here. -/
def CreateWithAssimp.build (c : Collaborators F M H) (settings : ModelLoadSettings F)
    (cachePath : wstring) (scene : aiScene F M) (self : Model F) (w : World) : Outcome F :=
  let self := { self with forceSRGB := settings.ForceSRGB }
  let flags := CreateWithAssimp.flags settings
  let w := w.log (.ApplyPostProcessing flags)
  let scene := c.ApplyPostProcessing scene flags
  let l := CreateWithAssimp.materials c settings scene self w
  let self := { self with
    meshMaterials := l.materials
    textureDirectory := CreateWithAssimp.textureDirectory c settings
    materialTextures := l.materialTextures }
  match l.error with
  | some e => { model := self, world := l.world, error := some e }
  | none =>
    let self := Model.CreateWithAssimp c.toExternals settings
      (scene.mMeshes.zip (CreateWithAssimp.meshTransforms c settings scene)) self
    CreateWithAssimp.writeCache c cachePath self l.world

/-- The cache-miss path of `CreateWithAssimp` (lines 483-664): the importer is
run and the scene checked before anything is built from it. -/
def CreateWithAssimp.miss (c : Collaborators F M H) (settings : ModelLoadSettings F)
    (cachePath : wstring) (self : Model F) (w : World) : Outcome F :=
  let filePath := settings.FilePath.getD []
  let fileNameAnsi := c.WStringToAnsi filePath
  let w := w.log (.ReadFile fileNameAnsi)
  match c.ReadFile fileNameAnsi with
  | none =>
    { model := self, world := w
      error := some ⟨L "Failed to load scene " ++ filePath ++ L ": "
        ++ c.AnsiToWString (c.GetErrorString fileNameAnsi)⟩ }
  | some scene =>
    if scene.mMeshes.length = 0 then
      { model := self, world := w, error := some ⟨L "Scene " ++ filePath ++ L " has no meshes"⟩ }
    else if scene.mMaterials.length = 0 then
      { model := self, world := w
        error := some ⟨L "Scene " ++ filePath ++ L " has no materials"⟩ }
    else CreateWithAssimp.build c settings cachePath scene self w

/-- The member `Model::CreateWithAssimp` as a whole (lines 466-665), on the model
`self` in the world `w`; `Model.CreateWithAssimp` above is its geometry part. A
null `FilePath`, which line 469 asserts against, is read as the empty string. -/
def CreateWithAssimp.run (c : Collaborators F M H) (settings : ModelLoadSettings F)
    (self : Model F) (w : World) : Outcome F :=
  let filePath := settings.FilePath.getD []
  let e := w.FileExists filePath
  if e.1 = false then
    { model := self, world := e.2
      error := some ⟨L "Model file with path '" ++ filePath ++ L "' does not exist"⟩ }
  else
    let p := MakeModelCachePath c.toHashing settings e.2
    match p.1 with
    | none => { model := self, world := p.2, error := some (c.IOException filePath) }
    | some cachePath =>
      let e2 := p.2.FileExists cachePath
      if e2.1 = true then Model.CreateFromMeshData c cachePath self e2.2
      else CreateWithAssimp.miss c settings cachePath self e2.2

end Load

namespace Examples

/-- A material of a scene that names an albedo map. -/
def sceneMaterial : aiMaterial :=
  { Name := [109], DIFFUSE := some (L "a.png"), NORMALS := none, HEIGHT := none,
    SHININESS := none, AMBIENT := none, OPACITY := none, EMISSIVE := none }

/-- A scene of one triangle with one material. -/
def scene : aiScene Int Unit :=
  { mMeshes := [triangle], mMaterials := [sceneMaterial], mLights := [],
    mRootNode := .mk [] () [0] [] }

/-- A stand-in for `Model::Serialize` that persists the texture directory. -/
def Serialize (serializer : Serializer (List Byte)) (model : Model Int) (s : List Byte) :
    Model Int × Option (List Byte) :=
  match SerializeItem serializer (.string .uint16) model.textureDirectory s with
  | none => (model, none)
  | some (textureDirectory, s1) => ({ model with textureDirectory := textureDirectory }, some s1)

/-- The collaborators of the loading examples: the importer knows the one file
`scene.fbx`, and the textures lie in the directory `tex`. -/
def collaborators : Collaborators Int Unit Nat :=
  { ext, hashing with
    WStringToAnsi := fun str => str
    AnsiToWString := fun str => str
    GetFileName := fun path => path
    GetDirectoryFromFilePath := fun _ => L "tex\\"
    ReadFile := fun pFile => if pFile = L "scene.fbx" then some scene else none
    GetErrorString := fun _ => L "No suitable reader found"
    ApplyPostProcessing := fun scene _ => scene
    LoadTexture := LoadTexture
    freshMaterial := material0
    Serialize := Serialize
    Float4x4 := ()
    nodeTransform := fun _ _ => ()
    IOException := fun path => ⟨L "Cannot access " ++ path⟩ }

/-- The path under which the examples cache `scene.fbx`. -/
def cachePath : wstring := L "ModelCache\\16306_6_6.modelcache"

end Examples

/-- The claim C17 as stated: a call of `CreateWithAssimp` that ends with an
exception leaves the model in the state it had before the call. -/
def FailureLeavesModelUntouched {F M H : Type} [LinearOrder F] [Mul F] [Neg F] [One F]
    (c : Collaborators F M H) (settings : ModelLoadSettings F) (self : Model F) (w : World) :
    Prop :=
  (CreateWithAssimp.run c settings self w).error ≠ none →
    (CreateWithAssimp.run c settings self w).model = self

namespace Examples

/-- The collaborators of the loading examples with a loader that cannot load any
texture. -/
def collaboratorsNoTextures : Collaborators Int Unit Nat :=
  { collaborators with LoadTexture := fun _ _ => .error ⟨L "Cannot load texture"⟩ }

/-- The example world with the creation of the cache directory denied. -/
def worldNoCacheDir : World := { world with denied := [CacheDir] }

/-- The example world with writing to the cache path denied. -/
def worldNoCacheFile : World := { world with denied := [cachePath] }

end Examples

namespace Examples

/-- The example settings with a source path that names a file the importer
cannot read. -/
def settingsNoScene : ModelLoadSettings Int :=
  { settings with FilePath := some (L "tex\\a.png") }

end Examples

/-- The clusters the library returns for the meshes of the model, in mesh order
and, within a mesh, in the order returned. -/
def GenerateMeshlets.clusters {F M : Type} (ext : Externals F M) (model : Model F) :
    List meshopt_Meshlet :=
  ((GenerateMeshlets.outputs ext model).map (fun o => o.meshlets)).flatten

/-- The vertex ranges of the clusters the library returns for a mesh are
consecutive from 0: each cluster starts where the one before it ends. -/
def ConsecutiveVertexRanges {F M : Type} (ext : Externals F M) (model : Model F) : Prop :=
  ∀ mesh ∈ model.meshes, ∀ k, k < (GenerateMeshlets.build ext model mesh).meshlets.length →
    ((GenerateMeshlets.build ext model mesh).meshlets.map (fun c => c.vertex_offset)).getD k 0
      = vertexTotal ((GenerateMeshlets.build ext model mesh).meshlets.take k)
/-- The claim C27 as stated: every byte `GenerateMeshlets` reads for a triangle
of a cluster (lines 893-895) lies inside the temporary buffer `meshOptTriangles`
of its mesh. -/
def TriangleBufferHolds {F M : Type} (ext : Externals F M) (model : Model F) : Prop :=
  ∀ mesh ∈ model.meshes, ∀ c ∈ (GenerateMeshlets.build ext model mesh).meshlets,
    ∀ t, t < c.triangle_count → ∀ e, e < 3 →
      c.triangle_offset + t * 3 + e <
        (GenerateMeshlets.meshOptTriangles (GenerateMeshlets.bound ext mesh)
          (GenerateMeshlets.build ext model mesh)).length

namespace Examples

/-- Clusters of 23 triangles on 25 vertices each (triangle strips), one per 69
indices, laid out as meshoptimizer lays clusters out: three bytes per triangle,
and the bytes of each cluster start at the next multiple of four. -/
def stripMeshlets (index_count : Nat) : BuildMeshletsOutput :=
  { meshlets := (List.range (index_count / 69)).map (fun i =>
      { vertex_offset := 25 * i, triangle_offset := 72 * i, vertex_count := 25,
        triangle_count := 23 })
    meshlet_vertices := List.range (index_count / 69 * 25)
    meshlet_triangles := (List.range (index_count / 69)).flatMap (fun _ =>
      (List.range 23).flatMap (fun t => [Fin.ofNat t, Fin.ofNat (t + 1), Fin.ofNat (t + 2)])
        ++ [0, 0, 0]) }

/-- The collaborators of the examples with the strip clustering; the cluster
bound is still the one meshoptimizer computes. -/
def extStrips : Externals Int Unit :=
  { ext with meshopt_buildMeshlets := fun _ _ index_count _ _ _ _ => stripMeshlets index_count }

/-- A model of one mesh of 391 triangles (1173 indices) on 425 vertices. -/
def stripModel : Model Int :=
  { model0 with meshes := [{ mesh0 with numIndices := 1173, numVertices := 425 }] }

end Examples
/-- Index `k` of a mesh as the mesh reads it (`Mesh::Indices()[k]` or
`Mesh::Indices32()[k]`): element `k`, in the index width of the model, of the
global index buffer from the index pointer of the mesh on. -/
def Model.indexAt {F : Type} (model : Model F) (mesh : Mesh F) (k : Nat) : Nat :=
  loadBytes model.indices (mesh.indices + model.indexType.IndexSize * k)
    model.indexType.IndexSize

/-- Index `k` of a source mesh: `mFaces[k / 3].mIndices[k % 3]`. -/
def aiMesh.faceIndex {F : Type} (m : aiMesh F) (k : Nat) : Nat :=
  (m.mFaces.getD (k / 3) []).getD (k % 3) 0

/-- The claim C28 as stated, for the model built from a scene: every index
stored for a mesh equals the source face index it was copied from. -/
def IndicesPreserved {F M : Type} (mMeshes : List (aiMesh F × M)) (model : Model F) : Prop :=
  ∀ (i : Nat) (src : aiMesh F × M) (mesh : Mesh F), mMeshes[i]? = some src →
    model.meshes[i]? = some mesh →
    ∀ k, k < src.1.mNumFaces * 3 → model.indexAt mesh k = src.1.faceIndex k

/-- The hypothesis of the claim C28: each face index of a mesh is smaller than
the vertex count of the mesh. -/
def FaceIndicesInRange {F M : Type} (mMeshes : List (aiMesh F × M)) : Prop :=
  ∀ p ∈ mMeshes, ∀ face ∈ p.1.mFaces, ∀ v ∈ face, v < p.1.mNumVertices

namespace Examples

/-- A source mesh of 65,537 vertices, given without positions, and one triangle
that uses the last of them. -/
def sparse : aiMesh Int :=
  { mNumVertices := 65537, mNumFaces := 1, mVertices := none, mNormals := none,
    mTextureCoords0 := none, mTangents := none, mBitangents := none,
    mFaces := [[0, 1, 65536]], mMaterialIndex := 0 }

end Examples
/-! ### Sphere geometry -/

/-- The conversion `uint16(...)` of an unsigned value. -/
def uint16 (n : Nat) : Nat := n % 2 ^ 16

/-- What `MakeSphereGeometry` takes from outside `src/`: `std::sin` and
`std::cos`, the constants `Pi` and `Pi2` of the framework, and the conversion
of a `uint64` to `float`. -/
structure SphereMath (F : Type) where
  sin : F → F
  cos : F → F
  Pi : F
  Pi2 : F
  float : Nat → F

/-- What `MakeSphereGeometry` hands to the two buffers (lines 1124-1134): the
element count and the data of the vertex buffer, the index list whose count and
data go to the index buffer; and the counter `currSphereVert` at its assertion
(line 1068). -/
structure SphereGeometry (F : Type) where
  numSphereVerts : Nat
  sphereVerts : List (Float3 F)
  currSphereVert : Nat
  sphereIndices : List Nat

section Sphere

variable {F : Type} [Zero F] [One F] [Neg F] [Mul F] [Div F]

/-- The vertex of ring `v` at step `u` (lines 1053-1059). -/
def MakeSphereGeometry.pos (m : SphereMath F) (uDivisions vDivisions v u : Nat) : Float3 F :=
  let theta := (m.float v / m.float vDivisions) * m.Pi
  let phi := (m.float u / m.float uDivisions) * m.Pi2
  { x := m.sin theta * m.cos phi, y := m.sin theta * m.sin phi, z := m.cos theta }

/-- The vertex part of `MakeSphereGeometry` (lines 1039-1068): the array of
`numSphereVerts` slots (a `uint64` count) with the stores
`sphereVerts[currSphereVert++] = ...` made to it, the counter `currSphereVert`
at the end, and `lastVertIdx`. A slot of the new array is taken to hold the zero
vector; a store past the end of the array changes nothing here. -/
def MakeSphereGeometry.vertices (m : SphereMath F) (uDivisions vDivisions : Nat) :
    List (Float3 F) × Nat × Nat :=
  let numSphereVerts := ((vDivisions - 1) * uDivisions + 2) % 2 ^ 64
  let sphereVerts : List (Float3 F) := List.replicate numSphereVerts ⟨0, 0, 0⟩
  let st : List (Float3 F) × Nat := (sphereVerts.set 0 ⟨0, 0, 1⟩, 1)
  let st := forRange (vDivisions - 1) (fun i st =>
    forRange uDivisions (fun u (st : List (Float3 F) × Nat) =>
      (st.1.set st.2 (MakeSphereGeometry.pos m uDivisions vDivisions (i + 1) u), st.2 + 1)) st) st
  let lastVertIdx := st.2
  (st.1.set st.2 ⟨0, 0, -1⟩, st.2 + 1, lastVertIdx)

end Sphere

/-- The top ring of triangles (lines 1071-1081); `narrow` stands for the
conversion `uint16(...)` each `Add` is given. -/
def MakeSphereGeometry.topRing (narrow : Nat → Nat) (uDivisions : Nat)
    (sphereIndices : List Nat) : List Nat :=
  forRange uDivisions (fun u acc =>
    let acc := acc ++ [narrow 0]
    let acc := acc ++ [narrow (u + 1)]
    if u < uDivisions - 1 then acc ++ [narrow (u + 2)] else acc ++ [narrow 1]) sphereIndices

/-- One step of the inner loop over a ring (lines 1090-1103). -/
def MakeSphereGeometry.quad (narrow : Nat → Nat) (uDivisions prevRowStart currRowStart u : Nat)
    (sphereIndices : List Nat) : List Nat :=
  let nextBottom := if u = uDivisions - 1 then currRowStart else currRowStart + u + 1
  let nextTop := if u = uDivisions - 1 then prevRowStart else prevRowStart + u + 1
  sphereIndices ++ [narrow (prevRowStart + u)] ++ [narrow (currRowStart + u)]
    ++ [narrow nextBottom] ++ [narrow nextBottom] ++ [narrow nextTop]
    ++ [narrow (prevRowStart + u)]

/-- The rings between the top and the bottom ring (lines 1084-1108), on the
state (`sphereIndices`, `prevRowStart`, `currRowStart`). -/
def MakeSphereGeometry.rings (narrow : Nat → Nat) (uDivisions vDivisions : Nat)
    (sphereIndices : List Nat) : List Nat × Nat × Nat :=
  forRange (vDivisions - 1 - 1) (fun _ (st : List Nat × Nat × Nat) =>
    (forRange uDivisions (MakeSphereGeometry.quad narrow uDivisions st.2.1 st.2.2) st.1,
      st.2.2, st.2.2 + uDivisions)) (sphereIndices, 1, uDivisions + 1)

/-- The last ring at the bottom (lines 1111-1122). -/
def MakeSphereGeometry.bottomRing (narrow : Nat → Nat) (uDivisions lastVertIdx : Nat)
    (sphereIndices : List Nat) : List Nat :=
  let lastRingStart := lastVertIdx - uDivisions
  forRange uDivisions (fun u acc =>
    let acc := acc ++ [narrow lastVertIdx]
    let acc :=
      if u < uDivisions - 1 then acc ++ [narrow (lastRingStart + u + 1)]
      else acc ++ [narrow lastRingStart]
    acc ++ [narrow (lastRingStart + u)]) sphereIndices

/-- The index list of `MakeSphereGeometry` (lines 1071-1122), with `narrow` for
the conversion to `uint16`. -/
def MakeSphereGeometry.indices (narrow : Nat → Nat) (uDivisions vDivisions lastVertIdx : Nat) :
    List Nat :=
  let sphereIndices := MakeSphereGeometry.topRing narrow uDivisions []
  let sphereIndices := (MakeSphereGeometry.rings narrow uDivisions vDivisions sphereIndices).1
  MakeSphereGeometry.bottomRing narrow uDivisions lastVertIdx sphereIndices

/-- The function `MakeSphereGeometry` (lines 1034-1135), up to the two buffer
initialisations. -/
def MakeSphereGeometry {F : Type} [Zero F] [One F] [Neg F] [Mul F] [Div F] (m : SphereMath F)
    (uDivisions vDivisions : Nat) : SphereGeometry F :=
  let numSphereVerts := ((vDivisions - 1) * uDivisions + 2) % 2 ^ 64
  let v := MakeSphereGeometry.vertices m uDivisions vDivisions
  { numSphereVerts := numSphereVerts
    sphereVerts := v.1
    currSphereVert := v.2.1
    sphereIndices := MakeSphereGeometry.indices uint16 uDivisions vDivisions v.2.2 }

namespace Examples

/-- Stand-ins for the trigonometry over the rationals: every angle has sine 0
and cosine 1. -/
def sphereMath : SphereMath ℚ :=
  { sin := fun _ => 0, cos := fun _ => 1, Pi := 3, Pi2 := 6, float := fun n => n }

end Examples

namespace Examples

/-- Two materials that name an opacity map: of the first there is a file in the
texture directory, of the second there is none. -/
def opacityMaterials : List MeshMaterial :=
  [ { material0 with TextureNames := { material0.TextureNames with Opacity := L "a.png" } },
    { material0 with TextureNames := { material0.TextureNames with Opacity := L "o.png" } } ]

end Examples
/-! ### Scene lights -/

/-- Modelled from the spec: the struct `ModelSpotLight` of the absent `Model.h`,
with the members `CreateWithAssimp` assigns. -/
structure ModelSpotLight (F : Type) where
  Position : Float3 F
  Intensity : Float3 F
  Direction : Float3 F
  Orientation : Quaternion F
  AngularAttenuation : Float2 F
  deriving DecidableEq, Repr

/-- Modelled from the spec: the struct `ModelPointLight` of the absent `Model.h`,
with the members `CreateWithAssimp` assigns. -/
structure ModelPointLight (F : Type) where
  Position : Float3 F
  Intensity : Float3 F
  deriving DecidableEq, Repr

/-- What the light extraction of `CreateWithAssimp` takes from outside `src/`:
Assimp's `aiNode::FindNode`, which yields the node of a given name in the
subtree of a node, if there is one; from the math header the translation
`Float4x4::Transpose(ConvertMatrix(m)).Translation()`, the orientation
`Quaternion::Normalize(Quaternion(ConvertMatrix(m).To3x3()))` and the direction
`Float3::Normalize(ConvertMatrix(m).To3x3().Forward())` of a node matrix `m`;
the constant `FP16Scale`; and the lights `Init` puts in a new slot. -/
structure LightExternals (F M : Type) where
  FindNode : aiNode M → List Nat → Option (aiNode M)
  Translation : M → Float3 F
  Orientation : M → Quaternion F
  Forward : M → Float3 F
  FP16Scale : F
  freshSpotLight : ModelSpotLight F
  freshPointLight : ModelPointLight F

/-- The characters `%s` prints for `mName.C_Str()`: those before the first
zero. -/
def C_Str (name : List Nat) : List Nat := name.takeWhile (fun ch => decide (ch ≠ 0))

/-- Modelled from the spec: `Array<T>::Resize(numElements)` of the absent
`Containers.h`, called here with at most the size of the array: the first
`numElements` elements are kept. -/
def Array_Resize {α : Type} (array : List α) (numElements : Nat) : List α :=
  array.take numElements

/-- The state of the light loop of `CreateWithAssimp`: the two arrays and the
two counters. -/
structure CreateWithAssimp.Lights (F : Type) where
  spotLights : List (ModelSpotLight F)
  pointLights : List (ModelPointLight F)
  numSpotLights : Nat
  numPointLights : Nat

section Lights

variable {F M : Type} [Mul F] [Neg F] [One F]

/-- The assignments to `dstLight` for a spot light whose two nodes were found
(lines 526-535). -/
def CreateWithAssimp.spotLight (x : LightExternals F M) (settings : ModelLoadSettings F)
    (srcLight : aiLight F) (translationNode rotationNode : aiNode M)
    (dstLight : ModelSpotLight F) : ModelSpotLight F :=
  let Position := (x.Translation translationNode.mTransformation).scale settings.SceneScale
  let Position := { Position with z := Position.z * -1 }
  { dstLight with
    Position := Position
    Intensity := srcLight.mColorDiffuse.scale x.FP16Scale
    AngularAttenuation := ⟨srcLight.mAngleInnerCone, srcLight.mAngleOuterCone⟩
    Orientation := x.Orientation rotationNode.mTransformation
    Direction := x.Forward rotationNode.mTransformation }

/-- The assignments to `dstLight` for a point light (lines 540-541). -/
def CreateWithAssimp.pointLight (srcLight : aiLight F) (dstLight : ModelPointLight F) :
    ModelPointLight F :=
  { dstLight with Position := srcLight.mPosition, Intensity := srcLight.mColorDiffuse }

/-- One iteration of the light loop of `CreateWithAssimp` (lines 510-542). -/
def CreateWithAssimp.lightBody (x : LightExternals F M) (settings : ModelLoadSettings F)
    (scene : aiScene F M) (i : Nat) (st : CreateWithAssimp.Lights F) :
    CreateWithAssimp.Lights F :=
  match scene.mLights[i]? with
  | none => st
  | some srcLight =>
    if srcLight.mType = aiLightSourceType.SPOT then
      let translationName := C_Str srcLight.mName ++ L "_$AssimpFbx$_Translation"
      match x.FindNode scene.mRootNode translationName with
      | none => st
      | some translationNode =>
        let rotationName := C_Str srcLight.mName ++ L "_$AssimpFbx$_Rotation"
        match x.FindNode translationNode rotationName with
        | none => st
        | some rotationNode =>
          { st with
            spotLights := modifyAt st.spotLights st.numSpotLights
              (CreateWithAssimp.spotLight x settings srcLight translationNode rotationNode)
            numSpotLights := st.numSpotLights + 1 }
    else if srcLight.mType = aiLightSourceType.POINT then
      { st with
        pointLights := modifyAt st.pointLights st.numPointLights
          (CreateWithAssimp.pointLight srcLight)
        numPointLights := st.numPointLights + 1 }
    else st

/-- The light extraction of `CreateWithAssimp` (lines 502-546): the members
`spotLights` and `pointLights` as it leaves them. -/
def CreateWithAssimp.lights (x : LightExternals F M) (settings : ModelLoadSettings F)
    (scene : aiScene F M) : List (ModelSpotLight F) × List (ModelPointLight F) :=
  let st := forRange scene.mLights.length (CreateWithAssimp.lightBody x settings scene)
    { spotLights := List.replicate scene.mLights.length x.freshSpotLight
      pointLights := List.replicate scene.mLights.length x.freshPointLight
      numSpotLights := 0
      numPointLights := 0 }
  (Array_Resize st.spotLights st.numSpotLights, Array_Resize st.pointLights st.numPointLights)

/-- The spot light extracted from a source light: the record lines 526-535
assign, if the light is a spot light and its translation node and, beneath it,
its rotation node are found. -/
def CreateWithAssimp.extractSpot (x : LightExternals F M) (settings : ModelLoadSettings F)
    (scene : aiScene F M) (srcLight : aiLight F) : Option (ModelSpotLight F) :=
  if srcLight.mType = aiLightSourceType.SPOT then
    (x.FindNode scene.mRootNode (C_Str srcLight.mName ++ L "_$AssimpFbx$_Translation")).bind
      (fun translationNode =>
        (x.FindNode translationNode (C_Str srcLight.mName ++ L "_$AssimpFbx$_Rotation")).map
          (fun rotationNode =>
            CreateWithAssimp.spotLight x settings srcLight translationNode rotationNode
              x.freshSpotLight))
  else none

/-- The point light extracted from a source light: the record lines 540-541
assign, if the light is a point light. -/
def CreateWithAssimp.extractPoint (x : LightExternals F M) (srcLight : aiLight F) :
    Option (ModelPointLight F) :=
  if srcLight.mType = aiLightSourceType.POINT then
    some (CreateWithAssimp.pointLight srcLight x.freshPointLight)
  else none

/-- The claim C23 as stated, for the point lights: the stored position of each
is the position of the source light multiplied by `SceneScale`. -/
def PointLightsScaled (x : LightExternals F M) (settings : ModelLoadSettings F)
    (scene : aiScene F M) : Prop :=
  (CreateWithAssimp.lights x settings scene).2.map (fun l => l.Position)
    = (scene.mLights.filter (fun l => decide (l.mType = aiLightSourceType.POINT))).map
        (fun l => l.mPosition.scale settings.SceneScale)

end Lights

namespace Examples

mutual
/-- The search of Assimp's `aiNode::FindNode`: the node itself if it has the
name, else the first hit among its children, in order. -/
def FindNode {M : Type} : aiNode M → List Nat → Option (aiNode M)
  | .mk mName mTransformation mMeshes mChildren, name =>
    if mName = name then some (.mk mName mTransformation mMeshes mChildren)
    else FindNode.children mChildren name
/-- The loop of `FindNode` over the children of a node. -/
def FindNode.children {M : Type} : List (aiNode M) → List Nat → Option (aiNode M)
  | [], _ => none
  | child :: rest, name =>
    match FindNode child name with
    | some p => some p
    | none => FindNode.children rest name
end

/-- Stand-ins for the math of the light extraction, with the translation of a
node as its matrix. -/
def lightExternals : LightExternals Int (Float3 Int) :=
  { FindNode := FindNode
    Translation := fun m => m
    Orientation := fun _ => ⟨0, 0, 0, 1⟩
    Forward := fun m => m
    FP16Scale := 1
    freshSpotLight := ⟨⟨0, 0, 0⟩, ⟨0, 0, 0⟩, ⟨0, 0, 0⟩, ⟨0, 0, 0, 0⟩, ⟨0, 0⟩⟩
    freshPointLight := ⟨⟨0, 0, 0⟩, ⟨0, 0, 0⟩⟩ }

/-- A scene with four lights: a spot light `spot` whose two auxiliary nodes are
there, a point light at `(1, 2, 3)`, a spot light `lost` with no node, and a
directional light. The translation node of `spot` sits at `(1, 2, 3)`. -/
def lightScene : aiScene Int (Float3 Int) :=
  { mMeshes := [], mMaterials := []
    mLights :=
      [ ⟨L "spot", .SPOT, ⟨0, 0, 0⟩, ⟨1, 1, 1⟩, 1, 2⟩,
        ⟨L "bulb", .POINT, ⟨1, 2, 3⟩, ⟨1, 1, 1⟩, 0, 0⟩,
        ⟨L "lost", .SPOT, ⟨0, 0, 0⟩, ⟨1, 1, 1⟩, 1, 2⟩,
        ⟨L "sun", .DIRECTIONAL, ⟨0, 0, 0⟩, ⟨1, 1, 1⟩, 0, 0⟩ ]
    mRootNode := .mk (L "root") ⟨0, 0, 0⟩ []
      [ .mk (L "spot_$AssimpFbx$_Translation") ⟨1, 2, 3⟩ []
          [ .mk (L "spot_$AssimpFbx$_Rotation") ⟨0, 0, 1⟩ [] [] ] ] }

/-- Load settings with a scene scale of 2. -/
def scaledSettings : ModelLoadSettings Int := { settings with SceneScale := 2 }

end Examples

/-- The claim C5 as stated: mesh `i` of the result has one meshlet per cluster
the library returned for it, meshlet `meshletOffset + k` is cluster `k` with its
two counts, and every corner of every triangle of it resolves, through the two
global arrays, to the vertex offset of the mesh plus the mesh-local index the
library assigned to that corner. -/
def RepacksLosslessly {F M : Type} (ext : Externals F M) (model : Model F) : Prop :=
  ∀ (i : Nat) (mesh : Mesh F), model.meshes[i]? = some mesh →
    ∃ fmesh : Mesh F, (model.GenerateMeshlets ext).meshes[i]? = some fmesh ∧
      fmesh.vtxOffset = mesh.vtxOffset ∧
      fmesh.numMeshlets = (GenerateMeshlets.build ext model mesh).meshlets.length ∧
      ∀ (k : Nat) (c : meshopt_Meshlet),
        (GenerateMeshlets.build ext model mesh).meshlets[k]? = some c →
        ∃ m : Meshlet, (model.GenerateMeshlets ext).meshlets[fmesh.meshletOffset + k]? = some m ∧
          m.TriangleCount = c.triangle_count ∧ m.VertexCount = c.vertex_count ∧
          m.MeshVertexOffset = mesh.vtxOffset ∧
          ∀ t, t < c.triangle_count → ∀ e, e < 3 →
            ∃ v, GenerateMeshlets.libraryVertex (GenerateMeshlets.build ext model mesh) c t e
                = some v ∧
              GetMeshletTriVertices.vertexIndex (model.GenerateMeshlets ext) m t e
                = some (v + mesh.vtxOffset)

/-! # Properties -/

/-! ## Object representations -/

theorem length_toBytes (w n : Nat) : (toBytes w n).length = w := by
  induction w generalizing n with
  | zero => rfl
  | succ w ih => simp [toBytes, ih]

theorem fromBytes_toBytes (w n : Nat) : fromBytes (toBytes w n) = n % 256 ^ w := by
  induction w generalizing n with
  | zero => simp [toBytes, fromBytes, Nat.mod_one]
  | succ w ih =>
    simp only [toBytes, fromBytes, ih]
    rw [pow_succ, Nat.mul_comm (256 ^ w) 256, Nat.mod_mul]

theorem fromBytes_toBytes_of_lt (w n : Nat) (h : n < 256 ^ w) : fromBytes (toBytes w n) = n := by
  rw [fromBytes_toBytes, Nat.mod_eq_of_lt h]

theorem length_toChunks (w : Nat) (elems : List Nat) :
    (toChunks w elems).length = w * elems.length := by
  induction elems with
  | nil => simp [toChunks]
  | cons e es ih =>
    simp only [toChunks, List.flatMap_cons, List.length_append, length_toBytes, List.length_cons] at ih ⊢
    rw [ih, Nat.mul_succ, Nat.add_comm]

theorem fromChunks_toChunks (w : Nat) (elems : List Nat) (rest : List Byte)
    (h : ∀ e ∈ elems, e < 256 ^ w) :
    fromChunks w elems.length (toChunks w elems ++ rest) = elems := by
  induction elems with
  | nil => simp [fromChunks]
  | cons e es ih =>
    have he : e < 256 ^ w := h e (List.mem_cons_self _ _)
    have hes : ∀ x ∈ es, x < 256 ^ w := fun x hx => h x (List.mem_cons_of_mem _ hx)
    have hlen : (toBytes w e).length = w := length_toBytes w e
    simp only [toChunks, List.flatMap_cons, List.length_cons, fromChunks, List.append_assoc]
    rw [List.take_left' hlen, List.drop_left' hlen, fromBytes_toBytes_of_lt w e he]
    simp only [toChunks] at ih
    rw [ih hes]

/-! ## The traversal under the three drivers -/

theorem write_item (w v : Nat) (out : List Byte) :
    FileWriteSerializer.SerializeItem w v out = some (v, out ++ toBytes w v) := by
  have h : (toBytes w v).take w = toBytes w v := List.take_of_length_le (by rw [length_toBytes])
  simp [FileWriteSerializer, File.Write, h]

theorem read_item (w v d : Nat) (rest : List Byte) (hv : v < 256 ^ w) :
    FileReadSerializer.SerializeItem w d (toBytes w v ++ rest) = some (v, rest) := by
  have hlen : (toBytes w v).length = w := length_toBytes w v
  simp only [FileReadSerializer, File.Read, List.length_append, hlen, Nat.le_add_right, if_true,
    Option.map_some', List.take_left' hlen, List.drop_left' hlen, fromBytes_toBytes_of_lt w v hv]

theorem size_item (w v n : Nat) :
    ComputeSizeSerializer.SerializeItem w v n = some (v, (n + w) % 2 ^ 64) := rfl

theorem serializes_item (w v : Nat) (hv : v < 256 ^ w) :
    Serializes (FileWriteSerializer.SerializeItem w) (FileReadSerializer.SerializeItem w)
      (ComputeSizeSerializer.SerializeItem w) (fun _ => True) v (toBytes w v) :=
  ⟨fun out => write_item w v out, fun d rest _ => read_item w v d rest hv,
    fun n _ => by rw [size_item, length_toBytes]⟩

theorem add_mod_add_mod (n a b : Nat) : ((n + a) % 2 ^ 64 + b) % 2 ^ 64 = (n + (a + b)) % 2 ^ 64 := by
  omega

/-- Two traversals in sequence serialize to the concatenation of their bytes. -/
theorem serializeArray_spec {α : Type}
    (wr rd : α → List Byte → Option (α × List Byte)) (sz : α → Nat → Option (α × Nat))
    (vs : List α) (h : ∀ v ∈ vs, ∃ bytes, Serializes wr rd sz (fun _ => True) v bytes) :
    ∃ bytes, Serializes (SerializeArray wr) (SerializeArray rd) (SerializeArray sz)
      (fun ds => ds.length = vs.length) vs bytes := by
  induction vs with
  | nil =>
    refine ⟨[], fun out => by simp [SerializeArray], fun d rest hd => ?_, fun n hn => ?_⟩
    · have : d = [] := List.length_eq_zero.mp hd
      subst this
      simp [SerializeArray]
    · simp only [SerializeArray, List.length_nil, Nat.add_zero, Nat.mod_eq_of_lt hn]
  | cons v vs ih =>
    obtain ⟨b, hbw, hbr, hbs⟩ := h v (List.mem_cons_self _ _)
    obtain ⟨bs, hw, hr, hs⟩ := ih (fun x hx => h x (List.mem_cons_of_mem _ hx))
    refine ⟨b ++ bs, fun out => ?_, fun d rest hd => ?_, fun n hn => ?_⟩
    · simp [SerializeArray, hbw, hw, List.append_assoc]
    · match d, hd with
      | d0 :: ds, hd =>
        have hds : ds.length = vs.length := by simpa using hd
        simp [SerializeArray, List.append_assoc, hbr d0 (bs ++ rest) trivial, hr ds rest hds]
    · have hlt : (n + b.length) % 2 ^ 64 < 2 ^ 64 := Nat.mod_lt _ (by decide)
      simp only [SerializeArray, hbs n hn, hs _ hlt, add_mod_add_mod, List.length_append]

theorem fromChunks_toChunks_nil (w : Nat) (elems : List Nat) (h : ∀ e ∈ elems, e < 256 ^ w) :
    fromChunks w elems.length (toChunks w elems) = elems := by
  simpa using fromChunks_toChunks w elems [] h

theorem length_basic_string_resize (str : List Nat) (n : Nat) :
    (basic_string_resize str n).length = n := by
  simp only [basic_string_resize, List.length_append, List.length_take, List.length_replicate]
  omega

/-- The string overload under the three drivers. -/
theorem serializes_string (c : Prim) (str : List Nat)
    (hsize : c.sizeof * str.length < 2 ^ 64) (hchars : ∀ ch ∈ str, ch < 256 ^ c.sizeof) :
    ∃ bytes, Serializes (SerializeItem FileWriteSerializer (.string c))
      (SerializeItem FileReadSerializer (.string c))
      (SerializeItem ComputeSizeSerializer (.string c)) (fun _ => True) str bytes := by
  have hpos : 1 ≤ c.sizeof := by cases c <;> decide
  have hlen : str.length < 256 ^ 8 := by
    have : str.length ≤ c.sizeof * str.length := Nat.le_mul_of_pos_left _ hpos
    have h2 : (256 : Nat) ^ 8 = 2 ^ 64 := by decide
    omega
  by_cases h0 : str.length = 0
  · have hnil : str = [] := List.length_eq_zero.mp h0
    subst hnil
    refine ⟨toBytes 8 0, fun out => ?_, fun d rest _ => ?_, fun n hn => ?_⟩
    · simp [SerializeItem, write_item]
    · have hr := read_item 8 0 d.length rest (by decide)
      simp only [SerializeItem, hr]
      by_cases hd : d.length = 0
      · have : d = [] := List.length_eq_zero.mp hd
        simp [this]
      · simp [hd, basic_string_resize]
    · simp [SerializeItem, size_item, length_toBytes]
  · have hmod : (c.sizeof * str.length) % 2 ^ 64 = c.sizeof * str.length := Nat.mod_eq_of_lt hsize
    have hclen : (toChunks c.sizeof str).length = c.sizeof * str.length := length_toChunks _ _
    refine ⟨toBytes 8 str.length ++ toChunks c.sizeof str, fun out => ?_, fun d rest _ => ?_,
      fun n hn => ?_⟩
    · have htake : (toChunks c.sizeof str).take (c.sizeof * str.length) = toChunks c.sizeof str :=
        List.take_of_length_le (by rw [hclen])
      simp only [SerializeItem, write_item, ne_eq, not_true_eq_false, if_false, h0,
        BulkSerializeArray, hmod]
      simp only [FileWriteSerializer, File.Write, htake, List.append_assoc,
        fromChunks_toChunks_nil _ _ hchars]
    · have hr := read_item 8 str.length d.length (toChunks c.sizeof str ++ rest) hlen
      have hd1 : (if d.length ≠ str.length then basic_string_resize d str.length else d).length
          = str.length := by
        by_cases hd : d.length = str.length
        · simp [hd]
        · simp [hd, length_basic_string_resize]
      simp only [SerializeItem, List.append_assoc, hr, h0, if_false, BulkSerializeArray, hmod, hd1]
      have hle : c.sizeof * str.length ≤ (toChunks c.sizeof str ++ rest).length := by
        rw [List.length_append, hclen]; omega
      have hdrop : ∀ m : List Byte, m.length = c.sizeof * str.length →
          m.drop (c.sizeof * str.length) = [] := fun m hm => List.drop_of_length_le (by rw [hm])
      simp only [FileReadSerializer, File.Read, hle, if_true, Option.map_some',
        List.take_left' hclen, List.drop_left' hclen]
      rw [hdrop _ (by rw [length_toChunks, hd1]), fromChunks_toChunks _ _ _ hchars]
    · have hlt : (n + 8) % 2 ^ 64 < 2 ^ 64 := Nat.mod_lt _ (by decide)
      simp only [SerializeItem, size_item, ne_eq, not_true_eq_false, if_false, h0,
        BulkSerializeArray, hmod]
      simp only [ComputeSizeSerializer, add_mod_add_mod, List.length_append, length_toBytes, hclen,
        fromChunks_toChunks_nil _ _ hchars]

/-- The `Array` and `List` overloads under the three drivers, given the same
for the element type: `init` stands for the `Init` call of the overload. -/
theorem serializes_container {α : Type}
    (wr rd : α → List Byte → Option (α × List Byte)) (sz : α → Nat → Option (α × Nat))
    (init : Nat → List α) (hinit : ∀ n, (init n).length = n)
    (cw cr : List α → List Byte → Option (List α × List Byte))
    (cs : List α → Nat → Option (List α × Nat))
    (hcw : ∀ a s, cw a s = match FileWriteSerializer.SerializeItem 8 a.length s with
      | none => none
      | some (numElements, s1) =>
        let a1 := if a.length ≠ numElements then init numElements else a
        if numElements = 0 then some (a1, s1) else SerializeArray wr a1 s1)
    (hcr : ∀ a s, cr a s = match FileReadSerializer.SerializeItem 8 a.length s with
      | none => none
      | some (numElements, s1) =>
        let a1 := if a.length ≠ numElements then init numElements else a
        if numElements = 0 then some (a1, s1) else SerializeArray rd a1 s1)
    (hcs : ∀ a s, cs a s = match ComputeSizeSerializer.SerializeItem 8 a.length s with
      | none => none
      | some (numElements, s1) =>
        let a1 := if a.length ≠ numElements then init numElements else a
        if numElements = 0 then some (a1, s1) else SerializeArray sz a1 s1)
    (vs : List α) (hlen : vs.length < 2 ^ 64)
    (h : ∀ v ∈ vs, ∃ bytes, Serializes wr rd sz (fun _ => True) v bytes) :
    ∃ bytes, Serializes cw cr cs (fun _ => True) vs bytes := by
  have hlen8 : vs.length < 256 ^ 8 := by
    have h2 : (256 : Nat) ^ 8 = 2 ^ 64 := by decide
    omega
  obtain ⟨bs, hw, hr, hs⟩ := serializeArray_spec wr rd sz vs h
  by_cases h0 : vs.length = 0
  · have hnil : vs = [] := List.length_eq_zero.mp h0
    subst hnil
    refine ⟨toBytes 8 0, fun out => ?_, fun d rest _ => ?_, fun n hn => ?_⟩
    · simp [hcw, write_item]
    · have hrd := read_item 8 0 d.length rest (by decide)
      simp only [hcr, hrd]
      by_cases hd : d.length = 0
      · have : d = [] := List.length_eq_zero.mp hd
        simp [this]
      · have : init 0 = [] := List.length_eq_zero.mp (hinit 0)
        simp [hd, this]
    · simp [hcs, size_item, length_toBytes]
  · refine ⟨toBytes 8 vs.length ++ bs, fun out => ?_, fun d rest _ => ?_, fun n hn => ?_⟩
    · simp only [hcw, write_item, ne_eq, not_true_eq_false, if_false, h0, hw, List.append_assoc]
    · have hrd := read_item 8 vs.length d.length (bs ++ rest) hlen8
      have hd1 : (if d.length ≠ vs.length then init vs.length else d).length = vs.length := by
        by_cases hd : d.length = vs.length
        · simp [hd]
        · simp [hd, hinit]
      simp only [hcr, List.append_assoc, hrd, h0, if_false, hr _ rest hd1]
    · have hlt : (n + 8) % 2 ^ 64 < 2 ^ 64 := Nat.mod_lt _ (by decide)
      simp only [hcs, size_item, ne_eq, not_true_eq_false, if_false, h0, hs _ hlt, add_mod_add_mod,
        List.length_append, length_toBytes]

/-- The traversal of every supported type under the three drivers: for each
representable object there is one byte string that the writer appends, the
reader consumes to rebuild the object in any destination, and the size driver
counts. -/
theorem traversal_spec (t : Ty) (v : t.Val) (hv : t.representable v = true) :
    ∃ bytes, Serializes (SerializeItem FileWriteSerializer t) (SerializeItem FileReadSerializer t)
      (SerializeItem ComputeSizeSerializer t) (fun _ => True) v bytes := by
  induction t with
  | prim p =>
    have h : v < 256 ^ p.sizeof := by simpa [Ty.representable] using hv
    exact ⟨toBytes p.sizeof v, serializes_item p.sizeof v h⟩
  | float2 =>
    obtain ⟨x, y⟩ := v
    simp only [Ty.representable, Bool.and_eq_true, decide_eq_true_eq] at hv
    obtain ⟨hx, hy⟩ := hv
    refine ⟨toBytes 4 x ++ toBytes 4 y, fun out => ?_, fun d rest _ => ?_, fun n hn => ?_⟩
    · simp only [SerializeItem, write_item, List.append_assoc]
    · simp only [SerializeItem, List.append_assoc, read_item 4 x _ _ hx, read_item 4 y _ _ hy]
    · simp only [SerializeItem, size_item, List.length_append, length_toBytes]
      congr 2; omega
  | float3 =>
    obtain ⟨x, y, z⟩ := v
    simp only [Ty.representable, Bool.and_eq_true, decide_eq_true_eq] at hv
    obtain ⟨⟨hx, hy⟩, hz⟩ := hv
    refine ⟨toBytes 4 x ++ toBytes 4 y ++ toBytes 4 z, fun out => ?_, fun d rest _ => ?_,
      fun n hn => ?_⟩
    · simp only [SerializeItem, write_item, List.append_assoc]
    · simp only [SerializeItem, List.append_assoc, read_item 4 x _ _ hx, read_item 4 y _ _ hy,
        read_item 4 z _ _ hz]
    · simp only [SerializeItem, size_item, List.length_append, length_toBytes]
      congr 2; omega
  | float4 =>
    obtain ⟨x, y, z, w⟩ := v
    simp only [Ty.representable, Bool.and_eq_true, decide_eq_true_eq] at hv
    obtain ⟨⟨⟨hx, hy⟩, hz⟩, hw⟩ := hv
    refine ⟨toBytes 4 x ++ toBytes 4 y ++ toBytes 4 z ++ toBytes 4 w, fun out => ?_,
      fun d rest _ => ?_, fun n hn => ?_⟩
    · simp only [SerializeItem, write_item, List.append_assoc]
    · simp only [SerializeItem, List.append_assoc, read_item 4 x _ _ hx, read_item 4 y _ _ hy,
        read_item 4 z _ _ hz, read_item 4 w _ _ hw]
    · simp only [SerializeItem, size_item, List.length_append, length_toBytes]
      congr 2; omega
  | quaternion =>
    obtain ⟨x, y, z, w⟩ := v
    simp only [Ty.representable, Bool.and_eq_true, decide_eq_true_eq] at hv
    obtain ⟨⟨⟨hx, hy⟩, hz⟩, hw⟩ := hv
    refine ⟨toBytes 4 x ++ toBytes 4 y ++ toBytes 4 z ++ toBytes 4 w, fun out => ?_,
      fun d rest _ => ?_, fun n hn => ?_⟩
    · simp only [SerializeItem, write_item, List.append_assoc]
    · simp only [SerializeItem, List.append_assoc, read_item 4 x _ _ hx, read_item 4 y _ _ hy,
        read_item 4 z _ _ hz, read_item 4 w _ _ hw]
    · simp only [SerializeItem, size_item, List.length_append, length_toBytes]
      congr 2; omega
  | string c =>
    simp only [Ty.representable, Bool.and_eq_true, decide_eq_true_eq, List.all_eq_true] at hv
    exact serializes_string c v hv.1 hv.2
  | array t ih =>
    simp only [Ty.representable, Bool.and_eq_true, decide_eq_true_eq, List.all_eq_true] at hv
    exact serializes_container _ _ _ (Array_Init t) (fun n => by simp [Array_Init]) _ _ _
      (fun a s => by simp only [SerializeItem]; rfl)
      (fun a s => by
        simp only [SerializeItem]; cases FileReadSerializer.SerializeItem 8 a.length s <;> rfl)
      (fun a s => by simp only [SerializeItem]; rfl) v hv.1 (fun x hx => ih x (hv.2 x hx))
  | list t ih =>
    simp only [Ty.representable, Bool.and_eq_true, decide_eq_true_eq, List.all_eq_true] at hv
    exact serializes_container _ _ _ (fun n => List_Init t n n) (fun n => by simp [List_Init]) _ _ _
      (fun a s => by simp only [SerializeItem]; rfl)
      (fun a s => by
        simp only [SerializeItem]; cases FileReadSerializer.SerializeItem 8 a.length s <;> rfl)
      (fun a s => by simp only [SerializeItem]; rfl) v hv.1 (fun x hx => ih x (hv.2 x hx))

/-! ## Serialization contracts -/

/-- C1: for every supported, representable value `v` the write traversal emits a
byte string (leaving `v` as it is), and the read traversal run over those bytes
followed by any further file content `rest`, into a destination `d` of the same
static type in whatever prior state, succeeds, leaves the destination equal to
`v`, and stops exactly at `rest`. -/
theorem serialize_roundtrip (t : Ty) (v d : t.Val) (rest : List Byte)
    (hv : t.representable v = true) :
    ∃ bytes, SerializeItem FileWriteSerializer t v [] = some (v, bytes) ∧
      SerializeItem FileReadSerializer t d (bytes ++ rest) = some (v, rest) := by
  obtain ⟨bytes, hw, hr, _⟩ := traversal_spec t v hv
  exact ⟨bytes, by simpa using hw [], hr d rest trivial⟩

theorem serialize_roundtrip_witness :
    (Ty.array (.string .uint16)).representable [[65, 66], [], [300]] = true ∧
    ∃ bytes, SerializeItem FileWriteSerializer (.array (.string .uint16)) [[65, 66], [], [300]] []
        = some ([[65, 66], [], [300]], bytes) ∧
      SerializeItem FileReadSerializer (.array (.string .uint16)) [[1, 2, 3], [7]] (bytes ++ [9])
        = some ([[65, 66], [], [300]], [9]) :=
  ⟨by decide, serialize_roundtrip (.array (.string .uint16)) [[65, 66], [], [300]] [[1, 2, 3], [7]]
    [9] (by decide)⟩

/-- C2: for every supported, representable value `v` the write traversal emits a
byte string, and when that string is shorter than `2 ^ 64` bytes (the range of
the `uint64` counter) the `Size()` of a fresh `ComputeSizeSerializer` after the
same traversal equals its length. -/
theorem computeSize_eq_bytes_written (t : Ty) (v : t.Val) (hv : t.representable v = true) :
    ∃ bytes, SerializeItem FileWriteSerializer t v [] = some (v, bytes) ∧
      (bytes.length < 2 ^ 64 →
        (SerializeItem ComputeSizeSerializer t v 0).map (fun r => ComputeSizeSerializer.Size r.2)
          = some bytes.length) := by
  obtain ⟨bytes, hw, _, hs⟩ := traversal_spec t v hv
  refine ⟨bytes, by simpa using hw [], fun hlt => ?_⟩
  rw [hs 0 (by decide), Nat.zero_add, Nat.mod_eq_of_lt hlt]
  rfl

theorem computeSize_eq_bytes_written_witness :
    (Ty.list .float3).representable [⟨1, 2, 3⟩, ⟨4, 5, 6⟩] = true ∧
    ∃ bytes, SerializeItem FileWriteSerializer (.list .float3) [⟨1, 2, 3⟩, ⟨4, 5, 6⟩] []
        = some ([⟨1, 2, 3⟩, ⟨4, 5, 6⟩], bytes) ∧
      (bytes.length < 2 ^ 64 →
        (SerializeItem ComputeSizeSerializer (.list .float3) [⟨1, 2, 3⟩, ⟨4, 5, 6⟩] 0).map
          (fun r => ComputeSizeSerializer.Size r.2) = some bytes.length) :=
  ⟨by decide, computeSize_eq_bytes_written (.list .float3) [⟨1, 2, 3⟩, ⟨4, 5, 6⟩] (by decide)⟩

/-! ## Packed triangles -/

theorem pack_eq_sum (v0 v1 v2 : Nat) (h0 : v0 < 256) (h1 : v1 < 256) (h2 : v2 < 256) :
    (MeshletTriangle.Pack v0 v1 v2).Packed = v0 + 256 * v1 + 65536 * v2 := by
  have e1 : v0 ||| (v1 <<< 8) = 2 ^ 8 * v1 + v0 := by
    rw [Nat.or_comm, Nat.shiftLeft_eq, Nat.mul_comm v1 (2 ^ 8)]
    exact (Nat.mul_add_lt_is_or (by omega) v1).symm
  have e2 : (2 ^ 8 * v1 + v0) ||| (v2 <<< 16) = 2 ^ 16 * v2 + (2 ^ 8 * v1 + v0) := by
    rw [Nat.or_comm, Nat.shiftLeft_eq, Nat.mul_comm v2 (2 ^ 16)]
    exact (Nat.mul_add_lt_is_or (by omega) v2).symm
  simp only [MeshletTriangle.Pack, e1, e2]
  omega

theorem unpack_eq (p : Nat) :
    (MeshletTriangle.Unpack ⟨p⟩) = ⟨p % 256, p / 256 % 256, p / 65536 % 256⟩ := by
  have h : ∀ x : Nat, x &&& 0xFF = x % 256 := fun x => Nat.and_pow_two_sub_one_eq_mod x 8
  simp only [MeshletTriangle.Unpack, h, Nat.shiftRight_eq_div_pow]

/-- C3: for all `v0`, `v1`, `v2` below 256, unpacking `Pack(v0, v1, v2)` gives
back `(v0, v1, v2)`; bits 0-7 of `Packed` hold `v0`, bits 8-15 hold `v1`, bits
16-23 hold `v2` and bits 24-31 are zero. -/
theorem pack_unpack (v0 v1 v2 : Nat) (h0 : v0 < 256) (h1 : v1 < 256) (h2 : v2 < 256) :
    (MeshletTriangle.Pack v0 v1 v2).Unpack = ⟨v0, v1, v2⟩ ∧
    (MeshletTriangle.Pack v0 v1 v2).Packed % 2 ^ 8 = v0 ∧
    (MeshletTriangle.Pack v0 v1 v2).Packed / 2 ^ 8 % 2 ^ 8 = v1 ∧
    (MeshletTriangle.Pack v0 v1 v2).Packed / 2 ^ 16 % 2 ^ 8 = v2 ∧
    (MeshletTriangle.Pack v0 v1 v2).Packed / 2 ^ 24 = 0 := by
  have hp := pack_eq_sum v0 v1 v2 h0 h1 h2
  have hu := unpack_eq (MeshletTriangle.Pack v0 v1 v2).Packed
  refine ⟨?_, ?_, ?_, ?_, ?_⟩
  · rw [show MeshletTriangle.Pack v0 v1 v2 = ⟨(MeshletTriangle.Pack v0 v1 v2).Packed⟩ from rfl,
      unpack_eq, hp]
    congr 1 <;> omega
  all_goals rw [hp]; omega

theorem pack_unpack_witness :
    (63 < 256 ∧ 0 < 256 ∧ 17 < 256) ∧
    ((MeshletTriangle.Pack 63 0 17).Unpack = ⟨63, 0, 17⟩ ∧
    (MeshletTriangle.Pack 63 0 17).Packed % 2 ^ 8 = 63 ∧
    (MeshletTriangle.Pack 63 0 17).Packed / 2 ^ 8 % 2 ^ 8 = 0 ∧
    (MeshletTriangle.Pack 63 0 17).Packed / 2 ^ 16 % 2 ^ 8 = 17 ∧
    (MeshletTriangle.Pack 63 0 17).Packed / 2 ^ 24 = 0) :=
  ⟨by decide, pack_unpack 63 0 17 (by decide) (by decide) (by decide)⟩

/-! ## Loops -/

theorem forRange_zero {σ : Type} (body : Nat → σ → σ) (s : σ) : forRange 0 body s = s := rfl

theorem forRange_succ {σ : Type} (n : Nat) (body : Nat → σ → σ) (s : σ) :
    forRange (n + 1) body s = body n (forRange n body s) := by
  simp [forRange, List.range_succ, List.foldl_append]

/-- Loop invariants: a predicate on the iteration count and the state that
holds initially and is carried by every iteration holds at the end. -/
theorem forRange_induction {σ : Type} (P : Nat → σ → Prop) (n : Nat) (body : Nat → σ → σ) (s : σ)
    (h0 : P 0 s) (hstep : ∀ i st, i < n → P i st → P (i + 1) (body i st)) :
    P n (forRange n body s) := by
  induction n with
  | zero => exact h0
  | succ n ih =>
    rw [forRange_succ]
    exact hstep n _ (Nat.lt_succ_self n)
      (ih (fun i st hi hp => hstep i st (Nat.lt_succ_of_lt hi) hp))

theorem getElem?_modifyAt {α : Type} (l : List α) (i k : Nat) (f : α → α) :
    (modifyAt l i f)[k]? = if k = i then (l[k]?).map f else l[k]? := by
  unfold modifyAt
  by_cases hk : k = i
  · subst hk
    cases h : l[k]? with
    | none => simp [h]
    | some v =>
      have hlt : k < l.length := (List.getElem?_eq_some.mp h).1
      simp [h, List.getElem?_set, hlt]
  · cases h : l[i]? with
    | none => simp [hk]
    | some v => simp [hk, List.getElem?_set_ne (Ne.symm hk)]

theorem length_modifyAt {α : Type} (l : List α) (i : Nat) (f : α → α) :
    (modifyAt l i f).length = l.length := by
  unfold modifyAt
  cases l[i]? <;> simp

/-- A loop whose iteration `i` rewrites slot `dst + i` with `h i` rewrites
exactly the slots `dst`, ..., `dst + n - 1`. -/
theorem forRange_pointwise {α : Type} (body : Nat → List α → List α) (h : Nat → α → α) (dst : Nat)
    (hb : ∀ i acc k, (body i acc)[k]? = if k = dst + i then (acc[k]?).map (h i) else acc[k]?)
    (n : Nat) (acc : List α) (k : Nat) :
    (forRange n body acc)[k]? =
      if dst ≤ k ∧ k < dst + n then (acc[k]?).map (h (k - dst)) else acc[k]? := by
  induction n with
  | zero =>
    have : ¬ (dst ≤ k ∧ k < dst + 0) := by omega
    rw [forRange_zero, if_neg this]
  | succ n ih =>
    rw [forRange_succ, hb, ih]
    by_cases h1 : k = dst + n
    · subst h1
      have h2 : ¬ (dst ≤ dst + n ∧ dst + n < dst + n) := by omega
      have h3 : dst ≤ dst + n ∧ dst + n < dst + (n + 1) := by omega
      simp [h2, h3]
    · by_cases h2 : dst ≤ k ∧ k < dst + n
      · have h3 : dst ≤ k ∧ k < dst + (n + 1) := by omega
        simp [h1, h2, h3]
      · have h3 : ¬ (dst ≤ k ∧ k < dst + (n + 1)) := by omega
        simp [h1, h2, h3]

theorem forRange_length {α : Type} (body : Nat → List α → List α)
    (hb : ∀ i acc, (body i acc).length = acc.length) (n : Nat) (acc : List α) :
    (forRange n body acc).length = acc.length := by
  induction n with
  | zero => rfl
  | succ n ih => rw [forRange_succ, hb, ih]

theorem map_set_of_eq {α β : Type} (f : α → β) (l : List α) (i : Nat) (a b : α)
    (ha : l[i]? = some a) (hab : f b = f a) : (l.set i b).map f = l.map f := by
  apply List.ext_getElem?
  intro k
  by_cases hk : i = k
  · subst hk
    obtain ⟨hlt, hget⟩ := List.getElem?_eq_some.mp ha
    simp [List.getElem?_set, hab, hlt, hget]
  · simp [List.getElem?_set_ne hk]

/-! ## What meshlet generation leaves alone -/

section Frame

variable {F M : Type}

theorem meshletBody_frame (ext : Externals F M) (mesh : Mesh F) (meshIdx : Nat)
    (cs : List meshopt_Meshlet) (tris : List Byte) (gmo gvo gto k : Nat)
    (st : GenerateMeshlets.Local F) :
    let r := GenerateMeshlets.meshletBody ext mesh meshIdx cs tris gmo gvo gto k st
    r.model.meshes = st.model.meshes ∧ r.model.vertices = st.model.vertices ∧
    r.model.indices = st.model.indices ∧ r.model.indexType = st.model.indexType ∧
    r.model.aabbMin = st.model.aabbMin ∧ r.model.aabbMax = st.model.aabbMax ∧
    r.model.meshletVertices = st.model.meshletVertices := by
  unfold GenerateMeshlets.meshletBody
  cases cs[k]? <;> simp

theorem meshletLoop_frame (ext : Externals F M) (mesh : Mesh F) (meshIdx : Nat)
    (cs : List meshopt_Meshlet) (tris : List Byte) (gmo gvo gto n : Nat)
    (st : GenerateMeshlets.Local F) :
    let r := forRange n (GenerateMeshlets.meshletBody ext mesh meshIdx cs tris gmo gvo gto) st
    r.model.meshes = st.model.meshes ∧ r.model.vertices = st.model.vertices ∧
    r.model.indices = st.model.indices ∧ r.model.indexType = st.model.indexType ∧
    r.model.aabbMin = st.model.aabbMin ∧ r.model.aabbMax = st.model.aabbMax ∧
    r.model.meshletVertices = st.model.meshletVertices := by
  refine forRange_induction
    (fun _ (r : GenerateMeshlets.Local F) =>
      r.model.meshes = st.model.meshes ∧ r.model.vertices = st.model.vertices ∧
      r.model.indices = st.model.indices ∧ r.model.indexType = st.model.indexType ∧
      r.model.aabbMin = st.model.aabbMin ∧ r.model.aabbMax = st.model.aabbMax ∧
      r.model.meshletVertices = st.model.meshletVertices) n _ st
    ⟨rfl, rfl, rfl, rfl, rfl, rfl, rfl⟩ ?_
  intro i s _ hs
  have h := meshletBody_frame ext mesh meshIdx cs tris gmo gvo gto i s
  simp only at h
  obtain ⟨h1, h2, h3, h4, h5, h6, h7⟩ := h
  obtain ⟨g1, g2, g3, g4, g5, g6, g7⟩ := hs
  exact ⟨h1.trans g1, h2.trans g2, h3.trans g3, h4.trans g4, h5.trans g5, h6.trans g6,
    h7.trans g7⟩

theorem meshBody_sameGeometry (ext : Externals F M) (bounds : List Nat) (meshIdx : Nat)
    (st : GenerateMeshlets.State F) :
    (GenerateMeshlets.meshBody ext bounds meshIdx st).model.sameGeometry st.model := by
  unfold GenerateMeshlets.meshBody
  cases hm : st.model.meshes[meshIdx]? with
  | none => exact ⟨rfl, rfl, rfl, rfl, rfl, rfl⟩
  | some mesh =>
    simp only
    obtain ⟨h1, h2, h3, h4, h5, h6, _⟩ := meshletLoop_frame ext
      { mesh with
        numMeshlets := (GenerateMeshlets.build ext st.model mesh).meshlets.length % 2 ^ 32,
        meshletOffset := st.globalMeshletOffset }
      meshIdx (GenerateMeshlets.build ext st.model mesh).meshlets
      (GenerateMeshlets.meshOptTriangles (bounds.getD meshIdx 0)
        (GenerateMeshlets.build ext st.model mesh))
      st.globalMeshletOffset st.globalVertexOffset st.globalTriangleOffset
      (GenerateMeshlets.build ext st.model mesh).meshlets.length
      { model := { st.model with
          meshes := st.model.meshes.set meshIdx { mesh with
            numMeshlets := (GenerateMeshlets.build ext st.model mesh).meshlets.length % 2 ^ 32,
            meshletOffset := st.globalMeshletOffset }
          meshletVertices := storeRange st.model.meshletVertices st.globalVertexOffset
            (GenerateMeshlets.build ext st.model mesh).meshlet_vertices }
        localTriangleOffset := 0
        localVertexOffset := 0 }
    refine ⟨?_, h2, h3, h4, h5, h6⟩
    rw [h1]
    exact map_set_of_eq _ _ _ mesh _ hm rfl

theorem sameGeometry_trans {a b c : Model F} (h1 : a.sameGeometry b) (h2 : b.sameGeometry c) :
    a.sameGeometry c :=
  ⟨h1.1.trans h2.1, h1.2.1.trans h2.2.1, h1.2.2.1.trans h2.2.2.1, h1.2.2.2.1.trans h2.2.2.2.1,
    h1.2.2.2.2.1.trans h2.2.2.2.2.1, h1.2.2.2.2.2.trans h2.2.2.2.2.2⟩

/-- Meshlet generation leaves the geometry of the model as it found it. -/
theorem GenerateMeshlets_sameGeometry (ext : Externals F M) (model : Model F) :
    (model.GenerateMeshlets ext).sameGeometry model := by
  have h : (GenerateMeshlets.final ext model).model.sameGeometry model :=
    forRange_induction
      (fun _ (r : GenerateMeshlets.State F) => r.model.sameGeometry model) model.meshes.length
      (GenerateMeshlets.meshBody ext (model.meshes.map (GenerateMeshlets.bound ext)))
      (GenerateMeshlets.initial ext model) ⟨rfl, rfl, rfl, rfl, rfl, rfl⟩
      (fun i st _ hs => sameGeometry_trans (meshBody_sameGeometry ext _ i st) hs)
  exact h

end Frame

/-! ## Bookkeeping of the import -/

set_option linter.unusedSectionVars false
section
variable {F M : Type} [LinearOrder F] [Mul F] [Neg F] [One F]

theorem prefixSum_zero (l : List Nat) : prefixSum l 0 = 0 := by simp [prefixSum]

theorem prefixSum_cons_succ (a : Nat) (l : List Nat) (i : Nat) :
    prefixSum (a :: l) (i + 1) = a + prefixSum l i := by simp [prefixSum]

theorem prefixSum_le (l : List Nat) (i : Nat) : prefixSum l i ≤ l.sum := by
  induction l generalizing i with
  | nil => simp [prefixSum]
  | cons a l ih =>
    cases i with
    | zero => simp [prefixSum]
    | succ i => rw [prefixSum_cons_succ, List.sum_cons]; exact Nat.add_le_add_left (ih i) a

theorem prefixSum_succ_le (l : List Nat) (i : Nat) (a : Nat) (h : l[i]? = some a) :
    prefixSum l i + a ≤ l.sum := by
  induction l generalizing i with
  | nil => simp at h
  | cons b l ih =>
    cases i with
    | zero =>
      simp at h
      subst h
      simp [prefixSum]
    | succ i =>
      simp at h
      rw [prefixSum_cons_succ, List.sum_cons]
      have := ih i h
      omega

theorem count_foldl (ms : List (aiMesh F)) (a b : Nat) (t : IndexType) :
    ms.foldl (fun acc assimpMesh =>
      (acc.1 + assimpMesh.mNumVertices, acc.2.1 + (assimpMesh.mNumFaces * 3) % 2 ^ 32,
        if (assimpMesh.mNumFaces * 3) % 2 ^ 32 > 0xFFFF then IndexType.Index32Bit else acc.2.2))
      (a, b, t) =
    (a + (ms.map (fun m => m.mNumVertices)).sum, b + (ms.map aiMesh.numIndices).sum,
      if ∃ m ∈ ms, m.numIndices > 0xFFFF then IndexType.Index32Bit else t) := by
  induction ms generalizing a b t with
  | nil => simp
  | cons m ms ih =>
    simp only [List.foldl_cons, ih, List.map_cons, List.sum_cons, List.mem_cons,
      exists_eq_or_imp, aiMesh.numIndices]
    refine Prod.ext (by simp only; omega) (Prod.ext (by simp only; omega) ?_)
    simp only
    by_cases h1 : 65535 < m.mNumFaces * 3 % 4294967296 <;>
      by_cases h2 : ∃ m ∈ ms, 65535 < m.mNumFaces * 3 % 4294967296 <;> simp [h1, h2]

theorem count_spec (ms : List (aiMesh F)) :
    CreateWithAssimp.count ms =
    ((ms.map (fun m => m.mNumVertices)).sum, (ms.map aiMesh.numIndices).sum,
      if ∃ m ∈ ms, m.numIndices > 0xFFFF then IndexType.Index32Bit else IndexType.Index16Bit) := by
  unfold CreateWithAssimp.count
  rw [count_foldl]
  simp

theorem InitFromAssimpMesh_record (ext : Externals F M) (self : Mesh F) (am : aiMesh F)
    (ls : ModelLoadSettings F) (va : List (MeshVertex F)) (dv : Nat) (ia : List Byte) (di : Nat)
    (it : IndexType) (tr : M) :
    let r := Mesh.InitFromAssimpMesh ext self am ls va dv ia di it tr
    r.1.numVertices = am.mNumVertices ∧ r.1.numIndices = am.numIndices ∧ r.1.indexType = it ∧
    r.1.vertices = dv ∧ r.1.indices = di ∧ r.1.numMeshlets = self.numMeshlets ∧
    r.1.meshletOffset = self.meshletOffset :=
  ⟨rfl, rfl, rfl, rfl, rfl, rfl, rfl⟩

/-- The records the second mesh loop of `CreateWithAssimp` leaves in `meshes`. -/
theorem loop_meshes (ext : Externals F M) (ls : ModelLoadSettings F) (it : IndexType) (sz : Nat)
    (srcs : List (aiMesh F × M)) (vo io : Nat) (va : List (MeshVertex F)) (ia : List Byte)
    (amin amax : Float3 F) (i : Nat) (src : aiMesh F × M) (hsrc : srcs[i]? = some src) :
    ∃ mesh, (CreateWithAssimp.loop ext ls it sz srcs vo io va ia amin amax).1[i]? = some mesh ∧
      mesh.numVertices = src.1.mNumVertices ∧ mesh.numIndices = src.1.numIndices ∧
      mesh.indexType = it ∧
      mesh.vtxOffset = (vo + prefixSum (srcs.map (fun p => p.1.mNumVertices)) i) % 2 ^ 32 ∧
      mesh.idxOffset = (io + prefixSum (srcs.map (fun p => p.1.numIndices)) i * sz) % 2 ^ 32 ∧
      mesh.vertices = vo + prefixSum (srcs.map (fun p => p.1.mNumVertices)) i ∧
      mesh.indices = io + prefixSum (srcs.map (fun p => p.1.numIndices)) i * sz := by
  induction srcs generalizing vo io va ia amin amax i with
  | nil => simp at hsrc
  | cons s0 rest ih =>
    obtain ⟨am, tr⟩ := s0
    cases i with
    | zero =>
      simp only [List.getElem?_cons_zero, Option.some.injEq] at hsrc
      subst hsrc
      simp only [CreateWithAssimp.loop, List.getElem?_cons_zero, Option.some.injEq,
        exists_eq_left']
      simp [prefixSum_zero, Mesh.InitFromAssimpMesh, aiMesh.numIndices]
    | succ i =>
      simp only [List.getElem?_cons_succ] at hsrc
      simp only [CreateWithAssimp.loop, List.getElem?_cons_succ, List.map_cons,
        prefixSum_cons_succ]
      obtain ⟨mesh, hm, h1, h2, h3, h4, h5, h6, h7⟩ := ih
        (vo + am.mNumVertices) (io + am.numIndices * sz) _ _ _ _ i hsrc
      refine ⟨mesh, hm, h1, h2, h3, ?_, ?_, ?_, ?_⟩
      · rw [h4]; congr 1; omega
      · rw [h5]; congr 1; rw [Nat.add_mul]; omega
      · rw [h6]; omega
      · rw [h7, Nat.add_mul]; omega

theorem loop_length (ext : Externals F M) (ls : ModelLoadSettings F) (it : IndexType) (sz : Nat)
    (srcs : List (aiMesh F × M)) (vo io : Nat) (va : List (MeshVertex F)) (ia : List Byte)
    (amin amax : Float3 F) :
    (CreateWithAssimp.loop ext ls it sz srcs vo io va ia amin amax).1.length = srcs.length := by
  induction srcs generalizing vo io va ia amin amax with
  | nil => rfl
  | cons s0 rest ih =>
    obtain ⟨am, tr⟩ := s0
    simp only [CreateWithAssimp.loop, List.length_cons, ih]

/-- The records the mesh loop of `CreateBuffers` leaves in `meshes`. -/
theorem CreateBuffers_loop_getElem? (sz : Nat) (ms : List (Mesh F)) (vo io i : Nat) :
    (CreateBuffers.loop sz ms vo io)[i]? = (ms[i]?).map (fun m =>
      m.InitCommon (vo + prefixSum (ms.map (fun m => m.numVertices)) i)
        ((io + prefixSum (ms.map (fun m => m.numIndices)) i) * sz)
        (vo + prefixSum (ms.map (fun m => m.numVertices)) i)
        (io + prefixSum (ms.map (fun m => m.numIndices)) i)) := by
  induction ms generalizing vo io i with
  | nil => simp [CreateBuffers.loop]
  | cons m ms ih =>
    cases i with
    | zero => simp [CreateBuffers.loop, prefixSum_zero]
    | succ i =>
      simp only [CreateBuffers.loop, List.getElem?_cons_succ, ih, List.map_cons,
        prefixSum_cons_succ, Mesh.InitCommon, Nat.add_assoc]

end

/-! ## The vertex array of the import -/

section
variable {F M : Type}

theorem map_const_of_map_eq {α β γ : Type} (f : α → β) (c : γ) (o1 o2 : Option α)
    (h : o1.map f = o2.map f) : o1.map (fun _ => c) = o2.map (fun _ => c) := by
  cases o1 <;> cases o2 <;> simp_all

theorem modifyAt_preserves {α β : Type} (proj : α → β) (l : List α) (i k : Nat) (f : α → α)
    (hf : ∀ v, proj (f v) = proj v) : ((modifyAt l i f)[k]?).map proj = (l[k]?).map proj := by
  rw [getElem?_modifyAt]
  by_cases hk : k = i
  · simp only [hk, if_true, Option.map_map]
    congr 1
    funext v
    exact hf v
  · simp only [hk, if_false]

/-- A loop of member assignments that leave a projection alone leaves it alone
in every slot, and keeps the length. -/
theorem forRange_preserves {α β : Type} (proj : α → β) (body : Nat → List α → List α)
    (hb : ∀ i acc, (body i acc).length = acc.length ∧
      ∀ k : Nat, ((body i acc)[k]?).map proj = (acc[k]?).map proj)
    (n : Nat) (l : List α) :
    (forRange n body l).length = l.length ∧
      ∀ k : Nat, ((forRange n body l)[k]?).map proj = (l[k]?).map proj := by
  refine forRange_induction
    (fun _ (acc : List α) =>
      acc.length = l.length ∧ ∀ k : Nat, (acc[k]?).map proj = (l[k]?).map proj)
    n body l
    ⟨rfl, fun _ => rfl⟩ ?_
  intro i acc _ hacc
  exact ⟨(hb i acc).1.trans hacc.1, fun k => ((hb i acc).2 k).trans (hacc.2 k)⟩

end

section
variable {F M : Type} [LinearOrder F] [Mul F] [Neg F] [One F]

/-- The vertex array after the position loop of `InitFromAssimpMesh`. -/
theorem positionLoop_vertices (ext : Externals F M) (ls : ModelLoadSettings F) (tr : M)
    (ps : List (Float3 F)) (dst n : Nat) (amin amax : Float3 F) (va : List (MeshVertex F)) :
    let r := forRange n (InitFromAssimpMesh.positionBody ext ls tr ps dst) (amin, amax, va)
    r.2.2.length = va.length ∧
    ∀ k, (r.2.2[k]?).map (fun v => v.Position) =
      if dst ≤ k ∧ k < dst + n then
        match ps[k - dst]? with
        | some p => (va[k]?).map (fun _ => InitFromAssimpMesh.position ext ls tr p)
        | none => (va[k]?).map (fun v => v.Position)
      else (va[k]?).map (fun v => v.Position) := by
  refine forRange_induction
    (fun i (r : Float3 F × Float3 F × List (MeshVertex F)) =>
      r.2.2.length = va.length ∧
      ∀ k, (r.2.2[k]?).map (fun v => v.Position) =
        if dst ≤ k ∧ k < dst + i then
          match ps[k - dst]? with
          | some p => (va[k]?).map (fun _ => InitFromAssimpMesh.position ext ls tr p)
          | none => (va[k]?).map (fun v => v.Position)
        else (va[k]?).map (fun v => v.Position)) n _ _ ⟨rfl, fun k => ?_⟩ ?_
  · have : ¬ (dst ≤ k ∧ k < dst + 0) := by omega
    simp only [this, if_false]
  · intro i st _ hst
    obtain ⟨hlen, hpos⟩ := hst
    unfold InitFromAssimpMesh.positionBody
    cases hp : ps[i]? with
    | none =>
      refine ⟨hlen, fun k => ?_⟩
      rw [hpos k]
      by_cases hk : k = dst + i
      · subst hk
        have h1 : ¬ (dst ≤ dst + i ∧ dst + i < dst + i) := by omega
        have h2 : dst ≤ dst + i ∧ dst + i < dst + (i + 1) := by omega
        rw [if_neg h1, if_pos h2]
        simp only [Nat.add_sub_cancel_left, hp]
      · by_cases h1 : dst ≤ k ∧ k < dst + i
        · have h2 : dst ≤ k ∧ k < dst + (i + 1) := by omega
          rw [if_pos h1, if_pos h2]
        · have h2 : ¬ (dst ≤ k ∧ k < dst + (i + 1)) := by omega
          rw [if_neg h1, if_neg h2]
    | some p =>
      simp only
      refine ⟨by rw [length_modifyAt, hlen], fun k => ?_⟩
      rw [getElem?_modifyAt]
      by_cases hk : k = dst + i
      · subst hk
        have h2 : dst ≤ dst + i ∧ dst + i < dst + (i + 1) := by omega
        have h1 : ¬ (dst ≤ dst + i ∧ dst + i < dst + i) := by omega
        have h3 := hpos (dst + i)
        rw [if_neg h1] at h3
        rw [if_pos rfl, if_pos h2]
        simp only [Nat.add_sub_cancel_left, hp, Option.map_map]
        have h4 : ∀ o : Option (MeshVertex F),
            o.map ((fun v => v.Position) ∘ fun v =>
              { v with Position := InitFromAssimpMesh.position ext ls tr p }) =
            (o.map (fun v => v.Position)).map
              (fun _ => InitFromAssimpMesh.position ext ls tr p) := by
          intro o; cases o <;> rfl
        rw [h4, h3, Option.map_map]
        rfl
      · rw [if_neg hk, hpos k]
        by_cases h1 : dst ≤ k ∧ k < dst + i
        · have h2 : dst ≤ k ∧ k < dst + (i + 1) := by omega
          rw [if_pos h1, if_pos h2]
        · have h2 : ¬ (dst ≤ k ∧ k < dst + (i + 1)) := by omega
          rw [if_neg h1, if_neg h2]


theorem copyNormals_frame (ext : Externals F M) (tr : M) (am : aiMesh F) (dv : Nat)
    (l : List (MeshVertex F)) :
    (InitFromAssimpMesh.copyNormals ext tr am dv l).length = l.length ∧
      ∀ k : Nat, ((InitFromAssimpMesh.copyNormals ext tr am dv l)[k]?).map (fun v => v.Position)
        = (l[k]?).map (fun v => v.Position) := by
  unfold InitFromAssimpMesh.copyNormals
  cases am.mNormals with
  | none => exact ⟨rfl, fun _ => rfl⟩
  | some ns =>
    simp only
    split
    · refine forRange_preserves (fun v : MeshVertex F => v.Position) _ (fun i acc => ?_) _ _
      cases ns[i]? with
      | none => exact ⟨rfl, fun _ => rfl⟩
      | some n => exact ⟨length_modifyAt _ _ _, fun k => modifyAt_preserves _ _ _ _ _ (fun _ => rfl)⟩
    · exact ⟨rfl, fun _ => rfl⟩

theorem copyUVs_frame (am : aiMesh F) (dv : Nat) (l : List (MeshVertex F)) :
    (InitFromAssimpMesh.copyUVs am dv l).length = l.length ∧
      ∀ k : Nat, ((InitFromAssimpMesh.copyUVs am dv l)[k]?).map (fun v => v.Position)
        = (l[k]?).map (fun v => v.Position) := by
  unfold InitFromAssimpMesh.copyUVs
  cases am.mTextureCoords0 with
  | none => exact ⟨rfl, fun _ => rfl⟩
  | some ns =>
    simp only
    split
    · refine forRange_preserves (fun v : MeshVertex F => v.Position) _ (fun i acc => ?_) _ _
      cases ns[i]? with
      | none => exact ⟨rfl, fun _ => rfl⟩
      | some n => exact ⟨length_modifyAt _ _ _, fun k => modifyAt_preserves _ _ _ _ _ (fun _ => rfl)⟩
    · exact ⟨rfl, fun _ => rfl⟩

theorem copyTangents_frame (ext : Externals F M) (tr : M) (am : aiMesh F) (dv : Nat)
    (l : List (MeshVertex F)) :
    (InitFromAssimpMesh.copyTangents ext tr am dv l).length = l.length ∧
      ∀ k : Nat, ((InitFromAssimpMesh.copyTangents ext tr am dv l)[k]?).map (fun v => v.Position)
        = (l[k]?).map (fun v => v.Position) := by
  unfold InitFromAssimpMesh.copyTangents
  cases am.mTangents with
  | none => exact ⟨rfl, fun _ => rfl⟩
  | some ts =>
    cases am.mBitangents with
    | none => exact ⟨rfl, fun _ => rfl⟩
    | some bs =>
      simp only
      split
      · refine forRange_preserves (fun v : MeshVertex F => v.Position) _ (fun i acc => ?_) _ _
        cases ts[i]? with
        | none => exact ⟨rfl, fun _ => rfl⟩
        | some t =>
          cases bs[i]? with
          | none => exact ⟨rfl, fun _ => rfl⟩
          | some b =>
            exact ⟨length_modifyAt _ _ _, fun k => modifyAt_preserves _ _ _ _ _ (fun _ => rfl)⟩
      · exact ⟨rfl, fun _ => rfl⟩

theorem copyPositions_vertices (ext : Externals F M) (ls : ModelLoadSettings F) (tr : M)
    (am : aiMesh F) (dv : Nat) (amin amax : Float3 F) (va : List (MeshVertex F)) :
    let r := InitFromAssimpMesh.copyPositions ext ls tr am dv (amin, amax, va)
    r.2.2.length = va.length ∧
    (∀ k : Nat, ¬ (dv ≤ k ∧ k < dv + am.mNumVertices) →
      (r.2.2[k]?).map (fun v => v.Position) = (va[k]?).map (fun v => v.Position)) ∧
    (∀ ps j p, am.mVertices = some ps → j < am.mNumVertices → ps[j]? = some p →
      (r.2.2[dv + j]?).map (fun v => v.Position) =
        (va[dv + j]?).map (fun _ => InitFromAssimpMesh.position ext ls tr p)) := by
  unfold InitFromAssimpMesh.copyPositions
  cases hv : am.mVertices with
  | none =>
    exact ⟨rfl, fun _ _ => rfl, fun ps j p h => by simp at h⟩
  | some mv =>
    simp only
    split
    · obtain ⟨h1, h2⟩ := positionLoop_vertices ext ls tr mv dv am.mNumVertices
        (Float3.splat ext.FloatMax) (Float3.splat (-ext.FloatMax)) va
      refine ⟨h1, fun k hk => ?_, fun ps j p hps hj hp => ?_⟩
      · rw [h2 k, if_neg hk]
      · simp only [Option.some.injEq] at hps
        subst hps
        have hin : dv ≤ dv + j ∧ dv + j < dv + am.mNumVertices := by omega
        rw [h2 (dv + j), if_pos hin]
        simp only [Nat.add_sub_cancel_left, hp]
    · rename_i h0
      exact ⟨rfl, fun _ _ => rfl, fun ps j p _ hj _ => by omega⟩

/-- The vertex array after `InitFromAssimpMesh`: its length is kept, the
positions outside the destination range are kept, and slot `j` of the range
holds the position computed from source vertex `j`. -/
theorem InitFromAssimpMesh_vertices (ext : Externals F M) (self : Mesh F) (am : aiMesh F)
    (ls : ModelLoadSettings F) (va : List (MeshVertex F)) (dv : Nat) (ia : List Byte) (di : Nat)
    (it : IndexType) (tr : M) :
    let r := Mesh.InitFromAssimpMesh ext self am ls va dv ia di it tr
    r.2.1.length = va.length ∧
    (∀ k : Nat, ¬ (dv ≤ k ∧ k < dv + am.mNumVertices) →
      (r.2.1[k]?).map (fun v => v.Position) = (va[k]?).map (fun v => v.Position)) ∧
    (∀ ps j p, am.mVertices = some ps → j < am.mNumVertices → ps[j]? = some p →
      (r.2.1[dv + j]?).map (fun v => v.Position) =
        (va[dv + j]?).map (fun _ => InitFromAssimpMesh.position ext ls tr p)) := by
  obtain ⟨p1, p2, p3⟩ := copyPositions_vertices ext ls tr am dv self.aabbMin self.aabbMax va
  simp only [Mesh.InitFromAssimpMesh]
  have hn := copyNormals_frame ext tr am dv
    (InitFromAssimpMesh.copyPositions ext ls tr am dv (self.aabbMin, self.aabbMax, va)).2.2
  have hu := copyUVs_frame am dv (InitFromAssimpMesh.copyNormals ext tr am dv
    (InitFromAssimpMesh.copyPositions ext ls tr am dv (self.aabbMin, self.aabbMax, va)).2.2)
  have ht := copyTangents_frame ext tr am dv (InitFromAssimpMesh.copyUVs am dv
    (InitFromAssimpMesh.copyNormals ext tr am dv
      (InitFromAssimpMesh.copyPositions ext ls tr am dv (self.aabbMin, self.aabbMax, va)).2.2))
  refine ⟨?_, fun k hk => ?_, fun ps j p hps hj hp => ?_⟩
  · rw [ht.1, hu.1, hn.1, p1]
  · rw [ht.2, hu.2, hn.2, p2 k hk]
  · rw [ht.2, hu.2, hn.2, p3 ps j p hps hj hp]

/-- The vertex array after the second mesh loop of `CreateWithAssimp`: slot `j`
of the range of mesh `i` holds the position computed from its source vertex
`j`, and the positions below the starting offset are kept. -/
theorem loop_vertices (ext : Externals F M) (ls : ModelLoadSettings F) (it : IndexType) (sz : Nat)
    (srcs : List (aiMesh F × M)) (vo io : Nat) (va : List (MeshVertex F)) (ia : List Byte)
    (amin amax : Float3 F) :
    let r := CreateWithAssimp.loop ext ls it sz srcs vo io va ia amin amax
    r.2.1.length = va.length ∧
    (∀ k : Nat, k < vo →
      (r.2.1[k]?).map (fun v => v.Position) = (va[k]?).map (fun v => v.Position)) ∧
    (∀ i src ps j p, srcs[i]? = some src → src.1.mVertices = some ps → j < src.1.mNumVertices →
      ps[j]? = some p →
      (r.2.1[vo + prefixSum (srcs.map (fun s => s.1.mNumVertices)) i + j]?).map
          (fun v => v.Position) =
        (va[vo + prefixSum (srcs.map (fun s => s.1.mNumVertices)) i + j]?).map
          (fun _ => InitFromAssimpMesh.position ext ls src.2 p)) := by
  induction srcs generalizing vo io va ia amin amax with
  | nil =>
    exact ⟨rfl, fun _ _ => rfl, fun i src ps j p h => by simp at h⟩
  | cons s0 rest ih =>
    obtain ⟨am, tr⟩ := s0
    obtain ⟨q1, q2, q3⟩ := InitFromAssimpMesh_vertices ext ext.freshMesh am ls va vo ia io it tr
    simp only [CreateWithAssimp.loop]
    obtain ⟨r1, r2, r3⟩ := ih (vo + am.mNumVertices)
      (io + (am.mNumFaces * 3) % 2 ^ 32 * sz)
      (Mesh.InitFromAssimpMesh ext ext.freshMesh am ls va vo ia io it tr).2.1
      (Mesh.InitFromAssimpMesh ext ext.freshMesh am ls va vo ia io it tr).2.2
      (Float3.Min amin (Mesh.InitFromAssimpMesh ext ext.freshMesh am ls va vo ia io it tr).1.aabbMin)
      (Float3.Max amax (Mesh.InitFromAssimpMesh ext ext.freshMesh am ls va vo ia io it tr).1.aabbMax)
    refine ⟨r1.trans q1, fun k hk => ?_, fun i src ps j p hsrc hps hj hp => ?_⟩
    · exact (r2 k (by omega)).trans (q2 k (by omega))
    · cases i with
      | zero =>
        simp only [List.getElem?_cons_zero, Option.some.injEq] at hsrc
        subst hsrc
        simp only [prefixSum_zero, Nat.add_zero]
        have hj1 : j < am.mNumVertices := hj
        exact (r2 (vo + j) (by omega)).trans (q3 ps j p hps hj1 hp)
      | succ i =>
        simp only [List.getElem?_cons_succ] at hsrc
        simp only [List.map_cons, prefixSum_cons_succ]
        have h3 := r3 i src ps j p hsrc hps hj hp
        have e : vo + (am.mNumVertices + prefixSum (rest.map (fun s => s.1.mNumVertices)) i) + j
            = vo + am.mNumVertices + prefixSum (rest.map (fun s => s.1.mNumVertices)) i + j := by
          omega
        have hout : ¬ (vo ≤ vo + am.mNumVertices +
            prefixSum (rest.map (fun s => s.1.mNumVertices)) i + j ∧
            vo + am.mNumVertices + prefixSum (rest.map (fun s => s.1.mNumVertices)) i + j
              < vo + am.mNumVertices) := by omega
        rw [e]
        exact h3.trans (map_const_of_map_eq _ _ _ _ (q2 _ hout))

end

/-! ## The finished model of the import -/

section
variable {F M : Type} [LinearOrder F] [Mul F] [Neg F] [One F]

theorem prefixSum_succ (l : List Nat) (i a : Nat) (h : l[i]? = some a) :
    prefixSum l (i + 1) = prefixSum l i + a := by
  induction l generalizing i with
  | nil => simp at h
  | cons b l ih =>
    cases i with
    | zero =>
      simp at h
      subst h
      simp [prefixSum]
    | succ i =>
      simp at h
      rw [prefixSum_cons_succ, prefixSum_cons_succ, ih i h, Nat.add_assoc]

theorem prefixSum_length (l : List Nat) : prefixSum l l.length = l.sum := by
  simp [prefixSum]

/-- The mesh records of the assembled model, against the source meshes. -/
theorem assemble_meshes (ext : Externals F M) (ls : ModelLoadSettings F)
    (mMeshes : List (aiMesh F × M)) (self : Model F) :
    let asm := CreateWithAssimp.assemble ext ls mMeshes self
    asm.meshes.map (fun m => m.numVertices) = mMeshes.map (fun p => p.1.mNumVertices) ∧
    asm.meshes.map (fun m => m.numIndices) = mMeshes.map (fun p => p.1.numIndices) ∧
    asm.meshes.length = mMeshes.length ∧
    (∀ m ∈ asm.meshes, m.indexType = asm.indexType) ∧
    (∀ i m, asm.meshes[i]? = some m →
      m.vtxOffset = prefixSum (mMeshes.map (fun p => p.1.mNumVertices)) i % 2 ^ 32 ∧
      m.idxOffset = (prefixSum (mMeshes.map (fun p => p.1.numIndices)) i *
        (if asm.indexType = IndexType.Index32Bit then 4 else 2)) % 2 ^ 32) := by
  intro asm
  have hlen : asm.meshes.length = mMeshes.length := loop_length _ _ _ _ _ _ _ _ _ _ _
  have key : ∀ i m, asm.meshes[i]? = some m → ∃ src, mMeshes[i]? = some src ∧
      m.numVertices = src.1.mNumVertices ∧ m.numIndices = src.1.numIndices ∧
      m.indexType = asm.indexType ∧
      m.vtxOffset = prefixSum (mMeshes.map (fun p => p.1.mNumVertices)) i % 2 ^ 32 ∧
      m.idxOffset = (prefixSum (mMeshes.map (fun p => p.1.numIndices)) i *
        (if asm.indexType = IndexType.Index32Bit then 4 else 2)) % 2 ^ 32 := by
    intro i m hm
    have hi : i < mMeshes.length := by
      rw [← hlen]; exact (List.getElem?_eq_some.mp hm).1
    obtain ⟨mesh, h0, h1, h2, h3, h4, h5, _, _⟩ := loop_meshes ext ls asm.indexType
      (if asm.indexType = IndexType.Index32Bit then 4 else 2) mMeshes 0 0
      (List.replicate (CreateWithAssimp.count (mMeshes.map (fun p => p.1))).1 ext.freshVertex)
      (List.replicate ((CreateWithAssimp.count (mMeshes.map (fun p => p.1))).2.1 *
        (if asm.indexType = IndexType.Index32Bit then 4 else 2)) 0)
      (Float3.splat ext.FloatMax) (Float3.splat (-ext.FloatMax)) i mMeshes[i]
      (List.getElem?_eq_getElem hi)
    have hm' : asm.meshes[i]? = some mesh := h0
    rw [hm] at hm'
    simp only [Option.some.injEq] at hm'
    subst hm'
    refine ⟨mMeshes[i], List.getElem?_eq_getElem hi, h1, h2, h3, ?_, ?_⟩
    · rw [h4, Nat.zero_add]
    · rw [h5, Nat.zero_add]
  refine ⟨?_, ?_, hlen, ?_, ?_⟩
  · apply List.ext_getElem?
    intro i
    simp only [List.getElem?_map]
    cases hm : asm.meshes[i]? with
    | none =>
      have : mMeshes[i]? = none := by
        rw [List.getElem?_eq_none_iff] at hm ⊢; omega
      simp [this]
    | some m =>
      obtain ⟨src, hs, h1, _⟩ := key i m hm
      simp [hs, h1]
  · apply List.ext_getElem?
    intro i
    simp only [List.getElem?_map]
    cases hm : asm.meshes[i]? with
    | none =>
      have : mMeshes[i]? = none := by
        rw [List.getElem?_eq_none_iff] at hm ⊢; omega
      simp [this]
    | some m =>
      obtain ⟨src, hs, _, h2, _⟩ := key i m hm
      simp [hs, h2]
  · intro m hm
    obtain ⟨i, hi⟩ := List.mem_iff_getElem?.mp hm
    obtain ⟨_, _, _, _, h3, _⟩ := key i m hi
    exact h3
  · intro i m hm
    obtain ⟨_, _, _, _, _, h4, h5⟩ := key i m hm
    exact ⟨h4, h5⟩

/-- The model handed to `CreateBuffers` has the geometry of the assembled one. -/
theorem beforeBuffers_sameGeometry (ext : Externals F M) (b : Bool) (asm : Model F) :
    (if b then asm.GenerateMeshlets ext else asm).sameGeometry asm := by
  cases b with
  | false => exact ⟨rfl, rfl, rfl, rfl, rfl, rfl⟩
  | true => exact GenerateMeshlets_sameGeometry ext asm

theorem sameGeometry_map {a b : Model F} (h : a.sameGeometry b) {β : Type} (f : Mesh F → β)
    (hf : ∀ m, f m.withoutMeshlets = f m) : a.meshes.map f = b.meshes.map f := by
  have h1 := congrArg (List.map f) h.1
  simp only [List.map_map] at h1
  have e : f ∘ Mesh.withoutMeshlets = f := funext hf
  rwa [e] at h1

theorem CreateBuffers_loop_length (sz : Nat) (ms : List (Mesh F)) (vo io : Nat) :
    (CreateBuffers.loop sz ms vo io).length = ms.length := by
  induction ms generalizing vo io with
  | nil => rfl
  | cons m ms ih => simp only [CreateBuffers.loop, List.length_cons, ih]

/-- The mesh records of the finished model: those of `CreateBuffers` over the
counts of the source meshes. -/
theorem CreateWithAssimp_meshes (ext : Externals F M) (ls : ModelLoadSettings F)
    (mMeshes : List (aiMesh F × M)) (self : Model F) :
    let model := Model.CreateWithAssimp ext ls mMeshes self
    let asm := CreateWithAssimp.assemble ext ls mMeshes self
    model.vertices = asm.vertices ∧ model.indices = asm.indices ∧
    model.indexType = asm.indexType ∧ model.meshes.length = mMeshes.length ∧
    ∀ i mesh, model.meshes[i]? = some mesh → ∃ src, mMeshes[i]? = some src ∧
      mesh.numVertices = src.1.mNumVertices ∧ mesh.numIndices = src.1.numIndices ∧
      mesh.indexType = model.indexType ∧
      mesh.vtxOffset = prefixSum (mMeshes.map (fun p => p.1.mNumVertices)) i % 2 ^ 32 ∧
      mesh.idxOffset = prefixSum (mMeshes.map (fun p => p.1.numIndices)) i % 2 ^ 32 ∧
      mesh.vertices = prefixSum (mMeshes.map (fun p => p.1.mNumVertices)) i ∧
      mesh.indices =
        prefixSum (mMeshes.map (fun p => p.1.numIndices)) i * model.indexType.IndexSize := by
  intro model asm
  have hg := beforeBuffers_sameGeometry ext ls.GenerateMeshlets asm
  obtain ⟨a1, a2, a3, a4, _⟩ := assemble_meshes ext ls mMeshes self
  have hnv := (sameGeometry_map hg (fun m => m.numVertices) (fun _ => rfl)).trans a1
  have hni := (sameGeometry_map hg (fun m => m.numIndices) (fun _ => rfl)).trans a2
  have hit := sameGeometry_map hg (fun m => m.indexType) (fun _ => rfl)
  have hlen : (if ls.GenerateMeshlets = true then asm.GenerateMeshlets ext else asm).meshes.length
      = mMeshes.length := by
    have := congrArg List.length hnv
    simpa using this
  have hmi : model.indexType = asm.indexType := hg.2.2.2.1
  refine ⟨hg.2.1, hg.2.2.1, hmi, ?_, ?_⟩
  · exact (CreateBuffers_loop_length _ _ _ _).trans hlen
  · intro i mesh hmesh
    have h1 : model.meshes[i]? = _ := CreateBuffers_loop_getElem? _ _ 0 0 i
    rw [hmesh] at h1
    cases hm0 : (if ls.GenerateMeshlets = true then asm.GenerateMeshlets ext else asm).meshes[i]? with
    | none => rw [hm0] at h1; simp at h1
    | some m0 =>
      rw [hm0] at h1
      simp only [Option.map_some', Option.some.injEq, Nat.zero_add] at h1
      rw [hnv, hni] at h1
      have hi : i < mMeshes.length := by
        rw [← hlen]; exact (List.getElem?_eq_some.mp hm0).1
      have e1 : m0.numVertices = mMeshes[i].1.mNumVertices := by
        have := congrArg (fun l : List Nat => l[i]?) hnv
        simpa [hm0, List.getElem?_eq_getElem hi] using this
      have e2 : m0.numIndices = mMeshes[i].1.numIndices := by
        have := congrArg (fun l : List Nat => l[i]?) hni
        simpa [hm0, List.getElem?_eq_getElem hi] using this
      have e3 : m0.indexType = asm.indexType := by
        have h := congrArg (fun l : List IndexType => l[i]?) hit
        simp only [List.getElem?_map, hm0, Option.map_some'] at h
        cases hm1 : asm.meshes[i]? with
        | none => rw [hm1] at h; simp at h
        | some m1 =>
          rw [hm1] at h
          simp only [Option.map_some', Option.some.injEq] at h
          rw [h]
          exact a4 m1 (List.mem_iff_getElem?.mpr ⟨i, hm1⟩)
      refine ⟨mMeshes[i], List.getElem?_eq_getElem hi, ?_⟩
      subst h1
      refine ⟨e1, e2, e3.trans hmi.symm, rfl, rfl, rfl, ?_⟩
      simp only [Mesh.InitCommon]
      rfl

end

/-! ## Vertex and index offsets of the import -/

section
variable {F M : Type} [LinearOrder F] [Mul F] [Neg F] [One F]

theorem getElem?_replicate_map_const {α β : Type} (n k : Nat) (a : α) (c : β) (h : k < n) :
    ((List.replicate n a)[k]?).map (fun _ => c) = some c := by
  simp [List.getElem?_replicate, h]

/-- C6: for a scene whose total vertex count is below `2 ^ 32`, the model built
by `CreateWithAssimp` has one mesh per source mesh; mesh `i` records as
`vtxOffset` the sum of the vertex counts of the meshes before it, the value the
assembly loop had recorded before `CreateBuffers` recorded it again; its vertex
pointer addresses that slot; slot `vtxOffset + j` of the global vertex array
holds the position computed from its source vertex `j`; the next mesh starts
where it ends; and the vertex counts add up to the length of the array. -/
theorem CreateWithAssimp_vertex_offsets (ext : Externals F M) (settings : ModelLoadSettings F)
    (mMeshes : List (aiMesh F × M)) (self : Model F)
    (hfit : (mMeshes.map (fun p => p.1.mNumVertices)).sum < 2 ^ 32) :
    let model := Model.CreateWithAssimp ext settings mMeshes self
    let recorded := (CreateWithAssimp.assemble ext settings mMeshes self).meshes
    model.meshes.length = mMeshes.length ∧
    model.vertices.length = (mMeshes.map (fun p => p.1.mNumVertices)).sum ∧
    ∀ i src, mMeshes[i]? = some src →
      ∃ mesh, model.meshes[i]? = some mesh ∧
        mesh.vtxOffset = prefixSum (mMeshes.map (fun p => p.1.mNumVertices)) i ∧
        mesh.numVertices = src.1.mNumVertices ∧
        mesh.vertices = mesh.vtxOffset ∧
        mesh.vtxOffset + mesh.numVertices ≤ model.vertices.length ∧
        (recorded[i]?).map (fun m => m.vtxOffset) = some mesh.vtxOffset ∧
        (∀ next, model.meshes[i + 1]? = some next →
          next.vtxOffset = mesh.vtxOffset + mesh.numVertices) ∧
        ∀ ps j p, src.1.mVertices = some ps → j < src.1.mNumVertices → ps[j]? = some p →
          (model.vertices[mesh.vtxOffset + j]?).map (fun v => v.Position) =
            some (InitFromAssimpMesh.position ext settings src.2 p) := by
  intro model recorded
  obtain ⟨hv, _, hit, hlen, hm⟩ := CreateWithAssimp_meshes ext settings mMeshes self
  obtain ⟨_, _, alen, _, aoff⟩ := assemble_meshes ext settings mMeshes self
  have hcount := count_spec (mMeshes.map (fun p => p.1))
  simp only [List.map_map] at hcount
  have hvl : model.vertices.length = (mMeshes.map (fun p => p.1.mNumVertices)).sum := by
    rw [hv]
    have h := (loop_vertices ext settings
      (CreateWithAssimp.count (mMeshes.map (fun p => p.1))).2.2
      (if (CreateWithAssimp.count (mMeshes.map (fun p => p.1))).2.2 = IndexType.Index32Bit
        then 4 else 2) mMeshes 0 0
      (List.replicate (CreateWithAssimp.count (mMeshes.map (fun p => p.1))).1 ext.freshVertex)
      (List.replicate ((CreateWithAssimp.count (mMeshes.map (fun p => p.1))).2.1 *
        (if (CreateWithAssimp.count (mMeshes.map (fun p => p.1))).2.2 = IndexType.Index32Bit
          then 4 else 2)) 0)
      (Float3.splat ext.FloatMax) (Float3.splat (-ext.FloatMax))).1
    refine h.trans ?_
    rw [List.length_replicate, hcount]
    rfl
  refine ⟨hlen, hvl, fun i src hsrc => ?_⟩
  have hi : i < mMeshes.length := (List.getElem?_eq_some.mp hsrc).1
  have hsrcnv : (mMeshes.map (fun p => p.1.mNumVertices))[i]? = some src.1.mNumVertices := by
    simp [hsrc]
  have hle := prefixSum_succ_le _ i _ hsrcnv
  have hmod : prefixSum (mMeshes.map (fun p => p.1.mNumVertices)) i % 2 ^ 32
      = prefixSum (mMeshes.map (fun p => p.1.mNumVertices)) i := Nat.mod_eq_of_lt (by omega)
  obtain ⟨mesh, hmesh⟩ : ∃ mesh, model.meshes[i]? = some mesh :=
    ⟨_, List.getElem?_eq_getElem (by rw [hlen]; exact hi)⟩
  obtain ⟨src', hs', h1, _, _, h4, _, h6, _⟩ := hm i mesh hmesh
  rw [hsrc] at hs'
  simp only [Option.some.injEq] at hs'
  subst hs'
  rw [hmod] at h4
  refine ⟨mesh, hmesh, h4, h1, by rw [h6, h4], by rw [h4, h1, hvl]; exact hle, ?_, ?_, ?_⟩
  · obtain ⟨m1, hm1⟩ : ∃ m1, recorded[i]? = some m1 :=
      ⟨_, List.getElem?_eq_getElem (by rw [alen]; exact hi)⟩
    rw [hm1, Option.map_some', (aoff i m1 hm1).1, hmod, h4]
  · intro next hnext
    obtain ⟨_, _, _, _, _, n4, _⟩ := hm (i + 1) next hnext
    rw [n4, prefixSum_succ _ i _ hsrcnv, h4, h1]
    exact Nat.mod_eq_of_lt (by omega)
  · intro ps j p hps hj hp
    rw [h4, hv]
    have h := (loop_vertices ext settings
      (CreateWithAssimp.count (mMeshes.map (fun p => p.1))).2.2
      (if (CreateWithAssimp.count (mMeshes.map (fun p => p.1))).2.2 = IndexType.Index32Bit
        then 4 else 2) mMeshes 0 0
      (List.replicate (CreateWithAssimp.count (mMeshes.map (fun p => p.1))).1 ext.freshVertex)
      (List.replicate ((CreateWithAssimp.count (mMeshes.map (fun p => p.1))).2.1 *
        (if (CreateWithAssimp.count (mMeshes.map (fun p => p.1))).2.2 = IndexType.Index32Bit
          then 4 else 2)) 0)
      (Float3.splat ext.FloatMax) (Float3.splat (-ext.FloatMax))).2.2 i src ps j p hsrc hps hj hp
    simp only [Nat.zero_add] at h
    refine h.trans ?_
    apply getElem?_replicate_map_const
    rw [hcount]
    show prefixSum (mMeshes.map (fun p => p.1.mNumVertices)) i + j
      < (mMeshes.map (fun p => p.1.mNumVertices)).sum
    omega

theorem CreateWithAssimp_vertex_offsets_witness :
    ((Examples.twoTriangles.map (fun p => p.1.mNumVertices)).sum < 2 ^ 32) ∧
    (let model := Model.CreateWithAssimp Examples.ext Examples.settings Examples.twoTriangles
      Examples.model0
    let recorded := (CreateWithAssimp.assemble Examples.ext Examples.settings
      Examples.twoTriangles Examples.model0).meshes
    model.meshes.length = Examples.twoTriangles.length ∧
    model.vertices.length = (Examples.twoTriangles.map (fun p => p.1.mNumVertices)).sum ∧
    ∀ i src, Examples.twoTriangles[i]? = some src →
      ∃ mesh, model.meshes[i]? = some mesh ∧
        mesh.vtxOffset = prefixSum (Examples.twoTriangles.map (fun p => p.1.mNumVertices)) i ∧
        mesh.numVertices = src.1.mNumVertices ∧
        mesh.vertices = mesh.vtxOffset ∧
        mesh.vtxOffset + mesh.numVertices ≤ model.vertices.length ∧
        (recorded[i]?).map (fun m => m.vtxOffset) = some mesh.vtxOffset ∧
        (∀ next, model.meshes[i + 1]? = some next →
          next.vtxOffset = mesh.vtxOffset + mesh.numVertices) ∧
        ∀ ps j p, src.1.mVertices = some ps → j < src.1.mNumVertices → ps[j]? = some p →
          (model.vertices[mesh.vtxOffset + j]?).map (fun v => v.Position) =
            some (InitFromAssimpMesh.position Examples.ext Examples.settings src.2 p)) :=
  ⟨by decide, CreateWithAssimp_vertex_offsets Examples.ext Examples.settings Examples.twoTriangles
    Examples.model0 (by decide)⟩

end

section
variable {F M : Type} [LinearOrder F] [Mul F] [Neg F] [One F]

theorem le_sum_of_mem (l : List Nat) (x : Nat) (h : x ∈ l) : x ≤ l.sum := by
  induction l with
  | nil => simp at h
  | cons a l ih =>
    rw [List.sum_cons]
    rcases List.mem_cons.mp h with h | h
    · omega
    · have := ih h; omega

theorem length_storeBytes (mem : List Byte) (addr : Nat) (bytes : List Byte) :
    (storeBytes mem addr bytes).length = mem.length := by
  unfold storeBytes
  refine forRange_length _ (fun i acc => ?_) _ _
  cases bytes[i]? <;> simp

theorem length_copyIndices (am : aiMesh F) (it : IndexType) (di : Nat) (ia : List Byte) :
    (InitFromAssimpMesh.copyIndices am it di ia).length = ia.length := by
  unfold InitFromAssimpMesh.copyIndices
  cases it with
  | Index16Bit =>
    exact forRange_length _ (fun i acc => by simp only [store16, length_storeBytes]) _ _
  | Index32Bit =>
    exact forRange_length _ (fun i acc => by simp only [store32, length_storeBytes]) _ _

theorem loop_indices_length (ext : Externals F M) (ls : ModelLoadSettings F) (it : IndexType)
    (sz : Nat) (srcs : List (aiMesh F × M)) (vo io : Nat) (va : List (MeshVertex F))
    (ia : List Byte) (amin amax : Float3 F) :
    (CreateWithAssimp.loop ext ls it sz srcs vo io va ia amin amax).2.2.1.length = ia.length := by
  induction srcs generalizing vo io va ia amin amax with
  | nil => rfl
  | cons s0 rest ih =>
    obtain ⟨am, tr⟩ := s0
    simp only [CreateWithAssimp.loop]
    rw [ih]
    exact length_copyIndices am it io ia

/-- C7 fails as stated: in the model built from two one-triangle meshes with
16-bit indices, the second mesh records `idxOffset = 3`, the number of indices
before it, while its first index lies at byte 6 of the index array. -/
theorem CreateWithAssimp_idxOffset_counterexample :
    ((Model.CreateWithAssimp Examples.ext Examples.settings Examples.twoTriangles
        Examples.model0).meshes.map (fun m => (m.idxOffset, m.indices))) = [(0, 0), (3, 6)] ∧
    ¬ IdxOffsetIsByteOffset Examples.twoTriangles
      (Model.CreateWithAssimp Examples.ext Examples.settings Examples.twoTriangles
        Examples.model0) := by
  refine ⟨by decide, fun h => ?_⟩
  have h1 := h 1 _ (by decide :
    (Model.CreateWithAssimp Examples.ext Examples.settings Examples.twoTriangles
        Examples.model0).meshes[1]? = some
      { meshParts := [⟨0, 3, 0, 3, 0⟩], numVertices := 3, numIndices := 3, vtxOffset := 3,
        idxOffset := 3, indexType := IndexType.Index16Bit, vertices := 3, indices := 6,
        aabbMin := ⟨0, 0, 0⟩, aabbMax := ⟨1, 1, 0⟩, numMeshlets := 0, meshletOffset := 0 })
  revert h1
  decide

/-- C7, amended: for a scene whose total index count is below `2 ^ 32`, mesh `i`
of the finished model records as `idxOffset` the number of indices of the meshes
before it (an element offset); its index pointer lies `idxOffset` times the
index size into the global index byte array, whose length is the total index
count times the index size. -/
theorem CreateWithAssimp_index_offsets (ext : Externals F M) (settings : ModelLoadSettings F)
    (mMeshes : List (aiMesh F × M)) (self : Model F)
    (hfit : (mMeshes.map (fun p => p.1.mNumFaces * 3)).sum < 2 ^ 32) :
    let model := Model.CreateWithAssimp ext settings mMeshes self
    model.indices.length =
      (mMeshes.map (fun p => p.1.mNumFaces * 3)).sum * model.indexType.IndexSize ∧
    ∀ i src, mMeshes[i]? = some src →
      ∃ mesh, model.meshes[i]? = some mesh ∧
        mesh.numIndices = src.1.mNumFaces * 3 ∧
        mesh.idxOffset = prefixSum (mMeshes.map (fun p => p.1.mNumFaces * 3)) i ∧
        mesh.indices = mesh.idxOffset * model.indexType.IndexSize ∧
        mesh.indices + mesh.numIndices * model.indexType.IndexSize ≤ model.indices.length := by
  intro model
  obtain ⟨_, hix, hit, hlen, hm⟩ := CreateWithAssimp_meshes ext settings mMeshes self
  have hni : mMeshes.map (fun p => p.1.numIndices) = mMeshes.map (fun p => p.1.mNumFaces * 3) := by
    apply List.map_congr_left
    intro p hp
    have : p.1.mNumFaces * 3 ≤ (mMeshes.map (fun p => p.1.mNumFaces * 3)).sum :=
      le_sum_of_mem _ _ (List.mem_map.mpr ⟨p, hp, rfl⟩)
    exact Nat.mod_eq_of_lt (by omega)
  rw [hni] at hm
  have hcount := count_spec (mMeshes.map (fun p => p.1))
  simp only [List.map_map] at hcount
  have hsz : (if (CreateWithAssimp.count (mMeshes.map (fun p => p.1))).2.2 = IndexType.Index32Bit
      then 4 else 2) = model.indexType.IndexSize := by
    rw [hit]
    show _ = (CreateWithAssimp.count (mMeshes.map (fun p => p.1))).2.2.IndexSize
    cases (CreateWithAssimp.count (mMeshes.map (fun p => p.1))).2.2 <;> rfl
  have hil : model.indices.length =
      (mMeshes.map (fun p => p.1.mNumFaces * 3)).sum * model.indexType.IndexSize := by
    rw [hix]
    refine (loop_indices_length _ _ _ _ _ _ _ _ _ _ _).trans ?_
    rw [List.length_replicate, hsz, hcount]
    show (mMeshes.map (fun p => p.1.numIndices)).sum * _ = _
    rw [hni]
  refine ⟨hil, fun i src hsrc => ?_⟩
  have hi : i < mMeshes.length := (List.getElem?_eq_some.mp hsrc).1
  have hsrcni : (mMeshes.map (fun p => p.1.mNumFaces * 3))[i]? = some (src.1.mNumFaces * 3) := by
    simp [hsrc]
  have hle := prefixSum_succ_le _ i _ hsrcni
  obtain ⟨mesh, hmesh⟩ : ∃ mesh, model.meshes[i]? = some mesh :=
    ⟨_, List.getElem?_eq_getElem (by rw [hlen]; exact hi)⟩
  obtain ⟨src', hs', _, h2, _, _, h5, _, h7⟩ := hm i mesh hmesh
  rw [hsrc] at hs'
  simp only [Option.some.injEq] at hs'
  subst hs'
  have h2' : mesh.numIndices = src.1.mNumFaces * 3 := by
    rw [h2]
    exact Nat.mod_eq_of_lt (by omega)
  have h5' : mesh.idxOffset = prefixSum (mMeshes.map (fun p => p.1.mNumFaces * 3)) i := by
    rw [h5]
    exact Nat.mod_eq_of_lt (by omega)
  refine ⟨mesh, hmesh, h2', h5', by rw [h7, h5'], ?_⟩
  rw [h7, h2', hil, ← Nat.add_mul]
  exact Nat.mul_le_mul_right _ hle

theorem CreateWithAssimp_index_offsets_witness :
    ((Examples.twoTriangles.map (fun p => p.1.mNumFaces * 3)).sum < 2 ^ 32) ∧
    (let model := Model.CreateWithAssimp Examples.ext Examples.settings Examples.twoTriangles
      Examples.model0
    model.indices.length =
      (Examples.twoTriangles.map (fun p => p.1.mNumFaces * 3)).sum * model.indexType.IndexSize ∧
    ∀ i src, Examples.twoTriangles[i]? = some src →
      ∃ mesh, model.meshes[i]? = some mesh ∧
        mesh.numIndices = src.1.mNumFaces * 3 ∧
        mesh.idxOffset = prefixSum (Examples.twoTriangles.map (fun p => p.1.mNumFaces * 3)) i ∧
        mesh.indices = mesh.idxOffset * model.indexType.IndexSize ∧
        mesh.indices + mesh.numIndices * model.indexType.IndexSize ≤ model.indices.length) :=
  ⟨by decide, CreateWithAssimp_index_offsets Examples.ext Examples.settings Examples.twoTriangles
    Examples.model0 (by decide)⟩

/-- C8: for a scene in which the index count `mNumFaces * 3` of every mesh fits
`unsigned int`, the model built by `CreateWithAssimp` has 32-bit indices if and
only if some source mesh has `mNumFaces * 3 > 65535`, and 16-bit indices
otherwise; every mesh of the model carries the index type of the model. -/
theorem CreateWithAssimp_indexType (ext : Externals F M) (settings : ModelLoadSettings F)
    (mMeshes : List (aiMesh F × M)) (self : Model F)
    (hfit : ∀ p ∈ mMeshes, p.1.mNumFaces * 3 < 2 ^ 32) :
    let model := Model.CreateWithAssimp ext settings mMeshes self
    (model.indexType = IndexType.Index32Bit ↔ ∃ p ∈ mMeshes, p.1.mNumFaces * 3 > 65535) ∧
    (model.indexType = IndexType.Index16Bit ↔ ¬ ∃ p ∈ mMeshes, p.1.mNumFaces * 3 > 65535) ∧
    ∀ mesh ∈ model.meshes, mesh.indexType = model.indexType := by
  intro model
  obtain ⟨_, _, hit, _, hm⟩ := CreateWithAssimp_meshes ext settings mMeshes self
  have hcount := count_spec (mMeshes.map (fun p => p.1))
  have hex : (∃ m ∈ mMeshes.map (fun p => p.1), m.numIndices > 0xFFFF) ↔
      ∃ p ∈ mMeshes, p.1.mNumFaces * 3 > 65535 := by
    constructor
    · rintro ⟨m, hm1, hm2⟩
      obtain ⟨p, hp, rfl⟩ := List.mem_map.mp hm1
      refine ⟨p, hp, ?_⟩
      have : p.1.numIndices = p.1.mNumFaces * 3 := Nat.mod_eq_of_lt (hfit p hp)
      omega
    · rintro ⟨p, hp, h⟩
      refine ⟨p.1, List.mem_map.mpr ⟨p, hp, rfl⟩, ?_⟩
      have : p.1.numIndices = p.1.mNumFaces * 3 := Nat.mod_eq_of_lt (hfit p hp)
      omega
  have hty : model.indexType =
      if ∃ p ∈ mMeshes, p.1.mNumFaces * 3 > 65535 then IndexType.Index32Bit
      else IndexType.Index16Bit := by
    rw [hit]
    show (CreateWithAssimp.count (mMeshes.map (fun p => p.1))).2.2 = _
    rw [hcount]
    simp only [hex]
  refine ⟨?_, ?_, fun mesh hmesh => ?_⟩
  · rw [hty]
    by_cases h : ∃ p ∈ mMeshes, p.1.mNumFaces * 3 > 65535
    · rw [if_pos h]; exact ⟨fun _ => h, fun _ => rfl⟩
    · rw [if_neg h]; exact ⟨fun e => IndexType.noConfusion e, fun e => absurd e h⟩
  · rw [hty]
    by_cases h : ∃ p ∈ mMeshes, p.1.mNumFaces * 3 > 65535
    · rw [if_pos h]; exact ⟨fun e => IndexType.noConfusion e, fun e => absurd h e⟩
    · rw [if_neg h]; exact ⟨fun _ => h, fun _ => rfl⟩
  · obtain ⟨i, hi⟩ := List.mem_iff_getElem?.mp hmesh
    obtain ⟨_, _, _, _, h3, _⟩ := hm i mesh hi
    exact h3

theorem CreateWithAssimp_indexType_witness :
    (∀ p ∈ Examples.twoTriangles, p.1.mNumFaces * 3 < 2 ^ 32) ∧
    (let model := Model.CreateWithAssimp Examples.ext Examples.settings Examples.twoTriangles
      Examples.model0
    (model.indexType = IndexType.Index32Bit ↔
      ∃ p ∈ Examples.twoTriangles, p.1.mNumFaces * 3 > 65535) ∧
    (model.indexType = IndexType.Index16Bit ↔
      ¬ ∃ p ∈ Examples.twoTriangles, p.1.mNumFaces * 3 > 65535) ∧
    ∀ mesh ∈ model.meshes, mesh.indexType = model.indexType) :=
  ⟨by decide, CreateWithAssimp_indexType Examples.ext Examples.settings Examples.twoTriangles
    Examples.model0 (by decide)⟩

end

/-! ## Procedural models -/

section
variable {F M : Type} [LinearOrder F] [Mul F] [Neg F] [One F]

/-- C9 fails as stated: the procedural mesh of three vertices and 70,000
indices gets 16-bit indices. -/
theorem CreateProcedural_indexType_counterexample :
    Examples.manyIndices.NumIndices = 70000 ∧
    (Model.CreateProcedural Examples.ext Examples.manyIndices Examples.model0).indexType
      = IndexType.Index16Bit ∧
    ¬ IndexWidthByIndexCount Examples.manyIndices
      (Model.CreateProcedural Examples.ext Examples.manyIndices Examples.model0) := by
  refine ⟨rfl, by decide, fun h => ?_⟩
  have h1 := h.1 rfl
  revert h1
  decide

theorem CreateBuffers_loop_map {β : Type} (sz : Nat) (ms : List (Mesh F)) (vo io : Nat)
    (f : Mesh F → β) (hf : ∀ m a b c d, f (m.InitCommon a b c d) = f m) :
    (CreateBuffers.loop sz ms vo io).map f = ms.map f := by
  induction ms generalizing vo io with
  | nil => rfl
  | cons m ms ih => simp only [CreateBuffers.loop, List.map_cons, hf, ih]

/-- The mesh records of a procedural model: the single record `CreateProcedural`
fills in, with the offsets `CreateBuffers` gives it. -/
theorem CreateProcedural_meshes (ext : Externals F M) (init : ProceduralModelInit F)
    (self : Model F) :
    let model := Model.CreateProcedural ext init self
    model.indexType =
      (if init.NumVertices > 64 * 1024 then IndexType.Index32Bit else IndexType.Index16Bit) ∧
    model.meshes.map (fun m => (m.indexType, m.numVertices, m.numIndices, m.aabbMin, m.aabbMax)) =
      [(model.indexType, init.NumVertices, init.NumIndices, ext.freshMesh.aabbMin,
        ext.freshMesh.aabbMax)] := by
  intro model
  have hg := beforeBuffers_sameGeometry ext init.GenerateMeshlets
    (CreateProcedural.fill ext init self)
  have hit : model.indexType =
      (if init.NumVertices > 64 * 1024 then IndexType.Index32Bit else IndexType.Index16Bit) :=
    hg.2.2.2.1
  refine ⟨hit, ?_⟩
  have hmap := sameGeometry_map hg
    (fun m => (m.indexType, m.numVertices, m.numIndices, m.aabbMin, m.aabbMax)) (fun _ => rfl)
  rw [hit]
  exact (CreateBuffers_loop_map _ _ 0 0
    (fun m => (m.indexType, m.numVertices, m.numIndices, m.aabbMin, m.aabbMax))
    (fun _ _ _ _ _ => rfl)).trans hmap

/-- C9, amended: `CreateProcedural` gives the model 32-bit indices exactly when
the mesh has more than `64 * 1024` vertices and 16-bit indices otherwise,
whatever the number of indices; the mesh carries the index type of the model. -/
theorem CreateProcedural_indexType (ext : Externals F M) (init : ProceduralModelInit F)
    (self : Model F) :
    let model := Model.CreateProcedural ext init self
    (model.indexType = IndexType.Index32Bit ↔ init.NumVertices > 64 * 1024) ∧
    (model.indexType = IndexType.Index16Bit ↔ init.NumVertices ≤ 64 * 1024) ∧
    ∀ mesh ∈ model.meshes, mesh.indexType = model.indexType := by
  intro model
  obtain ⟨h1, h2⟩ := CreateProcedural_meshes ext init self
  refine ⟨?_, ?_, fun mesh hmesh => ?_⟩
  · rw [h1]
    by_cases h : init.NumVertices > 64 * 1024
    · rw [if_pos h]; exact ⟨fun _ => h, fun _ => rfl⟩
    · rw [if_neg h]; exact ⟨fun e => IndexType.noConfusion e, fun e => absurd e h⟩
  · rw [h1]
    by_cases h : init.NumVertices > 64 * 1024
    · rw [if_pos h]; exact ⟨fun e => IndexType.noConfusion e, fun e => by omega⟩
    · rw [if_neg h]; exact ⟨fun _ => by omega, fun _ => rfl⟩
  · have h3 : (mesh.indexType, mesh.numVertices, mesh.numIndices, mesh.aabbMin, mesh.aabbMax) ∈
        model.meshes.map
          (fun m => (m.indexType, m.numVertices, m.numIndices, m.aabbMin, m.aabbMax)) :=
      List.mem_map.mpr ⟨mesh, hmesh, rfl⟩
    rw [h2] at h3
    simp only [List.mem_singleton, Prod.mk.injEq] at h3
    exact h3.1

/-- C10 fails on `CreateProcedural`: for the procedural mesh of one vertex at
`(1, 2, 3)` the model bounds are that point, but the bounds of its only mesh are
those of a freshly constructed mesh record (zero in this instance), which
`CreateProcedural` never assigns. -/
theorem CreateProcedural_mesh_aabb_unset :
    (Model.CreateProcedural Examples.ext Examples.oneVertex Examples.model0).vertices.map
      (fun v => v.Position) = [⟨1, 2, 3⟩] ∧
    (Model.CreateProcedural Examples.ext Examples.oneVertex Examples.model0).aabbMin = ⟨1, 2, 3⟩ ∧
    (Model.CreateProcedural Examples.ext Examples.oneVertex Examples.model0).aabbMax = ⟨1, 2, 3⟩ ∧
    (Model.CreateProcedural Examples.ext Examples.oneVertex Examples.model0).meshes.map
      (fun m => (m.aabbMin, m.aabbMax)) = [(⟨0, 0, 0⟩, ⟨0, 0, 0⟩)] := by
  decide

/-- Whatever the vertices, the bounds of the mesh of a procedural model are
those of a freshly constructed mesh record. -/
theorem CreateProcedural_mesh_aabb (ext : Externals F M) (init : ProceduralModelInit F)
    (self : Model F) :
    (Model.CreateProcedural ext init self).meshes.map (fun m => (m.aabbMin, m.aabbMax)) =
      [(ext.freshMesh.aabbMin, ext.freshMesh.aabbMax)] := by
  have h := (CreateProcedural_meshes ext init self).2
  have h2 := congrArg (List.map (fun t : IndexType × Nat × Nat × Float3 F × Float3 F =>
    (t.2.2.2.1, t.2.2.2.2))) h
  simpa [List.map_map] using h2

end

/-! ## Stores into the meshlet arrays -/

theorem getElem?_set_map {α : Type} (l : List α) (i k : Nat) (a : α) :
    (l.set i a)[k]? = if k = i then (l[k]?).map (fun _ => a) else l[k]? := by
  by_cases hk : k = i
  · subst hk
    rw [if_pos rfl]
    by_cases hl : k < l.length
    · simp [List.getElem?_set, hl]
    · have h1 : l[k]? = none := List.getElem?_eq_none (by omega)
      have h2 : (l.set k a)[k]? = none := List.getElem?_eq_none (by simp; omega)
      rw [h1, h2]; rfl
  · rw [if_neg hk, List.getElem?_set_ne (Ne.symm hk)]

theorem forRange_congr {σ : Type} (n : Nat) (body body1 : Nat → σ → σ) (s : σ)
    (h : ∀ i, i < n → ∀ st, body i st = body1 i st) : forRange n body s = forRange n body1 s := by
  induction n with
  | zero => rfl
  | succ n ih =>
    rw [forRange_succ, forRange_succ, ih (fun i hi => h i (Nat.lt_succ_of_lt hi)),
      h n (Nat.lt_succ_self n)]

/-- A loop whose iteration `i` stores `g i` in slot `dst + i` overwrites exactly
the slots `dst`, ..., `dst + n - 1` that exist. -/
theorem forRange_set {α : Type} (g : Nat → α) (dst n : Nat) (l : List α) (k : Nat) :
    (forRange n (fun i acc => acc.set (dst + i) (g i)) l)[k]? =
      if dst ≤ k ∧ k < dst + n then (l[k]?).map (fun _ => g (k - dst)) else l[k]? :=
  forRange_pointwise _ (fun i _ => g i) dst (fun i acc k => getElem?_set_map acc (dst + i) k (g i))
    n l k

theorem length_storeRange {α : Type} (l : List α) (start : Nat) (vals : List α) :
    (storeRange l start vals).length = l.length := by
  unfold storeRange
  refine forRange_length _ (fun i acc => ?_) _ _
  cases vals[i]? <;> simp

theorem getElem?_storeRange {α : Type} (l : List α) (start : Nat) (vals : List α) (k : Nat) :
    (storeRange l start vals)[k]? =
      if start ≤ k ∧ k < start + vals.length then
        (l[k]?).map (fun x => (vals[k - start]?).getD x)
      else l[k]? := by
  unfold storeRange
  have h := forRange_pointwise
    (fun i (acc : List α) => match vals[i]? with
      | some v => acc.set (start + i) v
      | none => acc)
    (fun i x => (vals[i]?).getD x) start
    (fun i acc k => by
      beta_reduce
      cases hv : vals[i]? with
      | none =>
        simp only [Option.getD_none]
        by_cases hk : k = start + i
        · rw [if_pos hk]; cases acc[k]? <;> rfl
        · rw [if_neg hk]
      | some v =>
        simp only [Option.getD_some]
        exact getElem?_set_map acc (start + i) k v)
    vals.length l k
  exact h

theorem foldl_add_mod (l : List Nat) (a : Nat) (h : a + l.sum < 2 ^ 32) :
    l.foldl (fun acc b => (acc + b) % 2 ^ 32) a = a + l.sum := by
  induction l generalizing a with
  | nil => simp
  | cons b l ih =>
    simp only [List.sum_cons] at h
    simp only [List.foldl_cons, List.sum_cons]
    rw [Nat.mod_eq_of_lt (by omega), ih (a + b) (by omega)]
    omega

theorem prefixSum_mono (l1 l2 : List Nat) (c : Nat)
    (h : ∀ (i : Nat) (a : Nat), l1[i]? = some a → ∃ b, l2[i]? = some b ∧ a ≤ c * b) (i : Nat) :
    prefixSum l1 i ≤ c * prefixSum l2 i := by
  induction l1 generalizing l2 i with
  | nil => simp [prefixSum]
  | cons a l1 ih =>
    cases i with
    | zero => simp [prefixSum]
    | succ i =>
      obtain ⟨b, hb, hab⟩ := h 0 a (by simp)
      cases l2 with
      | nil => simp at hb
      | cons b2 l2 =>
        simp only [List.getElem?_cons_zero, Option.some.injEq] at hb
        subst hb
        rw [prefixSum_cons_succ, prefixSum_cons_succ, Nat.mul_add]
        have := ih l2 (fun j x hx => by simpa using h (j + 1) x (by simpa using hx)) i
        omega

theorem prefixSum_of_length_le (l : List Nat) (i : Nat) (h : l.length ≤ i) :
    prefixSum l i = l.sum := by
  simp [prefixSum, List.take_of_length_le h]

/-- Every position below the sum of a list of counts falls in exactly one of
the consecutive ranges the counts cut out. -/
theorem exists_prefixSum_decomposition (l : List Nat) (g : Nat) (h : g < l.sum) :
    ∃ i a k, l[i]? = some a ∧ k < a ∧ g = prefixSum l i + k := by
  induction l generalizing g with
  | nil => simp at h
  | cons a l ih =>
    by_cases hg : g < a
    · exact ⟨0, a, g, by simp, hg, by simp [prefixSum]⟩
    · rw [List.sum_cons] at h
      obtain ⟨i, b, k, h1, h2, h3⟩ := ih (g - a) (by omega)
      exact ⟨i + 1, b, k, by simpa using h1, h2, by rw [prefixSum_cons_succ]; omega⟩

/-! ## The meshlet loop -/

section
variable {F M : Type}

/-- The triangle loop of one cluster overwrites the `triangle_count` words from
its destination offset with the packed triangles of the cluster. -/
theorem triangleLoop_getElem? (tris : List Byte) (c : meshopt_Meshlet) (dst : Nat)
    (mt : List MeshletTriangle) (hfit : dst + c.triangle_count ≤ 2 ^ 32) (k : Nat) :
    (forRange c.triangle_count (GenerateMeshlets.triangleBody tris c dst) mt)[k]? =
      if dst ≤ k ∧ k < dst + c.triangle_count then
        (mt[k]?).map (fun _ => GenerateMeshlets.packed tris c (k - dst))
      else mt[k]? := by
  rw [forRange_congr c.triangle_count (GenerateMeshlets.triangleBody tris c dst)
    (fun i acc => acc.set (dst + i) (GenerateMeshlets.packed tris c i)) mt
    (fun i hi st => by
      unfold GenerateMeshlets.triangleBody
      rw [Nat.mod_eq_of_lt (by omega)])]
  exact forRange_set _ dst c.triangle_count mt k

theorem triangleLoop_length (tris : List Byte) (c : meshopt_Meshlet) (dst : Nat)
    (mt : List MeshletTriangle) :
    (forRange c.triangle_count (GenerateMeshlets.triangleBody tris c dst) mt).length
      = mt.length :=
  forRange_length _ (fun i acc => by simp [GenerateMeshlets.triangleBody]) _ _

theorem triangleTotal_take_succ (cs : List meshopt_Meshlet) (k : Nat) (c : meshopt_Meshlet)
    (h : cs[k]? = some c) :
    triangleTotal (cs.take (k + 1)) = triangleTotal (cs.take k) + c.triangle_count := by
  have := prefixSum_succ (cs.map (fun c => c.triangle_count)) k c.triangle_count (by simp [h])
  simpa [prefixSum, triangleTotal, List.map_take] using this

theorem vertexTotal_take_succ (cs : List meshopt_Meshlet) (k : Nat) (c : meshopt_Meshlet)
    (h : cs[k]? = some c) :
    vertexTotal (cs.take (k + 1)) = vertexTotal (cs.take k) + c.vertex_count := by
  have := prefixSum_succ (cs.map (fun c => c.vertex_count)) k c.vertex_count (by simp [h])
  simpa [prefixSum, vertexTotal, List.map_take] using this

theorem triangleTotal_take_le (cs : List meshopt_Meshlet) (k : Nat)
    (hcaps : ∀ c ∈ cs, c.triangle_count ≤ 64) : triangleTotal (cs.take k) ≤ 64 * k := by
  induction k with
  | zero => simp [triangleTotal]
  | succ k ih =>
    cases h : cs[k]? with
    | none =>
      have hl : cs.length ≤ k := List.getElem?_eq_none_iff.mp h
      have e : cs.take (k + 1) = cs.take k := by
        rw [List.take_of_length_le (by omega), List.take_of_length_le hl]
      rw [e]; omega
    | some c =>
      rw [triangleTotal_take_succ cs k c h]
      have := hcaps c (List.mem_iff_getElem?.mpr ⟨k, h⟩)
      omega

theorem vertexTotal_take_le (cs : List meshopt_Meshlet) (k : Nat)
    (hcaps : ∀ c ∈ cs, c.vertex_count ≤ 64) : vertexTotal (cs.take k) ≤ 64 * k := by
  induction k with
  | zero => simp [vertexTotal]
  | succ k ih =>
    cases h : cs[k]? with
    | none =>
      have hl : cs.length ≤ k := List.getElem?_eq_none_iff.mp h
      have e : cs.take (k + 1) = cs.take k := by
        rw [List.take_of_length_le (by omega), List.take_of_length_le hl]
      rw [e]; omega
    | some c =>
      rw [vertexTotal_take_succ cs k c h]
      have := hcaps c (List.mem_iff_getElem?.mpr ⟨k, h⟩)
      omega

theorem triangleTotal_take_mono (cs : List meshopt_Meshlet) (j k : Nat) (h : j ≤ k) :
    triangleTotal (cs.take j) ≤ triangleTotal (cs.take k) := by
  induction k with
  | zero =>
    have : j = 0 := by omega
    subst this; exact Nat.le_refl _
  | succ k ih =>
    by_cases hj : j = k + 1
    · subst hj; exact Nat.le_refl _
    · have h1 := ih (by omega)
      cases hc : cs[k]? with
      | none =>
        have hl : cs.length ≤ k := List.getElem?_eq_none_iff.mp hc
        have e : cs.take (k + 1) = cs.take k := by
          rw [List.take_of_length_le (by omega), List.take_of_length_le hl]
        rw [e]; exact h1
      | some c =>
        rw [triangleTotal_take_succ cs k c hc]; omega

theorem some_map_const {α β : Type} (o : Option α) (b : β) (h : o.isSome = true) :
    o.map (fun _ => b) = some b := by
  cases o with
  | none => simp at h
  | some a => rfl

/-- The meshlet loop over the clusters of one mesh establishes its invariant. -/
theorem meshletLoop_inv (ext : Externals F M) (mesh : Mesh F) (meshIdx : Nat)
    (cs : List meshopt_Meshlet) (tris : List Byte) (gmo gvo gto : Nat)
    (st0 : GenerateMeshlets.Local F)
    (h0t : st0.localTriangleOffset = 0) (h0v : st0.localVertexOffset = 0)
    (hcaps : ∀ c ∈ cs, c.vertex_count ≤ 64 ∧ c.triangle_count ≤ 64)
    (hM : gmo + cs.length ≤ st0.model.meshlets.length)
    (hM32 : st0.model.meshlets.length < 2 ^ 32)
    (hT : gto + 64 * cs.length ≤ st0.model.meshletTriangles.length)
    (hT32 : st0.model.meshletTriangles.length < 2 ^ 32) :
    MeshletLoopInv mesh meshIdx cs tris gmo gvo gto st0 cs.length
      (forRange cs.length
        (GenerateMeshlets.meshletBody ext mesh meshIdx cs tris gmo gvo gto) st0) := by
  have hcv : ∀ c ∈ cs, c.vertex_count ≤ 64 := fun c hc => (hcaps c hc).1
  have hct : ∀ c ∈ cs, c.triangle_count ≤ 64 := fun c hc => (hcaps c hc).2
  refine forRange_induction
    (fun k st => MeshletLoopInv mesh meshIdx cs tris gmo gvo gto st0 k st) cs.length _ st0 ?_ ?_
  · exact
      { lto := by simp [h0t, triangleTotal]
        lvo := by simp [h0v, vertexTotal]
        len_meshlets := rfl
        len_triangles := rfl
        len_bounds := rfl
        keep_meshlets := fun _ _ => rfl
        keep_triangles := fun _ _ => rfl
        meshlets := fun j c hj => by omega
        triangles := fun j c t hj => by omega }
  · intro i st hi inv
    obtain ⟨c, hc⟩ : ∃ c, cs[i]? = some c := ⟨_, List.getElem?_eq_getElem hi⟩
    have hcm : c ∈ cs := List.mem_iff_getElem?.mpr ⟨i, hc⟩
    have htc := hct c hcm
    have hvc := hcv c hcm
    have hTi := triangleTotal_take_le cs i hct
    have hVi := vertexTotal_take_le cs i hcv
    have hTs := triangleTotal_take_succ cs i c hc
    have hVs := vertexTotal_take_succ cs i c hc
    have hidx : (i + gmo) % 2 ^ 32 = gmo + i := by
      rw [Nat.mod_eq_of_lt (by omega)]; omega
    have hdst : (GenerateMeshlets.dstMeshlet mesh meshIdx c gvo gto
        st.localTriangleOffset).TriangleOffset = gto + triangleTotal (cs.take i) := by
      simp only [GenerateMeshlets.dstMeshlet, inv.lto]
      rw [Nat.mod_eq_of_lt (by omega)]; omega
    have hfit : gto + triangleTotal (cs.take i) + c.triangle_count ≤ 2 ^ 32 := by omega
    simp only [GenerateMeshlets.meshletBody, hc, hidx, hdst]
    refine
      { lto := ?_, lvo := ?_, len_meshlets := ?_, len_triangles := ?_, len_bounds := ?_,
        keep_meshlets := ?_, keep_triangles := ?_, meshlets := ?_, triangles := ?_ }
    · simp only [inv.lto, hTs]
      rw [Nat.mod_eq_of_lt (by omega), Nat.mod_eq_of_lt (by omega)]
    · simp only [inv.lvo, hVs]
      rw [Nat.mod_eq_of_lt (by omega), Nat.mod_eq_of_lt (by omega)]
    · simp only [List.length_set, inv.len_meshlets]
    · simp only [triangleLoop_length, inv.len_triangles]
    · simp only [List.length_set, inv.len_bounds]
    · intro j hj
      simp only
      rw [List.getElem?_set_ne (by omega)]
      exact inv.keep_meshlets j (by omega)
    · intro j hj
      simp only
      rw [triangleLoop_getElem? tris c _ _ hfit, if_neg (by omega)]
      exact inv.keep_triangles j (by omega)
    · intro j cj hj hcj
      simp only
      by_cases hji : j = i
      · subst hji
        rw [hc] at hcj
        simp only [Option.some.injEq] at hcj
        subst hcj
        rw [getElem?_set_map, if_pos rfl, inv.lto]
        exact some_map_const _ _ (by
          rw [List.getElem?_eq_getElem (by rw [inv.len_meshlets]; omega)]; rfl)
      · rw [List.getElem?_set_ne (by omega)]
        exact inv.meshlets j cj (by omega) hcj
    · intro j cj t hj hcj ht
      simp only
      rw [triangleLoop_getElem? tris c _ _ hfit]
      by_cases hji : j = i
      · subst hji
        rw [hc] at hcj
        simp only [Option.some.injEq] at hcj
        subst hcj
        rw [if_pos (by omega)]
        have e : gto + triangleTotal (cs.take j) + t - (gto + triangleTotal (cs.take j)) = t := by
          omega
        rw [e]
        exact some_map_const _ _ (by
          rw [List.getElem?_eq_getElem (by rw [inv.len_triangles]; omega)]; rfl)
      · have hjs := triangleTotal_take_succ cs j cj hcj
        have hmono := triangleTotal_take_mono cs (j + 1) i (by omega)
        rw [if_neg (by omega)]
        exact inv.triangles j cj t (by omega) hcj ht

end

section
variable {F M : Type}

theorem prefixSum_mono_le (l : List Nat) (j i : Nat) (h : j ≤ i) : prefixSum l j ≤ prefixSum l i := by
  induction l generalizing j i with
  | nil => simp [prefixSum]
  | cons a l ih =>
    cases j with
    | zero => simp [prefixSum]
    | succ j =>
      cases i with
      | zero => omega
      | succ i =>
        rw [prefixSum_cons_succ, prefixSum_cons_succ]
        have := ih j i (by omega)
        omega

theorem outputs_getElem? (ext : Externals F M) (model : Model F) (j : Nat) :
    (GenerateMeshlets.outputs ext model)[j]? =
      (model.meshes[j]?).map (GenerateMeshlets.build ext model) := by
  simp [GenerateMeshlets.outputs]

theorem meshletStart_succ (ext : Externals F M) (model : Model F) (j : Nat) (mesh : Mesh F)
    (h : model.meshes[j]? = some mesh) :
    GenerateMeshlets.meshletStart ext model (j + 1) =
      GenerateMeshlets.meshletStart ext model j +
        (GenerateMeshlets.build ext model mesh).meshlets.length :=
  prefixSum_succ _ j _ (by simp [outputs_getElem?, h])

theorem vertexStart_succ (ext : Externals F M) (model : Model F) (j : Nat) (mesh : Mesh F)
    (h : model.meshes[j]? = some mesh) :
    GenerateMeshlets.vertexStart ext model (j + 1) =
      GenerateMeshlets.vertexStart ext model j +
        vertexTotal (GenerateMeshlets.build ext model mesh).meshlets :=
  prefixSum_succ _ j _ (by simp [outputs_getElem?, h])

theorem triangleStart_succ (ext : Externals F M) (model : Model F) (j : Nat) (mesh : Mesh F)
    (h : model.meshes[j]? = some mesh) :
    GenerateMeshlets.triangleStart ext model (j + 1) =
      GenerateMeshlets.triangleStart ext model j +
        triangleTotal (GenerateMeshlets.build ext model mesh).meshlets :=
  prefixSum_succ _ j _ (by simp [outputs_getElem?, h])

theorem vertexTotal_le (cs : List meshopt_Meshlet) (h : ∀ c ∈ cs, c.vertex_count ≤ 64) :
    vertexTotal cs ≤ 64 * cs.length := by
  have := vertexTotal_take_le cs cs.length h
  rwa [List.take_length] at this

theorem triangleTotal_le (cs : List meshopt_Meshlet) (h : ∀ c ∈ cs, c.triangle_count ≤ 64) :
    triangleTotal cs ≤ 64 * cs.length := by
  have := triangleTotal_take_le cs cs.length h
  rwa [List.take_length] at this

/-- A library that honours its caps keeps within them. -/
theorem withinCaps_of_honoursCaps (ext : Externals F M) (model : Model F)
    (hcaps : HonoursCaps ext model) : WithinCaps ext model :=
  fun mesh hmesh => ⟨(hcaps mesh hmesh).1, fun c hc =>
    ⟨((hcaps mesh hmesh).2.2 c hc).1, ((hcaps mesh hmesh).2.2 c hc).2.1⟩⟩

/-- Under the caps, the offsets of the mesh loop stay within the allocation. -/
theorem starts_le (ext : Externals F M) (model : Model F) (hfits : GenerateMeshlets.fits ext model)
    (hcaps : WithinCaps ext model) (i : Nat) :
    GenerateMeshlets.maxMeshlets ext model = (model.meshes.map (GenerateMeshlets.bound ext)).sum ∧
    GenerateMeshlets.meshletStart ext model i ≤ GenerateMeshlets.maxMeshlets ext model ∧
    GenerateMeshlets.vertexStart ext model i ≤ 64 * GenerateMeshlets.meshletStart ext model i ∧
    GenerateMeshlets.triangleStart ext model i ≤ 64 * GenerateMeshlets.meshletStart ext model i := by
  have hB : GenerateMeshlets.maxMeshlets ext model =
      (model.meshes.map (GenerateMeshlets.bound ext)).sum := by
    unfold GenerateMeshlets.maxMeshlets
    rw [foldl_add_mod _ 0 (by unfold GenerateMeshlets.fits at hfits; omega), Nat.zero_add]
  refine ⟨hB, ?_, ?_, ?_⟩
  · rw [hB]
    have h1 := prefixSum_mono
      ((GenerateMeshlets.outputs ext model).map (fun o => o.meshlets.length))
      (model.meshes.map (GenerateMeshlets.bound ext)) 1
      (fun j a ha => by
        simp only [List.getElem?_map, outputs_getElem?] at ha ⊢
        cases hm : model.meshes[j]? with
        | none => rw [hm] at ha; simp at ha
        | some mesh =>
          rw [hm] at ha
          simp only [Option.map_some', Option.some.injEq] at ha
          subst ha
          exact ⟨_, rfl, by
            have := (hcaps mesh (List.mem_iff_getElem?.mpr ⟨j, hm⟩)).1
            omega⟩) i
    have h2 := prefixSum_le (model.meshes.map (GenerateMeshlets.bound ext)) i
    unfold GenerateMeshlets.meshletStart
    omega
  · exact prefixSum_mono _ _ 64
      (fun j a ha => by
        simp only [List.getElem?_map, outputs_getElem?] at ha ⊢
        cases hm : model.meshes[j]? with
        | none => rw [hm] at ha; simp at ha
        | some mesh =>
          rw [hm] at ha
          simp only [Option.map_some', Option.some.injEq] at ha
          subst ha
          exact ⟨_, rfl, vertexTotal_le _ (fun c hc =>
            ((hcaps mesh (List.mem_iff_getElem?.mpr ⟨j, hm⟩)).2 c hc).1)⟩) i
  · exact prefixSum_mono _ _ 64
      (fun j a ha => by
        simp only [List.getElem?_map, outputs_getElem?] at ha ⊢
        cases hm : model.meshes[j]? with
        | none => rw [hm] at ha; simp at ha
        | some mesh =>
          rw [hm] at ha
          simp only [Option.map_some', Option.some.injEq] at ha
          subst ha
          exact ⟨_, rfl, triangleTotal_le _ (fun c hc =>
            ((hcaps mesh (List.mem_iff_getElem?.mpr ⟨j, hm⟩)).2 c hc).2)⟩) i

theorem build_congr (ext : Externals F M) (a b : Model F) (mesh : Mesh F)
    (hv : a.vertices = b.vertices) (hi : a.indices = b.indices) :
    GenerateMeshlets.build ext a mesh = GenerateMeshlets.build ext b mesh := by
  unfold GenerateMeshlets.build
  rw [hv, hi]

/-- One iteration of the mesh loop carries the invariant on. -/
theorem meshBody_inv (ext : Externals F M) (model : Model F)
    (hfits : GenerateMeshlets.fits ext model) (hcaps : WithinCaps ext model) (i : Nat)
    (st : GenerateMeshlets.State F) (hi : i < model.meshes.length)
    (inv : MeshLoopInv ext model i st) :
    MeshLoopInv ext model (i + 1)
      (GenerateMeshlets.meshBody ext (model.meshes.map (GenerateMeshlets.bound ext)) i st) := by
  obtain ⟨mesh, hmesh⟩ : ∃ mesh, model.meshes[i]? = some mesh := ⟨_, List.getElem?_eq_getElem hi⟩
  have hmem : mesh ∈ model.meshes := List.mem_iff_getElem?.mpr ⟨i, hmesh⟩
  have hst : st.model.meshes[i]? = some mesh := (inv.meshes_todo i (Nat.le_refl i)).trans hmesh
  have hbuild := build_congr ext st.model model mesh inv.vertices_eq inv.indices_eq
  have hbound : (model.meshes.map (GenerateMeshlets.bound ext)).getD i 0
      = GenerateMeshlets.bound ext mesh := by
    simp [hmesh]
  obtain ⟨hK, hcs⟩ := hcaps mesh hmem
  obtain ⟨hB, hG1, _, _⟩ := starts_le ext model hfits hcaps (i + 1)
  obtain ⟨_, _, hV, hT⟩ := starts_le ext model hfits hcaps i
  have hGs := meshletStart_succ ext model i mesh hmesh
  have hVs := vertexStart_succ ext model i mesh hmesh
  have hTs := triangleStart_succ ext model i mesh hmesh
  have hB32 : GenerateMeshlets.maxMeshlets ext model * 64 < 2 ^ 32 := by
    rw [hB]; exact hfits
  have hvt := vertexTotal_le (GenerateMeshlets.build ext model mesh).meshlets
    (fun c hc => (hcs c hc).1)
  have htt := triangleTotal_le (GenerateMeshlets.build ext model mesh).meshlets
    (fun c hc => (hcs c hc).2)
  have hinner := meshletLoop_inv ext
    { mesh with
      numMeshlets := (GenerateMeshlets.build ext model mesh).meshlets.length % 2 ^ 32,
      meshletOffset := st.globalMeshletOffset }
    i (GenerateMeshlets.build ext model mesh).meshlets
    (GenerateMeshlets.meshOptTriangles (GenerateMeshlets.bound ext mesh)
      (GenerateMeshlets.build ext model mesh))
    st.globalMeshletOffset st.globalVertexOffset st.globalTriangleOffset
    { model := { st.model with
        meshes := st.model.meshes.set i { mesh with
          numMeshlets := (GenerateMeshlets.build ext model mesh).meshlets.length % 2 ^ 32,
          meshletOffset := st.globalMeshletOffset }
        meshletVertices := storeRange st.model.meshletVertices st.globalVertexOffset
          (GenerateMeshlets.build ext model mesh).meshlet_vertices }
      localTriangleOffset := 0
      localVertexOffset := 0 }
    rfl rfl (fun c hc => ⟨(hcs c hc).1, (hcs c hc).2⟩)
    (by simp only [inv.len_meshlets, inv.gmo]; omega)
    (by simp only [inv.len_meshlets]; omega)
    (by simp only [inv.len_triangles, inv.gto]; omega)
    (by simp only [inv.len_triangles]; omega)
  have hframe := meshletLoop_frame ext
    { mesh with
      numMeshlets := (GenerateMeshlets.build ext model mesh).meshlets.length % 2 ^ 32,
      meshletOffset := st.globalMeshletOffset }
    i (GenerateMeshlets.build ext model mesh).meshlets
    (GenerateMeshlets.meshOptTriangles (GenerateMeshlets.bound ext mesh)
      (GenerateMeshlets.build ext model mesh))
    st.globalMeshletOffset st.globalVertexOffset st.globalTriangleOffset
    (GenerateMeshlets.build ext model mesh).meshlets.length
    { model := { st.model with
        meshes := st.model.meshes.set i { mesh with
          numMeshlets := (GenerateMeshlets.build ext model mesh).meshlets.length % 2 ^ 32,
          meshletOffset := st.globalMeshletOffset }
        meshletVertices := storeRange st.model.meshletVertices st.globalVertexOffset
          (GenerateMeshlets.build ext model mesh).meshlet_vertices }
      localTriangleOffset := 0
      localVertexOffset := 0 }
  simp only [GenerateMeshlets.meshBody, hst, hbuild, hbound]
  generalize forRange (GenerateMeshlets.build ext model mesh).meshlets.length _ _ = inner
    at hinner hframe ⊢
  obtain ⟨f1, f2, f3, _, _, _, f7⟩ := hframe
  simp only at f1 f2 f3 f7
  have hlto := hinner.lto
  have hlvo := hinner.lvo
  rw [List.take_length] at hlto hlvo
  refine
    { vertices_eq := f2.trans inv.vertices_eq
      indices_eq := f3.trans inv.indices_eq
      meshes_len := ?_, meshes_done := ?_, meshes_todo := ?_, gmo := ?_, gvo := ?_, gto := ?_
      len_meshlets := hinner.len_meshlets.trans inv.len_meshlets
      len_vertices := ?_
      len_triangles := hinner.len_triangles.trans inv.len_triangles
      len_bounds := hinner.len_bounds.trans inv.len_bounds
      meshlets := ?_, triangles := ?_, vertices := ?_ }
  · simp only [f1, List.length_set, inv.meshes_len]
  · intro j mj hj hmj
    simp only [f1]
    by_cases hji : j = i
    · subst hji
      rw [hmesh] at hmj
      simp only [Option.some.injEq] at hmj
      subst hmj
      rw [getElem?_set_map, if_pos rfl, hst, inv.gmo]
      rfl
    · rw [List.getElem?_set_ne (by omega)]
      exact inv.meshes_done j mj (by omega) hmj
  · intro j hj
    simp only [f1]
    rw [List.getElem?_set_ne (by omega)]
    exact inv.meshes_todo j (by omega)
  · simp only [inv.gmo, hGs]
    rw [Nat.mod_eq_of_lt (by omega), Nat.mod_eq_of_lt (by omega)]
  · simp only [inv.gvo, hVs, hlvo]
    rw [Nat.mod_eq_of_lt (by omega)]
  · simp only [inv.gto, hTs, hlto]
    rw [Nat.mod_eq_of_lt (by omega)]
  · simp only [f7, length_storeRange, inv.len_vertices]
  · intro j mj k c hj hmj hc
    simp only
    by_cases hji : j = i
    · subst hji
      rw [hmesh] at hmj
      simp only [Option.some.injEq] at hmj
      subst hmj
      have hk : k < (GenerateMeshlets.build ext model mesh).meshlets.length :=
        (List.getElem?_eq_some.mp hc).1
      have := hinner.meshlets k c hk hc
      rw [inv.gmo, inv.gvo, inv.gto] at this
      exact this
    · have hk : k < (GenerateMeshlets.build ext model mj).meshlets.length :=
        (List.getElem?_eq_some.mp hc).1
      have h1 := meshletStart_succ ext model j mj hmj
      have h2 : GenerateMeshlets.meshletStart ext model (j + 1)
          ≤ GenerateMeshlets.meshletStart ext model i := prefixSum_mono_le _ _ _ (by omega)
      rw [hinner.keep_meshlets _ (by rw [inv.gmo]; omega)]
      exact inv.meshlets j mj k c (by omega) hmj hc
  · intro j mj k c t hj hmj hc ht
    simp only
    by_cases hji : j = i
    · subst hji
      rw [hmesh] at hmj
      simp only [Option.some.injEq] at hmj
      subst hmj
      have hk : k < (GenerateMeshlets.build ext model mesh).meshlets.length :=
        (List.getElem?_eq_some.mp hc).1
      have := hinner.triangles k c t hk hc ht
      rw [inv.gto] at this
      exact this
    · have h1 := triangleStart_succ ext model j mj hmj
      have h2 : GenerateMeshlets.triangleStart ext model (j + 1)
          ≤ GenerateMeshlets.triangleStart ext model i := prefixSum_mono_le _ _ _ (by omega)
      have h3 := triangleTotal_take_succ _ k c hc
      have h4 := triangleTotal_take_mono (GenerateMeshlets.build ext model mj).meshlets (k + 1)
        (GenerateMeshlets.build ext model mj).meshlets.length
        (List.getElem?_eq_some.mp hc).1
      rw [List.take_length] at h4
      rw [hinner.keep_triangles _ (by rw [inv.gto]; omega)]
      exact inv.triangles j mj k c t (by omega) hmj hc ht
  · intro j mj x v hj hmj hx hv
    simp only [f7]
    rw [getElem?_storeRange]
    by_cases hji : j = i
    · subst hji
      rw [hmesh] at hmj
      simp only [Option.some.injEq] at hmj
      subst hmj
      have hxl : x < (GenerateMeshlets.build ext model mesh).meshlet_vertices.length :=
        (List.getElem?_eq_some.mp hv).1
      rw [if_pos (by rw [inv.gvo]; omega), inv.gvo]
      have e : GenerateMeshlets.vertexStart ext model j + x
          - GenerateMeshlets.vertexStart ext model j = x := by omega
      rw [e, hv, List.getElem?_eq_getElem (by rw [inv.len_vertices]; omega)]
      rfl
    · have h1 := vertexStart_succ ext model j mj hmj
      have h2 : GenerateMeshlets.vertexStart ext model (j + 1)
          ≤ GenerateMeshlets.vertexStart ext model i := prefixSum_mono_le _ _ _ (by omega)
      rw [if_neg (by rw [inv.gvo]; omega)]
      exact inv.vertices j mj x v (by omega) hmj hx hv

theorem getElem?_Trim {α : Type} (l : List α) (n k : Nat) (h : k < n) : (Trim l n)[k]? = l[k]? := by
  unfold Trim
  exact List.getElem?_take_of_lt h

theorem length_Trim {α : Type} (l : List α) (n : Nat) (h : n ≤ l.length) : (Trim l n).length = n := by
  unfold Trim
  simp [h]

/-- The mesh loop of `GenerateMeshlets` ends in a state satisfying its
invariant for all meshes. -/
theorem final_inv (ext : Externals F M) (model : Model F)
    (hfits : GenerateMeshlets.fits ext model) (hcaps : WithinCaps ext model) :
    MeshLoopInv ext model model.meshes.length (GenerateMeshlets.final ext model) := by
  obtain ⟨hB, _⟩ := starts_le ext model hfits hcaps 0
  have hB32 : GenerateMeshlets.maxMeshlets ext model * 64 < 2 ^ 32 := by
    rw [hB]; exact hfits
  refine forRange_induction (fun i st => MeshLoopInv ext model i st) model.meshes.length _ _ ?_
    (fun i st hi inv => meshBody_inv ext model hfits hcaps i st hi inv)
  exact
    { vertices_eq := rfl
      indices_eq := rfl
      meshes_len := rfl
      meshes_done := fun j mesh hj => by omega
      meshes_todo := fun _ _ => rfl
      gmo := by simp [GenerateMeshlets.initial, GenerateMeshlets.meshletStart, prefixSum]
      gvo := by simp [GenerateMeshlets.initial, GenerateMeshlets.vertexStart, prefixSum]
      gto := by simp [GenerateMeshlets.initial, GenerateMeshlets.triangleStart, prefixSum]
      len_meshlets := by simp [GenerateMeshlets.initial]
      len_vertices := by
        simp only [GenerateMeshlets.initial, List.length_replicate, MaxMeshletVertices]
        exact Nat.mod_eq_of_lt hB32
      len_triangles := by
        simp only [GenerateMeshlets.initial, List.length_replicate, MaxMeshletTriangles]
        exact Nat.mod_eq_of_lt hB32
      len_bounds := by simp [GenerateMeshlets.initial]
      meshlets := fun j mesh k c hj => by omega
      triangles := fun j mesh k c t hj => by omega
      vertices := fun j mesh x v hj => by omega }

/-- What `GenerateMeshlets` leaves behind, for a model within the `uint32`
sizes and a library honouring its caps. -/
theorem GenerateMeshlets_generated (ext : Externals F M) (model : Model F)
    (hfits : GenerateMeshlets.fits ext model) (hcaps : WithinCaps ext model) :
    GeneratedMeshlets ext model (model.GenerateMeshlets ext) := by
  have inv := final_inv ext model hfits hcaps
  obtain ⟨hB, hG, hV, hT⟩ := starts_le ext model hfits hcaps model.meshes.length
  have hB32 : GenerateMeshlets.maxMeshlets ext model * 64 < 2 ^ 32 := by
    rw [hB]; exact hfits
  have hstart : ∀ j mesh, model.meshes[j]? = some mesh →
      GenerateMeshlets.meshletStart ext model (j + 1)
        ≤ GenerateMeshlets.meshletStart ext model model.meshes.length ∧
      GenerateMeshlets.vertexStart ext model (j + 1)
        ≤ GenerateMeshlets.vertexStart ext model model.meshes.length ∧
      GenerateMeshlets.triangleStart ext model (j + 1)
        ≤ GenerateMeshlets.triangleStart ext model model.meshes.length := by
    intro j mesh hm
    have hj : j < model.meshes.length := (List.getElem?_eq_some.mp hm).1
    exact ⟨prefixSum_mono_le _ _ _ (by omega), prefixSum_mono_le _ _ _ (by omega),
      prefixSum_mono_le _ _ _ (by omega)⟩
  unfold Model.GenerateMeshlets
  simp only [inv.gmo, inv.gvo, inv.gto]
  refine
    { meshes := ?_, len_meshlets := ?_, len_bounds := ?_, len_vertices := ?_,
      len_triangles := ?_, meshlets := ?_, triangles := ?_, vertices := ?_ }
  · intro j mesh hm
    have hj : j < model.meshes.length := (List.getElem?_eq_some.mp hm).1
    have hK := (hcaps mesh (List.mem_iff_getElem?.mpr ⟨j, hm⟩)).1
    have hb : GenerateMeshlets.bound ext mesh < 2 ^ 32 := Nat.mod_lt _ (by decide)
    have := inv.meshes_done j mesh hj hm
    rw [Nat.mod_eq_of_lt (by omega)] at this
    exact this
  · exact length_Trim _ _ (by rw [inv.len_meshlets]; exact hG)
  · exact length_Trim _ _ (by rw [inv.len_bounds]; exact hG)
  · exact length_Trim _ _ (by rw [inv.len_vertices]; omega)
  · exact length_Trim _ _ (by rw [inv.len_triangles]; omega)
  · intro j mesh k c hm hc
    have hj : j < model.meshes.length := (List.getElem?_eq_some.mp hm).1
    have hk : k < (GenerateMeshlets.build ext model mesh).meshlets.length :=
      (List.getElem?_eq_some.mp hc).1
    have h1 := meshletStart_succ ext model j mesh hm
    have h2 := (hstart j mesh hm).1
    have hcm := (hcaps mesh (List.mem_iff_getElem?.mpr ⟨j, hm⟩)).2 c
      (List.mem_iff_getElem?.mpr ⟨k, hc⟩)
    have h3 := triangleStart_succ ext model j mesh hm
    have h4 := (hstart j mesh hm).2.2
    have h5 := triangleTotal_take_mono (GenerateMeshlets.build ext model mesh).meshlets k
      (GenerateMeshlets.build ext model mesh).meshlets.length (by omega)
    rw [List.take_length] at h5
    simp only
    rw [getElem?_Trim _ _ _ (by omega), inv.meshlets j mesh k c hj hm hc]
    simp only [GenerateMeshlets.dstMeshlet, SafeCast_uint16, Option.some.injEq, Meshlet.mk.injEq,
      true_and, and_true]
    simp only [MaxMeshletVertices, MaxMeshletTriangles] at hcm
    refine ⟨?_, ?_, ?_⟩
    · rw [Nat.mod_eq_of_lt (by omega)]; omega
    · exact Nat.mod_eq_of_lt (by omega)
    · exact Nat.mod_eq_of_lt (by omega)
  · intro j mesh k c t hm hc ht
    have hj : j < model.meshes.length := (List.getElem?_eq_some.mp hm).1
    have h3 := triangleStart_succ ext model j mesh hm
    have h4 := (hstart j mesh hm).2.2
    have h5 := triangleTotal_take_mono (GenerateMeshlets.build ext model mesh).meshlets (k + 1)
      (GenerateMeshlets.build ext model mesh).meshlets.length (List.getElem?_eq_some.mp hc).1
    rw [List.take_length] at h5
    have h6 := triangleTotal_take_succ _ k c hc
    simp only
    rw [getElem?_Trim _ _ _ (by omega)]
    exact inv.triangles j mesh k c t hj hm hc ht
  · intro j mesh x v hm hx hv
    have hj : j < model.meshes.length := (List.getElem?_eq_some.mp hm).1
    have h3 := vertexStart_succ ext model j mesh hm
    have h4 := (hstart j mesh hm).2.1
    simp only
    rw [getElem?_Trim _ _ _ (by omega)]
    exact inv.vertices j mesh x v hj hm hx hv

/-! ## Meshlet caps and lossless repacking -/

theorem unpack_pack (v0 v1 v2 : Nat) (h0 : v0 < 256) (h1 : v1 < 256) (h2 : v2 < 256) :
    (MeshletTriangle.Pack v0 v1 v2).Unpack = ⟨v0, v1, v2⟩ := by
  rw [show MeshletTriangle.Pack v0 v1 v2 = ⟨(MeshletTriangle.Pack v0 v1 v2).Packed⟩ from rfl,
    unpack_eq, pack_eq_sum v0 v1 v2 h0 h1 h2]
  congr 1 <;> omega

/-- The word packed for a triangle unpacks to the three bytes the library left
for it in the triangle buffer, when those lie at `uint32` indices. -/
theorem unpack_packed (tris : List Byte) (c : meshopt_Meshlet) (t : Nat)
    (h : c.triangle_offset + t * 3 + 2 < 2 ^ 32) :
    (GenerateMeshlets.packed tris c t).Unpack =
      ⟨(tris.getD (c.triangle_offset + t * 3 + 0) 0).val,
        (tris.getD (c.triangle_offset + t * 3 + 1) 0).val,
        (tris.getD (c.triangle_offset + t * 3 + 2) 0).val⟩ := by
  have e : GenerateMeshlets.packed tris c t = MeshletTriangle.Pack
      (tris.getD ((c.triangle_offset + t * 3 + 0) % 2 ^ 32) 0).val
      (tris.getD ((c.triangle_offset + t * 3 + 1) % 2 ^ 32) 0).val
      (tris.getD ((c.triangle_offset + t * 3 + 2) % 2 ^ 32) 0).val := rfl
  rw [e, unpack_pack _ _ _ (Fin.isLt _) (Fin.isLt _) (Fin.isLt _),
    Nat.mod_eq_of_lt (by omega : c.triangle_offset + t * 3 + 0 < 2 ^ 32),
    Nat.mod_eq_of_lt (by omega : c.triangle_offset + t * 3 + 1 < 2 ^ 32),
    Nat.mod_eq_of_lt h]

theorem length_meshOptTriangles (bound : Nat) (out : BuildMeshletsOutput) :
    (GenerateMeshlets.meshOptTriangles bound out).length < 2 ^ 32 := by
  unfold GenerateMeshlets.meshOptTriangles
  rw [length_storeRange, List.length_replicate]
  exact Nat.mod_lt _ (by decide)

end

/-! ## Sequences read into any destination, and the bulk path -/

/-- The writer puts the element count of a string first. -/
theorem write_string_count_first (c : Prim) (str : List Nat)
    (hv : (Ty.string c).representable str = true) :
    ∃ elems, Serializes (SerializeItem FileWriteSerializer (.string c))
      (SerializeItem FileReadSerializer (.string c))
      (SerializeItem ComputeSizeSerializer (.string c)) (fun _ => True) str
      (toBytes 8 str.length ++ elems) := by
  obtain ⟨bytes, hs⟩ := traversal_spec (.string c) str hv
  have h1 := hs.1 []
  have h2 : ∃ x y, SerializeItem FileWriteSerializer (.string c) str []
      = some (x, toBytes 8 str.length ++ y) := by
    by_cases h0 : str.length = 0
    · exact ⟨str, [], by simp [SerializeItem, write_item, h0]⟩
    · simp only [SerializeItem, write_item, ne_eq, not_true_eq_false, if_false, h0,
        BulkSerializeArray]
      simp only [FileWriteSerializer, File.Write, List.nil_append]
      exact ⟨_, _, rfl⟩
  obtain ⟨x, y, h2⟩ := h2
  rw [h1] at h2
  simp only [List.nil_append, Option.some.injEq, Prod.mk.injEq] at h2
  exact ⟨y, h2.2 ▸ hs⟩

/-- The writer puts the element count of an `Array` or `List` first. -/
theorem write_container_count_first (t : Ty) (a : List t.Val)
    (hv : (Ty.array t).representable a = true) :
    (∃ elems, Serializes (SerializeItem FileWriteSerializer (.array t))
      (SerializeItem FileReadSerializer (.array t))
      (SerializeItem ComputeSizeSerializer (.array t)) (fun _ => True) a
      (toBytes 8 a.length ++ elems)) ∧
    (∃ elems, Serializes (SerializeItem FileWriteSerializer (.list t))
      (SerializeItem FileReadSerializer (.list t))
      (SerializeItem ComputeSizeSerializer (.list t)) (fun _ => True) a
      (toBytes 8 a.length ++ elems)) := by
  have hv2 : (Ty.list t).representable a = true := hv
  obtain ⟨bytes, hs⟩ := traversal_spec (.array t) a hv
  obtain ⟨bytes2, hs2⟩ := traversal_spec (.list t) a hv2
  simp only [Ty.representable, Bool.and_eq_true, decide_eq_true_eq, List.all_eq_true] at hv
  obtain ⟨bs, hw, _, _⟩ := serializeArray_spec (SerializeItem FileWriteSerializer t)
    (SerializeItem FileReadSerializer t) (SerializeItem ComputeSizeSerializer t) a
    (fun x hx => traversal_spec t x (hv.2 x hx))
  have h2 : ∃ y, SerializeItem FileWriteSerializer (.array t) a []
      = some (a, toBytes 8 a.length ++ y) ∧ SerializeItem FileWriteSerializer (.list t) a []
      = some (a, toBytes 8 a.length ++ y) := by
    by_cases h0 : a.length = 0
    · exact ⟨[], by simp [SerializeItem, write_item, h0], by simp [SerializeItem, write_item, h0]⟩
    · refine ⟨bs, ?_, ?_⟩ <;>
      simp only [SerializeItem, write_item, ne_eq, not_true_eq_false, if_false, h0, hw,
        List.nil_append]
  obtain ⟨y, h2, h3⟩ := h2
  have h1 := hs.1 []
  have h4 := hs2.1 []
  rw [h1] at h2
  rw [h4] at h3
  simp only [List.nil_append, Option.some.injEq, Prod.mk.injEq, true_and] at h2 h3
  exact ⟨⟨y, h2 ▸ hs⟩, ⟨y, h3 ▸ hs2⟩⟩

theorem count_eq_zero (t : Ty) (hseq : t.isSequence = true) (v : t.Val) (h : t.count v = 0) :
    v = t.init := by
  cases t with
  | string c => exact List.length_eq_zero.mp h
  | array t => exact List.length_eq_zero.mp h
  | list t => exact List.length_eq_zero.mp h
  | _ => simp [Ty.isSequence] at hseq

/-- C18: for every stored sequence (a string, `Array` or `List` `v` of
`n = count v` elements, as the write traversal stores it: the count in 8 bytes,
then the elements) and every destination `d` of the same type, whatever its
length and contents, the read traversal succeeds, consumes exactly the stored
bytes and leaves the destination `r` with `n` elements, equal to the stored
ones; with `n = 0` the destination ends empty. -/
theorem read_resizes_destination (t : Ty) (hseq : t.isSequence = true) (v d : t.Val)
    (rest : List Byte) (hv : t.representable v = true) :
    ∃ elems, SerializeItem FileWriteSerializer t v [] = some (v, toBytes 8 (t.count v) ++ elems) ∧
      ∃ r, SerializeItem FileReadSerializer t d (toBytes 8 (t.count v) ++ elems ++ rest)
          = some (r, rest) ∧
        t.count r = t.count v ∧ r = v ∧ (t.count v = 0 → r = t.init) := by
  have key : ∃ elems, Serializes (SerializeItem FileWriteSerializer t)
      (SerializeItem FileReadSerializer t) (SerializeItem ComputeSizeSerializer t) (fun _ => True) v
      (toBytes 8 (t.count v) ++ elems) := by
    cases t with
    | string c => exact write_string_count_first c v hv
    | array t => exact (write_container_count_first t v hv).1
    | list t => exact (write_container_count_first t v hv).2
    | _ => simp [Ty.isSequence] at hseq
  obtain ⟨elems, hw, hr, _⟩ := key
  exact ⟨elems, by simpa using hw [], v, hr d rest trivial, rfl, rfl,
    fun h0 => count_eq_zero t hseq v h0⟩

theorem read_resizes_destination_witness :
    (Ty.array (.prim .uint16)).isSequence = true ∧
    (Ty.array (.prim .uint16)).representable [513, 7, 65535] = true ∧
    ∃ elems, SerializeItem FileWriteSerializer (.array (.prim .uint16)) [513, 7, 65535] []
        = some ([513, 7, 65535], toBytes 8 ((Ty.array (.prim .uint16)).count [513, 7, 65535])
            ++ elems) ∧
      ∃ r, SerializeItem FileReadSerializer (.array (.prim .uint16)) [1, 2, 3, 4, 5]
          (toBytes 8 ((Ty.array (.prim .uint16)).count [513, 7, 65535]) ++ elems ++ [9])
          = some (r, [9]) ∧
        (Ty.array (.prim .uint16)).count r = (Ty.array (.prim .uint16)).count [513, 7, 65535] ∧
        r = [513, 7, 65535] ∧
        ((Ty.array (.prim .uint16)).count [513, 7, 65535] = 0 →
          r = (Ty.array (.prim .uint16)).init) :=
  ⟨by decide, by decide,
    read_resizes_destination (.array (.prim .uint16)) (by decide) [513, 7, 65535] [1, 2, 3, 4, 5]
      [9] (by decide)⟩

theorem toBytes_add (a b x y : Nat) (hx : x < 256 ^ a) :
    toBytes (a + b) (x + 256 ^ a * y) = toBytes a x ++ toBytes b y := by
  induction a generalizing x with
  | zero =>
    have : x = 0 := by simpa using hx
    simp [this, toBytes]
  | succ a ih =>
    have e : a + 1 + b = (a + b) + 1 := by omega
    have hx2 : x / 256 < 256 ^ a := by
      rw [Nat.div_lt_iff_lt_mul (by decide)]
      rw [pow_succ] at hx
      exact hx
    have h1 : (x + 256 ^ (a + 1) * y) % 256 = x % 256 := by
      rw [pow_succ, Nat.mul_assoc, Nat.mul_comm (256 ^ a), Nat.mul_assoc]
      exact Nat.add_mul_mod_self_left x 256 _
    have h2 : (x + 256 ^ (a + 1) * y) / 256 = x / 256 + 256 ^ a * y := by
      rw [pow_succ, Nat.mul_assoc, Nat.mul_comm (256 ^ a), Nat.mul_assoc]
      rw [Nat.add_mul_div_left _ _ (by decide : 0 < 256)]
      rw [Nat.mul_comm y]
    rw [e]
    simp only [toBytes, List.cons_append, h2, ih _ hx2]
    congr 1
    exact Fin.ext h1

theorem pattern_lt (p : POD) (v : p.toTy.Val) (hv : p.toTy.representable v = true) :
    p.pattern v < 256 ^ p.sizeof := by
  cases p with
  | prim q => simpa [Ty.representable] using hv
  | float2 =>
    simp only [Ty.representable, Bool.and_eq_true, decide_eq_true_eq] at hv
    simp only [POD.pattern, POD.sizeof]; omega
  | float3 =>
    simp only [Ty.representable, Bool.and_eq_true, decide_eq_true_eq] at hv
    simp only [POD.pattern, POD.sizeof]; omega
  | float4 =>
    simp only [Ty.representable, Bool.and_eq_true, decide_eq_true_eq] at hv
    simp only [POD.pattern, POD.sizeof]; omega
  | quaternion =>
    simp only [Ty.representable, Bool.and_eq_true, decide_eq_true_eq] at hv
    simp only [POD.pattern, POD.sizeof]; omega

theorem object_pattern (p : POD) (v : p.toTy.Val) (hv : p.toTy.representable v = true) :
    p.object (p.pattern v) = v := by
  cases p with
  | prim q => rfl
  | float2 =>
    obtain ⟨x, y⟩ := v
    simp only [Ty.representable, Bool.and_eq_true, decide_eq_true_eq] at hv
    simp only [POD.pattern, POD.object]
    congr 1 <;> omega
  | float3 =>
    obtain ⟨x, y, z⟩ := v
    simp only [Ty.representable, Bool.and_eq_true, decide_eq_true_eq] at hv
    simp only [POD.pattern, POD.object]
    congr 1 <;> omega
  | float4 =>
    obtain ⟨x, y, z, w⟩ := v
    simp only [Ty.representable, Bool.and_eq_true, decide_eq_true_eq] at hv
    simp only [POD.pattern, POD.object]
    congr 1 <;> omega
  | quaternion =>
    obtain ⟨x, y, z, w⟩ := v
    simp only [Ty.representable, Bool.and_eq_true, decide_eq_true_eq] at hv
    simp only [POD.pattern, POD.object]
    congr 1 <;> omega

/-- The bytes the element traversal writes for a plain-data object are its
object representation. -/
theorem write_pod (p : POD) (v : p.toTy.Val) (hv : p.toTy.representable v = true)
    (out : List Byte) :
    SerializeItem FileWriteSerializer p.toTy v out
      = some (v, out ++ toBytes p.sizeof (p.pattern v)) := by
  have e4 : (256 : Nat) ^ 4 = 2 ^ 32 := by decide
  have e8 : (256 : Nat) ^ 8 = 2 ^ 64 := by decide
  have e12 : (256 : Nat) ^ 12 = 2 ^ 96 := by decide
  cases p with
  | prim q => exact write_item q.sizeof v out
  | float2 =>
    obtain ⟨x, y⟩ := v
    simp only [Ty.representable, Bool.and_eq_true, decide_eq_true_eq] at hv
    have h := toBytes_add 4 4 x y hv.1
    simp only [e4] at h
    simp only [SerializeItem, write_item, List.append_assoc, POD.sizeof, POD.pattern]
    rw [show (8 : Nat) = 4 + 4 from rfl, h]
  | float3 =>
    obtain ⟨x, y, z⟩ := v
    simp only [Ty.representable, Bool.and_eq_true, decide_eq_true_eq] at hv
    have h := toBytes_add 4 4 x y hv.1.1
    have h2 := toBytes_add 8 4 (x + 2 ^ 32 * y) z (by rw [e8]; omega)
    simp only [e4, e8] at h h2
    simp only [SerializeItem, write_item, List.append_assoc, POD.sizeof, POD.pattern]
    rw [show (12 : Nat) = 8 + 4 from rfl, h2, show (8 : Nat) = 4 + 4 from rfl, h,
      List.append_assoc]
  | float4 =>
    obtain ⟨x, y, z, w⟩ := v
    simp only [Ty.representable, Bool.and_eq_true, decide_eq_true_eq] at hv
    have h := toBytes_add 4 4 x y hv.1.1.1
    have h2 := toBytes_add 8 4 (x + 2 ^ 32 * y) z (by rw [e8]; omega)
    have h3 := toBytes_add 12 4 (x + 2 ^ 32 * y + 2 ^ 64 * z) w (by rw [e12]; omega)
    simp only [e4, e8, e12] at h h2 h3
    simp only [SerializeItem, write_item, List.append_assoc, POD.sizeof, POD.pattern]
    rw [show (16 : Nat) = 12 + 4 from rfl, h3, show (12 : Nat) = 8 + 4 from rfl, h2,
      show (8 : Nat) = 4 + 4 from rfl, h, List.append_assoc, List.append_assoc]
  | quaternion =>
    obtain ⟨x, y, z, w⟩ := v
    simp only [Ty.representable, Bool.and_eq_true, decide_eq_true_eq] at hv
    have h := toBytes_add 4 4 x y hv.1.1.1
    have h2 := toBytes_add 8 4 (x + 2 ^ 32 * y) z (by rw [e8]; omega)
    have h3 := toBytes_add 12 4 (x + 2 ^ 32 * y + 2 ^ 64 * z) w (by rw [e12]; omega)
    simp only [e4, e8, e12] at h h2 h3
    simp only [SerializeItem, write_item, List.append_assoc, POD.sizeof, POD.pattern]
    rw [show (16 : Nat) = 12 + 4 from rfl, h3, show (12 : Nat) = 8 + 4 from rfl, h2,
      show (8 : Nat) = 4 + 4 from rfl, h, List.append_assoc, List.append_assoc]

theorem serializeArray_write {α : Type} (wr : α → List Byte → Option (α × List Byte))
    (enc : α → List Byte) (vs : List α)
    (h : ∀ v ∈ vs, ∀ out, wr v out = some (v, out ++ enc v)) (out : List Byte) :
    SerializeArray wr vs out = some (vs, out ++ vs.flatMap enc) := by
  induction vs generalizing out with
  | nil => simp [SerializeArray]
  | cons v vs ih =>
    simp [SerializeArray, h v (List.mem_cons_self _ _),
      ih (fun x hx => h x (List.mem_cons_of_mem _ hx)), List.append_assoc]

theorem bulkArray_write (w : Nat) (pats : List Nat) (out : List Byte)
    (hsize : w * pats.length < 2 ^ 64) (hp : ∀ e ∈ pats, e < 256 ^ w) :
    BulkSerializeArray FileWriteSerializer w pats pats.length out
      = some (pats, out ++ toChunks w pats) := by
  have hclen : (toChunks w pats).length = w * pats.length := length_toChunks _ _
  have htake : (toChunks w pats).take (w * pats.length) = toChunks w pats :=
    List.take_of_length_le (by rw [hclen])
  simp only [BulkSerializeArray, Nat.mod_eq_of_lt hsize]
  simp only [FileWriteSerializer, File.Write, htake, fromChunks_toChunks_nil _ _ hp]

theorem bulkArray_read (w : Nat) (pats d : List Nat) (rest : List Byte)
    (hsize : w * pats.length < 2 ^ 64) (hp : ∀ e ∈ pats, e < 256 ^ w)
    (hd : d.length = pats.length) :
    BulkSerializeArray FileReadSerializer w d pats.length (toChunks w pats ++ rest)
      = some (pats, rest) := by
  have hclen : (toChunks w pats).length = w * pats.length := length_toChunks _ _
  have hle : w * pats.length ≤ (toChunks w pats ++ rest).length := by
    rw [List.length_append, hclen]; omega
  have hdrop : (toChunks w d).drop (w * pats.length) = [] :=
    List.drop_of_length_le (by rw [length_toChunks, hd])
  simp only [BulkSerializeArray, Nat.mod_eq_of_lt hsize]
  simp only [FileReadSerializer, File.Read, hle, if_true, Option.map_some',
    List.take_left' hclen, List.drop_left' hclen, hdrop, hd]
  rw [fromChunks_toChunks _ _ _ hp]

theorem toChunks_map {α : Type} (w : Nat) (f : α → Nat) (vs : List α) :
    toChunks w (vs.map f) = vs.flatMap (fun v => toBytes w (f v)) := by
  induction vs with
  | nil => rfl
  | cons v vs ih =>
    simp only [toChunks, List.map_cons, List.flatMap_cons] at ih ⊢
    rw [ih]

theorem map_object_pattern (p : POD) (vs : List p.toTy.Val)
    (hv : ∀ x ∈ vs, p.toTy.representable x = true) :
    (vs.map p.pattern).map p.object = vs := by
  rw [List.map_map]
  conv_rhs => rw [← List.map_id vs]
  exact List.map_congr_left (fun x hx => object_pattern p x (hv x hx))

/-- The bulk path of a container of plain data under the writer and the reader,
`init` standing for the `Init` call of the overload. -/
theorem bulk_container (p : POD) (init : Nat → List p.toTy.Val)
    (hinit : ∀ n, (init n).length = n)
    (cw cr : List p.toTy.Val → List Byte → Option (List p.toTy.Val × List Byte))
    (hcw : ∀ a s, cw a s = match FileWriteSerializer.SerializeItem 8 a.length s with
      | none => none
      | some (numElements, s1) =>
        let a1 := if a.length ≠ numElements then init numElements else a
        if numElements = 0 then some (a1, s1)
        else
          match BulkSerializeArray FileWriteSerializer p.sizeof (a1.map p.pattern) numElements s1 with
          | none => none
          | some (data, s2) => some (data.map p.object, s2))
    (hcr : ∀ a s, cr a s = match FileReadSerializer.SerializeItem 8 a.length s with
      | none => none
      | some (numElements, s1) =>
        let a1 := if a.length ≠ numElements then init numElements else a
        if numElements = 0 then some (a1, s1)
        else
          match BulkSerializeArray FileReadSerializer p.sizeof (a1.map p.pattern) numElements s1 with
          | none => none
          | some (data, s2) => some (data.map p.object, s2))
    (vs d : List p.toTy.Val) (rest : List Byte)
    (hsize : p.sizeof * vs.length < 2 ^ 64)
    (hv : ∀ x ∈ vs, p.toTy.representable x = true) :
    cw vs [] = some (vs, toBytes 8 vs.length ++ toChunks p.sizeof (vs.map p.pattern)) ∧
    cr d (toBytes 8 vs.length ++ toChunks p.sizeof (vs.map p.pattern) ++ rest) = some (vs, rest) := by
  have hpos : 1 ≤ p.sizeof := by
    cases p with
    | prim q => cases q <;> decide
    | _ => decide
  have hlen8 : vs.length < 256 ^ 8 := by
    have : vs.length ≤ p.sizeof * vs.length := Nat.le_mul_of_pos_left _ hpos
    have h2 : (256 : Nat) ^ 8 = 2 ^ 64 := by decide
    omega
  have hp : ∀ e ∈ vs.map p.pattern, e < 256 ^ p.sizeof := by
    intro e he
    obtain ⟨x, hx, rfl⟩ := List.mem_map.mp he
    exact pattern_lt p x (hv x hx)
  have hsize2 : p.sizeof * (vs.map p.pattern).length < 2 ^ 64 := by simpa using hsize
  have hw := bulkArray_write p.sizeof (vs.map p.pattern) (toBytes 8 vs.length) hsize2 hp
  rw [List.length_map] at hw
  by_cases h0 : vs.length = 0
  · have hnil : vs = [] := List.length_eq_zero.mp h0
    subst hnil
    refine ⟨by simp [hcw, write_item, toChunks], ?_⟩
    have hrd := read_item 8 0 d.length rest (by decide)
    simp only [List.length_nil, List.map_nil, toChunks, List.flatMap_nil, List.append_nil, hcr, hrd]
    by_cases hd : d.length = 0
    · have : d = [] := List.length_eq_zero.mp hd
      simp [this]
    · have : init 0 = [] := List.length_eq_zero.mp (hinit 0)
      simp [hd, this]
  · refine ⟨?_, ?_⟩
    · simp only [hcw, write_item, ne_eq, not_true_eq_false, if_false, h0, hw,
        map_object_pattern p vs hv, List.nil_append]
    · have hrd := read_item 8 vs.length d.length
        (toChunks p.sizeof (vs.map p.pattern) ++ rest) hlen8
      have hd1 : ((if d.length ≠ vs.length then init vs.length else d).map p.pattern).length
          = (vs.map p.pattern).length := by
        by_cases hd : d.length = vs.length
        · simp [hd]
        · simp [hd, hinit]
      have hr := bulkArray_read p.sizeof (vs.map p.pattern) _ rest hsize2 hp hd1
      rw [List.length_map] at hr
      simp only [hcr, List.append_assoc, hrd, h0, if_false, hr, map_object_pattern p vs hv]

/-- The element-by-element path of a container of plain data writes the count
and then the object representations of the elements. -/
theorem elementwise_bytes (p : POD) (vs : List p.toTy.Val)
    (hv : (Ty.array p.toTy).representable vs = true) :
    Serializes (SerializeItem FileWriteSerializer (.array p.toTy))
      (SerializeItem FileReadSerializer (.array p.toTy))
      (SerializeItem ComputeSizeSerializer (.array p.toTy)) (fun _ => True) vs
      (toBytes 8 vs.length ++ toChunks p.sizeof (vs.map p.pattern)) ∧
    Serializes (SerializeItem FileWriteSerializer (.list p.toTy))
      (SerializeItem FileReadSerializer (.list p.toTy))
      (SerializeItem ComputeSizeSerializer (.list p.toTy)) (fun _ => True) vs
      (toBytes 8 vs.length ++ toChunks p.sizeof (vs.map p.pattern)) := by
  have hv2 : (Ty.list p.toTy).representable vs = true := hv
  obtain ⟨b1, hs1⟩ := traversal_spec (.array p.toTy) vs hv
  obtain ⟨b2, hs2⟩ := traversal_spec (.list p.toTy) vs hv2
  simp only [Ty.representable, Bool.and_eq_true, decide_eq_true_eq, List.all_eq_true] at hv
  have hw := serializeArray_write (SerializeItem FileWriteSerializer p.toTy)
    (fun v => toBytes p.sizeof (p.pattern v)) vs (fun v hx out => write_pod p v (hv.2 v hx) out)
  have h2 : SerializeItem FileWriteSerializer (.array p.toTy) vs []
      = some (vs, toBytes 8 vs.length ++ toChunks p.sizeof (vs.map p.pattern)) ∧
      SerializeItem FileWriteSerializer (.list p.toTy) vs []
      = some (vs, toBytes 8 vs.length ++ toChunks p.sizeof (vs.map p.pattern)) := by
    rw [toChunks_map]
    by_cases h0 : vs.length = 0
    · have hnil : vs = [] := List.length_eq_zero.mp h0
      subst hnil
      exact ⟨by simp [SerializeItem, write_item], by simp [SerializeItem, write_item]⟩
    · refine ⟨?_, ?_⟩ <;>
      simp only [SerializeItem, write_item, ne_eq, not_true_eq_false, if_false, h0, hw,
        List.nil_append]
  obtain ⟨h2, h3⟩ := h2
  have h1 := hs1.1 []
  have h4 := hs2.1 []
  rw [h1] at h2
  rw [h4] at h3
  simp only [List.nil_append, Option.some.injEq, Prod.mk.injEq, true_and] at h2 h3
  exact ⟨h2 ▸ hs1, h3 ▸ hs2⟩

/-- C19: for every `Array` and every `List` of plain-data elements (scalars,
`Float2`, `Float3`, `Float4`, `Quaternion`) whose storage occupies fewer than
`2 ^ 64` bytes, `BulkSerializeItem` under the writer emits a byte string `bytes`
and leaves the sequence as it is, `BulkSerializeItem` under the reader run over
`bytes` (followed by any `rest`) into any destination `d` reproduces the
sequence and stops at `rest`, and the element-by-element `SerializeItem` emits
the same `bytes` and reads them back to the same sequence. -/
theorem bulk_roundtrip_eq_elementwise (p : POD) (vs d : List p.toTy.Val) (rest : List Byte)
    (hv : (Ty.array p.toTy).representable vs = true) (hsize : p.sizeof * vs.length < 2 ^ 64) :
    ∃ bytes,
      (BulkSerializeItem_Array FileWriteSerializer p vs [] = some (vs, bytes) ∧
        BulkSerializeItem_Array FileReadSerializer p d (bytes ++ rest) = some (vs, rest) ∧
        SerializeItem FileWriteSerializer (.array p.toTy) vs [] = some (vs, bytes) ∧
        SerializeItem FileReadSerializer (.array p.toTy) d (bytes ++ rest) = some (vs, rest)) ∧
      (BulkSerializeItem_List FileWriteSerializer p vs [] = some (vs, bytes) ∧
        BulkSerializeItem_List FileReadSerializer p d (bytes ++ rest) = some (vs, rest) ∧
        SerializeItem FileWriteSerializer (.list p.toTy) vs [] = some (vs, bytes) ∧
        SerializeItem FileReadSerializer (.list p.toTy) d (bytes ++ rest) = some (vs, rest)) := by
  obtain ⟨⟨hw1, hr1, _⟩, ⟨hw2, hr2, _⟩⟩ := elementwise_bytes p vs hv
  simp only [Ty.representable, Bool.and_eq_true, decide_eq_true_eq, List.all_eq_true] at hv
  have ha := bulk_container p (Array_Init p.toTy) (fun n => by simp [Array_Init])
    (BulkSerializeItem_Array FileWriteSerializer p) (BulkSerializeItem_Array FileReadSerializer p)
    (fun a s => by simp only [BulkSerializeItem_Array]; rfl)
    (fun a s => by
      unfold BulkSerializeItem_Array
      rcases FileReadSerializer.SerializeItem 8 a.length s with _ | ⟨n, s1⟩
      · rfl
      · simp only []
        split
        · rfl
        · rcases BulkSerializeArray FileReadSerializer p.sizeof _ n s1 with _ | ⟨n, s1⟩ <;> rfl)
    vs d rest hsize hv.2
  have hl := bulk_container p (fun n => List_Init p.toTy n n) (fun n => by simp [List_Init])
    (BulkSerializeItem_List FileWriteSerializer p) (BulkSerializeItem_List FileReadSerializer p)
    (fun a s => by simp only [BulkSerializeItem_List]; rfl)
    (fun a s => by
      unfold BulkSerializeItem_List
      rcases FileReadSerializer.SerializeItem 8 a.length s with _ | ⟨n, s1⟩
      · rfl
      · simp only []
        split
        · rfl
        · rcases BulkSerializeArray FileReadSerializer p.sizeof _ n s1 with _ | ⟨n, s1⟩ <;> rfl)
    vs d rest hsize hv.2
  exact ⟨_, ⟨ha.1, ha.2, by simpa using hw1 [], hr1 d rest trivial⟩,
    ⟨hl.1, hl.2, by simpa using hw2 [], hr2 d rest trivial⟩⟩

theorem bulk_roundtrip_eq_elementwise_witness :
    (Ty.array POD.float3.toTy).representable [⟨1, 2, 3⟩, ⟨4, 5, 4294967295⟩] = true ∧
    POD.float3.sizeof * [(⟨1, 2, 3⟩ : Float3 Nat), ⟨4, 5, 4294967295⟩].length < 2 ^ 64 ∧
    ∃ bytes,
      (BulkSerializeItem_Array FileWriteSerializer .float3 [⟨1, 2, 3⟩, ⟨4, 5, 4294967295⟩] []
          = some ([⟨1, 2, 3⟩, ⟨4, 5, 4294967295⟩], bytes) ∧
        BulkSerializeItem_Array FileReadSerializer .float3 [⟨7, 7, 7⟩] (bytes ++ [9])
          = some ([⟨1, 2, 3⟩, ⟨4, 5, 4294967295⟩], [9]) ∧
        SerializeItem FileWriteSerializer (.array POD.float3.toTy)
          [⟨1, 2, 3⟩, ⟨4, 5, 4294967295⟩] [] = some ([⟨1, 2, 3⟩, ⟨4, 5, 4294967295⟩], bytes) ∧
        SerializeItem FileReadSerializer (.array POD.float3.toTy) [⟨7, 7, 7⟩] (bytes ++ [9])
          = some ([⟨1, 2, 3⟩, ⟨4, 5, 4294967295⟩], [9])) ∧
      (BulkSerializeItem_List FileWriteSerializer .float3 [⟨1, 2, 3⟩, ⟨4, 5, 4294967295⟩] []
          = some ([⟨1, 2, 3⟩, ⟨4, 5, 4294967295⟩], bytes) ∧
        BulkSerializeItem_List FileReadSerializer .float3 [⟨7, 7, 7⟩] (bytes ++ [9])
          = some ([⟨1, 2, 3⟩, ⟨4, 5, 4294967295⟩], [9]) ∧
        SerializeItem FileWriteSerializer (.list POD.float3.toTy)
          [⟨1, 2, 3⟩, ⟨4, 5, 4294967295⟩] [] = some ([⟨1, 2, 3⟩, ⟨4, 5, 4294967295⟩], bytes) ∧
        SerializeItem FileReadSerializer (.list POD.float3.toTy) [⟨7, 7, 7⟩] (bytes ++ [9])
          = some ([⟨1, 2, 3⟩, ⟨4, 5, 4294967295⟩], [9])) :=
  ⟨by decide, by decide,
    bulk_roundtrip_eq_elementwise .float3 [⟨1, 2, 3⟩, ⟨4, 5, 4294967295⟩] [⟨7, 7, 7⟩] [9]
      (by decide) (by decide)⟩

/-! ## The box scene -/

section
variable {F M : Type} [LinearOrderedField F]

theorem storeRange_replicate {α : Type} (vals : List α) (v0 : α) :
    storeRange (List.replicate vals.length v0) 0 vals = vals := by
  apply List.ext_getElem?
  intro k
  rw [getElem?_storeRange]
  by_cases hk : k < vals.length
  · have h1 : 0 ≤ k ∧ k < 0 + vals.length := by omega
    rw [if_pos h1, List.getElem?_replicate, if_pos hk, Nat.sub_zero,
      List.getElem?_eq_getElem hk]
    rfl
  · have h1 : ¬ (0 ≤ k ∧ k < 0 + vals.length) := by omega
    rw [if_neg h1, List.getElem?_replicate, if_neg hk, List.getElem?_eq_none (by omega)]

/-- The vertex loop of `InitBox` over an array it covers from the start: every
vertex is transformed in place and the bounds are folded over the new positions. -/
theorem vertexLoop_spec (Transform : Float3 F → Quaternion F → Float3 F)
    (dimensions position : Float3 F) (orientation : Quaternion F) (vs : List (MeshVertex F))
    (mn mx : Float3 F) (n : Nat) (hn : n ≤ vs.length) :
    forRange n (InitBox.vertexBody Transform dimensions position orientation 0) (mn, mx, vs) =
      ((vs.take n).foldl (fun a v => Float3.Min a
          (TransformVertex Transform v position (dimensions.scale (1 / 2)) orientation).Position) mn,
        (vs.take n).foldl (fun a v => Float3.Max a
          (TransformVertex Transform v position (dimensions.scale (1 / 2)) orientation).Position) mx,
        (vs.take n).map (fun v =>
          TransformVertex Transform v position (dimensions.scale (1 / 2)) orientation)
          ++ vs.drop n) := by
  induction n with
  | zero => simp [forRange_zero]
  | succ n ih =>
    have hlt : n < vs.length := by omega
    rw [forRange_succ, ih (by omega)]
    have hget : ((vs.take n).map (fun v =>
          TransformVertex Transform v position (dimensions.scale (1 / 2)) orientation)
          ++ vs.drop n)[0 + n]? = some vs[n] := by
      rw [Nat.zero_add, List.getElem?_append_right (by simp)]
      simp [List.length_take, Nat.min_eq_left (Nat.le_of_lt hlt)]
    simp only [InitBox.vertexBody, hget]
    have htake : vs.take (n + 1) = vs.take n ++ [vs[n]] := by
      rw [List.take_succ, List.getElem?_eq_getElem hlt]; rfl
    rw [htake, List.foldl_append, List.foldl_append, List.map_append]
    simp only [List.foldl_cons, List.foldl_nil, List.map_cons, List.map_nil, Nat.zero_add]
    congr 2
    have hlen : ((vs.take n).map (fun v =>
        TransformVertex Transform v position (dimensions.scale (1 / 2)) orientation)).length = n := by
      simp [List.length_take, Nat.min_eq_left (Nat.le_of_lt hlt)]
    rw [List.set_append_right _ _ (by rw [hlen]), hlen, Nat.sub_self, List.append_assoc]
    congr 1
    rw [List.drop_eq_getElem_cons hlt]
    rfl


theorem TransformVertex_unit (Transform : Float3 F → Quaternion F → Float3 F)
    (hT : ∀ v, Transform v Quaternion.identity = v) (v : MeshVertex F) :
    TransformVertex Transform v ⟨0, 0, 0⟩ (Float3.scale ⟨2, 2, 2⟩ (1 / 2)) Quaternion.identity = v := by
  obtain ⟨⟨px, py, pz⟩, n, uv, t, b⟩ := v
  simp [TransformVertex, hT, Float3.mul, Float3.add, Float3.scale]

theorem boxBounds (FloatMax : F) (hmax : 1 ≤ FloatMax) :
    (InitBox.vertices (F := F)).foldl (fun a v => Float3.Min a v.Position) (Float3.splat FloatMax)
      = ⟨-1, -1, -1⟩ ∧
    (InitBox.vertices (F := F)).foldl (fun a v => Float3.Max a v.Position) (Float3.splat (-FloatMax))
      = ⟨1, 1, 1⟩ := by
  have h1 : (-1 : F) ≤ FloatMax := by linarith
  have h2 : (-1 : F) ≤ 1 := by norm_num
  have h3 : -FloatMax ≤ (1 : F) := by linarith
  have h4 : -FloatMax ≤ (-1 : F) := by linarith
  constructor
  · simp [InitBox.vertices, Float3.Min, Float3.splat, min_eq_right, min_eq_left, h1, h2, hmax]
  · simp [InitBox.vertices, Float3.Max, Float3.splat, max_eq_right, max_eq_left, h3, h4, h2, hmax]


set_option maxRecDepth 100000 in
theorem boxIndices_stored :
    ∀ i, i < 36 → loadBytes (forRange NumBoxIndices
      (fun iIdx acc => store16 acc 0 iIdx (InitBox.indices.getD iIdx 0))
      (List.replicate (NumBoxIndices * 2) 0)) (2 * i) 2 = InitBox.indices.getD i 0 ∧
      InitBox.indices.getD i 0 < 24 := by
  decide

set_option maxRecDepth 100000 in
theorem boxIndices_length :
    (forRange NumBoxIndices (fun iIdx acc => store16 acc 0 iIdx (InitBox.indices.getD iIdx 0))
      (List.replicate (NumBoxIndices * 2) 0)).length = 72 := by
  decide

/-- What `GenerateBoxScene` has filled in for the unit box before meshlets and
buffers. -/
theorem fill_unit_box (ext : Externals F M) (Transform : Float3 F → Quaternion F → Float3 F)
    (init : BoxSceneInit F) (self : Model F)
    (hdim : init.Dimensions = ⟨2, 2, 2⟩) (hpos : init.Position = ⟨0, 0, 0⟩)
    (hq : init.Orientation = Quaternion.identity)
    (hT : ∀ v, Transform v Quaternion.identity = v) (hmax : 1 ≤ ext.FloatMax) :
    let model := GenerateBoxScene.fill ext Transform init self
    model.vertices = InitBox.vertices ∧
    model.indices = forRange NumBoxIndices
      (fun iIdx acc => store16 acc 0 iIdx (InitBox.indices.getD iIdx 0))
      (List.replicate (NumBoxIndices * 2) 0) ∧
    model.indexType = IndexType.Index16Bit ∧
    model.aabbMin = ⟨-1, -1, -1⟩ ∧ model.aabbMax = ⟨1, 1, 1⟩ ∧
    model.meshes.map (fun m => (m.numVertices, m.numIndices, m.indexType, m.aabbMin, m.aabbMax))
      = [(24, 36, IndexType.Index16Bit, ⟨-1, -1, -1⟩, ⟨1, 1, 1⟩)] := by
  intro model
  have hlen : (InitBox.vertices (F := F)).length = NumBoxVerts := rfl
  have hstore : storeRange (List.replicate NumBoxVerts ext.freshVertex) 0 InitBox.vertices
      = InitBox.vertices := by
    rw [← hlen]; exact storeRange_replicate _ _
  have hloop := vertexLoop_spec Transform init.Dimensions init.Position init.Orientation
    InitBox.vertices (Float3.splat ext.FloatMax) (Float3.splat (-ext.FloatMax)) NumBoxVerts
    (Nat.le_of_eq hlen.symm)
  have hf : (fun v : MeshVertex F => TransformVertex Transform v init.Position
      (init.Dimensions.scale (1 / 2)) init.Orientation) = fun v => v := by
    funext v
    rw [hdim, hpos, hq]
    exact TransformVertex_unit Transform hT v
  have hfmin : (fun (a : Float3 F) (v : MeshVertex F) => Float3.Min a (TransformVertex Transform v
      init.Position (init.Dimensions.scale (1 / 2)) init.Orientation).Position)
      = fun a v => Float3.Min a v.Position := by
    funext a v
    rw [congrFun hf v]
  have hfmax : (fun (a : Float3 F) (v : MeshVertex F) => Float3.Max a (TransformVertex Transform v
      init.Position (init.Dimensions.scale (1 / 2)) init.Orientation).Position)
      = fun a v => Float3.Max a v.Position := by
    funext a v
    rw [congrFun hf v]
  have htake : (InitBox.vertices (F := F)).take NumBoxVerts = InitBox.vertices :=
    List.take_of_length_le (Nat.le_of_eq hlen)
  have hdrop : (InitBox.vertices (F := F)).drop NumBoxVerts = [] :=
    List.drop_of_length_le (Nat.le_of_eq hlen)
  rw [hf, hfmin, hfmax, htake, hdrop, List.map_id', List.append_nil,
    (boxBounds ext.FloatMax hmax).1, (boxBounds ext.FloatMax hmax).2] at hloop
  have hst : forRange NumBoxVerts
      (InitBox.vertexBody Transform init.Dimensions init.Position init.Orientation 0)
      (Float3.splat ext.FloatMax, Float3.splat (-ext.FloatMax),
        storeRange (List.replicate NumBoxVerts ext.freshVertex) 0 InitBox.vertices)
      = (⟨-1, -1, -1⟩, ⟨1, 1, 1⟩, InitBox.vertices) := by
    rw [hstore]; exact hloop
  refine ⟨?_, rfl, rfl, ?_, ?_, ?_⟩ <;>
    simp only [model, GenerateBoxScene.fill, Mesh.InitBox, hst, List.map_cons, List.map_nil]
  rfl

/-- C11: `GenerateBoxScene` with dimensions `(2, 2, 2)`, position `(0, 0, 0)` and
the identity orientation (rotation by which leaves every vector as it is; the
constant `FloatMax` being at least 1) yields a model with exactly one mesh, of 24
vertices and 36 indices of 16 bits, each index below 24 and equal to the one
`InitBox` lists; the bounding box of the mesh and that of the model have
minimum `(-1, -1, -1)` and maximum `(1, 1, 1)`. -/
theorem GenerateBoxScene_unit_box (ext : Externals F M)
    (Transform : Float3 F → Quaternion F → Float3 F) (init : BoxSceneInit F) (self : Model F)
    (hdim : init.Dimensions = ⟨2, 2, 2⟩) (hpos : init.Position = ⟨0, 0, 0⟩)
    (hq : init.Orientation = Quaternion.identity)
    (hT : ∀ v, Transform v Quaternion.identity = v) (hmax : 1 ≤ ext.FloatMax) :
    let model := Model.GenerateBoxScene ext Transform init self
    model.meshes.map (fun m => (m.numVertices, m.numIndices, m.indexType, m.aabbMin, m.aabbMax))
      = [(24, 36, IndexType.Index16Bit, ⟨-1, -1, -1⟩, ⟨1, 1, 1⟩)] ∧
    model.indexType = IndexType.Index16Bit ∧
    model.vertices.length = 24 ∧ model.indices.length = 36 * 2 ∧
    (∀ i, i < 36 → model.index16 i = InitBox.indices.getD i 0 ∧ model.index16 i < 24) ∧
    model.aabbMin = ⟨-1, -1, -1⟩ ∧ model.aabbMax = ⟨1, 1, 1⟩ := by
  intro model
  obtain ⟨hv, hi, hit, hmn, hmx, hm⟩ := fill_unit_box ext Transform init self hdim hpos hq hT hmax
  have hg := beforeBuffers_sameGeometry ext init.GenerateMeshlets
    (GenerateBoxScene.fill ext Transform init self)
  have hmap := sameGeometry_map hg
    (fun m => (m.numVertices, m.numIndices, m.indexType, m.aabbMin, m.aabbMax)) (fun _ => rfl)
  have hmeshes : model.meshes.map
      (fun m => (m.numVertices, m.numIndices, m.indexType, m.aabbMin, m.aabbMax))
      = [(24, 36, IndexType.Index16Bit, ⟨-1, -1, -1⟩, ⟨1, 1, 1⟩)] :=
    ((CreateBuffers_loop_map _ _ 0 0
      (fun m => (m.numVertices, m.numIndices, m.indexType, m.aabbMin, m.aabbMax))
      (fun _ _ _ _ _ => rfl)).trans hmap).trans hm
  have hverts : model.vertices = InitBox.vertices := hg.2.1.trans hv
  have hinds : model.indices = _ := hg.2.2.1.trans hi
  refine ⟨hmeshes, hg.2.2.2.1.trans hit, ?_, ?_, ?_, hg.2.2.2.2.1.trans hmn,
    hg.2.2.2.2.2.trans hmx⟩
  · rw [hverts]; rfl
  · rw [hinds]; exact boxIndices_length
  · intro i hi36
    unfold Model.index16
    rw [hinds]
    have h := boxIndices_stored i hi36
    exact ⟨h.1, h.1 ▸ h.2⟩

end

theorem GenerateBoxScene_unit_box_witness :
    (Examples.unitBox.Dimensions = ⟨2, 2, 2⟩ ∧ Examples.unitBox.Position = ⟨0, 0, 0⟩ ∧
      Examples.unitBox.Orientation = Quaternion.identity ∧
      (∀ v, Examples.rotate v Quaternion.identity = v) ∧ 1 ≤ Examples.extQ.FloatMax) ∧
    ((Model.GenerateBoxScene Examples.extQ Examples.rotate Examples.unitBox
        Examples.modelQ).meshes.map
        (fun m => (m.numVertices, m.numIndices, m.indexType, m.aabbMin, m.aabbMax))
      = [(24, 36, IndexType.Index16Bit, ⟨-1, -1, -1⟩, ⟨1, 1, 1⟩)] ∧
    (Model.GenerateBoxScene Examples.extQ Examples.rotate Examples.unitBox
      Examples.modelQ).indexType = IndexType.Index16Bit ∧
    (Model.GenerateBoxScene Examples.extQ Examples.rotate Examples.unitBox
      Examples.modelQ).vertices.length = 24 ∧
    (Model.GenerateBoxScene Examples.extQ Examples.rotate Examples.unitBox
      Examples.modelQ).indices.length = 36 * 2 ∧
    (∀ i, i < 36 →
      (Model.GenerateBoxScene Examples.extQ Examples.rotate Examples.unitBox
        Examples.modelQ).index16 i = InitBox.indices.getD i 0 ∧
      (Model.GenerateBoxScene Examples.extQ Examples.rotate Examples.unitBox
        Examples.modelQ).index16 i < 24) ∧
    (Model.GenerateBoxScene Examples.extQ Examples.rotate Examples.unitBox
      Examples.modelQ).aabbMin = ⟨-1, -1, -1⟩ ∧
    (Model.GenerateBoxScene Examples.extQ Examples.rotate Examples.unitBox
      Examples.modelQ).aabbMax = ⟨1, 1, 1⟩) :=
  have hT : ∀ v, Examples.rotate v Quaternion.identity = v := fun v => by
    obtain ⟨x, y, z⟩ := v
    simp [Examples.rotate, Quaternion.identity]
  have hmax : (1 : ℚ) ≤ Examples.extQ.FloatMax := by
    simp only [Examples.extQ]; norm_num
  ⟨⟨rfl, rfl, rfl, hT, hmax⟩,
    GenerateBoxScene_unit_box Examples.extQ Examples.rotate Examples.unitBox Examples.modelQ
      rfl rfl rfl hT hmax⟩

/-! ## The texture pool -/

theorem TextureArray.get_set {α : Type} (a : TextureArray α) (t : Nat) (v : α)
    (ht : t < MaterialTextures.Count) : (a.set t v).get t = v := by
  have h : t = 0 ∨ t = 1 ∨ t = 2 ∨ t = 3 ∨ t = 4 ∨ t = 5 := by
    unfold MaterialTextures.Count at ht; omega
  rcases h with h | h | h | h | h | h <;> subst h <;> rfl

theorem TextureArray.get_set_ne {α : Type} (a : TextureArray α) (t u : Nat) (v : α)
    (ht : t < MaterialTextures.Count) (hu : u < MaterialTextures.Count) (hne : u ≠ t) :
    (a.set t v).get u = a.get u := by
  have h : t = 0 ∨ t = 1 ∨ t = 2 ∨ t = 3 ∨ t = 4 ∨ t = 5 := by
    unfold MaterialTextures.Count at ht; omega
  have h2 : u = 0 ∨ u = 1 ∨ u = 2 ∨ u = 3 ∨ u = 4 ∨ u = 5 := by
    unfold MaterialTextures.Count at hu; omega
  rcases h with h | h | h | h | h | h <;> subst h <;>
    rcases h2 with h2 | h2 | h2 | h2 | h2 | h2 <;> subst h2 <;>
    first | rfl | exact absurd rfl hne

theorem search_some (path : wstring) (l : List MaterialTexture) (k i : Nat)
    (h : LoadMaterialResources.search path l k = some i) :
    ∃ e, k ≤ i ∧ l[i - k]? = some e ∧ e.Name = path := by
  induction l generalizing k with
  | nil => simp [LoadMaterialResources.search] at h
  | cons t rest ih =>
    unfold LoadMaterialResources.search at h
    by_cases hn : t.Name = path
    · rw [if_pos hn] at h
      have hi : k = i := by simpa using h
      subst hi
      exact ⟨t, Nat.le_refl _, by simp, hn⟩
    · rw [if_neg hn] at h
      obtain ⟨e, hle, hget, hname⟩ := ih (k + 1) h
      refine ⟨e, by omega, ?_, hname⟩
      have e1 : i - k = (i - (k + 1)) + 1 := by omega
      rw [e1, List.getElem?_cons_succ]
      exact hget

theorem search_none (path : wstring) (l : List MaterialTexture) (k : Nat)
    (h : LoadMaterialResources.search path l k = none) : path ∉ l.map (fun t => t.Name) := by
  induction l generalizing k with
  | nil => simp
  | cons t rest ih =>
    unfold LoadMaterialResources.search at h
    by_cases hn : t.Name = path
    · rw [if_pos hn] at h
      simp at h
    · rw [if_neg hn] at h
      simp only [List.map_cons, List.mem_cons, not_or]
      exact ⟨fun e => hn e.symm, ih (k + 1) h⟩

theorem loads_log (w : World) (e : Event) (path : wstring) :
    (w.log e).loads path = w.loads path +
      (match e with
        | .LoadTexture filePath _ => if filePath = path then 1 else 0
        | _ => 0) := by
  unfold World.loads World.log
  simp only [List.filter_append, List.length_append]
  cases e <;> simp [List.filter]
  split <;> simp_all

theorem resolve_fst (directory : wstring) (m : MeshMaterial) (t : Nat) (w : World) :
    (LoadMaterialResources.resolve directory m t w).1 =
      if (m.TextureNames.get t).length = 0 then DefaultTextures.get t
      else if (w.files.lookup (directory ++ m.TextureNames.get t)).isSome = false then
        DefaultTextures.get t
      else directory ++ m.TextureNames.get t := by
  unfold LoadMaterialResources.resolve World.FileExists
  by_cases h0 : (m.TextureNames.get t).length = 0
  · rw [if_pos h0, if_pos h0]
  · rw [if_neg h0, if_neg h0]
    cases (List.lookup (directory ++ m.TextureNames.get t) w.files).isSome <;> rfl

theorem resolve_world (directory : wstring) (m : MeshMaterial) (t : Nat) (w : World) :
    (LoadMaterialResources.resolve directory m t w).2.2.files = w.files ∧
    ∀ path, (LoadMaterialResources.resolve directory m t w).2.2.loads path = w.loads path := by
  have hl : ∀ p q, (w.log (Event.FileExists q)).loads p = w.loads p := fun p q => by
    rw [loads_log]; rfl
  unfold LoadMaterialResources.resolve World.FileExists
  by_cases h0 : (m.TextureNames.get t).length = 0
  · rw [if_pos h0]
    exact ⟨rfl, fun _ => rfl⟩
  · rw [if_neg h0]
    cases (List.lookup (directory ++ m.TextureNames.get t) w.files).isSome
    · exact ⟨rfl, fun p => hl p _⟩
    · exact ⟨rfl, fun p => hl p _⟩

/-- What resolving a slot depends on: the slot names of the material and the
files of the world. -/
theorem resolve_congr (directory : wstring) (m1 m2 : MeshMaterial) (t : Nat) (w1 w2 : World)
    (hn : m1.TextureNames = m2.TextureNames) (hf : w1.files = w2.files) :
    (LoadMaterialResources.resolve directory m1 t w1).1
      = (LoadMaterialResources.resolve directory m2 t w2).1 := by
  rw [resolve_fst, resolve_fst, hn, hf]


theorem prepare_spec (directory : wstring) (m : MeshMaterial) (t : Nat) (w : World) :
    (LoadMaterialResources.prepare directory m t w).1.TextureNames = m.TextureNames ∧
    (LoadMaterialResources.prepare directory m t w).1.TextureIndices = m.TextureIndices ∧
    (LoadMaterialResources.prepare directory m t w).1.Textures = m.Textures.set t none ∧
    (LoadMaterialResources.prepare directory m t w).2.1
      = (LoadMaterialResources.resolve directory m t w).1 ∧
    (LoadMaterialResources.prepare directory m t w).2.2.files = w.files ∧
    ∀ path, (LoadMaterialResources.prepare directory m t w).2.2.loads path = w.loads path := by
  have hw := resolve_world directory { m with Textures := m.Textures.set t none } t w
  have hp := resolve_congr directory { m with Textures := m.Textures.set t none } m t w w rfl rfl
  unfold LoadMaterialResources.prepare
  refine ⟨?_, ?_, ?_, hp, hw.1, hw.2⟩ <;> (simp only []; split <;> rfl)

theorem assign_spec (m : MeshMaterial) (t i : Nat) (ht : t < MaterialTextures.Count) :
    (LoadMaterialResources.assign m t i).TextureNames = m.TextureNames ∧
    (LoadMaterialResources.assign m t i).Textures.get t = some i ∧
    (LoadMaterialResources.assign m t i).TextureIndices.get t = i % 2 ^ 32 ∧
    ∀ u, u < MaterialTextures.Count → u ≠ t →
      (LoadMaterialResources.assign m t i).Textures.get u = m.Textures.get u ∧
      (LoadMaterialResources.assign m t i).TextureIndices.get u = m.TextureIndices.get u :=
  ⟨rfl, TextureArray.get_set _ _ _ ht, TextureArray.get_set _ _ _ ht, fun _ hu hne =>
    ⟨TextureArray.get_set_ne _ _ _ _ ht hu hne, TextureArray.get_set_ne _ _ _ _ ht hu hne⟩⟩

theorem map_set_same {α β : Type} (f : α → β) (l : List α) (i : Nat) (a b : α)
    (hl : l[i]? = some a) (hf : f b = f a) : (l.set i b).map f = l.map f := by
  apply List.ext_getElem?
  intro k
  simp only [List.getElem?_map, List.getElem?_set]
  by_cases hk : i = k
  · subst hk
    have hlt : i < l.length := (List.getElem?_eq_some.mp hl).1
    simp [hlt, hl, hf]
  · simp [hk]


/-- An iteration of the slot loop leaves an exception in place. -/
theorem slot_error (LoadTexture : wstring → Bool → Except Exception Texture) (directory : wstring)
    (forceSRGB : Bool) (k tt : Nat) (st : LoadMaterialResources.State)
    (h : (LoadMaterialResources.slot LoadTexture directory forceSRGB k tt st).error = none) :
    st.error = none := by
  cases he : st.error with
  | none => rfl
  | some e =>
    unfold LoadMaterialResources.slot at h
    rw [he] at h
    simp only [] at h
    rw [he] at h
    exact h

/-- One iteration of the slot loop carries the invariant of the pool. -/
theorem slot_inv (LoadTexture : wstring → Bool → Except Exception Texture) (directory : wstring)
    (forceSRGB : Bool) (materials : List MeshMaterial) (pool : List MaterialTexture) (w : World)
    (k tt : Nat) (hk : k < materials.length) (htt : tt < MaterialTextures.Count)
    (hfit : pool.length + MaterialTextures.Count * materials.length ≤ 2 ^ 32)
    (st : LoadMaterialResources.State)
    (hinv : LoadMaterialResources.Inv directory materials pool w k tt st)
    (hst : st.error = none)
    (herr : (LoadMaterialResources.slot LoadTexture directory forceSRGB k tt st).error = none) :
    LoadMaterialResources.Inv directory materials pool w k (tt + 1)
      (LoadMaterialResources.slot LoadTexture directory forceSRGB k tt st) := by
  have hlen : st.materials.length = materials.length := by
    have := congrArg List.length hinv.names
    simpa using this
  obtain ⟨mat0, hmat0⟩ : ∃ m, materials[k]? = some m :=
    ⟨materials[k], List.getElem?_eq_getElem hk⟩
  obtain ⟨mat, hmat⟩ : ∃ m, st.materials[k]? = some m :=
    ⟨st.materials[k], List.getElem?_eq_getElem (by omega)⟩
  have hnames : mat.TextureNames = mat0.TextureNames := by
    have h1 := congrArg (fun l => l[k]?) hinv.names
    simp only [List.getElem?_map, hmat, hmat0, Option.map_some', Option.some.injEq] at h1
    exact h1
  obtain ⟨hpn, hpi, hpt, hpp, hpf, hpl⟩ := prepare_spec directory mat tt st.world
  have hpath : (LoadMaterialResources.prepare directory mat tt st.world).2.1
      = (LoadMaterialResources.resolve directory mat0 tt w).1 :=
    hpp.trans (resolve_congr directory mat mat0 tt st.world w hnames hinv.files)
  have hcount : MaterialTextures.Count = 6 := rfl
  have hsmall : st.materialTextures.length < 2 ^ 32 := by
    have := hinv.bound
    have h2 : MaterialTextures.Count * k + tt < MaterialTextures.Count * materials.length := by
      have : MaterialTextures.Count * (k + 1) ≤ MaterialTextures.Count * materials.length :=
        Nat.mul_le_mul_left _ hk
      rw [Nat.mul_succ] at this
      omega
    omega
  -- the slots done before stay as they are when slot `tt` of material `k` is bound
  have hold : ∀ (i : Nat) (pool1 : List MaterialTexture),
      (∀ (x : Nat) (e : MaterialTexture), st.materialTextures[x]? = some e → pool1[x]? = some e) →
      ∀ (j t : Nat) (material : MeshMaterial), j < k ∨ (j = k ∧ t < tt) →
        t < MaterialTextures.Count → materials[j]? = some material →
        ∃ (m1 : MeshMaterial) (entry : MaterialTexture),
          (st.materials.set k (LoadMaterialResources.assign
            (LoadMaterialResources.prepare directory mat tt st.world).1 tt i))[j]? = some m1 ∧
          m1.Textures.get t = some (m1.TextureIndices.get t) ∧
          pool1[m1.TextureIndices.get t]? = some entry ∧
          entry.Name = (LoadMaterialResources.resolve directory material t w).1 := by
    intro i pool1 hkeep j t material hdone ht hmaterial
    obtain ⟨m1, entry, hm1, hptr, hentry, hname⟩ := hinv.slots j t material hdone ht hmaterial
    by_cases hj : j = k
    · subst hj
      have ht2 : t < tt := by omega
      have hm : m1 = mat := by rw [hmat] at hm1; exact (Option.some.inj hm1).symm
      subst hm
      obtain ⟨_, _, _, hother⟩ := assign_spec
        (LoadMaterialResources.prepare directory m1 tt st.world).1 tt i htt
      obtain ⟨ho1, ho2⟩ := hother t ht (by omega)
      refine ⟨LoadMaterialResources.assign
        (LoadMaterialResources.prepare directory m1 tt st.world).1 tt i, entry, ?_, ?_, ?_, hname⟩
      · rw [List.getElem?_set_self (by omega)]
      · rw [ho1, ho2, hpt, hpi, TextureArray.get_set_ne _ _ _ _ htt ht (by omega)]
        exact hptr
      · rw [ho2, hpi]
        exact hkeep _ _ hentry
    · refine ⟨m1, entry, ?_, hptr, hkeep _ _ hentry, hname⟩
      rw [List.getElem?_set_ne (fun e => hj e.symm)]
      exact hm1
  unfold LoadMaterialResources.slot at herr ⊢
  rw [hst, hmat] at herr ⊢
  simp only [] at herr ⊢
  cases hs : LoadMaterialResources.search
      (LoadMaterialResources.prepare directory mat tt st.world).2.1 st.materialTextures 0 with
  | some i =>
    simp only [hs]
    obtain ⟨e, _, hget, hename⟩ := search_some _ _ _ _ hs
    rw [Nat.sub_zero] at hget
    have hilt : i < st.materialTextures.length := (List.getElem?_eq_some.mp hget).1
    obtain ⟨han, hat, hai, _⟩ := assign_spec
      (LoadMaterialResources.prepare directory mat tt st.world).1 tt i htt
    have himod : i % 2 ^ 32 = i := Nat.mod_eq_of_lt (by omega)
    refine ⟨hpf.trans hinv.files, ?_, hinv.grows, ?_, hinv.nodup, ?_, ?_⟩
    · rw [← hinv.names]
      exact map_set_same _ _ _ mat _ hmat (han.trans hpn)
    · have := hinv.bound
      show st.materialTextures.length ≤ _
      omega
    · intro j t material hdone ht hmaterial
      by_cases hnew : j = k ∧ t = tt
      · obtain ⟨hj, ht2⟩ := hnew
        rw [hj] at hmaterial
        rw [hj, ht2]
        have hm : material = mat0 := by rw [hmat0] at hmaterial; exact (Option.some.inj hmaterial).symm
        subst hm
        refine ⟨LoadMaterialResources.assign
          (LoadMaterialResources.prepare directory mat tt st.world).1 tt i, e, ?_, ?_, ?_,
          hename.trans hpath⟩
        · show (st.materials.set k _)[k]? = _
          rw [List.getElem?_set_self (by omega)]
        · rw [hat, hai, himod]
        · show st.materialTextures[_]? = _
          rw [hai, himod]
          exact hget
      · exact hold i st.materialTextures (fun _ _ h => h) j t material (by omega) ht hmaterial
    · intro path
      show (LoadMaterialResources.prepare directory mat tt st.world).2.2.loads path = _
      rw [hpl path]
      exact hinv.loads path
  | none =>
    simp only [hs] at herr ⊢
    have hnotin := search_none _ _ _ hs
    cases hl : LoadTexture (LoadMaterialResources.prepare directory mat tt st.world).2.1
        (forceSRGB && decide (tt = MaterialTextures.Albedo.toNat)) with
    | error ex =>
      rw [hl] at herr
      simp at herr
    | ok texture =>
      simp only [hl]
      obtain ⟨han, hat, hai, _⟩ := assign_spec
        (LoadMaterialResources.prepare directory mat tt st.world).1 tt st.materialTextures.length htt
      have himod : st.materialTextures.length % 2 ^ 32 = st.materialTextures.length :=
        Nat.mod_eq_of_lt hsmall
      obtain ⟨added, hadded⟩ := hinv.grows
      refine ⟨hpf.trans hinv.files, ?_, ⟨added ++ [_], by rw [hadded, List.append_assoc]⟩, ?_, ?_,
        ?_, ?_⟩
      · rw [← hinv.names]
        exact map_set_same _ _ _ mat _ hmat (han.trans hpn)
      · have := hinv.bound
        show (st.materialTextures ++ [_]).length ≤ _
        rw [List.length_append, List.length_singleton]
        omega
      · show ((st.materialTextures ++ [_]).map (fun t : MaterialTexture => t.Name)).Nodup
        rw [List.map_append, List.map_singleton]
        exact List.Nodup.append hinv.nodup (List.nodup_singleton _)
          (List.disjoint_singleton.mpr hnotin)
      · intro j t material hdone ht hmaterial
        by_cases hnew : j = k ∧ t = tt
        · obtain ⟨hj, ht2⟩ := hnew
          rw [hj] at hmaterial
          rw [hj, ht2]
          have hm : material = mat0 := by
            rw [hmat0] at hmaterial; exact (Option.some.inj hmaterial).symm
          subst hm
          refine ⟨LoadMaterialResources.assign
            (LoadMaterialResources.prepare directory mat tt st.world).1 tt
            st.materialTextures.length,
            ⟨(LoadMaterialResources.prepare directory mat tt st.world).2.1, texture⟩, ?_, ?_, ?_,
            hpath⟩
          · show (st.materials.set k _)[k]? = _
            rw [List.getElem?_set_self (by omega)]
          · rw [hat, hai, himod]
          · show (st.materialTextures ++ [_])[_]? = _
            rw [hai, himod, List.getElem?_append_right (Nat.le_refl _), Nat.sub_self]
            rfl
        · exact hold _ _ (fun x e h => by
            rw [List.getElem?_append_left (List.getElem?_eq_some.mp h).1]; exact h)
            j t material (by omega) ht hmaterial
      · intro path
        show ((LoadMaterialResources.prepare directory mat tt st.world).2.2.log _).loads path = _
        rw [loads_log, hpl path, hinv.loads path]
        show _ + _ + (if _ = path then 1 else 0) = _ + (if path ∈ (st.materialTextures ++ [_]).map
          (fun t : MaterialTexture => t.Name) ∧ _ then 1 else 0)
        simp only [List.map_append, List.map_singleton, List.mem_append, List.mem_singleton]
        by_cases hp : (LoadMaterialResources.prepare directory mat tt st.world).2.1 = path
        · subst hp
          have hnotpool : (LoadMaterialResources.prepare directory mat tt st.world).2.1
              ∉ pool.map (fun t => t.Name) := by
            intro hin
            apply hnotin
            rw [hadded, List.map_append, List.mem_append]
            exact Or.inl hin
          simp [hnotin, hnotpool]
        · have hp2 : ¬ path = (LoadMaterialResources.prepare directory mat tt st.world).2.1 :=
            fun e => hp e.symm
          simp [hp, hp2]

theorem inv_initial (directory : wstring) (materials : List MeshMaterial)
    (pool : List MaterialTexture) (w : World)
    (hnodup : (pool.map (fun t => t.Name)).Nodup) :
    LoadMaterialResources.Inv directory materials pool w 0 0
      { materials := materials, materialTextures := pool, world := w, error := none } :=
  { files := rfl
    names := rfl
    grows := ⟨[], (List.append_nil _).symm⟩
    bound := by show pool.length ≤ _; omega
    nodup := hnodup
    slots := fun j t _ hdone _ _ => by omega
    loads := fun path => by
      have h : ¬ (path ∈ pool.map (fun t => t.Name) ∧ path ∉ pool.map (fun t => t.Name)) :=
        fun h => h.2 h.1
      show w.loads path = _
      rw [if_neg h, Nat.add_zero] }

theorem inv_next (directory : wstring) (materials : List MeshMaterial)
    (pool : List MaterialTexture) (w : World) (k : Nat) (st : LoadMaterialResources.State)
    (h : LoadMaterialResources.Inv directory materials pool w k MaterialTextures.Count st) :
    LoadMaterialResources.Inv directory materials pool w (k + 1) 0 st :=
  { files := h.files
    names := h.names
    grows := h.grows
    bound := by have := h.bound; rw [Nat.mul_succ]; omega
    nodup := h.nodup
    slots := fun j t material hdone ht hm =>
      h.slots j t material (by omega) ht hm
    loads := h.loads }

/-- The slot loop over one material carries the invariant of the pool. -/
theorem slotLoop_inv (LoadTexture : wstring → Bool → Except Exception Texture)
    (directory : wstring) (forceSRGB : Bool) (materials : List MeshMaterial)
    (pool : List MaterialTexture) (w : World) (k : Nat) (hk : k < materials.length)
    (hfit : pool.length + MaterialTextures.Count * materials.length ≤ 2 ^ 32)
    (st : LoadMaterialResources.State)
    (hinv : st.error = none → LoadMaterialResources.Inv directory materials pool w k 0 st)
    (herr : (forRange MaterialTextures.Count
      (LoadMaterialResources.slot LoadTexture directory forceSRGB k) st).error = none) :
    LoadMaterialResources.Inv directory materials pool w (k + 1) 0
      (forRange MaterialTextures.Count
        (LoadMaterialResources.slot LoadTexture directory forceSRGB k) st) := by
  have h := forRange_induction
    (fun t (s : LoadMaterialResources.State) => s.error = none →
      st.error = none ∧ LoadMaterialResources.Inv directory materials pool w k t s)
    MaterialTextures.Count (LoadMaterialResources.slot LoadTexture directory forceSRGB k) st
    (fun h0 => ⟨h0, hinv h0⟩)
    (fun t s ht hs hnext => by
      have hs0 := slot_error LoadTexture directory forceSRGB k t s hnext
      obtain ⟨h1, h2⟩ := hs hs0
      exact ⟨h1, slot_inv LoadTexture directory forceSRGB materials pool w k t hk ht hfit s h2
        hs0 hnext⟩)
  exact inv_next directory materials pool w k _ (h herr).2

/-- Without a failing load no iteration of the slot loop raises an exception. -/
theorem slot_total (LoadTexture : wstring → Bool → Except Exception Texture)
    (hload : ∀ p b, ∃ t, LoadTexture p b = .ok t) (directory : wstring) (forceSRGB : Bool)
    (k tt : Nat) (st : LoadMaterialResources.State) (hst : st.error = none) :
    (LoadMaterialResources.slot LoadTexture directory forceSRGB k tt st).error = none := by
  unfold LoadMaterialResources.slot
  rw [hst]
  cases hm : st.materials[k]? with
  | none => exact hst
  | some mat =>
    simp only []
    cases hs : LoadMaterialResources.search
        (LoadMaterialResources.prepare directory mat tt st.world).2.1 st.materialTextures 0 with
    | some i => rfl
    | none =>
      obtain ⟨t, ht⟩ := hload (LoadMaterialResources.prepare directory mat tt st.world).2.1
        (forceSRGB && decide (tt = MaterialTextures.Albedo.toNat))
      simp only [ht]


/-- Without a failing load `LoadMaterialResources` ends without an exception. -/
theorem LoadMaterialResources_total (LoadTexture : wstring → Bool → Except Exception Texture)
    (hload : ∀ p b, ∃ t, LoadTexture p b = .ok t) (materials : List MeshMaterial)
    (directory : wstring) (forceSRGB : Bool) (pool : List MaterialTexture) (w : World) :
    (LoadMaterialResources LoadTexture materials directory forceSRGB pool w).error = none := by
  unfold LoadMaterialResources
  exact forRange_induction (fun _ (s : LoadMaterialResources.State) => s.error = none) _ _ _ rfl
    (fun k s _ hs => forRange_induction
      (fun _ (s : LoadMaterialResources.State) => s.error = none) _ _ _ hs
      (fun t s1 _ hs1 => slot_total LoadTexture hload directory forceSRGB k t s1 hs1))

/-- The invariant of the pool at the end of `LoadMaterialResources`. -/
theorem LoadMaterialResources_inv (LoadTexture : wstring → Bool → Except Exception Texture)
    (materials : List MeshMaterial) (directory : wstring) (forceSRGB : Bool)
    (pool : List MaterialTexture) (w : World)
    (hnodup : (pool.map (fun t => t.Name)).Nodup)
    (hfit : pool.length + MaterialTextures.Count * materials.length ≤ 2 ^ 32)
    (herr : (LoadMaterialResources LoadTexture materials directory forceSRGB pool w).error = none) :
    LoadMaterialResources.Inv directory materials pool w materials.length 0
      (LoadMaterialResources LoadTexture materials directory forceSRGB pool w) := by
  unfold LoadMaterialResources at herr ⊢
  have h := forRange_induction
    (fun k (s : LoadMaterialResources.State) => s.error = none →
      LoadMaterialResources.Inv directory materials pool w k 0 s)
    materials.length
    (fun matIdx st => forRange MaterialTextures.Count
      (LoadMaterialResources.slot LoadTexture directory forceSRGB matIdx) st)
    { materials := materials, materialTextures := pool, world := w, error := none }
    (fun _ => inv_initial directory materials pool w hnodup)
    (fun k s hk hs hnext =>
      slotLoop_inv LoadTexture directory forceSRGB materials pool w k hk hfit s hs hnext)
  exact h herr

/-- C20: when `LoadMaterialResources` is run on a list of materials with a pool
that holds no name twice (an empty pool for one), small enough for the `uint32`
indices (pool entries plus six per material at most `2 ^ 32`), it ends without
an exception if no load fails, and whenever it ends without an exception: the
pool holds no two entries with the same `Name`; for every material and slot the
recorded `TextureIndices` entry, and the `Textures` pointer, designate the pool
entry whose `Name` is the path the slot resolves to; and that path has been
loaded exactly once by the call if it was not in the pool before, and not at
all if it was, however many materials and slots use it. -/
theorem LoadMaterialResources_pool (LoadTexture : wstring → Bool → Except Exception Texture)
    (materials : List MeshMaterial) (directory : wstring) (forceSRGB : Bool)
    (pool : List MaterialTexture) (w : World)
    (hnodup : (pool.map (fun t => t.Name)).Nodup)
    (hfit : pool.length + MaterialTextures.Count * materials.length ≤ 2 ^ 32) :
    let r := LoadMaterialResources LoadTexture materials directory forceSRGB pool w
    ((∀ p b, ∃ t, LoadTexture p b = .ok t) → r.error = none) ∧
    (r.error = none →
      (r.materialTextures.map (fun t => t.Name)).Nodup ∧
      ∀ (matIdx texType : Nat) (material : MeshMaterial), materials[matIdx]? = some material →
        texType < MaterialTextures.Count →
        ∃ (m1 : MeshMaterial) (entry : MaterialTexture), r.materials[matIdx]? = some m1 ∧
          m1.Textures.get texType = some (m1.TextureIndices.get texType) ∧
          r.materialTextures[m1.TextureIndices.get texType]? = some entry ∧
          entry.Name = (LoadMaterialResources.resolve directory material texType w).1 ∧
          r.world.loads entry.Name = w.loads entry.Name +
            (if entry.Name ∈ pool.map (fun t => t.Name) then 0 else 1)) := by
  intro r
  refine ⟨fun hload => LoadMaterialResources_total LoadTexture hload materials directory forceSRGB
    pool w, fun herr => ?_⟩
  have hinv := LoadMaterialResources_inv LoadTexture materials directory forceSRGB pool w hnodup
    hfit herr
  refine ⟨hinv.nodup, fun matIdx texType material hm ht => ?_⟩
  have hlt : matIdx < materials.length := (List.getElem?_eq_some.mp hm).1
  obtain ⟨m1, entry, h1, h2, h3, h4⟩ := hinv.slots matIdx texType material (Or.inl hlt) ht hm
  refine ⟨m1, entry, h1, h2, h3, h4, ?_⟩
  have hin : entry.Name ∈ r.materialTextures.map (fun t => t.Name) :=
    List.mem_map.mpr ⟨entry, List.mem_iff_getElem?.mpr ⟨_, h3⟩, rfl⟩
  rw [hinv.loads entry.Name]
  by_cases hp : entry.Name ∈ pool.map (fun t => t.Name)
  · have : ¬ (entry.Name ∈ r.materialTextures.map (fun t => t.Name) ∧
        entry.Name ∉ pool.map (fun t => t.Name)) := fun h => h.2 hp
    rw [if_neg this, if_pos hp]
  · rw [if_pos ⟨hin, hp⟩, if_neg hp]

theorem LoadMaterialResources_pool_witness :
    (([] : List MaterialTexture).map (fun t => t.Name)).Nodup ∧
    ([] : List MaterialTexture).length + MaterialTextures.Count * Examples.materials.length
      ≤ 2 ^ 32 ∧
    (((∀ p b, ∃ t, Examples.LoadTexture p b = .ok t) →
      (LoadMaterialResources Examples.LoadTexture Examples.materials (L "tex\\") true []
        Examples.world).error = none) ∧
    ((LoadMaterialResources Examples.LoadTexture Examples.materials (L "tex\\") true []
        Examples.world).error = none →
      ((LoadMaterialResources Examples.LoadTexture Examples.materials (L "tex\\") true []
        Examples.world).materialTextures.map (fun t => t.Name)).Nodup ∧
      ∀ (matIdx texType : Nat) (material : MeshMaterial),
        Examples.materials[matIdx]? = some material → texType < MaterialTextures.Count →
        ∃ (m1 : MeshMaterial) (entry : MaterialTexture),
          (LoadMaterialResources Examples.LoadTexture Examples.materials (L "tex\\") true []
            Examples.world).materials[matIdx]? = some m1 ∧
          m1.Textures.get texType = some (m1.TextureIndices.get texType) ∧
          (LoadMaterialResources Examples.LoadTexture Examples.materials (L "tex\\") true []
            Examples.world).materialTextures[m1.TextureIndices.get texType]? = some entry ∧
          entry.Name
            = (LoadMaterialResources.resolve (L "tex\\") material texType Examples.world).1 ∧
          (LoadMaterialResources Examples.LoadTexture Examples.materials (L "tex\\") true []
            Examples.world).world.loads entry.Name = Examples.world.loads entry.Name +
            (if entry.Name ∈ ([] : List MaterialTexture).map (fun t => t.Name) then 0 else 1))) :=
  ⟨by decide, by decide,
    LoadMaterialResources_pool Examples.LoadTexture Examples.materials (L "tex\\") true []
      Examples.world (by decide) (by decide)⟩

/-! ## The cache path -/

theorem value_foldl (str : wstring) (a : Nat) :
    str.foldl (fun a d => 10 * a + (d - 48)) a = a * 10 ^ str.length + MakeString.value str := by
  induction str generalizing a with
  | nil => simp [MakeString.value]
  | cons d ds ih =>
    unfold MakeString.value
    simp only [List.foldl_cons, List.length_cons]
    rw [ih, ih (10 * 0 + (d - 48)), pow_succ]
    ring

theorem value_cons (d : Nat) (str : wstring) :
    MakeString.value (d :: str) = (d - 48) * 10 ^ str.length + MakeString.value str := by
  unfold MakeString.value
  simp only [List.foldl_cons]
  rw [value_foldl]
  simp [MakeString.value]

theorem value_digits (fuel n : Nat) (acc : wstring) (h : n < 10 ^ fuel) :
    MakeString.value (MakeString.digits fuel n acc)
      = n * 10 ^ acc.length + MakeString.value acc := by
  induction fuel generalizing n acc with
  | zero =>
    have : n = 0 := by simpa using h
    simp [MakeString.digits, this]
  | succ fuel ih =>
    unfold MakeString.digits
    by_cases h0 : n / 10 = 0
    · rw [if_pos h0, value_cons]
      have : n % 10 = n := Nat.mod_eq_of_lt (by omega)
      simp [this]
    · rw [if_neg h0]
      have hlt : n / 10 < 10 ^ fuel := by
        rw [Nat.div_lt_iff_lt_mul (by decide)]
        rw [pow_succ] at h
        exact h
      rw [ih _ _ hlt, value_cons, List.length_cons, pow_succ]
      have hn : n = 10 * (n / 10) + n % 10 := (Nat.div_add_mod n 10).symm
      have e : 48 + n % 10 - 48 = n % 10 := by omega
      rw [e]
      conv_rhs => rw [hn]
      ring

/-- The decimal rendering of a `uint64` determines it. -/
theorem value_llu (n : Nat) : MakeString.value (MakeString.llu n) = n % 2 ^ 64 := by
  unfold MakeString.llu
  have hlt : n % 2 ^ 64 < 10 ^ (n % 2 ^ 64 + 1) :=
    Nat.lt_of_lt_of_le (Nat.lt_pow_self (by decide) _)
      (Nat.pow_le_pow_right (by decide) (Nat.le_succ _))
  rw [value_digits _ _ _ hlt]
  simp [MakeString.value]

theorem format_injective (dir settingsHash modelHash : wstring) (v1 v2 : Nat)
    (h1 : v1 < 2 ^ 64) (h2 : v2 < 2 ^ 64)
    (h : MakeModelCachePath.format dir settingsHash modelHash v1
      = MakeModelCachePath.format dir settingsHash modelHash v2) : v1 = v2 := by
  unfold MakeModelCachePath.format at h
  have h3 := List.append_cancel_left (List.append_cancel_right h)
  have h4 := congrArg MakeString.value h3
  rw [value_llu, value_llu, Nat.mod_eq_of_lt h1, Nat.mod_eq_of_lt h2] at h4
  exact h4

/-- C12: the path `MakeModelCachePath` returns is determined by the source path
string, the texture directory string or its absence, the remaining load
settings and the bytes of the source file: two calls that agree on these, in
whatever worlds, return the same path. When the source file can be read the
path is `ModelCache\<settingsHash>_<modelHash>_<CacheVersion>.modelcache`, the
two hashes rendered by `ToString` and `CacheVersion = 6` rendered as `6`; and
for the same directory and hashes two different version numbers never give the
same name. -/
theorem MakeModelCachePath_pure {F H : Type} (hashing : Hashing F H)
    (s1 s2 : ModelLoadSettings F) (w1 w2 : World)
    (hpath : s1.FilePath = s2.FilePath) (hdir : s1.TextureDir = s2.TextureDir)
    (hrest : { s1 with FilePath := none, TextureDir := none }
      = { s2 with FilePath := none, TextureDir := none })
    (hbytes : w1.files.lookup (s1.FilePath.getD []) = w2.files.lookup (s2.FilePath.getD [])) :
    (MakeModelCachePath hashing s1 w1).1 = (MakeModelCachePath hashing s2 w2).1 ∧
    (∀ fileData, w1.files.lookup (s1.FilePath.getD []) = some fileData →
      (MakeModelCachePath hashing s1 w1).1 = some (CacheDir ++ L "\\"
        ++ hashing.ToString (MakeModelCachePath.settingsHash hashing s1) ++ L "_"
        ++ hashing.ToString (MakeModelCachePath.modelHash hashing fileData) ++ L "_"
        ++ MakeString.llu CacheVersion ++ L ".modelcache")) ∧
    CacheDir = L "ModelCache" ∧ CacheVersion = 6 ∧ MakeString.llu CacheVersion = L "6" ∧
    (∀ (dir settingsHash modelHash : wstring) (v1 v2 : Nat), v1 < 2 ^ 64 → v2 < 2 ^ 64 →
      v1 ≠ v2 →
      MakeModelCachePath.format dir settingsHash modelHash v1
        ≠ MakeModelCachePath.format dir settingsHash modelHash v2) := by
  have hs : MakeModelCachePath.settingsHash hashing s1
      = MakeModelCachePath.settingsHash hashing s2 := by
    unfold MakeModelCachePath.settingsHash
    rw [hpath, hdir, hrest]
  refine ⟨?_, fun fileData hf => ?_, rfl, rfl, by decide, fun dir sh mh v1 v2 h1 h2 hne h =>
    hne (format_injective dir sh mh v1 v2 h1 h2 h)⟩
  · unfold MakeModelCachePath World.ReadFileAsByteArray
    simp only []
    rw [← hbytes, hs]
    cases w1.files.lookup (s1.FilePath.getD []) <;> rfl
  · unfold MakeModelCachePath World.ReadFileAsByteArray
    simp only [hf]
    rfl

theorem MakeModelCachePath_pure_witness :
    Examples.settings.FilePath = Examples.settings.FilePath ∧
    Examples.settings.TextureDir = Examples.settings.TextureDir ∧
    ({ Examples.settings with FilePath := none, TextureDir := none } : ModelLoadSettings Int)
      = { Examples.settings with FilePath := none, TextureDir := none } ∧
    Examples.world.files.lookup (Examples.settings.FilePath.getD [])
      = (Examples.world.store (L "other.bin") [7]).files.lookup
          (Examples.settings.FilePath.getD []) ∧
    ((MakeModelCachePath Examples.hashing Examples.settings Examples.world).1
      = (MakeModelCachePath Examples.hashing Examples.settings
          (Examples.world.store (L "other.bin") [7])).1 ∧
    (∀ fileData, Examples.world.files.lookup (Examples.settings.FilePath.getD [])
        = some fileData →
      (MakeModelCachePath Examples.hashing Examples.settings Examples.world).1
        = some (CacheDir ++ L "\\"
          ++ Examples.hashing.ToString
            (MakeModelCachePath.settingsHash Examples.hashing Examples.settings) ++ L "_"
          ++ Examples.hashing.ToString (MakeModelCachePath.modelHash Examples.hashing fileData)
          ++ L "_" ++ MakeString.llu CacheVersion ++ L ".modelcache")) ∧
    CacheDir = L "ModelCache" ∧ CacheVersion = 6 ∧ MakeString.llu CacheVersion = L "6" ∧
    (∀ (dir settingsHash modelHash : wstring) (v1 v2 : Nat), v1 < 2 ^ 64 → v2 < 2 ^ 64 →
      v1 ≠ v2 →
      MakeModelCachePath.format dir settingsHash modelHash v1
        ≠ MakeModelCachePath.format dir settingsHash modelHash v2)) :=
  ⟨rfl, rfl, rfl, by decide,
    MakeModelCachePath_pure Examples.hashing Examples.settings Examples.settings Examples.world
      (Examples.world.store (L "other.bin") [7]) rfl rfl rfl (by decide)⟩

/-- C13, evaluated on the code: for the source paths `model1.fbx` and
`model2.fbx`, which differ in their seventh character, `MakeModelCachePath`
hands `GenerateHash` the same ten bytes, the five code units `model`: the length
it passes is the number of code units, each of which takes two bytes. With any
hash functions and the other settings equal, the two paths get the same
`settingsHash`. -/
theorem MakeModelCachePath_hashes_half_the_path {F H : Type} (hashing : Hashing F H)
    (settings : ModelLoadSettings F) :
    L "model1.fbx" ≠ L "model2.fbx" ∧
    MakeModelCachePath.hashInput (L "model1.fbx") = toChunks 2 (L "model") ∧
    MakeModelCachePath.hashInput (L "model2.fbx") = toChunks 2 (L "model") ∧
    MakeModelCachePath.settingsHash hashing { settings with FilePath := some (L "model1.fbx") }
      = MakeModelCachePath.settingsHash hashing
          { settings with FilePath := some (L "model2.fbx") } := by
  have h1 : MakeModelCachePath.hashInput (L "model1.fbx") = toChunks 2 (L "model") := by decide
  have h2 : MakeModelCachePath.hashInput (L "model2.fbx") = toChunks 2 (L "model") := by decide
  refine ⟨by decide, h1, h2, ?_⟩
  unfold MakeModelCachePath.settingsHash
  simp only [Option.getD_some, h1, h2]

/-! ## Loading a model -/

theorem imports_log (w : World) (e : Event) :
    (w.log e).imports = w.imports +
      (match e with
        | .ReadFile _ => 1
        | _ => 0) := by
  unfold World.imports World.log
  simp only [List.filter_append, List.length_append]
  cases e <;> simp [List.filter]

theorem lookup_filter_ne (l : List (wstring × List Byte)) (p q : wstring) :
    List.lookup q (l.filter (fun f => decide (f.1 ≠ p))) = if q = p then none else l.lookup q := by
  induction l with
  | nil => simp
  | cons a rest ih =>
    obtain ⟨k, v⟩ := a
    by_cases hk : k = p
    · subst hk
      have hf : ((k, v) :: rest).filter (fun f => decide (f.1 ≠ k))
          = rest.filter (fun f => decide (f.1 ≠ k)) := by
        simp [List.filter]
      rw [hf, ih]
      by_cases hq : q = k
      · simp [hq]
      · have : (q == k) = false := by simpa using hq
        simp [hq, List.lookup, this]
    · have hf : ((k, v) :: rest).filter (fun f => decide (f.1 ≠ p))
          = (k, v) :: rest.filter (fun f => decide (f.1 ≠ p)) := by
        simp [List.filter, hk]
      rw [hf]
      by_cases hqk : q = k
      · subst hqk
        simp [List.lookup, hk]
      · have : (q == k) = false := by simpa using hqk
        simp only [List.lookup, this, ih]

/-- What `store` does to the files: the stored path holds the content and every
other path what it held. -/
theorem lookup_store (w : World) (p q : wstring) (content : List Byte) :
    (w.store p content).files.lookup q = if q = p then some content else w.files.lookup q := by
  unfold World.store
  by_cases hq : q = p
  · subst hq
    simp [List.lookup]
  · have : (q == p) = false := by simpa using hq
    simp only [List.lookup, this, if_neg hq]
    rw [lookup_filter_ne, if_neg hq]

theorem resolve_imports (directory : wstring) (m : MeshMaterial) (t : Nat) (w : World) :
    (LoadMaterialResources.resolve directory m t w).2.2.imports = w.imports := by
  have hl : ∀ q, (w.log (Event.FileExists q)).imports = w.imports := fun q => by
    rw [imports_log]; rfl
  unfold LoadMaterialResources.resolve World.FileExists
  by_cases h0 : (m.TextureNames.get t).length = 0
  · rw [if_pos h0]
  · rw [if_neg h0]
    cases (List.lookup (directory ++ m.TextureNames.get t) w.files).isSome
    · exact hl _
    · exact hl _

theorem prepare_imports (directory : wstring) (m : MeshMaterial) (t : Nat) (w : World) :
    (LoadMaterialResources.prepare directory m t w).2.2.imports = w.imports :=
  resolve_imports directory { m with Textures := m.Textures.set t none } t w

/-- An iteration of the slot loop leaves the files alone and does not call
the importer. -/
theorem slot_world (LoadTexture : wstring → Bool → Except Exception Texture) (directory : wstring)
    (forceSRGB : Bool) (k tt : Nat) (st : LoadMaterialResources.State) :
    (LoadMaterialResources.slot LoadTexture directory forceSRGB k tt st).world.files
      = st.world.files ∧
    (LoadMaterialResources.slot LoadTexture directory forceSRGB k tt st).world.imports
      = st.world.imports := by
  unfold LoadMaterialResources.slot
  cases he : st.error with
  | some e => exact ⟨rfl, rfl⟩
  | none =>
    cases hm : st.materials[k]? with
    | none => exact ⟨rfl, rfl⟩
    | some mat =>
      simp only []
      have hf := (prepare_spec directory mat tt st.world).2.2.2.2.1
      have hi := prepare_imports directory mat tt st.world
      cases hs : LoadMaterialResources.search
          (LoadMaterialResources.prepare directory mat tt st.world).2.1 st.materialTextures 0 with
      | some i => exact ⟨hf, hi⟩
      | none =>
        simp only []
        have hi2 : ∀ b, ((LoadMaterialResources.prepare directory mat tt st.world).2.2.log
            (Event.LoadTexture (LoadMaterialResources.prepare directory mat tt st.world).2.1
              b)).imports = st.world.imports := fun b => by
          rw [imports_log]; exact hi
        cases LoadTexture (LoadMaterialResources.prepare directory mat tt st.world).2.1
            (forceSRGB && decide (tt = MaterialTextures.Albedo.toNat)) with
        | error ex => exact ⟨hf, hi2 _⟩
        | ok texture => exact ⟨hf, hi2 _⟩

/-- `LoadMaterialResources` leaves the files alone and does not call
the importer. -/
theorem LoadMaterialResources_world (LoadTexture : wstring → Bool → Except Exception Texture)
    (materials : List MeshMaterial) (directory : wstring) (forceSRGB : Bool)
    (pool : List MaterialTexture) (w : World) :
    (LoadMaterialResources LoadTexture materials directory forceSRGB pool w).world.files
      = w.files ∧
    (LoadMaterialResources LoadTexture materials directory forceSRGB pool w).world.imports
      = w.imports := by
  unfold LoadMaterialResources
  exact forRange_induction
    (fun _ (s : LoadMaterialResources.State) =>
      s.world.files = w.files ∧ s.world.imports = w.imports) _ _ _ ⟨rfl, rfl⟩
    (fun k s _ hs => forRange_induction
      (fun _ (s : LoadMaterialResources.State) =>
        s.world.files = w.files ∧ s.world.imports = w.imports) _ _ _ hs
      (fun t s1 _ hs1 =>
        ⟨(slot_world LoadTexture directory forceSRGB k t s1).1.trans hs1.1,
          (slot_world LoadTexture directory forceSRGB k t s1).2.trans hs1.2⟩))

/-- The path `MakeModelCachePath` returns depends on the world through the
content of the source file only, and the call leaves one read on record. -/
theorem MakeModelCachePath_files {F H : Type} (hashing : Hashing F H)
    (settings : ModelLoadSettings F) (w1 w2 : World)
    (h : w1.files.lookup (settings.FilePath.getD [])
      = w2.files.lookup (settings.FilePath.getD [])) :
    (MakeModelCachePath hashing settings w1).1 = (MakeModelCachePath hashing settings w2).1 ∧
    (MakeModelCachePath hashing settings w1).2
      = w1.log (.ReadFileAsByteArray (settings.FilePath.getD [])) := by
  unfold MakeModelCachePath World.ReadFileAsByteArray
  simp only []
  rw [h]
  cases w2.files.lookup (settings.FilePath.getD []) <;> exact ⟨rfl, rfl⟩

theorem MakeModelCachePath_some {F H : Type} (hashing : Hashing F H)
    (settings : ModelLoadSettings F) (w : World) (cachePath : wstring)
    (h : (MakeModelCachePath hashing settings w).1 = some cachePath) :
    (w.files.lookup (settings.FilePath.getD [])).isSome = true := by
  unfold MakeModelCachePath World.ReadFileAsByteArray at h
  simp only [] at h
  cases hl : w.files.lookup (settings.FilePath.getD []) with
  | none => rw [hl] at h; simp at h
  | some _ => rfl

section
variable {F M H : Type} [LinearOrder F] [Mul F] [Neg F] [One F]

/-- C15: for every settings value whose source path names no file,
`CreateWithAssimp` ends with the exception `Model file with path '...' does not
exist`, leaves the model as it was, and has made one call outside the program,
the `FileExists` on the source path: the source file has not been read for the
cache path, no cache path has been looked up, and the importer has not been
called. -/
theorem CreateWithAssimp_missing_source (c : Collaborators F M H)
    (settings : ModelLoadSettings F) (self : Model F) (w : World)
    (h : w.files.lookup (settings.FilePath.getD []) = none) :
    (CreateWithAssimp.run c settings self w).error = some
      ⟨L "Model file with path '" ++ settings.FilePath.getD [] ++ L "' does not exist"⟩ ∧
    (CreateWithAssimp.run c settings self w).model = self ∧
    (CreateWithAssimp.run c settings self w).world
      = w.log (.FileExists (settings.FilePath.getD [])) ∧
    (CreateWithAssimp.run c settings self w).world.trace
      = w.trace ++ [.FileExists (settings.FilePath.getD [])] ∧
    (CreateWithAssimp.run c settings self w).world.imports = w.imports := by
  have hrun : CreateWithAssimp.run c settings self w =
      { model := self, world := w.log (.FileExists (settings.FilePath.getD []))
        error := some
          ⟨L "Model file with path '" ++ settings.FilePath.getD [] ++ L "' does not exist"⟩ } := by
    unfold CreateWithAssimp.run World.FileExists
    simp only [h, Option.isSome_none, if_true]
  rw [hrun]
  refine ⟨rfl, rfl, rfl, rfl, ?_⟩
  show (w.log _).imports = _
  rw [imports_log]; rfl

theorem CreateWithAssimp_missing_source_witness :
    Examples.world.files.lookup
      (({ Examples.settings with FilePath := some (L "absent.fbx") } :
        ModelLoadSettings Int).FilePath.getD []) = none ∧
    ((CreateWithAssimp.run Examples.collaborators
        { Examples.settings with FilePath := some (L "absent.fbx") } Examples.model0
        Examples.world).error = some
      ⟨L "Model file with path '" ++
        ({ Examples.settings with FilePath := some (L "absent.fbx") } :
          ModelLoadSettings Int).FilePath.getD [] ++ L "' does not exist"⟩ ∧
    (CreateWithAssimp.run Examples.collaborators
      { Examples.settings with FilePath := some (L "absent.fbx") } Examples.model0
      Examples.world).model = Examples.model0 ∧
    (CreateWithAssimp.run Examples.collaborators
      { Examples.settings with FilePath := some (L "absent.fbx") } Examples.model0
      Examples.world).world
      = Examples.world.log (.FileExists
        (({ Examples.settings with FilePath := some (L "absent.fbx") } :
          ModelLoadSettings Int).FilePath.getD [])) ∧
    (CreateWithAssimp.run Examples.collaborators
      { Examples.settings with FilePath := some (L "absent.fbx") } Examples.model0
      Examples.world).world.trace
      = Examples.world.trace ++ [.FileExists
        (({ Examples.settings with FilePath := some (L "absent.fbx") } :
          ModelLoadSettings Int).FilePath.getD [])] ∧
    (CreateWithAssimp.run Examples.collaborators
      { Examples.settings with FilePath := some (L "absent.fbx") } Examples.model0
      Examples.world).world.imports = Examples.world.imports) :=
  ⟨by decide,
    CreateWithAssimp_missing_source Examples.collaborators
      { Examples.settings with FilePath := some (L "absent.fbx") } Examples.model0 Examples.world
      (by decide)⟩

/-- The cache-miss path: with the source file present and no artifact at the
cache path, `CreateWithAssimp` is its import of lines 483-664, run after the
three calls of the lookup. -/
theorem run_miss (c : Collaborators F M H) (settings : ModelLoadSettings F) (self : Model F)
    (w : World) (cachePath : wstring)
    (hsrc : (w.files.lookup (settings.FilePath.getD [])).isSome = true)
    (hpath : (MakeModelCachePath c.toHashing settings w).1 = some cachePath)
    (hmiss : w.files.lookup cachePath = none) :
    CreateWithAssimp.run c settings self w = CreateWithAssimp.miss c settings cachePath self
      (((w.log (.FileExists (settings.FilePath.getD []))).log
        (.ReadFileAsByteArray (settings.FilePath.getD []))).log (.FileExists cachePath)) := by
  have hp := MakeModelCachePath_files c.toHashing settings
    (w.log (.FileExists (settings.FilePath.getD []))) w rfl
  rw [hpath] at hp
  unfold CreateWithAssimp.run World.FileExists
  simp only [hsrc, Bool.true_eq_false, if_false, hp.1, hp.2]
  have hm : (List.lookup cachePath ((w.log (Event.FileExists (settings.FilePath.getD []))).log
      (Event.ReadFileAsByteArray (settings.FilePath.getD []))).files).isSome = false := by
    show (List.lookup cachePath w.files).isSome = false
    rw [hmiss]; rfl
  simp only [hm, Bool.false_eq_true, if_false]

/-- C16: on the cache-miss path (source file present, no artifact at the cache
path) `CreateWithAssimp` fails with `Failed to load scene <path>: <importer's
error string>` if the importer returns no scene; fails with `Scene <path> has no
meshes` if the scene has zero meshes, whatever its materials; fails with `Scene
<path> has no materials` if it has meshes but zero materials; and with at least
one mesh and one material goes on to build the model from the scene. In the
three failures the model is as it was. -/
theorem CreateWithAssimp_scene_checks (c : Collaborators F M H)
    (settings : ModelLoadSettings F) (self : Model F) (w : World) (cachePath : wstring)
    (hsrc : (w.files.lookup (settings.FilePath.getD [])).isSome = true)
    (hpath : (MakeModelCachePath c.toHashing settings w).1 = some cachePath)
    (hmiss : w.files.lookup cachePath = none) :
    (c.ReadFile (c.WStringToAnsi (settings.FilePath.getD [])) = none →
      (CreateWithAssimp.run c settings self w).error = some
        ⟨L "Failed to load scene " ++ settings.FilePath.getD [] ++ L ": " ++
          c.AnsiToWString (c.GetErrorString (c.WStringToAnsi (settings.FilePath.getD [])))⟩ ∧
      (CreateWithAssimp.run c settings self w).model = self) ∧
    (∀ scene, c.ReadFile (c.WStringToAnsi (settings.FilePath.getD [])) = some scene →
      scene.mMeshes.length = 0 →
      (CreateWithAssimp.run c settings self w).error = some
        ⟨L "Scene " ++ settings.FilePath.getD [] ++ L " has no meshes"⟩ ∧
      (CreateWithAssimp.run c settings self w).model = self) ∧
    (∀ scene, c.ReadFile (c.WStringToAnsi (settings.FilePath.getD [])) = some scene →
      0 < scene.mMeshes.length → scene.mMaterials.length = 0 →
      (CreateWithAssimp.run c settings self w).error = some
        ⟨L "Scene " ++ settings.FilePath.getD [] ++ L " has no materials"⟩ ∧
      (CreateWithAssimp.run c settings self w).model = self) ∧
    (∀ scene, c.ReadFile (c.WStringToAnsi (settings.FilePath.getD [])) = some scene →
      0 < scene.mMeshes.length → 0 < scene.mMaterials.length →
      CreateWithAssimp.run c settings self w = CreateWithAssimp.build c settings cachePath scene
        self ((((w.log (.FileExists (settings.FilePath.getD []))).log
          (.ReadFileAsByteArray (settings.FilePath.getD []))).log (.FileExists cachePath)).log
          (.ReadFile (c.WStringToAnsi (settings.FilePath.getD []))))) := by
  rw [run_miss c settings self w cachePath hsrc hpath hmiss]
  unfold CreateWithAssimp.miss
  refine ⟨fun h => ?_, fun scene h h0 => ?_, fun scene h h1 h0 => ?_, fun scene h h1 h2 => ?_⟩
  · simp only [h]
    exact ⟨trivial, trivial⟩
  · simp only [h, h0, if_true]
    exact ⟨trivial, trivial⟩
  · have hne : ¬ scene.mMeshes.length = 0 := by omega
    simp only [h, hne, h0, if_true, if_false]
    exact ⟨trivial, trivial⟩
  · have hne : ¬ scene.mMeshes.length = 0 := by omega
    have hne2 : ¬ scene.mMaterials.length = 0 := by omega
    simp only [h, hne, hne2, if_false]

end
theorem CreateWithAssimp_scene_checks_witness :
    ((Examples.world.files.lookup (Examples.settings.FilePath.getD [])).isSome = true ∧
      (MakeModelCachePath Examples.collaborators.toHashing Examples.settings Examples.world).1
        = some Examples.cachePath ∧
      Examples.world.files.lookup Examples.cachePath = none) ∧
    ((Examples.collaborators.ReadFile
        (Examples.collaborators.WStringToAnsi (Examples.settings.FilePath.getD [])) = none →
      (CreateWithAssimp.run Examples.collaborators Examples.settings Examples.model0
        Examples.world).error = some
        ⟨L "Failed to load scene " ++ Examples.settings.FilePath.getD [] ++ L ": " ++
          Examples.collaborators.AnsiToWString (Examples.collaborators.GetErrorString
            (Examples.collaborators.WStringToAnsi (Examples.settings.FilePath.getD [])))⟩ ∧
      (CreateWithAssimp.run Examples.collaborators Examples.settings Examples.model0
        Examples.world).model = Examples.model0) ∧
    (∀ scene, Examples.collaborators.ReadFile
        (Examples.collaborators.WStringToAnsi (Examples.settings.FilePath.getD [])) = some scene →
      scene.mMeshes.length = 0 →
      (CreateWithAssimp.run Examples.collaborators Examples.settings Examples.model0
        Examples.world).error = some
        ⟨L "Scene " ++ Examples.settings.FilePath.getD [] ++ L " has no meshes"⟩ ∧
      (CreateWithAssimp.run Examples.collaborators Examples.settings Examples.model0
        Examples.world).model = Examples.model0) ∧
    (∀ scene, Examples.collaborators.ReadFile
        (Examples.collaborators.WStringToAnsi (Examples.settings.FilePath.getD [])) = some scene →
      0 < scene.mMeshes.length → scene.mMaterials.length = 0 →
      (CreateWithAssimp.run Examples.collaborators Examples.settings Examples.model0
        Examples.world).error = some
        ⟨L "Scene " ++ Examples.settings.FilePath.getD [] ++ L " has no materials"⟩ ∧
      (CreateWithAssimp.run Examples.collaborators Examples.settings Examples.model0
        Examples.world).model = Examples.model0) ∧
    (∀ scene, Examples.collaborators.ReadFile
        (Examples.collaborators.WStringToAnsi (Examples.settings.FilePath.getD [])) = some scene →
      0 < scene.mMeshes.length → 0 < scene.mMaterials.length →
      CreateWithAssimp.run Examples.collaborators Examples.settings Examples.model0 Examples.world
        = CreateWithAssimp.build Examples.collaborators Examples.settings Examples.cachePath scene
          Examples.model0 ((((Examples.world.log
            (.FileExists (Examples.settings.FilePath.getD []))).log
            (.ReadFileAsByteArray (Examples.settings.FilePath.getD []))).log
            (.FileExists Examples.cachePath)).log
            (.ReadFile (Examples.collaborators.WStringToAnsi
              (Examples.settings.FilePath.getD [])))))) :=
  ⟨⟨by decide, by decide, by decide⟩,
    CreateWithAssimp_scene_checks Examples.collaborators Examples.settings Examples.model0
      Examples.world Examples.cachePath (by decide) (by decide) (by decide)⟩

theorem CreateDirectory_world (w : World) (p : wstring) :
    (w.CreateDirectory p).2.files = w.files ∧ (w.CreateDirectory p).2.imports = w.imports := by
  have hi : (w.log (Event.CreateDirectory p)).imports = w.imports := by
    rw [imports_log]; rfl
  unfold World.CreateDirectory
  simp only []
  split
  · exact ⟨rfl, hi⟩
  · exact ⟨rfl, hi⟩

theorem OpenWrite_world (w : World) (p : wstring) (h : (w.OpenWrite p).1 = true) :
    (∀ q, (w.OpenWrite p).2.files.lookup q = if q = p then some [] else w.files.lookup q) ∧
    (w.OpenWrite p).2.imports = w.imports := by
  have hi : (w.log (Event.Open p FileOpenMode.Write)).imports = w.imports := by
    rw [imports_log]; rfl
  unfold World.OpenWrite at h ⊢
  simp only [] at h ⊢
  split at h
  · simp at h
  · rename_i hd
    rw [if_neg hd]
    refine ⟨fun q => ?_, hi⟩
    have h2 := lookup_store (w.log (Event.Open p FileOpenMode.Write)) p q []
    exact h2

section
variable {F M H : Type} [LinearOrder F] [Mul F] [Neg F] [One F]

/-- A cache write that ends without an exception has stored at the cache path,
and nowhere else, the bytes `Serialize` wrote, without calling the importer. -/
theorem writeCache_spec (c : Collaborators F M H) (cachePath : wstring) (self : Model F)
    (w : World) (hok : (CreateWithAssimp.writeCache c cachePath self w).error = none) :
    ∃ content, c.Serialize FileWriteSerializer self []
        = ((CreateWithAssimp.writeCache c cachePath self w).model, some content) ∧
      (∀ q, (CreateWithAssimp.writeCache c cachePath self w).world.files.lookup q
        = if q = cachePath then some content else w.files.lookup q) ∧
      (CreateWithAssimp.writeCache c cachePath self w).world.imports = w.imports := by
  unfold CreateWithAssimp.writeCache at hok ⊢
  simp only [] at hok ⊢
  have hd : (w.DirectoryExists CacheDir).2.files = w.files ∧
      (w.DirectoryExists CacheDir).2.imports = w.imports :=
    ⟨rfl, by unfold World.DirectoryExists; rw [imports_log]; rfl⟩
  have hr : (if (w.DirectoryExists CacheDir).1 = false then
        (w.DirectoryExists CacheDir).2.CreateDirectory CacheDir
      else (true, (w.DirectoryExists CacheDir).2)).2.files = w.files ∧
      (if (w.DirectoryExists CacheDir).1 = false then
        (w.DirectoryExists CacheDir).2.CreateDirectory CacheDir
      else (true, (w.DirectoryExists CacheDir).2)).2.imports = w.imports := by
    split
    · exact ⟨(CreateDirectory_world _ _).1.trans hd.1, (CreateDirectory_world _ _).2.trans hd.2⟩
    · exact hd
  generalize (if (w.DirectoryExists CacheDir).1 = false then
        (w.DirectoryExists CacheDir).2.CreateDirectory CacheDir
      else (true, (w.DirectoryExists CacheDir).2)) = r at hok hr ⊢
  by_cases h1 : r.1 = false
  · rw [if_pos h1] at hok
    simp at hok
  · rw [if_neg h1] at hok ⊢
    by_cases h2 : (r.2.OpenWrite cachePath).1 = false
    · rw [if_pos h2] at hok
      simp at hok
    · rw [if_neg h2] at hok ⊢
      have h2t : (r.2.OpenWrite cachePath).1 = true := by simpa using h2
      obtain ⟨ho1, ho2⟩ := OpenWrite_world r.2 cachePath h2t
      cases hs : (c.Serialize FileWriteSerializer self []).2 with
      | none =>
        rw [hs] at hok
        simp at hok
      | some content =>
        simp only [hs]
        refine ⟨content, ?_, fun q => ?_, ?_⟩
        · rw [← hs]
        · show ((r.2.OpenWrite cachePath).2.store cachePath content).files.lookup q = _
          rw [lookup_store]
          by_cases hq : q = cachePath
          · rw [if_pos hq, if_pos hq]
          · rw [if_neg hq, if_neg hq, ho1 q, if_neg hq, hr.1]
        · show ((r.2.OpenWrite cachePath).2.store cachePath content).imports = _
          exact ho2.trans hr.2

end
set_option linter.unusedSectionVars false
section
variable {F M H : Type} [LinearOrder F] [Mul F] [Neg F] [One F]

/-- An import that ends without an exception has stored at the cache path, and
nowhere else, what `Serialize` wrote of the model it returns, and has not
called `ReadFile` again. -/
theorem build_spec (c : Collaborators F M H) (settings : ModelLoadSettings F)
    (cachePath : wstring) (scene : aiScene F M) (self : Model F) (w : World)
    (hok : (CreateWithAssimp.build c settings cachePath scene self w).error = none) :
    ∃ (built : Model F) (content : List Byte), c.Serialize FileWriteSerializer built []
        = ((CreateWithAssimp.build c settings cachePath scene self w).model, some content) ∧
      (∀ q, (CreateWithAssimp.build c settings cachePath scene self w).world.files.lookup q
        = if q = cachePath then some content else w.files.lookup q) ∧
      (CreateWithAssimp.build c settings cachePath scene self w).world.imports = w.imports := by
  unfold CreateWithAssimp.build at hok ⊢
  simp only [] at hok ⊢
  have hw := LoadMaterialResources_world c.LoadTexture
    ((c.ApplyPostProcessing scene (CreateWithAssimp.flags settings)).mMaterials.map
      (CreateWithAssimp.material c))
    (CreateWithAssimp.textureDirectory c settings) settings.ForceSRGB
    ({ self with forceSRGB := settings.ForceSRGB } : Model F).materialTextures
    (w.log (Event.ApplyPostProcessing (CreateWithAssimp.flags settings)))
  change (CreateWithAssimp.materials c settings
    (c.ApplyPostProcessing scene (CreateWithAssimp.flags settings))
    { self with forceSRGB := settings.ForceSRGB }
    (w.log (Event.ApplyPostProcessing (CreateWithAssimp.flags settings)))).world.files = _ ∧
    (CreateWithAssimp.materials c settings
    (c.ApplyPostProcessing scene (CreateWithAssimp.flags settings))
    { self with forceSRGB := settings.ForceSRGB }
    (w.log (Event.ApplyPostProcessing (CreateWithAssimp.flags settings)))).world.imports = _ at hw
  generalize CreateWithAssimp.materials c settings
    (c.ApplyPostProcessing scene (CreateWithAssimp.flags settings))
    { self with forceSRGB := settings.ForceSRGB }
    (w.log (Event.ApplyPostProcessing (CreateWithAssimp.flags settings))) = l at hok hw ⊢
  have hwf : l.world.files = w.files := hw.1
  have hwi : l.world.imports = w.imports := by
    rw [hw.2, imports_log]; rfl
  cases he : l.error with
  | some e =>
    rw [he] at hok
    simp at hok
  | none =>
    rw [he] at hok
    simp only [he] at hok ⊢
    obtain ⟨content, h1, h2, h3⟩ := writeCache_spec c cachePath _ l.world hok
    exact ⟨_, content, h1, fun q => by rw [h2 q, hwf], h3.trans hwi⟩

/-- The cache-hit path: with the source file present and an artifact at the
cache path, `CreateWithAssimp` is `CreateFromMeshData` on the artifact, run
after the three calls of the lookup. -/
theorem run_hit (c : Collaborators F M H) (settings : ModelLoadSettings F) (self : Model F)
    (w : World) (cachePath : wstring)
    (hsrc : (w.files.lookup (settings.FilePath.getD [])).isSome = true)
    (hpath : (MakeModelCachePath c.toHashing settings w).1 = some cachePath)
    (hhit : (w.files.lookup cachePath).isSome = true) :
    CreateWithAssimp.run c settings self w = Model.CreateFromMeshData c cachePath self
      (((w.log (.FileExists (settings.FilePath.getD []))).log
        (.ReadFileAsByteArray (settings.FilePath.getD []))).log (.FileExists cachePath)) := by
  have hp := MakeModelCachePath_files c.toHashing settings
    (w.log (.FileExists (settings.FilePath.getD []))) w rfl
  rw [hpath] at hp
  unfold CreateWithAssimp.run World.FileExists
  simp only [hsrc, Bool.true_eq_false, if_false, hp.1, hp.2]
  have hm : (List.lookup cachePath ((w.log (Event.FileExists (settings.FilePath.getD []))).log
      (Event.ReadFileAsByteArray (settings.FilePath.getD []))).files).isSome = true := hhit
  simp only [hm, if_true]

/-- `CreateFromMeshData` does not call the importer. -/
theorem CreateFromMeshData_imports (c : Collaborators F M H) (filePath : wstring)
    (self : Model F) (w : World) :
    (Model.CreateFromMeshData c filePath self w).world.imports = w.imports := by
  have h1 : (w.FileExists filePath).2.imports = w.imports := by
    unfold World.FileExists; rw [imports_log]; rfl
  have h2 : ((w.FileExists filePath).2.OpenRead filePath).2.imports = w.imports := by
    unfold World.OpenRead; rw [imports_log]; exact h1
  unfold Model.CreateFromMeshData
  simp only []
  split
  · exact h1
  · split
    · exact h2
    · split
      · exact h2
      · exact (LoadMaterialResources_world _ _ _ _ _ _).2.trans h2

end
section
variable {F M H : Type} [LinearOrder F] [Mul F] [Neg F] [One F]

/-- The cache-miss path that ends without an exception: the importer has been
called once, and the artifact has been written at the cache path and nowhere
else. -/
theorem miss_spec (c : Collaborators F M H) (settings : ModelLoadSettings F)
    (cachePath : wstring) (self : Model F) (w : World)
    (hok : (CreateWithAssimp.miss c settings cachePath self w).error = none) :
    ∃ (built : Model F) (content : List Byte), c.Serialize FileWriteSerializer built []
        = ((CreateWithAssimp.miss c settings cachePath self w).model, some content) ∧
      (∀ q, (CreateWithAssimp.miss c settings cachePath self w).world.files.lookup q
        = if q = cachePath then some content else w.files.lookup q) ∧
      (CreateWithAssimp.miss c settings cachePath self w).world.imports = w.imports + 1 := by
  unfold CreateWithAssimp.miss at hok ⊢
  simp only [] at hok ⊢
  cases hr : c.ReadFile (c.WStringToAnsi (settings.FilePath.getD [])) with
  | none => rw [hr] at hok; simp at hok
  | some scene =>
    rw [hr] at hok
    simp only [] at hok ⊢
    by_cases h0 : scene.mMeshes.length = 0
    · rw [if_pos h0] at hok; simp at hok
    · rw [if_neg h0] at hok ⊢
      by_cases h1 : scene.mMaterials.length = 0
      · rw [if_pos h1] at hok; simp at hok
      · rw [if_neg h1] at hok ⊢
        obtain ⟨built, content, hs, hf, hi⟩ := build_spec c settings cachePath scene self _ hok
        refine ⟨built, content, hs, hf, ?_⟩
        rw [hi, imports_log]

end
/-- C17 fails as stated: a call that fails when a texture cannot be loaded
leaves the materials of the scene in the model; a call that fails when the cache
directory cannot be created, or when the cache file cannot be opened for
writing, leaves the whole imported model in place. -/
theorem CreateWithAssimp_failure_counterexample :
    (¬ FailureLeavesModelUntouched Examples.collaboratorsNoTextures Examples.settings
      Examples.model0 Examples.world) ∧
    (¬ FailureLeavesModelUntouched Examples.collaborators Examples.settings Examples.model0
      Examples.worldNoCacheDir) ∧
    (¬ FailureLeavesModelUntouched Examples.collaborators Examples.settings Examples.model0
      Examples.worldNoCacheFile) := by
  have h1 : (CreateWithAssimp.run Examples.collaboratorsNoTextures Examples.settings
      Examples.model0 Examples.world).error = some ⟨L "Cannot load texture"⟩ ∧
      (CreateWithAssimp.run Examples.collaboratorsNoTextures Examples.settings
      Examples.model0 Examples.world).model.meshMaterials.length = 1 := by decide
  have h2 : (CreateWithAssimp.run Examples.collaborators Examples.settings
      Examples.model0 Examples.worldNoCacheDir).error = some ⟨L "Cannot access ModelCache"⟩ ∧
      (CreateWithAssimp.run Examples.collaborators Examples.settings
      Examples.model0 Examples.worldNoCacheDir).model.vertices.length = 3 := by decide
  have h3 : (CreateWithAssimp.run Examples.collaborators Examples.settings
      Examples.model0 Examples.worldNoCacheFile).error
        = some ⟨L "Cannot access ModelCache\\16306_6_6.modelcache"⟩ ∧
      (CreateWithAssimp.run Examples.collaborators Examples.settings
      Examples.model0 Examples.worldNoCacheFile).model.vertices.length = 3 := by decide
  refine ⟨fun h => ?_, fun h => ?_, fun h => ?_⟩
  · have e := h (by rw [h1.1]; exact fun x => Option.noConfusion x)
    have e2 := congrArg (fun m : Model Int => m.meshMaterials.length) e
    rw [show (fun m : Model Int => m.meshMaterials.length) _ = 1 from h1.2] at e2
    exact absurd e2 (by decide)
  · have e := h (by rw [h2.1]; exact fun x => Option.noConfusion x)
    have e2 := congrArg (fun m : Model Int => m.vertices.length) e
    rw [show (fun m : Model Int => m.vertices.length) _ = 3 from h2.2] at e2
    exact absurd e2 (by decide)
  · have e := h (by rw [h3.1]; exact fun x => Option.noConfusion x)
    have e2 := congrArg (fun m : Model Int => m.vertices.length) e
    rw [show (fun m : Model Int => m.vertices.length) _ = 3 from h3.2] at e2
    exact absurd e2 (by decide)

section
variable {F M H : Type} [LinearOrder F] [Mul F] [Neg F] [One F]

/-- C17, amended: when `CreateWithAssimp` fails because the source file is
missing, because the importer returns no scene, or because the scene has no
meshes or no materials, it ends with an exception and the model is in the state
it had before the call. -/
theorem CreateWithAssimp_early_failure (c : Collaborators F M H)
    (settings : ModelLoadSettings F) (self : Model F) (w : World) (cachePath : wstring)
    (h : w.files.lookup (settings.FilePath.getD []) = none ∨
      ((MakeModelCachePath c.toHashing settings w).1 = some cachePath ∧
        w.files.lookup cachePath = none ∧
        (c.ReadFile (c.WStringToAnsi (settings.FilePath.getD [])) = none ∨
          ∃ scene, c.ReadFile (c.WStringToAnsi (settings.FilePath.getD [])) = some scene ∧
            (scene.mMeshes.length = 0 ∨ scene.mMaterials.length = 0)))) :
    (CreateWithAssimp.run c settings self w).error ≠ none ∧
    (CreateWithAssimp.run c settings self w).model = self := by
  rcases h with h | ⟨hpath, hmiss, himp⟩
  · unfold CreateWithAssimp.run World.FileExists
    simp only [h, Option.isSome_none, if_true]
    exact ⟨fun x => Option.noConfusion x, trivial⟩
  · have hsrc := MakeModelCachePath_some c.toHashing settings w cachePath hpath
    rw [run_miss c settings self w cachePath hsrc hpath hmiss]
    unfold CreateWithAssimp.miss
    rcases himp with hr | ⟨scene, hr, h0 | h0⟩
    · simp only [hr]
      exact ⟨fun x => Option.noConfusion x, trivial⟩
    · simp only [hr, h0, if_true]
      exact ⟨fun x => Option.noConfusion x, trivial⟩
    · simp only [hr, h0, if_true]
      split
      · exact ⟨fun x => Option.noConfusion x, rfl⟩
      · exact ⟨fun x => Option.noConfusion x, rfl⟩

end

theorem CreateWithAssimp_early_failure_witness :
    (Examples.world.files.lookup (Examples.settingsNoScene.FilePath.getD []) = none ∨
      ((MakeModelCachePath Examples.collaborators.toHashing Examples.settingsNoScene
          Examples.world).1 = some (L "ModelCache\\16306_9_6.modelcache") ∧
        Examples.world.files.lookup (L "ModelCache\\16306_9_6.modelcache") = none ∧
        (Examples.collaborators.ReadFile
            (Examples.collaborators.WStringToAnsi (Examples.settingsNoScene.FilePath.getD []))
            = none ∨
          ∃ scene, Examples.collaborators.ReadFile
              (Examples.collaborators.WStringToAnsi (Examples.settingsNoScene.FilePath.getD []))
              = some scene ∧
            (scene.mMeshes.length = 0 ∨ scene.mMaterials.length = 0)))) ∧
    ((CreateWithAssimp.run Examples.collaborators Examples.settingsNoScene Examples.model0
        Examples.world).error ≠ none ∧
      (CreateWithAssimp.run Examples.collaborators Examples.settingsNoScene Examples.model0
        Examples.world).model = Examples.model0) :=
  ⟨Or.inr ⟨by decide, by decide, Or.inl rfl⟩,
    CreateWithAssimp_early_failure Examples.collaborators Examples.settingsNoScene
      Examples.model0 Examples.world (L "ModelCache\\16306_9_6.modelcache")
      (Or.inr ⟨by decide, by decide, Or.inl rfl⟩)⟩

/-! ## The meshlet ranges of the meshes -/

theorem take_flatten_prefixSum {α : Type} (ls : List (List α)) (j k : Nat) (l : List α)
    (hj : ls[j]? = some l) (hk : k ≤ l.length) :
    ls.flatten.take (prefixSum (ls.map List.length) j + k) = (ls.take j).flatten ++ l.take k := by
  induction ls generalizing j with
  | nil => simp at hj
  | cons a ls ih =>
    cases j with
    | zero =>
      simp only [List.getElem?_cons_zero, Option.some.injEq] at hj
      subst hj
      simp [prefixSum, List.take_append_eq_append_take, Nat.sub_eq_zero_of_le hk]
    | succ j =>
      simp only [List.getElem?_cons_succ] at hj
      have := ih j hj
      simp only [List.map_cons, prefixSum_cons_succ, List.flatten_cons, List.take_succ_cons,
        List.append_assoc]
      rw [List.take_append_eq_append_take, List.take_of_length_le (by omega), ← this]
      congr 2
      omega

theorem getElem?_flatten_prefixSum {α : Type} (ls : List (List α)) (j k : Nat) (l : List α)
    (hj : ls[j]? = some l) (hk : k < l.length) :
    ls.flatten[prefixSum (ls.map List.length) j + k]? = l[k]? := by
  induction ls generalizing j with
  | nil => simp at hj
  | cons a ls ih =>
    cases j with
    | zero =>
      simp only [List.getElem?_cons_zero, Option.some.injEq] at hj
      subst hj
      simp only [prefixSum_zero, Nat.zero_add, List.flatten_cons]
      exact List.getElem?_append_left hk
    | succ j =>
      simp only [List.getElem?_cons_succ] at hj
      simp only [List.map_cons, prefixSum_cons_succ, List.flatten_cons]
      rw [List.getElem?_append_right (by omega), ← ih j hj]
      congr 1
      omega

theorem sum_map_flatten {α : Type} (f : α → Nat) (ls : List (List α)) :
    (ls.flatten.map f).sum = (ls.map (fun l => (l.map f).sum)).sum := by
  induction ls with
  | nil => rfl
  | cons a ls ih =>
    simp only [List.flatten_cons, List.map_append, List.sum_append, List.map_cons, List.sum_cons,
      ih]

theorem length_flatten_sum {α : Type} (ls : List (List α)) :
    ls.flatten.length = (ls.map List.length).sum := by
  induction ls with
  | nil => rfl
  | cons a ls ih => simp [ih]

section
variable {F M : Type}

theorem length_clusters (ext : Externals F M) (model : Model F) :
    (GenerateMeshlets.clusters ext model).length
      = GenerateMeshlets.meshletStart ext model model.meshes.length := by
  unfold GenerateMeshlets.clusters GenerateMeshlets.meshletStart
  rw [length_flatten_sum, List.map_map, prefixSum_of_length_le _ _ (by simp [GenerateMeshlets.outputs])]
  rfl

theorem vertexTotal_clusters (ext : Externals F M) (model : Model F) :
    vertexTotal (GenerateMeshlets.clusters ext model)
      = GenerateMeshlets.vertexStart ext model model.meshes.length := by
  unfold GenerateMeshlets.clusters GenerateMeshlets.vertexStart vertexTotal
  rw [sum_map_flatten, List.map_map, prefixSum_of_length_le _ _ (by simp [GenerateMeshlets.outputs])]
  rfl

theorem triangleTotal_clusters (ext : Externals F M) (model : Model F) :
    triangleTotal (GenerateMeshlets.clusters ext model)
      = GenerateMeshlets.triangleStart ext model model.meshes.length := by
  unfold GenerateMeshlets.clusters GenerateMeshlets.triangleStart triangleTotal
  rw [sum_map_flatten, List.map_map, prefixSum_of_length_le _ _ (by simp [GenerateMeshlets.outputs])]
  rfl

theorem vertexTotal_append (a b : List meshopt_Meshlet) :
    vertexTotal (a ++ b) = vertexTotal a + vertexTotal b := by
  simp [vertexTotal]

theorem triangleTotal_append (a b : List meshopt_Meshlet) :
    triangleTotal (a ++ b) = triangleTotal a + triangleTotal b := by
  simp [triangleTotal]

/-- Every cluster of the library, at its position `g` in the run of all
clusters, is cluster `k` of some mesh `j`, with `g` counted from the meshlet
start of the mesh, and the triangles and vertex slots of the clusters before it
add up to the starts of the mesh plus those of the clusters before it in the
mesh. -/
theorem clusters_getElem? (ext : Externals F M) (model : Model F) (g : Nat) (c : meshopt_Meshlet)
    (hc : (GenerateMeshlets.clusters ext model)[g]? = some c) :
    ∃ j mesh k, model.meshes[j]? = some mesh ∧
      (GenerateMeshlets.build ext model mesh).meshlets[k]? = some c ∧
      g = GenerateMeshlets.meshletStart ext model j + k ∧
      triangleTotal ((GenerateMeshlets.clusters ext model).take g)
        = GenerateMeshlets.triangleStart ext model j +
          triangleTotal ((GenerateMeshlets.build ext model mesh).meshlets.take k) ∧
      vertexTotal ((GenerateMeshlets.clusters ext model).take g)
        = GenerateMeshlets.vertexStart ext model j +
          vertexTotal ((GenerateMeshlets.build ext model mesh).meshlets.take k) := by
  have hg : g < (GenerateMeshlets.clusters ext model).length := (List.getElem?_eq_some.mp hc).1
  have hlen : (GenerateMeshlets.clusters ext model).length
      = ((GenerateMeshlets.outputs ext model).map (fun o => o.meshlets.length)).sum := by
    unfold GenerateMeshlets.clusters
    rw [length_flatten_sum, List.map_map]
    rfl
  obtain ⟨j, a, k, hj, hk, hgk⟩ := exists_prefixSum_decomposition
    ((GenerateMeshlets.outputs ext model).map (fun o => o.meshlets.length)) g (by omega)
  simp only [List.getElem?_map, outputs_getElem?] at hj
  cases hmesh : model.meshes[j]? with
  | none => rw [hmesh] at hj; simp at hj
  | some mesh =>
    rw [hmesh] at hj
    simp only [Option.map_some', Option.some.injEq] at hj
    subst hj
    have hls : ((GenerateMeshlets.outputs ext model).map (fun o => o.meshlets))[j]?
        = some (GenerateMeshlets.build ext model mesh).meshlets := by
      simp [outputs_getElem?, hmesh]
    have hmm : ((GenerateMeshlets.outputs ext model).map (fun o => o.meshlets)).map List.length
        = (GenerateMeshlets.outputs ext model).map (fun o => o.meshlets.length) := by
      rw [List.map_map]; rfl
    have h1 := getElem?_flatten_prefixSum _ j k _ hls hk
    have h2 := take_flatten_prefixSum _ j k _ hls (Nat.le_of_lt hk)
    rw [hmm, ← hgk] at h1 h2
    have h3 : (GenerateMeshlets.build ext model mesh).meshlets[k]? = some c := by
      rw [← h1]; exact hc
    refine ⟨j, mesh, k, hmesh, h3, hgk, ?_, ?_⟩
    · unfold GenerateMeshlets.clusters
      rw [h2, triangleTotal_append]
      congr 1
      unfold GenerateMeshlets.triangleStart triangleTotal prefixSum
      rw [sum_map_flatten, ← List.map_take, List.map_map, List.map_take]
      rfl
    · unfold GenerateMeshlets.clusters
      rw [h2, vertexTotal_append]
      congr 1
      unfold GenerateMeshlets.vertexStart vertexTotal prefixSum
      rw [sum_map_flatten, ← List.map_take, List.map_map, List.map_take]
      rfl

theorem triangleTotal_take_all_le (cs : List meshopt_Meshlet) (g : Nat) :
    triangleTotal (cs.take g) ≤ triangleTotal cs := by
  have h : triangleTotal (cs.take g) = prefixSum (cs.map (fun c => c.triangle_count)) g := by
    unfold triangleTotal prefixSum; rw [List.map_take]
  rw [h]; exact prefixSum_le _ _

theorem vertexTotal_take_all_le (cs : List meshopt_Meshlet) (g : Nat) :
    vertexTotal (cs.take g) ≤ vertexTotal cs := by
  have h : vertexTotal (cs.take g) = prefixSum (cs.map (fun c => c.vertex_count)) g := by
    unfold vertexTotal prefixSum; rw [List.map_take]
  rw [h]; exact prefixSum_le _ _

/-- The meshlet array `GenerateMeshlets` leaves, against the run of all
clusters of the library: record `g` is made from cluster `g`, with the
triangles of the clusters before it as its triangle offset. -/
theorem generated_meshlets (ext : Externals F M) (model : Model F)
    (gen : GeneratedMeshlets ext model (model.GenerateMeshlets ext)) (g : Nat) :
    ((GenerateMeshlets.clusters ext model)[g]? = none →
      (model.GenerateMeshlets ext).meshlets[g]? = none) ∧
    ∀ c, (GenerateMeshlets.clusters ext model)[g]? = some c →
      ∃ j mesh k m, model.meshes[j]? = some mesh ∧
        (GenerateMeshlets.build ext model mesh).meshlets[k]? = some c ∧
        g = GenerateMeshlets.meshletStart ext model j + k ∧
        (model.GenerateMeshlets ext).meshlets[g]? = some m ∧
        m.VertexOffset = (c.vertex_offset + GenerateMeshlets.vertexStart ext model j) % 2 ^ 32 ∧
        m.TriangleOffset = triangleTotal ((GenerateMeshlets.clusters ext model).take g) ∧
        m.VertexCount = c.vertex_count ∧ m.TriangleCount = c.triangle_count ∧
        m.MeshIndex = SafeCast_uint16 j ∧
        vertexTotal ((GenerateMeshlets.clusters ext model).take g)
          = GenerateMeshlets.vertexStart ext model j +
            vertexTotal ((GenerateMeshlets.build ext model mesh).meshlets.take k) := by
  refine ⟨fun h => ?_, fun c hc => ?_⟩
  · rw [List.getElem?_eq_none_iff] at h ⊢
    rw [gen.len_meshlets, ← length_clusters]
    exact h
  · obtain ⟨j, mesh, k, hmesh, hk, hg, ht, hv⟩ := clusters_getElem? ext model g c hc
    have := gen.meshlets j mesh k c hmesh hk
    rw [← hg] at this
    exact ⟨j, mesh, k, _, hmesh, hk, hg, this, rfl, ht.symm, rfl, rfl, rfl, hv⟩

end
section
variable {F M : Type}

/-- The mesh records `GenerateMeshlets` leaves: record `i` carries the meshlet
start of mesh `i` and the number of clusters the library returned for it. -/
theorem generated_meshes (ext : Externals F M) (model : Model F)
    (gen : GeneratedMeshlets ext model (model.GenerateMeshlets ext)) :
    (model.GenerateMeshlets ext).meshes.length = model.meshes.length ∧
    (∀ i fm, (model.GenerateMeshlets ext).meshes[i]? = some fm →
      ∃ mesh, model.meshes[i]? = some mesh ∧
        fm.meshletOffset = GenerateMeshlets.meshletStart ext model i ∧
        fm.numMeshlets = (GenerateMeshlets.build ext model mesh).meshlets.length) ∧
    (model.GenerateMeshlets ext).meshes.map (fun m => m.numMeshlets)
      = (GenerateMeshlets.outputs ext model).map (fun o => o.meshlets.length) := by
  have hlen : (model.GenerateMeshlets ext).meshes.length = model.meshes.length := by
    have := congrArg List.length (GenerateMeshlets_sameGeometry ext model).1
    simpa using this
  have hrec : ∀ i fm, (model.GenerateMeshlets ext).meshes[i]? = some fm →
      ∃ mesh, model.meshes[i]? = some mesh ∧
        fm.meshletOffset = GenerateMeshlets.meshletStart ext model i ∧
        fm.numMeshlets = (GenerateMeshlets.build ext model mesh).meshlets.length := by
    intro i fm hfm
    have hi : i < model.meshes.length := by
      rw [← hlen]; exact (List.getElem?_eq_some.mp hfm).1
    have hm : model.meshes[i]? = some model.meshes[i] := List.getElem?_eq_getElem hi
    have := gen.meshes i _ hm
    rw [hfm] at this
    simp only [Option.some.injEq] at this
    subst this
    exact ⟨_, hm, rfl, rfl⟩
  refine ⟨hlen, hrec, ?_⟩
  apply List.ext_getElem?
  intro i
  simp only [List.getElem?_map, outputs_getElem?]
  cases hfm : (model.GenerateMeshlets ext).meshes[i]? with
  | none =>
    have : model.meshes[i]? = none := by
      rw [List.getElem?_eq_none_iff] at hfm ⊢; omega
    rw [this]; rfl
  | some fm =>
    obtain ⟨mesh, hm, _, hn⟩ := hrec i fm hfm
    rw [hm]
    simp [hn]

/-- C24: after `GenerateMeshlets`, on a model of at most 65,536 meshes within the
`uint32` sizes of the function and with a library that keeps within its caps,
the `meshletOffset` of mesh `i` is the sum of `numMeshlets` over the meshes
before it and the sum over all meshes is the length of the meshlet array, so the
ranges `[meshletOffset, meshletOffset + numMeshlets)` follow one another from 0
to that length; every position of the meshlet array lies in the range of exactly
one mesh; and every meshlet in the range of mesh `i` has `MeshIndex = i`. -/
theorem GenerateMeshlets_mesh_ranges (ext : Externals F M) (model : Model F)
    (hfits : GenerateMeshlets.fits ext model) (hcaps : WithinCaps ext model)
    (hmeshes : model.meshes.length ≤ 2 ^ 16) :
    (∀ (i : Nat) (mesh : Mesh F), (model.GenerateMeshlets ext).meshes[i]? = some mesh →
      mesh.meshletOffset
        = prefixSum ((model.GenerateMeshlets ext).meshes.map (fun m => m.numMeshlets)) i) ∧
    ((model.GenerateMeshlets ext).meshes.map (fun m => m.numMeshlets)).sum
      = (model.GenerateMeshlets ext).meshlets.length ∧
    (∀ g, g < (model.GenerateMeshlets ext).meshlets.length →
      ∃ (i : Nat) (mesh : Mesh F), (model.GenerateMeshlets ext).meshes[i]? = some mesh ∧
        mesh.meshletOffset ≤ g ∧ g < mesh.meshletOffset + mesh.numMeshlets ∧
        ∀ (i2 : Nat) (mesh2 : Mesh F), (model.GenerateMeshlets ext).meshes[i2]? = some mesh2 →
          mesh2.meshletOffset ≤ g → g < mesh2.meshletOffset + mesh2.numMeshlets → i2 = i) ∧
    (∀ (i : Nat) (mesh : Mesh F) (g : Nat), (model.GenerateMeshlets ext).meshes[i]? = some mesh →
      mesh.meshletOffset ≤ g → g < mesh.meshletOffset + mesh.numMeshlets →
      ∃ m : Meshlet, (model.GenerateMeshlets ext).meshlets[g]? = some m ∧ m.MeshIndex = i) := by
  have gen := GenerateMeshlets_generated ext model hfits hcaps
  obtain ⟨hlen, hrec, hmap⟩ := generated_meshes ext model gen
  have hoff : ∀ (i : Nat) (mesh : Mesh F), (model.GenerateMeshlets ext).meshes[i]? = some mesh →
      mesh.meshletOffset
        = prefixSum ((model.GenerateMeshlets ext).meshes.map (fun m => m.numMeshlets)) i ∧
      prefixSum ((model.GenerateMeshlets ext).meshes.map (fun m => m.numMeshlets)) (i + 1)
        = mesh.meshletOffset + mesh.numMeshlets := by
    intro i mesh hm
    obtain ⟨m0, hm0, ho, hn⟩ := hrec i mesh hm
    rw [hmap, ho, hn]
    exact ⟨rfl, meshletStart_succ ext model i m0 hm0⟩
  have hsum : ((model.GenerateMeshlets ext).meshes.map (fun m => m.numMeshlets)).sum
      = (model.GenerateMeshlets ext).meshlets.length := by
    rw [hmap, gen.len_meshlets]
    exact (prefixSum_of_length_le _ _ (by simp [GenerateMeshlets.outputs])).symm
  refine ⟨fun i mesh hm => (hoff i mesh hm).1, hsum, fun g hg => ?_, fun i mesh g hm h1 h2 => ?_⟩
  · obtain ⟨i, a, k, hi, hk, hgk⟩ := exists_prefixSum_decomposition
      ((model.GenerateMeshlets ext).meshes.map (fun m => m.numMeshlets)) g (by omega)
    simp only [List.getElem?_map] at hi
    cases hm : (model.GenerateMeshlets ext).meshes[i]? with
    | none => rw [hm] at hi; simp at hi
    | some mesh =>
      rw [hm] at hi
      simp only [Option.map_some', Option.some.injEq] at hi
      subst hi
      obtain ⟨ho, hs⟩ := hoff i mesh hm
      refine ⟨i, mesh, hm, by omega, by omega, fun i2 mesh2 hm2 h1 h2 => ?_⟩
      obtain ⟨ho2, hs2⟩ := hoff i2 mesh2 hm2
      rcases Nat.lt_trichotomy i2 i with hlt | heq | hgt
      · have := prefixSum_mono_le
          ((model.GenerateMeshlets ext).meshes.map (fun m => m.numMeshlets)) (i2 + 1) i hlt
        omega
      · exact heq
      · have := prefixSum_mono_le
          ((model.GenerateMeshlets ext).meshes.map (fun m => m.numMeshlets)) (i + 1) i2 hgt
        omega
  · obtain ⟨m0, hm0, ho, hn⟩ := hrec i mesh hm
    have hk : g - mesh.meshletOffset < (GenerateMeshlets.build ext model m0).meshlets.length := by
      omega
    have hi : i < model.meshes.length := (List.getElem?_eq_some.mp hm0).1
    have := gen.meshlets i m0 (g - mesh.meshletOffset) _ hm0 (List.getElem?_eq_getElem hk)
    rw [← ho, show mesh.meshletOffset + (g - mesh.meshletOffset) = g by omega] at this
    refine ⟨_, this, ?_⟩
    show SafeCast_uint16 i = i
    unfold SafeCast_uint16
    exact Nat.mod_eq_of_lt (by omega)

/-- C25: after `GenerateMeshlets`, on a model within the `uint32` sizes of the
function and with a library that keeps within its caps, `Meshlets` and
`MeshletBounds` have as many entries as the library returned clusters over all
meshes, `MeshletVertexIndices` has as many entries as the `VertexCount` of all
meshlets add up to, and `MeshletTriangles` as many as their `TriangleCount` add
up to. -/
theorem GenerateMeshlets_lengths (ext : Externals F M) (model : Model F)
    (hfits : GenerateMeshlets.fits ext model) (hcaps : WithinCaps ext model) :
    (model.GenerateMeshlets ext).meshlets.length
      = ((model.meshes.map (GenerateMeshlets.build ext model)).map
          (fun o => o.meshlets.length)).sum ∧
    (model.GenerateMeshlets ext).meshletBounds.length
      = ((model.meshes.map (GenerateMeshlets.build ext model)).map
          (fun o => o.meshlets.length)).sum ∧
    (model.GenerateMeshlets ext).meshletVertices.length
      = ((model.GenerateMeshlets ext).meshlets.map (fun m => m.VertexCount)).sum ∧
    (model.GenerateMeshlets ext).meshletTriangles.length
      = ((model.GenerateMeshlets ext).meshlets.map (fun m => m.TriangleCount)).sum := by
  have gen := GenerateMeshlets_generated ext model hfits hcaps
  have hV : (model.GenerateMeshlets ext).meshlets.map (fun m => m.VertexCount)
      = (GenerateMeshlets.clusters ext model).map (fun c => c.vertex_count) := by
    apply List.ext_getElem?
    intro g
    simp only [List.getElem?_map]
    cases hc : (GenerateMeshlets.clusters ext model)[g]? with
    | none => rw [(generated_meshlets ext model gen g).1 hc]; rfl
    | some c =>
      obtain ⟨j, mesh, k, m, _, _, _, hm, _, _, hv, _, _, _⟩ :=
        (generated_meshlets ext model gen g).2 c hc
      rw [hm]; simp [hv]
  have hT : (model.GenerateMeshlets ext).meshlets.map (fun m => m.TriangleCount)
      = (GenerateMeshlets.clusters ext model).map (fun c => c.triangle_count) := by
    apply List.ext_getElem?
    intro g
    simp only [List.getElem?_map]
    cases hc : (GenerateMeshlets.clusters ext model)[g]? with
    | none => rw [(generated_meshlets ext model gen g).1 hc]; rfl
    | some c =>
      obtain ⟨j, mesh, k, m, _, _, _, hm, _, _, _, ht, _, _⟩ :=
        (generated_meshlets ext model gen g).2 c hc
      rw [hm]; simp [ht]
  have hsum : GenerateMeshlets.meshletStart ext model model.meshes.length
      = ((model.meshes.map (GenerateMeshlets.build ext model)).map
          (fun o => o.meshlets.length)).sum :=
    prefixSum_of_length_le _ _ (by simp [GenerateMeshlets.outputs])
  refine ⟨?_, ?_, ?_, ?_⟩
  · rw [gen.len_meshlets, hsum]
  · rw [gen.len_bounds, hsum]
  · rw [gen.len_vertices, hV, ← vertexTotal_clusters]; rfl
  · rw [gen.len_triangles, hT, ← triangleTotal_clusters]; rfl

/-- C26: after `GenerateMeshlets`, on a model within the `uint32` sizes of the
function, with a library that keeps within its caps and returns vertex ranges
consecutive from 0, every meshlet has `VertexOffset + VertexCount` at most the
length of `MeshletVertexIndices` and `TriangleOffset + TriangleCount` at most
the length of `MeshletTriangles`, and the triangle range of each meshlet starts
where that of the meshlet before it ends. -/
theorem GenerateMeshlets_ranges_within (ext : Externals F M) (model : Model F)
    (hfits : GenerateMeshlets.fits ext model) (hcaps : WithinCaps ext model)
    (hconsec : ConsecutiveVertexRanges ext model) :
    (∀ m ∈ (model.GenerateMeshlets ext).meshlets,
      m.VertexOffset + m.VertexCount ≤ (model.GenerateMeshlets ext).meshletVertices.length ∧
      m.TriangleOffset + m.TriangleCount
        ≤ (model.GenerateMeshlets ext).meshletTriangles.length) ∧
    (∀ (g : Nat) (m1 m2 : Meshlet), (model.GenerateMeshlets ext).meshlets[g]? = some m1 →
      (model.GenerateMeshlets ext).meshlets[g + 1]? = some m2 →
      m2.TriangleOffset = m1.TriangleOffset + m1.TriangleCount) := by
  have gen := GenerateMeshlets_generated ext model hfits hcaps
  have hcl : ∀ (g : Nat) (m : Meshlet), (model.GenerateMeshlets ext).meshlets[g]? = some m →
      ∃ c, (GenerateMeshlets.clusters ext model)[g]? = some c := by
    intro g m hm
    have hg : g < (GenerateMeshlets.clusters ext model).length := by
      rw [length_clusters, ← gen.len_meshlets]; exact (List.getElem?_eq_some.mp hm).1
    exact ⟨_, List.getElem?_eq_getElem hg⟩
  have htake : ∀ g c, (GenerateMeshlets.clusters ext model)[g]? = some c →
      triangleTotal ((GenerateMeshlets.clusters ext model).take (g + 1))
        = triangleTotal ((GenerateMeshlets.clusters ext model).take g) + c.triangle_count ∧
      vertexTotal ((GenerateMeshlets.clusters ext model).take (g + 1))
        = vertexTotal ((GenerateMeshlets.clusters ext model).take g) + c.vertex_count :=
    fun g c hc => ⟨triangleTotal_take_succ _ g c hc, vertexTotal_take_succ _ g c hc⟩
  refine ⟨fun m hm => ?_, fun g m1 m2 h1 h2 => ?_⟩
  · obtain ⟨g, hg⟩ := List.mem_iff_getElem?.mp hm
    obtain ⟨c, hc⟩ := hcl g m hg
    obtain ⟨j, mesh, k, m0, hmesh, hk, hgk, hm0, hvo, hto, hvc, htc, _, hvt⟩ :=
      (generated_meshlets ext model gen g).2 c hc
    rw [hg] at hm0
    simp only [Option.some.injEq] at hm0
    subst hm0
    have hmem : mesh ∈ model.meshes := List.mem_iff_getElem?.mpr ⟨j, hmesh⟩
    have hkl : k < (GenerateMeshlets.build ext model mesh).meshlets.length :=
      (List.getElem?_eq_some.mp hk).1
    have hco := hconsec mesh hmem k hkl
    have hco2 : c.vertex_offset
        = vertexTotal ((GenerateMeshlets.build ext model mesh).meshlets.take k) := by
      rw [← hco]
      simp [List.getD_eq_getElem?_getD, hk]
    obtain ⟨ht1, hv1⟩ := htake g c hc
    have ht2 := triangleTotal_take_all_le (GenerateMeshlets.clusters ext model) (g + 1)
    have hv2 := vertexTotal_take_all_le (GenerateMeshlets.clusters ext model) (g + 1)
    rw [triangleTotal_clusters, ← gen.len_triangles] at ht2
    rw [vertexTotal_clusters, ← gen.len_vertices] at hv2
    obtain ⟨hB, hG, hV, hT⟩ := starts_le ext model hfits hcaps model.meshes.length
    have hlv := gen.len_vertices
    have hfit : GenerateMeshlets.maxMeshlets ext model * 64 < 2 ^ 32 := by
      rw [hB]; exact hfits
    rw [hvo, hto, hvc, htc, Nat.mod_eq_of_lt (by omega)]
    constructor <;> omega
  · obtain ⟨c1, hc1⟩ := hcl g m1 h1
    obtain ⟨c2, hc2⟩ := hcl (g + 1) m2 h2
    obtain ⟨_, _, _, n1, _, _, _, hn1, _, hto1, _, htc1, _, _⟩ :=
      (generated_meshlets ext model gen g).2 c1 hc1
    obtain ⟨_, _, _, n2, _, _, _, hn2, _, hto2, _, _, _, _⟩ :=
      (generated_meshlets ext model gen (g + 1)).2 c2 hc2
    rw [h1] at hn1
    rw [h2] at hn2
    simp only [Option.some.injEq] at hn1 hn2
    subst hn1
    subst hn2
    rw [hto1, hto2, htc1]
    exact (htake g c1 hc1).1

end

theorem GenerateMeshlets_mesh_ranges_witness :
    (GenerateMeshlets.fits Examples.ext Examples.assembled ∧
      WithinCaps Examples.ext Examples.assembled ∧ Examples.assembled.meshes.length ≤ 2 ^ 16) ∧
    ((∀ (i : Nat) (mesh : Mesh Int), (Examples.assembled.GenerateMeshlets Examples.ext).meshes[i]? = some mesh →
      mesh.meshletOffset = prefixSum
        ((Examples.assembled.GenerateMeshlets Examples.ext).meshes.map (fun m => m.numMeshlets))
        i) ∧
    ((Examples.assembled.GenerateMeshlets Examples.ext).meshes.map (fun m => m.numMeshlets)).sum
      = (Examples.assembled.GenerateMeshlets Examples.ext).meshlets.length ∧
    (∀ g, g < (Examples.assembled.GenerateMeshlets Examples.ext).meshlets.length →
      ∃ (i : Nat) (mesh : Mesh Int), (Examples.assembled.GenerateMeshlets Examples.ext).meshes[i]? = some mesh ∧
        mesh.meshletOffset ≤ g ∧ g < mesh.meshletOffset + mesh.numMeshlets ∧
        ∀ (i2 : Nat) (mesh2 : Mesh Int), (Examples.assembled.GenerateMeshlets Examples.ext).meshes[i2]? = some mesh2 →
          mesh2.meshletOffset ≤ g → g < mesh2.meshletOffset + mesh2.numMeshlets → i2 = i) ∧
    (∀ (i : Nat) (mesh : Mesh Int) (g : Nat), (Examples.assembled.GenerateMeshlets Examples.ext).meshes[i]? = some mesh →
      mesh.meshletOffset ≤ g → g < mesh.meshletOffset + mesh.numMeshlets →
      ∃ m : Meshlet, (Examples.assembled.GenerateMeshlets Examples.ext).meshlets[g]? = some m ∧
        m.MeshIndex = i)) :=
  ⟨⟨by unfold GenerateMeshlets.fits; decide, by unfold WithinCaps; decide, by decide⟩,
    GenerateMeshlets_mesh_ranges Examples.ext Examples.assembled
      (by unfold GenerateMeshlets.fits; decide) (by unfold WithinCaps; decide) (by decide)⟩

theorem GenerateMeshlets_lengths_witness :
    (GenerateMeshlets.fits Examples.ext Examples.assembled ∧
      WithinCaps Examples.ext Examples.assembled) ∧
    ((Examples.assembled.GenerateMeshlets Examples.ext).meshlets.length
      = ((Examples.assembled.meshes.map
          (GenerateMeshlets.build Examples.ext Examples.assembled)).map
          (fun o => o.meshlets.length)).sum ∧
    (Examples.assembled.GenerateMeshlets Examples.ext).meshletBounds.length
      = ((Examples.assembled.meshes.map
          (GenerateMeshlets.build Examples.ext Examples.assembled)).map
          (fun o => o.meshlets.length)).sum ∧
    (Examples.assembled.GenerateMeshlets Examples.ext).meshletVertices.length
      = ((Examples.assembled.GenerateMeshlets Examples.ext).meshlets.map
          (fun m => m.VertexCount)).sum ∧
    (Examples.assembled.GenerateMeshlets Examples.ext).meshletTriangles.length
      = ((Examples.assembled.GenerateMeshlets Examples.ext).meshlets.map
          (fun m => m.TriangleCount)).sum) :=
  ⟨⟨by unfold GenerateMeshlets.fits; decide, by unfold WithinCaps; decide⟩,
    GenerateMeshlets_lengths Examples.ext Examples.assembled
      (by unfold GenerateMeshlets.fits; decide) (by unfold WithinCaps; decide)⟩

theorem GenerateMeshlets_ranges_within_witness :
    (GenerateMeshlets.fits Examples.ext Examples.assembled ∧
      WithinCaps Examples.ext Examples.assembled ∧
      ConsecutiveVertexRanges Examples.ext Examples.assembled) ∧
    ((∀ m ∈ (Examples.assembled.GenerateMeshlets Examples.ext).meshlets,
      m.VertexOffset + m.VertexCount
        ≤ (Examples.assembled.GenerateMeshlets Examples.ext).meshletVertices.length ∧
      m.TriangleOffset + m.TriangleCount
        ≤ (Examples.assembled.GenerateMeshlets Examples.ext).meshletTriangles.length) ∧
    (∀ (g : Nat) (m1 m2 : Meshlet), (Examples.assembled.GenerateMeshlets Examples.ext).meshlets[g]? = some m1 →
      (Examples.assembled.GenerateMeshlets Examples.ext).meshlets[g + 1]? = some m2 →
      m2.TriangleOffset = m1.TriangleOffset + m1.TriangleCount)) :=
  ⟨⟨by unfold GenerateMeshlets.fits; decide, by unfold WithinCaps; decide,
      by unfold ConsecutiveVertexRanges; decide⟩,
    GenerateMeshlets_ranges_within Examples.ext Examples.assembled
      (by unfold GenerateMeshlets.fits; decide) (by unfold WithinCaps; decide)
      (by unfold ConsecutiveVertexRanges; decide)⟩

/-- C27 fails on the code: for a mesh of 1173 indices the bound computed as
meshoptimizer computes it is 19 clusters, so the temporary buffer has
`19 * 64 = 1216` bytes; a library that returns 17 clusters of 23 triangles each,
within the bound and the caps, with the bytes of each cluster starting at a
multiple of four, has its last cluster at offset 1152, and the read for corner 2
of triangle 22 of that cluster is at index `1152 + 22 * 3 + 2 = 1220`, outside
the buffer. -/
theorem GenerateMeshlets_triangle_buffer_too_small :
    GenerateMeshlets.fits Examples.extStrips Examples.stripModel ∧
    WithinCaps Examples.extStrips Examples.stripModel ∧
    (∀ mesh ∈ Examples.stripModel.meshes,
      GenerateMeshlets.bound Examples.extStrips mesh = 19 ∧
      (GenerateMeshlets.build Examples.extStrips Examples.stripModel mesh).meshlets.length = 17 ∧
      (GenerateMeshlets.meshOptTriangles (GenerateMeshlets.bound Examples.extStrips mesh)
        (GenerateMeshlets.build Examples.extStrips Examples.stripModel mesh)).length = 1216 ∧
      (GenerateMeshlets.build Examples.extStrips Examples.stripModel mesh).meshlets[16]?
        = some ⟨400, 1152, 25, 23⟩) ∧
    ¬ TriangleBufferHolds Examples.extStrips Examples.stripModel := by
  have hlen : ∀ mesh ∈ Examples.stripModel.meshes,
      (GenerateMeshlets.meshOptTriangles (GenerateMeshlets.bound Examples.extStrips mesh)
        (GenerateMeshlets.build Examples.extStrips Examples.stripModel mesh)).length = 1216 := by
    intro mesh hmesh
    unfold GenerateMeshlets.meshOptTriangles
    rw [length_storeRange, List.length_replicate]
    revert mesh
    decide
  refine ⟨by unfold GenerateMeshlets.fits; decide, by unfold WithinCaps; decide,
    fun mesh hmesh => ⟨?_, ?_, hlen mesh hmesh, ?_⟩, fun h => ?_⟩
  · revert mesh; decide
  · revert mesh; decide
  · revert mesh; decide
  · have hmesh : ({ Examples.mesh0 with numIndices := 1173, numVertices := 425 } : Mesh Int)
        ∈ Examples.stripModel.meshes := by decide
    have := h _ hmesh ⟨400, 1152, 25, 23⟩ (by decide) 22 (by decide) 2 (by decide)
    rw [hlen _ hmesh] at this
    exact absurd this (by decide)

/-! ## Writing leaves the value alone -/

/-- The bulk path of a container of plain data under a driver that hands back
the objects and the memory it is given, `init` standing for the `Init` call of
the overload: the container is left as it is. -/
theorem bulk_write_keeps {σ : Type} (serializer : Serializer σ)
    (hitem : ∀ w d s, ∃ s1, serializer.SerializeItem w d s = some (d, s1))
    (hdata : ∀ n mem s, ∃ s1, serializer.SerializeData n mem s = some (mem, s1))
    (p : POD) (init : Nat → List p.toTy.Val) (vs : List p.toTy.Val)
    (hv : ∀ x ∈ vs, p.toTy.representable x = true) (s : σ) :
    ∃ s1, (match serializer.SerializeItem 8 vs.length s with
      | none => none
      | some (numElements, s1) =>
        let a1 := if vs.length ≠ numElements then init numElements else vs
        if numElements = 0 then some (a1, s1)
        else
          match BulkSerializeArray serializer p.sizeof (a1.map p.pattern) numElements s1 with
          | none => none
          | some (data, s2) => some (data.map p.object, s2)) = some (vs, s1) := by
  obtain ⟨s1, h1⟩ := hitem 8 vs.length s
  rw [h1]
  simp only [ne_eq, not_true_eq_false, if_false]
  by_cases h0 : vs.length = 0
  · exact ⟨s1, by simp [h0]⟩
  · obtain ⟨s2, h2⟩ := hdata ((p.sizeof * vs.length) % 2 ^ 64)
      (toChunks p.sizeof (vs.map p.pattern)) s1
    refine ⟨s2, ?_⟩
    simp only [h0, if_false, BulkSerializeArray, h2]
    have hlen : (vs.map p.pattern).length = (vs.map p.pattern).length := rfl
    rw [fromChunks_toChunks_nil p.sizeof (vs.map p.pattern) (fun e he => by
      obtain ⟨x, hx, rfl⟩ := List.mem_map.mp he
      exact pattern_lt p x (hv x hx)), map_object_pattern p vs hv]

/-- C29: the traversal of a representable value with a writing driver leaves
the value as it is: `SerializeItem` under `FileWriteSerializer`, from any file
content, and under `ComputeSizeSerializer`, from any `uint64` count, succeeds
and yields the value it was given, and so does `BulkSerializeItem` on an `Array`
or a `List` of plain data. No string or container is resized or initialised
anew and no element is changed. -/
theorem write_leaves_value (t : Ty) (v : t.Val) (hv : t.representable v = true) :
    (∀ file, ∃ file1, SerializeItem FileWriteSerializer t v file = some (v, file1)) ∧
    (∀ numBytes, numBytes < 2 ^ 64 →
      ∃ numBytes1, SerializeItem ComputeSizeSerializer t v numBytes = some (v, numBytes1)) ∧
    (∀ (p : POD) (vs : List p.toTy.Val), (∀ x ∈ vs, p.toTy.representable x = true) →
      (∀ file, ∃ file1,
        BulkSerializeItem_Array FileWriteSerializer p vs file = some (vs, file1)) ∧
      (∀ file, ∃ file1,
        BulkSerializeItem_List FileWriteSerializer p vs file = some (vs, file1)) ∧
      (∀ numBytes, ∃ numBytes1,
        BulkSerializeItem_Array ComputeSizeSerializer p vs numBytes = some (vs, numBytes1)) ∧
      (∀ numBytes, ∃ numBytes1,
        BulkSerializeItem_List ComputeSizeSerializer p vs numBytes = some (vs, numBytes1))) := by
  obtain ⟨bytes, hw, _, hs⟩ := traversal_spec t v hv
  refine ⟨fun file => ⟨_, hw file⟩, fun n hn => ⟨_, hs n hn⟩, fun p vs hvs => ⟨?_, ?_, ?_, ?_⟩⟩
  · intro file
    exact bulk_write_keeps FileWriteSerializer (fun w d s => ⟨_, rfl⟩) (fun n mem s => ⟨_, rfl⟩)
      p (Array_Init p.toTy) vs hvs file
  · intro file
    exact bulk_write_keeps FileWriteSerializer (fun w d s => ⟨_, rfl⟩) (fun n mem s => ⟨_, rfl⟩)
      p (fun n => List_Init p.toTy n n) vs hvs file
  · intro n
    exact bulk_write_keeps ComputeSizeSerializer (fun w d s => ⟨_, rfl⟩) (fun n mem s => ⟨_, rfl⟩)
      p (Array_Init p.toTy) vs hvs n
  · intro n
    exact bulk_write_keeps ComputeSizeSerializer (fun w d s => ⟨_, rfl⟩) (fun n mem s => ⟨_, rfl⟩)
      p (fun n => List_Init p.toTy n n) vs hvs n

theorem write_leaves_value_witness :
    (Ty.array (.string .uint16)).representable [[65, 66], [], [300]] = true ∧
    ((∀ file, ∃ file1, SerializeItem FileWriteSerializer (.array (.string .uint16))
        [[65, 66], [], [300]] file = some ([[65, 66], [], [300]], file1)) ∧
    (∀ numBytes, numBytes < 2 ^ 64 →
      ∃ numBytes1, SerializeItem ComputeSizeSerializer (.array (.string .uint16))
        [[65, 66], [], [300]] numBytes = some ([[65, 66], [], [300]], numBytes1)) ∧
    (∀ (p : POD) (vs : List p.toTy.Val), (∀ x ∈ vs, p.toTy.representable x = true) →
      (∀ file, ∃ file1,
        BulkSerializeItem_Array FileWriteSerializer p vs file = some (vs, file1)) ∧
      (∀ file, ∃ file1,
        BulkSerializeItem_List FileWriteSerializer p vs file = some (vs, file1)) ∧
      (∀ numBytes, ∃ numBytes1,
        BulkSerializeItem_Array ComputeSizeSerializer p vs numBytes = some (vs, numBytes1)) ∧
      (∀ numBytes, ∃ numBytes1,
        BulkSerializeItem_List ComputeSizeSerializer p vs numBytes = some (vs, numBytes1)))) :=
  ⟨by decide, write_leaves_value (.array (.string .uint16)) [[65, 66], [], [300]] (by decide)⟩

/-! ## The index buffer of the import -/

theorem getElem?_storeBytes (mem : List Byte) (addr : Nat) (bytes : List Byte) (k : Nat) :
    (storeBytes mem addr bytes)[k]? =
      if addr ≤ k ∧ k < addr + bytes.length then
        (mem[k]?).map (fun x => (bytes[k - addr]?).getD x)
      else mem[k]? := by
  unfold storeBytes
  have h := forRange_pointwise
    (fun i (acc : List Byte) => match bytes[i]? with
      | some v => acc.set (addr + i) v
      | none => acc)
    (fun i x => (bytes[i]?).getD x) addr
    (fun i acc k => by
      beta_reduce
      cases hv : bytes[i]? with
      | none =>
        simp only [Option.getD_none]
        by_cases hk : k = addr + i
        · rw [if_pos hk]; cases acc[k]? <;> rfl
        · rw [if_neg hk]
      | some v =>
        simp only [Option.getD_some]
        exact getElem?_set_map acc (addr + i) k v)
    bytes.length mem k
  exact h

theorem loadBytes_congr (l1 l2 : List Byte) (addr w : Nat)
    (h : ∀ a, addr ≤ a → a < addr + w → l1[a]? = l2[a]?) :
    loadBytes l1 addr w = loadBytes l2 addr w := by
  unfold loadBytes
  congr 1
  apply List.ext_getElem?
  intro i
  by_cases hi : i < w
  · rw [List.getElem?_take_of_lt hi, List.getElem?_take_of_lt hi, List.getElem?_drop,
      List.getElem?_drop]
    exact h _ (by omega) (by omega)
  · have e1 : ((l1.drop addr).take w)[i]? = none := by
      rw [List.getElem?_eq_none_iff, List.length_take]; omega
    have e2 : ((l2.drop addr).take w)[i]? = none := by
      rw [List.getElem?_eq_none_iff, List.length_take]; omega
    rw [e1, e2]

theorem loadBytes_storeBytes (mem : List Byte) (addr w val : Nat) (h : addr + w ≤ mem.length) :
    loadBytes (storeBytes mem addr (toBytes w val)) addr w = val % 256 ^ w := by
  unfold loadBytes
  have e : ((storeBytes mem addr (toBytes w val)).drop addr).take w = toBytes w val := by
    apply List.ext_getElem?
    intro i
    by_cases hi : i < w
    · rw [List.getElem?_take_of_lt hi, List.getElem?_drop, getElem?_storeBytes, length_toBytes,
        if_pos ⟨by omega, by omega⟩]
      have h1 : addr + i < mem.length := by omega
      have h2 : i < (toBytes w val).length := by rw [length_toBytes]; exact hi
      rw [List.getElem?_eq_getElem h1, Nat.add_sub_cancel_left, List.getElem?_eq_getElem h2]
      rfl
    · have e1 : (toBytes w val)[i]? = none := by
        rw [List.getElem?_eq_none_iff, length_toBytes]; omega
      rw [e1, List.getElem?_eq_none_iff, List.length_take]; omega
  rw [e, fromBytes_toBytes]

/-- A loop that stores element `k` of width `sz` at `base + sz * k`, for `k`
below `n`, inside the memory: the bytes outside `[base, base + sz * n)` are
kept, and element `k` reads back as the value stored, cut to the width. -/
theorem elementLoop_spec (sz : Nat) (idx : Nat → Nat) (base n : Nat) (ia : List Byte)
    (hlen : base + sz * n ≤ ia.length) :
    (forRange n (fun k acc => storeBytes acc (base + sz * k) (toBytes sz (idx k % 256 ^ sz)))
      ia).length = ia.length ∧
    (∀ a, ¬ (base ≤ a ∧ a < base + sz * n) →
      (forRange n (fun k acc => storeBytes acc (base + sz * k) (toBytes sz (idx k % 256 ^ sz)))
        ia)[a]? = ia[a]?) ∧
    (∀ k, k < n →
      loadBytes (forRange n
        (fun k acc => storeBytes acc (base + sz * k) (toBytes sz (idx k % 256 ^ sz))) ia)
        (base + sz * k) sz = idx k % 256 ^ sz) := by
  refine forRange_induction
    (fun i acc => acc.length = ia.length ∧
      (∀ a, ¬ (base ≤ a ∧ a < base + sz * i) → acc[a]? = ia[a]?) ∧
      (∀ k, k < i → loadBytes acc (base + sz * k) sz = idx k % 256 ^ sz))
    n _ ia ⟨rfl, fun _ _ => rfl, fun k hk => by omega⟩ ?_
  intro i acc hi ⟨h1, h2, h3⟩
  have hmul : sz * (i + 1) ≤ sz * n := Nat.mul_le_mul_left sz hi
  have hsucc : sz * (i + 1) = sz * i + sz := Nat.mul_succ sz i
  refine ⟨by rw [length_storeBytes, h1], fun a ha => ?_, fun k hk => ?_⟩
  · rw [getElem?_storeBytes, length_toBytes, if_neg (by omega)]
    exact h2 a (by omega)
  · by_cases hki : k = i
    · subst hki
      rw [loadBytes_storeBytes _ _ _ _ (by omega), Nat.mod_mod]
    · have hk2 : sz * (k + 1) ≤ sz * i := Nat.mul_le_mul_left sz (by omega)
      have hk3 : sz * (k + 1) = sz * k + sz := Nat.mul_succ sz k
      rw [← h3 k (by omega)]
      apply loadBytes_congr
      intro a ha1 ha2
      rw [getElem?_storeBytes, length_toBytes, if_neg (by omega)]

theorem forRange_triple {σ : Type} (body : Nat → σ → σ) (n : Nat) (s : σ) :
    forRange n (fun t acc => body (t * 3 + 2) (body (t * 3 + 1) (body (t * 3 + 0) acc))) s
      = forRange (n * 3) body s := by
  induction n with
  | zero => rfl
  | succ n ih =>
    rw [forRange_succ, ih, show (n + 1) * 3 = n * 3 + 1 + 1 + 1 by omega, forRange_succ,
      forRange_succ, forRange_succ]
    rfl

section
variable {F M : Type}

/-- The copy of the index data is a loop over the indices of the source mesh,
each stored in the width of the model. -/
theorem copyIndices_eq (am : aiMesh F) (it : IndexType) (di : Nat) (ia : List Byte) :
    InitFromAssimpMesh.copyIndices am it di ia
      = forRange (am.mNumFaces * 3) (fun k acc => storeBytes acc (di + it.IndexSize * k)
          (toBytes it.IndexSize (am.faceIndex k % 256 ^ it.IndexSize))) ia := by
  have hd : ∀ t e : Nat, e < 3 → (t * 3 + e) / 3 = t ∧ (t * 3 + e) % 3 = e := by
    intro t e he; omega
  rw [← forRange_triple]
  unfold InitFromAssimpMesh.copyIndices
  cases it with
  | Index16Bit =>
    apply forRange_congr
    intro t _ st
    simp only [store16, aiMesh.faceIndex, IndexType.IndexSize, hd t 0 (by omega),
      hd t 1 (by omega), hd t 2 (by omega)]
    rfl
  | Index32Bit =>
    apply forRange_congr
    intro t _ st
    simp only [store32, aiMesh.faceIndex, IndexType.IndexSize, hd t 0 (by omega),
      hd t 1 (by omega), hd t 2 (by omega)]
    rfl

end
section
variable {F M : Type} [LinearOrder F] [Mul F] [Neg F] [One F]

/-- The index array the second mesh loop of `CreateWithAssimp` leaves: the bytes
before the starting offset are kept, and index `k` of source mesh `i` reads
back, cut to the index width, at the byte offset of the mesh. -/
theorem loop_indices (ext : Externals F M) (ls : ModelLoadSettings F) (it : IndexType)
    (srcs : List (aiMesh F × M)) (vo io : Nat) (va : List (MeshVertex F)) (ia : List Byte)
    (amin amax : Float3 F) (hfit : ∀ p ∈ srcs, p.1.mNumFaces * 3 < 2 ^ 32)
    (hlen : io + (srcs.map (fun p => p.1.mNumFaces * 3)).sum * it.IndexSize ≤ ia.length) :
    (∀ a, a < io →
      (CreateWithAssimp.loop ext ls it it.IndexSize srcs vo io va ia amin amax).2.2.1[a]?
        = ia[a]?) ∧
    ∀ i src, srcs[i]? = some src → ∀ k, k < src.1.mNumFaces * 3 →
      loadBytes (CreateWithAssimp.loop ext ls it it.IndexSize srcs vo io va ia amin amax).2.2.1
        (io + prefixSum (srcs.map (fun p => p.1.mNumFaces * 3)) i * it.IndexSize
          + it.IndexSize * k) it.IndexSize
        = src.1.faceIndex k % 256 ^ it.IndexSize := by
  induction srcs generalizing vo io va ia amin amax with
  | nil => exact ⟨fun _ _ => rfl, fun i src h => by simp at h⟩
  | cons s0 rest ih =>
    obtain ⟨am, tr⟩ := s0
    have hn : am.mNumFaces * 3 < 2 ^ 32 := hfit (am, tr) (List.mem_cons_self _ _)
    simp only [List.map_cons, List.sum_cons, Nat.add_mul] at hlen
    have hcomm : it.IndexSize * (am.mNumFaces * 3) = am.mNumFaces * 3 * it.IndexSize :=
      Nat.mul_comm _ _
    obtain ⟨c1, c2, c3⟩ := elementLoop_spec it.IndexSize am.faceIndex io (am.mNumFaces * 3) ia
      (by omega)
    rw [← copyIndices_eq am it io ia] at c1 c2 c3
    have hni : ((am.mNumFaces * 3) % 2 ^ 32) = am.mNumFaces * 3 := Nat.mod_eq_of_lt hn
    obtain ⟨t1, t2⟩ := ih (vo + am.mNumVertices) (io + am.mNumFaces * 3 * it.IndexSize)
      (Mesh.InitFromAssimpMesh ext ext.freshMesh am ls va vo ia io it tr).2.1
      (InitFromAssimpMesh.copyIndices am it io ia)
      (Float3.Min amin (Mesh.InitFromAssimpMesh ext ext.freshMesh am ls va vo ia io it tr).1.aabbMin)
      (Float3.Max amax (Mesh.InitFromAssimpMesh ext ext.freshMesh am ls va vo ia io it tr).1.aabbMax)
      (fun p hp => hfit p (List.mem_cons_of_mem _ hp)) (by rw [c1]; omega)
    have hloop : (CreateWithAssimp.loop ext ls it it.IndexSize ((am, tr) :: rest) vo io va ia
        amin amax).2.2.1
        = (CreateWithAssimp.loop ext ls it it.IndexSize rest (vo + am.mNumVertices)
          (io + am.mNumFaces * 3 * it.IndexSize)
          (Mesh.InitFromAssimpMesh ext ext.freshMesh am ls va vo ia io it tr).2.1
          (InitFromAssimpMesh.copyIndices am it io ia)
          (Float3.Min amin
            (Mesh.InitFromAssimpMesh ext ext.freshMesh am ls va vo ia io it tr).1.aabbMin)
          (Float3.Max amax
            (Mesh.InitFromAssimpMesh ext ext.freshMesh am ls va vo ia io it tr).1.aabbMax)).2.2.1 := by
      simp only [CreateWithAssimp.loop]
      have e : (Mesh.InitFromAssimpMesh ext ext.freshMesh am ls va vo ia io it tr).1.numIndices
          = am.mNumFaces * 3 := hni
      rw [e]
      rfl
    rw [hloop]
    refine ⟨fun a ha => ?_, fun i src hsrc k hk => ?_⟩
    · rw [t1 a (by omega)]
      exact c2 a (by omega)
    · cases i with
      | zero =>
        simp only [List.getElem?_cons_zero, Option.some.injEq] at hsrc
        subst hsrc
        simp only [prefixSum_zero, Nat.zero_mul, Nat.add_zero]
        have hk2 : it.IndexSize * (k + 1) ≤ it.IndexSize * (am.mNumFaces * 3) :=
          Nat.mul_le_mul_left _ hk
        have hk3 : it.IndexSize * (k + 1) = it.IndexSize * k + it.IndexSize := Nat.mul_succ _ _
        rw [← c3 k hk]
        apply loadBytes_congr
        intro a _ ha2
        exact t1 a (by omega)
      | succ i =>
        simp only [List.getElem?_cons_succ] at hsrc
        have := t2 i src hsrc k hk
        simp only [List.map_cons, prefixSum_cons_succ, Nat.add_mul]
        rw [← this]
        congr 1
        omega

/-- The indices the finished model holds: index `k` of mesh `i` reads as the
source face index cut to the index width of the model. -/
theorem CreateWithAssimp_indices (ext : Externals F M) (settings : ModelLoadSettings F)
    (mMeshes : List (aiMesh F × M)) (self : Model F)
    (hfit : ∀ p ∈ mMeshes, p.1.mNumFaces * 3 < 2 ^ 32) :
    ∀ (i : Nat) (src : aiMesh F × M) (mesh : Mesh F), mMeshes[i]? = some src →
      (Model.CreateWithAssimp ext settings mMeshes self).meshes[i]? = some mesh →
      ∀ k, k < src.1.mNumFaces * 3 →
        (Model.CreateWithAssimp ext settings mMeshes self).indexAt mesh k
          = src.1.faceIndex k %
            256 ^ (Model.CreateWithAssimp ext settings mMeshes self).indexType.IndexSize := by
  intro i src mesh hsrc hmesh k hk
  obtain ⟨_, hix, hit, hlen, hm⟩ := CreateWithAssimp_meshes ext settings mMeshes self
  have hni : mMeshes.map (fun p => p.1.numIndices) = mMeshes.map (fun p => p.1.mNumFaces * 3) :=
    List.map_congr_left (fun p hp => Nat.mod_eq_of_lt (hfit p hp))
  obtain ⟨src', hs', _, _, _, _, _, _, h7⟩ := hm i mesh hmesh
  rw [hni] at h7
  unfold Model.indexAt
  rw [h7, hix]
  have hcount := count_spec (mMeshes.map (fun p => p.1))
  simp only [List.map_map] at hcount
  have hc2 : (CreateWithAssimp.count (mMeshes.map (fun p => p.1))).2.1
      = (mMeshes.map (fun p => p.1.numIndices)).sum := by
    rw [hcount]; rfl
  have hty : (CreateWithAssimp.assemble ext settings mMeshes self).indexType
      = (CreateWithAssimp.count (mMeshes.map (fun p => p.1))).2.2 := rfl
  rw [hit, hty]
  have hsz : (if (CreateWithAssimp.count (mMeshes.map (fun p => p.1))).2.2 = IndexType.Index32Bit
      then 4 else 2) = (CreateWithAssimp.count (mMeshes.map (fun p => p.1))).2.2.IndexSize := by
    cases (CreateWithAssimp.count (mMeshes.map (fun p => p.1))).2.2 <;> rfl
  have hasm : (CreateWithAssimp.assemble ext settings mMeshes self).indices
      = (CreateWithAssimp.loop ext settings (CreateWithAssimp.count (mMeshes.map (fun p => p.1))).2.2
          (CreateWithAssimp.count (mMeshes.map (fun p => p.1))).2.2.IndexSize mMeshes 0 0
          (List.replicate (CreateWithAssimp.count (mMeshes.map (fun p => p.1))).1 ext.freshVertex)
          (List.replicate ((CreateWithAssimp.count (mMeshes.map (fun p => p.1))).2.1 *
            (CreateWithAssimp.count (mMeshes.map (fun p => p.1))).2.2.IndexSize) 0)
          (Float3.splat ext.FloatMax) (Float3.splat (-ext.FloatMax))).2.2.1 := by
    unfold CreateWithAssimp.assemble
    simp only [hsz]
  rw [hasm]
  have h := (loop_indices ext settings (CreateWithAssimp.count (mMeshes.map (fun p => p.1))).2.2
    mMeshes 0 0
    (List.replicate (CreateWithAssimp.count (mMeshes.map (fun p => p.1))).1 ext.freshVertex)
    (List.replicate ((CreateWithAssimp.count (mMeshes.map (fun p => p.1))).2.1 *
      (CreateWithAssimp.count (mMeshes.map (fun p => p.1))).2.2.IndexSize) 0)
    (Float3.splat ext.FloatMax) (Float3.splat (-ext.FloatMax)) hfit (by
      rw [List.length_replicate, hc2, hni]; omega)).2 i src hsrc k hk
  rw [Nat.zero_add] at h
  exact h

end
/-- C28 fails as stated: a scene of one mesh with 65,537 vertices and one
triangle `(0, 1, 65536)` has every face index below the vertex count; its three
indices select 16-bit indices for the model, and the index stored for the third
corner is `65536` narrowed to `uint16`, which is 0. -/
theorem CreateWithAssimp_indices_counterexample :
    FaceIndicesInRange [(Examples.sparse, ())] ∧
    (Model.CreateWithAssimp Examples.ext Examples.settings [(Examples.sparse, ())]
      Examples.model0).indexType = IndexType.Index16Bit ∧
    (∀ mesh, (Model.CreateWithAssimp Examples.ext Examples.settings [(Examples.sparse, ())]
        Examples.model0).meshes[0]? = some mesh →
      (Model.CreateWithAssimp Examples.ext Examples.settings [(Examples.sparse, ())]
        Examples.model0).indexAt mesh 2 = 0 ∧ Examples.sparse.faceIndex 2 = 65536) ∧
    ¬ IndicesPreserved [(Examples.sparse, ())]
      (Model.CreateWithAssimp Examples.ext Examples.settings [(Examples.sparse, ())]
        Examples.model0) := by
  have hty : (Model.CreateWithAssimp Examples.ext Examples.settings [(Examples.sparse, ())]
      Examples.model0).indexType = IndexType.Index16Bit := by decide
  have hval : ∀ mesh, (Model.CreateWithAssimp Examples.ext Examples.settings
      [(Examples.sparse, ())] Examples.model0).meshes[0]? = some mesh →
      (Model.CreateWithAssimp Examples.ext Examples.settings [(Examples.sparse, ())]
        Examples.model0).indexAt mesh 2 = 0 := by
    intro mesh hmesh
    have h := CreateWithAssimp_indices Examples.ext Examples.settings [(Examples.sparse, ())]
      Examples.model0 (by decide) 0 (Examples.sparse, ()) mesh rfl hmesh 2 (by decide)
    rw [h, hty]
    decide
  refine ⟨by unfold FaceIndicesInRange; decide, hty, fun mesh hmesh => ⟨hval mesh hmesh, by decide⟩,
    fun h => ?_⟩
  have hlen := (CreateWithAssimp_meshes Examples.ext Examples.settings [(Examples.sparse, ())]
    Examples.model0).2.2.2.1
  have h0 : 0 < (Model.CreateWithAssimp Examples.ext Examples.settings [(Examples.sparse, ())]
      Examples.model0).meshes.length := by rw [hlen]; decide
  have h1 := h 0 (Examples.sparse, ()) _ rfl (List.getElem?_eq_getElem h0) 2 (by decide)
  rw [hval _ (List.getElem?_eq_getElem h0)] at h1
  exact absurd h1 (by decide)

theorem faceIndex_lt {F : Type} (am : aiMesh F) (k bound : Nat) (hb : 0 < bound)
    (h : ∀ face ∈ am.mFaces, ∀ v ∈ face, v < bound) : am.faceIndex k < bound := by
  unfold aiMesh.faceIndex
  rw [List.getD_eq_getElem?_getD, List.getD_eq_getElem?_getD]
  cases hf : am.mFaces[k / 3]? with
  | none => simpa using hb
  | some face =>
    simp only [Option.getD_some]
    cases hv : face[k % 3]? with
    | none => simpa using hb
    | some v =>
      simp only [Option.getD_some]
      exact h face (List.mem_iff_getElem?.mpr ⟨_, hf⟩) v (List.mem_iff_getElem?.mpr ⟨_, hv⟩)

section
variable {F M : Type} [LinearOrder F] [Mul F] [Neg F] [One F]

/-- C28, amended: for every scene built by `CreateWithAssimp` in which the index
count `mNumFaces * 3` of every mesh fits `unsigned int`, each face index of a
mesh is smaller than the vertex count of the mesh, and no mesh has more vertices
than the index width of the model can address (65,536 for 16-bit indices,
`2 ^ 32` for 32-bit indices), every index stored in the global index buffer
equals the source face index it was copied from. -/
theorem CreateWithAssimp_indices_preserved (ext : Externals F M)
    (settings : ModelLoadSettings F) (mMeshes : List (aiMesh F × M)) (self : Model F)
    (hfit : ∀ p ∈ mMeshes, p.1.mNumFaces * 3 < 2 ^ 32)
    (hfaces : FaceIndicesInRange mMeshes)
    (hverts : ∀ p ∈ mMeshes, p.1.mNumVertices
      ≤ 256 ^ (Model.CreateWithAssimp ext settings mMeshes self).indexType.IndexSize) :
    IndicesPreserved mMeshes (Model.CreateWithAssimp ext settings mMeshes self) := by
  intro i src mesh hsrc hmesh k hk
  rw [CreateWithAssimp_indices ext settings mMeshes self hfit i src mesh hsrc hmesh k hk]
  have hmem : src ∈ mMeshes := List.mem_iff_getElem?.mpr ⟨i, hsrc⟩
  have hpos : 0 < 256 ^ (Model.CreateWithAssimp ext settings mMeshes self).indexType.IndexSize :=
    Nat.pow_pos (by decide)
  exact Nat.mod_eq_of_lt (faceIndex_lt src.1 k _ hpos (fun face hf v hv =>
    Nat.lt_of_lt_of_le (hfaces src hmem face hf v hv) (hverts src hmem)))

end

theorem CreateWithAssimp_indices_preserved_witness :
    ((∀ p ∈ Examples.twoTriangles, p.1.mNumFaces * 3 < 2 ^ 32) ∧
      FaceIndicesInRange Examples.twoTriangles ∧
      (∀ p ∈ Examples.twoTriangles, p.1.mNumVertices
        ≤ 256 ^ (Model.CreateWithAssimp Examples.ext Examples.settings Examples.twoTriangles
          Examples.model0).indexType.IndexSize)) ∧
    IndicesPreserved Examples.twoTriangles
      (Model.CreateWithAssimp Examples.ext Examples.settings Examples.twoTriangles
        Examples.model0) :=
  ⟨⟨by decide, by unfold FaceIndicesInRange; decide, by decide⟩,
    CreateWithAssimp_indices_preserved Examples.ext Examples.settings Examples.twoTriangles
      Examples.model0 (by decide) (by unfold FaceIndicesInRange; decide) (by decide)⟩

/-! ## Sphere geometry -/

theorem forRange_append {α : Type} (f : Nat → List α) (n : Nat) (l : List α) :
    forRange n (fun i acc => acc ++ f i) l = l ++ (List.range n).flatMap f := by
  induction n with
  | zero => simp [forRange_zero]
  | succ n ih => rw [forRange_succ, ih, List.range_succ]; simp

theorem forRange_congr_inv {σ : Type} (P : Nat → σ → Prop) (n : Nat) (body body1 : Nat → σ → σ)
    (s : σ) (h0 : P 0 s) (hstep : ∀ i st, i < n → P i st → P (i + 1) (body1 i st))
    (heq : ∀ i st, i < n → P i st → body i st = body1 i st) :
    forRange n body s = forRange n body1 s ∧ P n (forRange n body1 s) := by
  induction n with
  | zero => exact ⟨rfl, h0⟩
  | succ n ih =>
    obtain ⟨e, p⟩ := ih (fun i st hi => hstep i st (Nat.lt_succ_of_lt hi))
      (fun i st hi => heq i st (Nat.lt_succ_of_lt hi))
    rw [forRange_succ, forRange_succ, e]
    exact ⟨heq n _ (Nat.lt_succ_self n) p, hstep n _ (Nat.lt_succ_self n) p⟩

theorem flatMap_range_congr {α : Type} (f g : Nat → List α) (n : Nat)
    (h : ∀ i, i < n → f i = g i) : (List.range n).flatMap f = (List.range n).flatMap g := by
  induction n with
  | zero => rfl
  | succ n ih =>
    rw [List.range_succ, List.flatMap_append, List.flatMap_append,
      ih (fun i hi => h i (Nat.lt_succ_of_lt hi))]
    simp [h n (Nat.lt_succ_self n)]

theorem length_flatMap_range {α : Type} (f : Nat → List α) (n k : Nat)
    (h : ∀ i, i < n → (f i).length = k) : ((List.range n).flatMap f).length = k * n := by
  induction n with
  | zero => rfl
  | succ n ih =>
    rw [List.range_succ, List.flatMap_append, List.length_append,
      ih (fun i hi => h i (Nat.lt_succ_of_lt hi))]
    simp [h n (Nat.lt_succ_self n), Nat.mul_succ]

theorem mem_flatMap_range {α : Type} (f : Nat → List α) (n : Nat) (x : α)
    (h : x ∈ (List.range n).flatMap f) : ∃ i, i < n ∧ x ∈ f i := by
  obtain ⟨i, hi, hx⟩ := List.mem_flatMap.mp h
  exact ⟨i, List.mem_range.mp hi, hx⟩

theorem take_set_self {α : Type} (l : List α) (c : Nat) (x : α) :
    (l.set c x).take c = l.take c := by
  apply List.ext_getElem?
  intro i
  by_cases hi : i < c
  · rw [List.getElem?_take_of_lt hi, List.getElem?_take_of_lt hi,
      List.getElem?_set_ne (by omega)]
  · have e1 : ((l.set c x).take c)[i]? = none := by
      rw [List.getElem?_eq_none_iff, List.length_take]; omega
    have e2 : (l.take c)[i]? = none := by
      rw [List.getElem?_eq_none_iff, List.length_take]; omega
    rw [e1, e2]

theorem take_set_succ {α : Type} (l : List α) (c : Nat) (x : α) (h : c < l.length) :
    (l.set c x).take (c + 1) = l.take c ++ [x] := by
  rw [List.take_succ, List.getElem?_set_self (by simpa using h), take_set_self]
  rfl

/-- A loop that stores `g k` at a running position, inside the array: the
position advances by the number of iterations, the array keeps its length, and
the values stored follow what lay before the starting position. -/
theorem fillLoop_spec {α : Type} (g : Nat → α) (n : Nat) (l : List α) (c : Nat)
    (h : c + n ≤ l.length) :
    (forRange n (fun k (st : List α × Nat) => (st.1.set st.2 (g k), st.2 + 1)) (l, c)).2 = c + n ∧
    (forRange n (fun k (st : List α × Nat) => (st.1.set st.2 (g k), st.2 + 1)) (l, c)).1.length
      = l.length ∧
    (forRange n (fun k (st : List α × Nat) => (st.1.set st.2 (g k), st.2 + 1)) (l, c)).1.take
      (c + n) = l.take c ++ (List.range n).map g := by
  refine forRange_induction
    (fun i (st : List α × Nat) => st.2 = c + i ∧ st.1.length = l.length ∧
      st.1.take (c + i) = l.take c ++ (List.range i).map g) n _ (l, c)
    ⟨rfl, rfl, by simp⟩ ?_
  intro i st hi ⟨h1, h2, h3⟩
  refine ⟨by simp only [h1]; omega, by simp only [List.length_set, h2], ?_⟩
  simp only [h1]
  rw [show c + (i + 1) = c + i + 1 by omega, take_set_succ _ _ _ (by omega), h3,
    List.range_succ, List.map_append, List.append_assoc]
  rfl

section
variable {F : Type} [Zero F] [One F] [Neg F] [Mul F] [Div F]

/-- The vertex part of `MakeSphereGeometry` fills the array exactly: the top
vertex, the rings in order, the bottom vertex. -/
theorem sphereVertices_spec (m : SphereMath F) (uDivisions vDivisions : Nat)
    (hn : (vDivisions - 1) * uDivisions + 2 < 2 ^ 64) :
    (MakeSphereGeometry.vertices m uDivisions vDivisions).1
      = (⟨0, 0, 1⟩ : Float3 F) :: (List.range (vDivisions - 1)).flatMap (fun r =>
          (List.range uDivisions).map (MakeSphereGeometry.pos m uDivisions vDivisions (r + 1)))
        ++ [⟨0, 0, -1⟩] ∧
    (MakeSphereGeometry.vertices m uDivisions vDivisions).2.1
      = (vDivisions - 1) * uDivisions + 2 ∧
    (MakeSphereGeometry.vertices m uDivisions vDivisions).2.2
      = (vDivisions - 1) * uDivisions + 1 := by
  have key := forRange_induction
    (fun i (st : List (Float3 F) × Nat) => st.2 = 1 + i * uDivisions ∧
      st.1.length = (vDivisions - 1) * uDivisions + 2 ∧
      st.1.take (1 + i * uDivisions) = (⟨0, 0, 1⟩ : Float3 F) ::
        (List.range i).flatMap (fun r =>
          (List.range uDivisions).map (MakeSphereGeometry.pos m uDivisions vDivisions (r + 1))))
    (vDivisions - 1)
    (fun i st => forRange uDivisions (fun u (st : List (Float3 F) × Nat) =>
      (st.1.set st.2 (MakeSphereGeometry.pos m uDivisions vDivisions (i + 1) u), st.2 + 1)) st)
    ((List.replicate ((vDivisions - 1) * uDivisions + 2) (⟨0, 0, 0⟩ : Float3 F)).set 0 ⟨0, 0, 1⟩, 1)
    ⟨by simp, by simp, by
      simp only [Nat.zero_mul, Nat.add_zero, List.range_zero, List.flatMap_nil]
      rw [show (1 : Nat) = 0 + 1 from rfl, take_set_succ _ _ _ (by simp)]
      rfl⟩
    (fun i st hi ⟨h1, h2, h3⟩ => by
      obtain ⟨l, c⟩ := st
      simp only at h1 h2 h3
      subst h1
      have hmul : (i + 1) * uDivisions ≤ (vDivisions - 1) * uDivisions :=
        Nat.mul_le_mul_right _ hi
      have hsucc : (i + 1) * uDivisions = i * uDivisions + uDivisions := Nat.succ_mul _ _
      obtain ⟨f1, f2, f3⟩ := fillLoop_spec
        (MakeSphereGeometry.pos m uDivisions vDivisions (i + 1)) uDivisions l
        (1 + i * uDivisions) (by omega)
      refine ⟨by rw [f1]; omega, by rw [f2, h2], ?_⟩
      rw [show 1 + (i + 1) * uDivisions = 1 + i * uDivisions + uDivisions by omega, f3, h3,
        List.range_succ, List.flatMap_append]
      simp)
  obtain ⟨k1, k2, k3⟩ := key
  unfold MakeSphereGeometry.vertices
  simp only [Nat.mod_eq_of_lt hn, k1]
  refine ⟨?_, by omega, by omega⟩
  have hlen : 1 + (vDivisions - 1) * uDivisions < (forRange (vDivisions - 1)
      (fun i st => forRange uDivisions (fun u (st : List (Float3 F) × Nat) =>
        (st.1.set st.2 (MakeSphereGeometry.pos m uDivisions vDivisions (i + 1) u), st.2 + 1)) st)
      ((List.replicate ((vDivisions - 1) * uDivisions + 2) (⟨0, 0, 0⟩ : Float3 F)).set 0
        ⟨0, 0, 1⟩, 1)).1.length := by rw [k2]; omega
  have := take_set_succ _ _ (⟨0, 0, -1⟩ : Float3 F) hlen
  rw [k3, List.take_of_length_le (by rw [List.length_set, k2]; omega)] at this
  rw [this]

end
theorem topRing_eq (narrow : Nat → Nat) (uDivisions : Nat) (l : List Nat) :
    MakeSphereGeometry.topRing narrow uDivisions l = l ++ (List.range uDivisions).flatMap
      (fun u => [narrow 0, narrow (u + 1), narrow (if u < uDivisions - 1 then u + 2 else 1)]) := by
  unfold MakeSphereGeometry.topRing
  rw [← forRange_append]
  apply forRange_congr
  intro i _ st
  simp only []
  split <;> simp

theorem quadLoop_eq (narrow : Nat → Nat) (uDivisions p c : Nat) (l : List Nat) :
    forRange uDivisions (MakeSphereGeometry.quad narrow uDivisions p c) l
      = l ++ (List.range uDivisions).flatMap (fun u =>
        [narrow (p + u), narrow (c + u),
          narrow (if u = uDivisions - 1 then c else c + u + 1),
          narrow (if u = uDivisions - 1 then c else c + u + 1),
          narrow (if u = uDivisions - 1 then p else p + u + 1), narrow (p + u)]) := by
  rw [← forRange_append]
  apply forRange_congr
  intro i _ st
  simp [MakeSphereGeometry.quad]

theorem bottomRing_eq (narrow : Nat → Nat) (uDivisions lastVertIdx : Nat) (l : List Nat) :
    MakeSphereGeometry.bottomRing narrow uDivisions lastVertIdx l
      = l ++ (List.range uDivisions).flatMap (fun u =>
        [narrow lastVertIdx,
          narrow (if u < uDivisions - 1 then lastVertIdx - uDivisions + u + 1
            else lastVertIdx - uDivisions),
          narrow (lastVertIdx - uDivisions + u)]) := by
  unfold MakeSphereGeometry.bottomRing
  rw [← forRange_append]
  apply forRange_congr
  intro i _ st
  simp only []
  split <;> simp

/-- The rings between top and bottom, for a conversion that keeps every value
below the vertex count: the run is that of the exact values, the row starts
advance by one ring per iteration, six indices are added per step, and every
index is below the vertex count. -/
theorem rings_spec (narrow : Nat → Nat) (uDivisions vDivisions : Nat) (l : List Nat)
    (hv : 2 ≤ vDivisions)
    (hnarrow : ∀ x, x < (vDivisions - 1) * uDivisions + 2 → narrow x = x)
    (hl : ∀ x ∈ l, x < (vDivisions - 1) * uDivisions + 2) :
    MakeSphereGeometry.rings narrow uDivisions vDivisions l
      = MakeSphereGeometry.rings id uDivisions vDivisions l ∧
    (MakeSphereGeometry.rings id uDivisions vDivisions l).1.length
      = l.length + 6 * ((vDivisions - 1 - 1) * uDivisions) ∧
    ∀ x ∈ (MakeSphereGeometry.rings id uDivisions vDivisions l).1,
      x < (vDivisions - 1) * uDivisions + 2 := by
  have hbound : ∀ r, r < vDivisions - 1 - 1 →
      r * uDivisions + 2 * uDivisions ≤ (vDivisions - 1) * uDivisions := by
    intro r hr
    have h1 : (r + 2) * uDivisions ≤ (vDivisions - 1) * uDivisions :=
      Nat.mul_le_mul_right _ (by omega)
    rw [Nat.add_mul] at h1
    exact h1
  have key := forRange_congr_inv
    (fun r (st : List Nat × Nat × Nat) => st.2.1 = 1 + r * uDivisions ∧
      st.2.2 = 1 + r * uDivisions + uDivisions ∧
      st.1.length = l.length + 6 * (r * uDivisions) ∧
      ∀ x ∈ st.1, x < (vDivisions - 1) * uDivisions + 2)
    (vDivisions - 1 - 1)
    (fun _ (st : List Nat × Nat × Nat) =>
      (forRange uDivisions (MakeSphereGeometry.quad narrow uDivisions st.2.1 st.2.2) st.1,
        st.2.2, st.2.2 + uDivisions))
    (fun _ (st : List Nat × Nat × Nat) =>
      (forRange uDivisions (MakeSphereGeometry.quad id uDivisions st.2.1 st.2.2) st.1,
        st.2.2, st.2.2 + uDivisions))
    (l, 1, uDivisions + 1)
    ⟨by simp, by simp; omega, by simp, hl⟩
    (fun r st hr ⟨h1, h2, h3, h4⟩ => by
      have hb := hbound r hr
      have hs : (r + 1) * uDivisions = r * uDivisions + uDivisions := Nat.succ_mul _ _
      refine ⟨by simp only [h2, hs]; omega, by simp only [h2, hs]; omega, ?_, ?_⟩
      · simp only [quadLoop_eq, List.length_append, h3]
        rw [length_flatMap_range _ _ 6 (fun i _ => by rfl), hs]
        omega
      · intro x hx
        simp only [quadLoop_eq, List.mem_append] at hx
        rcases hx with hx | hx
        · exact h4 x hx
        · obtain ⟨i, hi, hx⟩ := mem_flatMap_range _ _ _ hx
          simp only [id, List.mem_cons, List.mem_singleton, List.not_mem_nil, or_false,
            h1, h2] at hx
          rcases hx with rfl | rfl | rfl | rfl | rfl | rfl <;> (try split) <;> omega)
    (fun r st hr ⟨h1, h2, h3, h4⟩ => by
      have hb := hbound r hr
      simp only [quadLoop_eq, h1, h2, id]
      congr 2
      apply flatMap_range_congr
      intro i hi
      have e1 := hnarrow (1 + r * uDivisions + i) (by omega)
      have e2 := hnarrow (1 + r * uDivisions + uDivisions + i) (by omega)
      have e3 := hnarrow (if i = uDivisions - 1 then 1 + r * uDivisions + uDivisions
        else 1 + r * uDivisions + uDivisions + i + 1) (by split <;> omega)
      have e4 := hnarrow (if i = uDivisions - 1 then 1 + r * uDivisions
        else 1 + r * uDivisions + i + 1) (by split <;> omega)
      rw [e1, e2, e3, e4])
  exact ⟨key.1, key.2.2.2.1, key.2.2.2.2⟩

/-- The index list of `MakeSphereGeometry` for a conversion that keeps every
value below the vertex count: it is the list of the exact values, it has
`6 * uDivisions * (vDivisions - 1)` entries, each below the vertex count. -/
theorem sphereIndices_spec (narrow : Nat → Nat) (uDivisions vDivisions : Nat)
    (hv : 2 ≤ vDivisions)
    (hnarrow : ∀ x, x < (vDivisions - 1) * uDivisions + 2 → narrow x = x) :
    MakeSphereGeometry.indices narrow uDivisions vDivisions ((vDivisions - 1) * uDivisions + 1)
      = MakeSphereGeometry.indices id uDivisions vDivisions
          ((vDivisions - 1) * uDivisions + 1) ∧
    (MakeSphereGeometry.indices id uDivisions vDivisions
      ((vDivisions - 1) * uDivisions + 1)).length = 6 * uDivisions * (vDivisions - 1) ∧
    ∀ x ∈ MakeSphereGeometry.indices id uDivisions vDivisions
        ((vDivisions - 1) * uDivisions + 1), x < (vDivisions - 1) * uDivisions + 2 := by
  have hA : uDivisions ≤ (vDivisions - 1) * uDivisions := by
    have := Nat.mul_le_mul_right uDivisions (show 1 ≤ vDivisions - 1 by omega)
    simpa using this
  have htopmem : ∀ x ∈ MakeSphereGeometry.topRing id uDivisions [],
      x < (vDivisions - 1) * uDivisions + 2 := by
    intro x hx
    rw [topRing_eq, List.nil_append] at hx
    obtain ⟨i, hi, hx⟩ := mem_flatMap_range _ _ _ hx
    simp only [id, List.mem_cons, List.mem_singleton, List.not_mem_nil, or_false] at hx
    rcases hx with rfl | rfl | rfl <;> (try split) <;> omega
  have htop : MakeSphereGeometry.topRing narrow uDivisions []
      = MakeSphereGeometry.topRing id uDivisions [] := by
    rw [topRing_eq, topRing_eq]
    congr 1
    apply flatMap_range_congr
    intro i hi
    rw [hnarrow 0 (by omega), hnarrow (i + 1) (by omega),
      hnarrow (if i < uDivisions - 1 then i + 2 else 1) (by split <;> omega)]
    rfl
  have htoplen : (MakeSphereGeometry.topRing id uDivisions []).length = 3 * uDivisions := by
    rw [topRing_eq, List.nil_append, length_flatMap_range _ _ 3 (fun i _ => by rfl)]
  obtain ⟨r1, r2, r3⟩ := rings_spec narrow uDivisions vDivisions
    (MakeSphereGeometry.topRing id uDivisions []) hv hnarrow htopmem
  have hbot : ∀ l : List Nat,
      MakeSphereGeometry.bottomRing narrow uDivisions ((vDivisions - 1) * uDivisions + 1) l
        = MakeSphereGeometry.bottomRing id uDivisions ((vDivisions - 1) * uDivisions + 1) l := by
    intro l
    rw [bottomRing_eq, bottomRing_eq]
    congr 1
    apply flatMap_range_congr
    intro i hi
    rw [hnarrow ((vDivisions - 1) * uDivisions + 1) (by omega),
      hnarrow (if i < uDivisions - 1 then (vDivisions - 1) * uDivisions + 1 - uDivisions + i + 1
        else (vDivisions - 1) * uDivisions + 1 - uDivisions) (by split <;> omega),
      hnarrow ((vDivisions - 1) * uDivisions + 1 - uDivisions + i) (by omega)]
    rfl
  refine ⟨?_, ?_, ?_⟩
  · unfold MakeSphereGeometry.indices
    simp only [htop, r1, hbot]
  · unfold MakeSphereGeometry.indices
    simp only [bottomRing_eq, List.length_append, r2, htoplen]
    rw [length_flatMap_range _ _ 3 (fun i _ => by rfl)]
    have e : vDivisions - 1 = (vDivisions - 1 - 1) + 1 := by omega
    have e2 : 6 * uDivisions * (vDivisions - 1)
        = 6 * ((vDivisions - 1 - 1) * uDivisions) + 6 * uDivisions := by
      rw [e, Nat.mul_succ, Nat.mul_assoc, Nat.mul_comm uDivisions]
      simp
    omega
  · intro x hx
    unfold MakeSphereGeometry.indices at hx
    simp only [bottomRing_eq, List.mem_append] at hx
    rcases hx with hx | hx
    · exact r3 x hx
    · obtain ⟨i, hi, hx⟩ := mem_flatMap_range _ _ _ hx
      simp only [id, List.mem_cons, List.mem_singleton, List.not_mem_nil, or_false] at hx
      rcases hx with rfl | rfl | rfl <;> (try split) <;> omega

/-- C30: for `uDivisions ≥ 3` and `vDivisions ≥ 3` with
`(vDivisions - 1) * uDivisions + 2 ≤ 65535`, `MakeSphereGeometry` ends its
vertex part with `currSphereVert = numSphereVerts = (vDivisions - 1) *
uDivisions + 2`, having filled the vertex array exactly (top vertex, the rings
in order, bottom vertex); it emits `6 * uDivisions * (vDivisions - 1)` indices,
each smaller than the vertex count, and the list emitted through the
conversions to `uint16` is the list of the values before conversion. -/
theorem MakeSphereGeometry_counts {F : Type} [Zero F] [One F] [Neg F] [Mul F] [Div F]
    (m : SphereMath F) (uDivisions vDivisions : Nat) (_hu : 3 ≤ uDivisions)
    (hv : 3 ≤ vDivisions) (hn : (vDivisions - 1) * uDivisions + 2 ≤ 65535) :
    (MakeSphereGeometry m uDivisions vDivisions).currSphereVert
      = (MakeSphereGeometry m uDivisions vDivisions).numSphereVerts ∧
    (MakeSphereGeometry m uDivisions vDivisions).numSphereVerts
      = (vDivisions - 1) * uDivisions + 2 ∧
    (MakeSphereGeometry m uDivisions vDivisions).sphereVerts
      = (⟨0, 0, 1⟩ : Float3 F) :: (List.range (vDivisions - 1)).flatMap (fun r =>
          (List.range uDivisions).map (MakeSphereGeometry.pos m uDivisions vDivisions (r + 1)))
        ++ [⟨0, 0, -1⟩] ∧
    (MakeSphereGeometry m uDivisions vDivisions).sphereVerts.length
      = (vDivisions - 1) * uDivisions + 2 ∧
    (MakeSphereGeometry m uDivisions vDivisions).sphereIndices.length
      = 6 * uDivisions * (vDivisions - 1) ∧
    (∀ x ∈ (MakeSphereGeometry m uDivisions vDivisions).sphereIndices,
      x < (vDivisions - 1) * uDivisions + 2) ∧
    (MakeSphereGeometry m uDivisions vDivisions).sphereIndices
      = MakeSphereGeometry.indices id uDivisions vDivisions
          ((vDivisions - 1) * uDivisions + 1) := by
  obtain ⟨v1, v2, v3⟩ := sphereVertices_spec m uDivisions vDivisions (by omega)
  obtain ⟨i1, i2, i3⟩ := sphereIndices_spec uint16 uDivisions vDivisions (by omega)
    (fun x hx => Nat.mod_eq_of_lt (by omega))
  have hnum : (MakeSphereGeometry m uDivisions vDivisions).numSphereVerts
      = (vDivisions - 1) * uDivisions + 2 := Nat.mod_eq_of_lt (by omega)
  have hidx : (MakeSphereGeometry m uDivisions vDivisions).sphereIndices
      = MakeSphereGeometry.indices id uDivisions vDivisions
          ((vDivisions - 1) * uDivisions + 1) := by
    show MakeSphereGeometry.indices uint16 uDivisions vDivisions
      (MakeSphereGeometry.vertices m uDivisions vDivisions).2.2 = _
    rw [v3, i1]
  have hverts : (MakeSphereGeometry m uDivisions vDivisions).sphereVerts
      = (⟨0, 0, 1⟩ : Float3 F) :: (List.range (vDivisions - 1)).flatMap (fun r =>
          (List.range uDivisions).map (MakeSphereGeometry.pos m uDivisions vDivisions (r + 1)))
        ++ [⟨0, 0, -1⟩] := v1
  refine ⟨by rw [hnum]; exact v2, hnum, hverts, ?_, by rw [hidx]; exact i2,
    by rw [hidx]; exact i3, hidx⟩
  rw [hverts, List.length_append, List.length_cons,
    length_flatMap_range _ _ uDivisions (fun i _ => by simp)]
  simp only [List.length_singleton]
  rw [Nat.mul_comm]

theorem MakeSphereGeometry_counts_witness :
    (3 ≤ 3 ∧ 3 ≤ 4 ∧ (4 - 1) * 3 + 2 ≤ 65535) ∧
    ((MakeSphereGeometry Examples.sphereMath 3 4).currSphereVert
      = (MakeSphereGeometry Examples.sphereMath 3 4).numSphereVerts ∧
    (MakeSphereGeometry Examples.sphereMath 3 4).numSphereVerts = (4 - 1) * 3 + 2 ∧
    (MakeSphereGeometry Examples.sphereMath 3 4).sphereVerts
      = (⟨0, 0, 1⟩ : Float3 ℚ) :: (List.range (4 - 1)).flatMap (fun r =>
          (List.range 3).map (MakeSphereGeometry.pos Examples.sphereMath 3 4 (r + 1)))
        ++ [⟨0, 0, -1⟩] ∧
    (MakeSphereGeometry Examples.sphereMath 3 4).sphereVerts.length = (4 - 1) * 3 + 2 ∧
    (MakeSphereGeometry Examples.sphereMath 3 4).sphereIndices.length = 6 * 3 * (4 - 1) ∧
    (∀ x ∈ (MakeSphereGeometry Examples.sphereMath 3 4).sphereIndices, x < (4 - 1) * 3 + 2) ∧
    (MakeSphereGeometry Examples.sphereMath 3 4).sphereIndices
      = MakeSphereGeometry.indices id 3 4 ((4 - 1) * 3 + 1)) :=
  ⟨by decide, MakeSphereGeometry_counts Examples.sphereMath 3 4 (by decide) (by decide)
    (by decide)⟩

/-! ## Resolved paths and the `Opaque` flag -/

theorem resolve_found (directory : wstring) (m : MeshMaterial) (t : Nat) (w : World) :
    (LoadMaterialResources.resolve directory m t w).2.1 =
      (decide ((m.TextureNames.get t).length ≠ 0) &&
        (w.files.lookup (directory ++ m.TextureNames.get t)).isSome) := by
  unfold LoadMaterialResources.resolve World.FileExists
  by_cases h0 : (m.TextureNames.get t).length = 0
  · rw [if_pos h0]; simp [h0]
  · rw [if_neg h0]
    cases (List.lookup (directory ++ m.TextureNames.get t) w.files).isSome <;> simp [h0]

theorem prepare_flag (directory : wstring) (m : MeshMaterial) (t : Nat) (w : World) :
    (LoadMaterialResources.prepare directory m t w).1.Opaque =
      if (LoadMaterialResources.resolve directory m t w).2.1 = true ∧
          t = MaterialTextures.Opacity.toNat then false
      else m.Opaque := by
  have hr : LoadMaterialResources.resolve directory { m with Textures := m.Textures.set t none } t w
      = LoadMaterialResources.resolve directory m t w := rfl
  unfold LoadMaterialResources.prepare
  simp only [hr]
  split <;> rfl

/-- What an iteration of the slot loop that ends without an exception does to
the materials and the files: material `k` is replaced by the material prepared
for the slot, bound to some pool entry, and the files are as they were. -/
theorem slot_frame (LoadTexture : wstring → Bool → Except Exception Texture)
    (directory : wstring) (forceSRGB : Bool) (k tt : Nat) (st : LoadMaterialResources.State)
    (mat : MeshMaterial) (hst : st.error = none) (hmat : st.materials[k]? = some mat)
    (herr : (LoadMaterialResources.slot LoadTexture directory forceSRGB k tt st).error = none) :
    ∃ i, (LoadMaterialResources.slot LoadTexture directory forceSRGB k tt st).materials
        = st.materials.set k (LoadMaterialResources.assign
          (LoadMaterialResources.prepare directory mat tt st.world).1 tt i) ∧
      (LoadMaterialResources.slot LoadTexture directory forceSRGB k tt st).world.files
        = st.world.files := by
  obtain ⟨_, _, _, _, hpf, _⟩ := prepare_spec directory mat tt st.world
  unfold LoadMaterialResources.slot at herr ⊢
  rw [hst, hmat] at herr ⊢
  simp only [] at herr ⊢
  cases hs : LoadMaterialResources.search
      (LoadMaterialResources.prepare directory mat tt st.world).2.1 st.materialTextures 0 with
  | some i => exact ⟨i, rfl, hpf⟩
  | none =>
    simp only [hs] at herr ⊢
    cases hl : LoadTexture (LoadMaterialResources.prepare directory mat tt st.world).2.1
        (forceSRGB && decide (tt = MaterialTextures.Albedo.toNat)) with
    | error ex =>
      rw [hl] at herr
      simp at herr
    | ok texture => exact ⟨st.materialTextures.length, rfl, hpf⟩

/-- One iteration of the slot loop carries the state of the `Opaque` flags on:
the flag of a material is cleared once its opacity slot is done, if that slot
names a file that exists, and is as it was otherwise. -/
theorem slot_flag (LoadTexture : wstring → Bool → Except Exception Texture)
    (directory : wstring) (forceSRGB : Bool) (materials : List MeshMaterial) (w : World)
    (k tt : Nat) (hk : k < materials.length) (st : LoadMaterialResources.State)
    (hnames : st.materials.map (fun m => m.TextureNames) = materials.map (fun m => m.TextureNames))
    (hfiles : st.world.files = w.files)
    (hop : ∀ (j : Nat) (material : MeshMaterial), materials[j]? = some material →
      ∃ m1, st.materials[j]? = some m1 ∧ m1.Opaque =
        if (j < k ∨ (j = k ∧ MaterialTextures.Opacity.toNat < tt)) ∧
            (LoadMaterialResources.resolve directory material
              MaterialTextures.Opacity.toNat w).2.1 = true then false
        else material.Opaque)
    (hst : st.error = none)
    (herr : (LoadMaterialResources.slot LoadTexture directory forceSRGB k tt st).error = none) :
    (LoadMaterialResources.slot LoadTexture directory forceSRGB k tt st).materials.map
        (fun m => m.TextureNames) = materials.map (fun m => m.TextureNames) ∧
    (LoadMaterialResources.slot LoadTexture directory forceSRGB k tt st).world.files = w.files ∧
    ∀ (j : Nat) (material : MeshMaterial), materials[j]? = some material →
      ∃ m1, (LoadMaterialResources.slot LoadTexture directory forceSRGB k tt st).materials[j]?
          = some m1 ∧ m1.Opaque =
        if (j < k ∨ (j = k ∧ MaterialTextures.Opacity.toNat < tt + 1)) ∧
            (LoadMaterialResources.resolve directory material
              MaterialTextures.Opacity.toNat w).2.1 = true then false
        else material.Opaque := by
  have hlen : st.materials.length = materials.length := by
    have := congrArg List.length hnames
    simpa using this
  obtain ⟨mat0, hmat0⟩ : ∃ m, materials[k]? = some m :=
    ⟨materials[k], List.getElem?_eq_getElem hk⟩
  obtain ⟨mat, hmat⟩ : ∃ m, st.materials[k]? = some m :=
    ⟨st.materials[k], List.getElem?_eq_getElem (by omega)⟩
  have hn : mat.TextureNames = mat0.TextureNames := by
    have h1 := congrArg (fun l => l[k]?) hnames
    simp only [List.getElem?_map, hmat, hmat0, Option.map_some', Option.some.injEq] at h1
    exact h1
  obtain ⟨hpn, _, _, _, _, _⟩ := prepare_spec directory mat tt st.world
  obtain ⟨i, hm, hf⟩ := slot_frame LoadTexture directory forceSRGB k tt st mat hst hmat herr
  have hfound : (LoadMaterialResources.resolve directory mat tt st.world).2.1
      = (LoadMaterialResources.resolve directory mat0 tt w).2.1 := by
    rw [resolve_found, resolve_found, hn, hfiles]
  refine ⟨?_, hf.trans hfiles, fun j material hmaterial => ?_⟩
  · rw [hm, ← hnames]
    exact map_set_same _ _ _ mat _ hmat hpn
  · obtain ⟨m1, hm1, hopq⟩ := hop j material hmaterial
    rw [hm]
    by_cases hj : j = k
    · subst hj
      have e1 : m1 = mat := by rw [hmat] at hm1; exact (Option.some.inj hm1).symm
      have e2 : material = mat0 := by
        rw [hmat0] at hmaterial; exact (Option.some.inj hmaterial).symm
      subst e1
      subst e2
      refine ⟨_, List.getElem?_set_self (by omega), ?_⟩
      show (LoadMaterialResources.prepare directory m1 tt st.world).1.Opaque = _
      rw [prepare_flag, hfound, hopq]
      by_cases h4 : tt = MaterialTextures.Opacity.toNat
      · subst h4
        simp
      · have hlt : (MaterialTextures.Opacity.toNat < tt + 1) ↔
            (MaterialTextures.Opacity.toNat < tt) := by omega
        simp [h4, hlt]
    · refine ⟨m1, ?_, ?_⟩
      · rw [List.getElem?_set_ne (fun e => hj e.symm)]
        exact hm1
      · rw [hopq]
        simp [hj]

/-- The `Opaque` flags at the end of `LoadMaterialResources`. -/
theorem LoadMaterialResources_flag (LoadTexture : wstring → Bool → Except Exception Texture)
    (materials : List MeshMaterial) (directory : wstring) (forceSRGB : Bool)
    (pool : List MaterialTexture) (w : World)
    (herr : (LoadMaterialResources LoadTexture materials directory forceSRGB pool w).error = none)
    (j : Nat) (material : MeshMaterial) (hmaterial : materials[j]? = some material) :
    ∃ m1, (LoadMaterialResources LoadTexture materials directory forceSRGB pool w).materials[j]?
        = some m1 ∧ m1.Opaque =
      if (LoadMaterialResources.resolve directory material
          MaterialTextures.Opacity.toNat w).2.1 = true then false
      else material.Opaque := by
  unfold LoadMaterialResources at herr ⊢
  have h := forRange_induction
    (fun k (s : LoadMaterialResources.State) => s.error = none →
      s.materials.map (fun m => m.TextureNames) = materials.map (fun m => m.TextureNames) ∧
      s.world.files = w.files ∧
      ∀ (j : Nat) (material : MeshMaterial), materials[j]? = some material →
        ∃ m1, s.materials[j]? = some m1 ∧ m1.Opaque =
          if (j < k ∨ (j = k ∧ MaterialTextures.Opacity.toNat < 0)) ∧
              (LoadMaterialResources.resolve directory material
                MaterialTextures.Opacity.toNat w).2.1 = true then false
          else material.Opaque)
    materials.length
    (fun matIdx st => forRange MaterialTextures.Count
      (LoadMaterialResources.slot LoadTexture directory forceSRGB matIdx) st)
    { materials := materials, materialTextures := pool, world := w, error := none }
    (fun _ => ⟨rfl, rfl, fun j material hm => ⟨material, hm, by simp⟩⟩)
    (fun k s hk hs hnext => by
      have h2 := forRange_induction
        (fun t (s1 : LoadMaterialResources.State) => s1.error = none →
          s.error = none ∧
          s1.materials.map (fun m => m.TextureNames) = materials.map (fun m => m.TextureNames) ∧
          s1.world.files = w.files ∧
          ∀ (j : Nat) (material : MeshMaterial), materials[j]? = some material →
            ∃ m1, s1.materials[j]? = some m1 ∧ m1.Opaque =
              if (j < k ∨ (j = k ∧ MaterialTextures.Opacity.toNat < t)) ∧
                  (LoadMaterialResources.resolve directory material
                    MaterialTextures.Opacity.toNat w).2.1 = true then false
              else material.Opaque)
        MaterialTextures.Count (LoadMaterialResources.slot LoadTexture directory forceSRGB k) s
        (fun h0 => ⟨h0, hs h0⟩)
        (fun t s1 _ hs1 hn1 => by
          have hs0 := slot_error LoadTexture directory forceSRGB k t s1 hn1
          obtain ⟨a0, a1, a2, a3⟩ := hs1 hs0
          exact ⟨a0, slot_flag LoadTexture directory forceSRGB materials w k t hk s1 a1 a2 a3
            hs0 hn1⟩)
      obtain ⟨_, b1, b2, b3⟩ := h2 hnext
      refine ⟨b1, b2, fun j material hm => ?_⟩
      obtain ⟨m1, hm1, ho⟩ := b3 j material hm
      refine ⟨m1, hm1, ?_⟩
      rw [ho]
      have hiff : (j < k ∨ (j = k ∧ MaterialTextures.Opacity.toNat < MaterialTextures.Count)) ↔
          (j < k + 1 ∨ (j = k + 1 ∧ MaterialTextures.Opacity.toNat < 0)) := by
        have : MaterialTextures.Opacity.toNat < MaterialTextures.Count := by decide
        omega
      simp only [hiff])
  obtain ⟨_, _, h3⟩ := h herr
  obtain ⟨m1, hm1, ho⟩ := h3 j material hmaterial
  refine ⟨m1, hm1, ?_⟩
  rw [ho]
  have hj : j < materials.length := (List.getElem?_eq_some.mp hmaterial).1
  simp [hj]

/-- C21: in `LoadMaterialResources` the path a slot resolves to is `directory +
TextureNames[texType]` when that name is not empty and the file exists, and the
entry of `DefaultTextures` for the slot otherwise. When the function is run on
materials with a pool that holds no name twice, small enough for the `uint32`
indices, and ends without an exception, then for every material and every slot
the texture bound to the slot is the pool entry named by that path, and the
`Opaque` flag of the material is `false` if its `Opacity` slot names a file that
exists and is what it was before the call in every other case. -/
theorem LoadMaterialResources_resolved
    (LoadTexture : wstring → Bool → Except Exception Texture)
    (materials : List MeshMaterial) (directory : wstring) (forceSRGB : Bool)
    (pool : List MaterialTexture) (w : World)
    (hnodup : (pool.map (fun t => t.Name)).Nodup)
    (hfit : pool.length + MaterialTextures.Count * materials.length ≤ 2 ^ 32) :
    (∀ (material : MeshMaterial) (texType : Nat) (w1 : World),
      (LoadMaterialResources.resolve directory material texType w1).1 =
        if (material.TextureNames.get texType).length ≠ 0 ∧
            (w1.FileExists (directory ++ material.TextureNames.get texType)).1 = true then
          directory ++ material.TextureNames.get texType
        else DefaultTextures.get texType) ∧
    ((LoadMaterialResources LoadTexture materials directory forceSRGB pool w).error = none →
      ∀ (matIdx : Nat) (material : MeshMaterial), materials[matIdx]? = some material →
        ∃ m1 : MeshMaterial,
          (LoadMaterialResources LoadTexture materials directory forceSRGB pool w).materials[
            matIdx]? = some m1 ∧
          (∀ texType, texType < MaterialTextures.Count →
            ∃ (i : Nat) (entry : MaterialTexture), m1.Textures.get texType = some i ∧
              (LoadMaterialResources LoadTexture materials directory forceSRGB pool
                w).materialTextures[i]? = some entry ∧
              entry.Name =
                if (material.TextureNames.get texType).length ≠ 0 ∧
                    (w.FileExists (directory ++ material.TextureNames.get texType)).1 = true then
                  directory ++ material.TextureNames.get texType
                else DefaultTextures.get texType) ∧
          m1.Opaque =
            if (material.TextureNames.get MaterialTextures.Opacity.toNat).length ≠ 0 ∧
                (w.FileExists (directory ++
                  material.TextureNames.get MaterialTextures.Opacity.toNat)).1 = true then false
            else material.Opaque) := by
  have hres : ∀ (material : MeshMaterial) (texType : Nat) (w1 : World),
      (LoadMaterialResources.resolve directory material texType w1).1 =
        if (material.TextureNames.get texType).length ≠ 0 ∧
            (w1.FileExists (directory ++ material.TextureNames.get texType)).1 = true then
          directory ++ material.TextureNames.get texType
        else DefaultTextures.get texType := by
    intro material texType w1
    rw [resolve_fst]
    show _ = if _ ∧ (w1.files.lookup _).isSome = true then _ else _
    by_cases h0 : (material.TextureNames.get texType).length = 0
    · simp [h0]
    · by_cases hx : (List.lookup (directory ++ material.TextureNames.get texType)
          w1.files).isSome = true
      · simp [h0, hx]
      · simp [h0, hx]
  refine ⟨hres, fun herr matIdx material hm => ?_⟩
  have hinv := LoadMaterialResources_inv LoadTexture materials directory forceSRGB pool w hnodup
    hfit herr
  have hlt : matIdx < materials.length := (List.getElem?_eq_some.mp hm).1
  obtain ⟨m1, hm1, hop⟩ := LoadMaterialResources_flag LoadTexture materials directory forceSRGB
    pool w herr matIdx material hm
  refine ⟨m1, hm1, fun texType ht => ?_, ?_⟩
  · obtain ⟨m2, entry, h1, h2, h3, h4⟩ := hinv.slots matIdx texType material (Or.inl hlt) ht hm
    rw [hm1] at h1
    have e : m2 = m1 := (Option.some.inj h1).symm
    subst e
    exact ⟨_, entry, h2, h3, h4.trans (hres material texType w)⟩
  · rw [hop, resolve_found]
    show _ = if _ ∧ (w.files.lookup _).isSome = true then _ else _
    by_cases h0 : (material.TextureNames.get MaterialTextures.Opacity.toNat).length = 0
    · simp [h0]
    · by_cases hx : (List.lookup
          (directory ++ material.TextureNames.get MaterialTextures.Opacity.toNat)
          w.files).isSome = true
      · simp [h0, hx]
      · simp [h0, hx]

theorem LoadMaterialResources_resolved_witness :
    ((([] : List MaterialTexture).map (fun t => t.Name)).Nodup ∧
      ([] : List MaterialTexture).length + MaterialTextures.Count *
        Examples.opacityMaterials.length ≤ 2 ^ 32) ∧
    ((∀ (material : MeshMaterial) (texType : Nat) (w1 : World),
      (LoadMaterialResources.resolve (L "tex\\") material texType w1).1 =
        if (material.TextureNames.get texType).length ≠ 0 ∧
            (w1.FileExists (L "tex\\" ++ material.TextureNames.get texType)).1 = true then
          L "tex\\" ++ material.TextureNames.get texType
        else DefaultTextures.get texType) ∧
    ((LoadMaterialResources Examples.LoadTexture Examples.opacityMaterials (L "tex\\") true []
        Examples.world).error = none →
      ∀ (matIdx : Nat) (material : MeshMaterial),
        Examples.opacityMaterials[matIdx]? = some material →
        ∃ m1 : MeshMaterial,
          (LoadMaterialResources Examples.LoadTexture Examples.opacityMaterials (L "tex\\") true []
            Examples.world).materials[matIdx]? = some m1 ∧
          (∀ texType, texType < MaterialTextures.Count →
            ∃ (i : Nat) (entry : MaterialTexture), m1.Textures.get texType = some i ∧
              (LoadMaterialResources Examples.LoadTexture Examples.opacityMaterials (L "tex\\")
                true [] Examples.world).materialTextures[i]? = some entry ∧
              entry.Name =
                if (material.TextureNames.get texType).length ≠ 0 ∧
                    (Examples.world.FileExists
                      (L "tex\\" ++ material.TextureNames.get texType)).1 = true then
                  L "tex\\" ++ material.TextureNames.get texType
                else DefaultTextures.get texType) ∧
          m1.Opaque =
            if (material.TextureNames.get MaterialTextures.Opacity.toNat).length ≠ 0 ∧
                (Examples.world.FileExists (L "tex\\" ++
                  material.TextureNames.get MaterialTextures.Opacity.toNat)).1 = true then false
            else material.Opaque)) :=
  ⟨⟨by decide, by decide⟩,
    LoadMaterialResources_resolved Examples.LoadTexture Examples.opacityMaterials (L "tex\\") true
      [] Examples.world (by decide) (by decide)⟩

/-! ## Scene lights -/

theorem take_modifyAt_succ {α : Type} (l : List α) (c : Nat) (g : α → α) (v : α)
    (h : c < l.length) (hv : ∀ d, g d = v) : (modifyAt l c g).take (c + 1) = l.take c ++ [v] := by
  unfold modifyAt
  rw [List.getElem?_eq_getElem h]
  simp only []
  rw [take_set_succ _ _ _ h, hv]

theorem take_modifyAt_keep {α : Type} (l : List α) (c : Nat) (g : α → α) :
    (modifyAt l c g).take c = l.take c := by
  unfold modifyAt
  cases l[c]? with
  | none => rfl
  | some v => exact take_set_self l c (g v)

theorem filterMap_take_succ {α β : Type} (f : α → Option β) (l : List α) (i : Nat) (a : α)
    (h : l[i]? = some a) :
    (l.take (i + 1)).filterMap f = (l.take i).filterMap f ++ (f a).toList := by
  rw [List.take_succ, h, List.filterMap_append]
  cases hf : f a <;> simp [hf]

section
variable {F M : Type} [Mul F] [Neg F] [One F]

/-- The light loop of `CreateWithAssimp` after `i` iterations: the arrays keep
their length, and the first `numSpotLights` and `numPointLights` entries are the
lights extracted from the first `i` source lights, in order. -/
theorem lightLoop_inv (x : LightExternals F M) (settings : ModelLoadSettings F)
    (scene : aiScene F M) (n : Nat) (hn : n ≤ scene.mLights.length)
    (st0 : CreateWithAssimp.Lights F)
    (h0 : st0.spotLights.length = scene.mLights.length ∧
      st0.pointLights.length = scene.mLights.length ∧
      st0.numSpotLights = 0 ∧ st0.numPointLights = 0) :
    (forRange n (CreateWithAssimp.lightBody x settings scene) st0).spotLights.take
        (forRange n (CreateWithAssimp.lightBody x settings scene) st0).numSpotLights
      = (scene.mLights.take n).filterMap (CreateWithAssimp.extractSpot x settings scene) ∧
    (forRange n (CreateWithAssimp.lightBody x settings scene) st0).pointLights.take
        (forRange n (CreateWithAssimp.lightBody x settings scene) st0).numPointLights
      = (scene.mLights.take n).filterMap (CreateWithAssimp.extractPoint x) := by
  have key := forRange_induction
    (fun i (st : CreateWithAssimp.Lights F) => i ≤ scene.mLights.length →
      st.spotLights.length = scene.mLights.length ∧
      st.pointLights.length = scene.mLights.length ∧
      st.numSpotLights ≤ i ∧ st.numPointLights ≤ i ∧
      st.spotLights.take st.numSpotLights
        = (scene.mLights.take i).filterMap (CreateWithAssimp.extractSpot x settings scene) ∧
      st.pointLights.take st.numPointLights
        = (scene.mLights.take i).filterMap (CreateWithAssimp.extractPoint x))
    n (CreateWithAssimp.lightBody x settings scene) st0
    (fun _ => ⟨h0.1, h0.2.1, by omega, by omega, by simp [h0.2.2.1], by simp [h0.2.2.2]⟩)
    (fun i st _ hst hi => by
      obtain ⟨h1, h2, h3, h4, h5, h6⟩ := hst (by omega)
      have hsrc : scene.mLights[i]? = some scene.mLights[i] :=
        List.getElem?_eq_getElem (by omega)
      rw [filterMap_take_succ _ _ _ _ hsrc, filterMap_take_succ _ _ _ _ hsrc, ← h5, ← h6]
      unfold CreateWithAssimp.lightBody
      rw [hsrc]
      simp only []
      by_cases hs : scene.mLights[i].mType = aiLightSourceType.SPOT
      · have hp : ¬ scene.mLights[i].mType = aiLightSourceType.POINT := by rw [hs]; decide
        have heP : CreateWithAssimp.extractPoint x scene.mLights[i] = none := by
          unfold CreateWithAssimp.extractPoint; rw [if_neg hp]
        rw [if_pos hs, heP]
        cases ht : x.FindNode scene.mRootNode
            (C_Str scene.mLights[i].mName ++ L "_$AssimpFbx$_Translation") with
        | none =>
          have heS : CreateWithAssimp.extractSpot x settings scene scene.mLights[i] = none := by
            unfold CreateWithAssimp.extractSpot; rw [if_pos hs, ht]; rfl
          rw [heS]
          simp only [Option.toList_none, List.append_nil]
          exact ⟨h1, h2, by omega, by omega, trivial, trivial⟩
        | some translationNode =>
          simp only []
          cases hr : x.FindNode translationNode
              (C_Str scene.mLights[i].mName ++ L "_$AssimpFbx$_Rotation") with
          | none =>
            have heS : CreateWithAssimp.extractSpot x settings scene scene.mLights[i] = none := by
              unfold CreateWithAssimp.extractSpot; rw [if_pos hs, ht]
              simp [hr]
            rw [heS]
            simp only [Option.toList_none, List.append_nil]
            exact ⟨h1, h2, by omega, by omega, trivial, trivial⟩
          | some rotationNode =>
            have heS : CreateWithAssimp.extractSpot x settings scene scene.mLights[i]
                = some (CreateWithAssimp.spotLight x settings scene.mLights[i] translationNode
                  rotationNode x.freshSpotLight) := by
              unfold CreateWithAssimp.extractSpot; rw [if_pos hs, ht]
              simp [hr]
            rw [heS]
            simp only [Option.toList_none, Option.toList_some, List.append_nil]
            refine ⟨by rw [length_modifyAt, h1], h2, by omega, by omega, ?_, trivial⟩
            exact take_modifyAt_succ st.spotLights st.numSpotLights _ _ (by omega) (fun _ => rfl)
      · have heS : CreateWithAssimp.extractSpot x settings scene scene.mLights[i] = none := by
          unfold CreateWithAssimp.extractSpot; rw [if_neg hs]
        rw [if_neg hs, heS]
        by_cases hp : scene.mLights[i].mType = aiLightSourceType.POINT
        · have heP : CreateWithAssimp.extractPoint x scene.mLights[i]
              = some (CreateWithAssimp.pointLight scene.mLights[i] x.freshPointLight) := by
            unfold CreateWithAssimp.extractPoint; rw [if_pos hp]
          rw [if_pos hp, heP]
          simp only [Option.toList_none, Option.toList_some, List.append_nil]
          refine ⟨h1, by rw [length_modifyAt, h2], by omega, by omega, trivial, ?_⟩
          exact take_modifyAt_succ st.pointLights st.numPointLights _ _ (by omega) (fun _ => rfl)
        · have heP : CreateWithAssimp.extractPoint x scene.mLights[i] = none := by
            unfold CreateWithAssimp.extractPoint; rw [if_neg hp]
          rw [if_neg hp, heP]
          simp only [Option.toList_none, List.append_nil]
          exact ⟨h1, h2, by omega, by omega, trivial, trivial⟩)
  exact ⟨(key hn).2.2.2.2.1, (key hn).2.2.2.2.2⟩

/-- C22: after the light extraction of `CreateWithAssimp`, the spot-light list
holds, in source order, one entry for each source light that is a spot light
whose node `<name>_$AssimpFbx$_Translation` is found from the root and whose
node `<name>_$AssimpFbx$_Rotation` is found from that node, and nothing else:
every other spot light is passed over, with no exception and no count; the
point-light list holds, in source order, one entry per source point light and
nothing else; a light of any other type is in neither list. -/
theorem CreateWithAssimp_lights (x : LightExternals F M) (settings : ModelLoadSettings F)
    (scene : aiScene F M) :
    (CreateWithAssimp.lights x settings scene).1
      = scene.mLights.filterMap (CreateWithAssimp.extractSpot x settings scene) ∧
    (CreateWithAssimp.lights x settings scene).2
      = scene.mLights.filterMap (CreateWithAssimp.extractPoint x) ∧
    (∀ srcLight : aiLight F,
      ((CreateWithAssimp.extractSpot x settings scene srcLight).isSome = true ↔
        srcLight.mType = aiLightSourceType.SPOT ∧
        ∃ translationNode, x.FindNode scene.mRootNode
            (C_Str srcLight.mName ++ L "_$AssimpFbx$_Translation") = some translationNode ∧
          ∃ rotationNode, x.FindNode translationNode
            (C_Str srcLight.mName ++ L "_$AssimpFbx$_Rotation") = some rotationNode) ∧
      ((CreateWithAssimp.extractPoint x srcLight).isSome = true ↔
        srcLight.mType = aiLightSourceType.POINT)) ∧
    (CreateWithAssimp.lights x settings scene).2.length
      = (scene.mLights.filter (fun l => decide (l.mType = aiLightSourceType.POINT))).length := by
  obtain ⟨h5, h6⟩ := lightLoop_inv x settings scene scene.mLights.length (Nat.le_refl _)
    { spotLights := List.replicate scene.mLights.length x.freshSpotLight
      pointLights := List.replicate scene.mLights.length x.freshPointLight
      numSpotLights := 0
      numPointLights := 0 } ⟨by simp, by simp, rfl, rfl⟩
  rw [List.take_length] at h5 h6
  have hpt : (CreateWithAssimp.lights x settings scene).2
      = scene.mLights.filterMap (CreateWithAssimp.extractPoint x) := h6
  refine ⟨h5, hpt, fun srcLight => ⟨?_, ?_⟩, ?_⟩
  · unfold CreateWithAssimp.extractSpot
    by_cases hs : srcLight.mType = aiLightSourceType.SPOT
    · rw [if_pos hs]
      cases ht : x.FindNode scene.mRootNode
          (C_Str srcLight.mName ++ L "_$AssimpFbx$_Translation") with
      | none => simp
      | some translationNode =>
        cases hr : x.FindNode translationNode
            (C_Str srcLight.mName ++ L "_$AssimpFbx$_Rotation") with
        | none => simp [hs, hr]
        | some rotationNode => simp [hs, hr]
    · rw [if_neg hs]; simp [hs]
  · unfold CreateWithAssimp.extractPoint
    by_cases hp : srcLight.mType = aiLightSourceType.POINT
    · rw [if_pos hp]; simp [hp]
    · rw [if_neg hp]; simp [hp]
  · rw [hpt]
    induction scene.mLights with
    | nil => rfl
    | cons a l ih =>
      unfold CreateWithAssimp.extractPoint at ih ⊢
      by_cases hp : a.mType = aiLightSourceType.POINT
      · simp [List.filterMap_cons, List.filter_cons, hp, ih]
      · simp [List.filterMap_cons, List.filter_cons, hp, ih]

end

/-- C23 fails on the code: with `SceneScale = 2`, the point light of the example
scene, whose source position is `(1, 2, 3)`, is stored at `(1, 2, 3)`, not at
`(2, 4, 6)`; the spot light, whose translation node sits at `(1, 2, 3)`, is
stored at `(2, 4, -6)`, the translation times the scale with `z` negated. -/
theorem CreateWithAssimp_point_light_unscaled :
    Examples.scaledSettings.SceneScale = 2 ∧
    (CreateWithAssimp.lights Examples.lightExternals Examples.scaledSettings
      Examples.lightScene).2.map (fun l => l.Position) = [⟨1, 2, 3⟩] ∧
    (Examples.lightScene.mLights.filter
      (fun l => decide (l.mType = aiLightSourceType.POINT))).map
        (fun l => l.mPosition.scale Examples.scaledSettings.SceneScale) = [⟨2, 4, 6⟩] ∧
    (CreateWithAssimp.lights Examples.lightExternals Examples.scaledSettings
      Examples.lightScene).1.map (fun l => l.Position) = [⟨2, 4, -6⟩] ∧
    ¬ PointLightsScaled Examples.lightExternals Examples.scaledSettings Examples.lightScene := by
  refine ⟨rfl, by decide, by decide, by decide, ?_⟩
  unfold PointLightsScaled
  decide

/-! ## The strip clustering honours its caps -/

section
variable {F M : Type}

/-- A byte of the temporary triangle buffer after the library call: the byte the
library stored at that index where the index is inside the buffer, and nothing
(a zero) where it is not. -/
theorem getD_meshOptTriangles (bound : Nat) (out : BuildMeshletsOutput) (k : Nat) :
    (GenerateMeshlets.meshOptTriangles bound out).getD k 0 =
      if k < (bound * MaxMeshletTriangles) % 2 ^ 32 then out.meshlet_triangles.getD k 0 else 0 := by
  unfold GenerateMeshlets.meshOptTriangles
  rw [List.getD_eq_getElem?_getD, getElem?_storeRange, List.getElem?_replicate,
    List.getD_eq_getElem?_getD]
  by_cases hk : k < (bound * MaxMeshletTriangles) % 2 ^ 32
  · rw [if_pos hk, if_pos hk]
    by_cases hv : k < out.meshlet_triangles.length
    · rw [if_pos (by omega)]
      simp
    · rw [if_neg (by omega), List.getElem?_eq_none (by omega)]
      rfl
  · rw [if_neg hk, if_neg hk]
    split <;> rfl

end

section
variable {F M : Type}

/-- Where the temporary triangle buffer holds every byte read from it, the
repacking is lossless: for every model within the `uint32` sizes of
`GenerateMeshlets`, with a library that honours its caps and whose cluster
vertex ranges lie inside what it stored, every corner of every triangle of every
cluster resolves to the vertex the library assigned to it. -/
theorem GenerateMeshlets_lossless_within_buffer (ext : Externals F M) (model : Model F)
    (hfits : GenerateMeshlets.fits ext model) (hcaps : HonoursCaps ext model)
    (hbuf : TriangleBufferHolds ext model) (hverts : VertexRangesStored ext model) :
    RepacksLosslessly ext model := by
  intro i mesh hmesh
  have hwithin := withinCaps_of_honoursCaps ext model hcaps
  have gen := GenerateMeshlets_generated ext model hfits hwithin
  have hmem : mesh ∈ model.meshes := List.mem_iff_getElem?.mpr ⟨i, hmesh⟩
  refine ⟨_, gen.meshes i mesh hmesh, rfl, rfl, fun k c hc => ?_⟩
  have hcm : c ∈ (GenerateMeshlets.build ext model mesh).meshlets :=
    List.mem_iff_getElem?.mpr ⟨k, hc⟩
  refine ⟨_, gen.meshlets i mesh k c hmesh hc, rfl, rfl, rfl, fun t ht e he => ?_⟩
  have hlen := (hcaps mesh hmem).2.1
  obtain ⟨_, _, htri⟩ := (hcaps mesh hmem).2.2 c hcm
  obtain ⟨hr1, hr2⟩ := hverts mesh hmem c hcm
  have h2 := htri t ht 2 (by omega)
  have hloc := (htri t ht e he).2
  have hin := hbuf mesh hmem c hcm t ht e he
  have hread : (GenerateMeshlets.meshOptTriangles (GenerateMeshlets.bound ext mesh)
      (GenerateMeshlets.build ext model mesh)).getD (c.triangle_offset + t * 3 + e) 0 =
      (GenerateMeshlets.build ext model mesh).meshlet_triangles.getD
        (c.triangle_offset + t * 3 + e) 0 := by
    rw [getD_meshOptTriangles, if_pos]
    unfold GenerateMeshlets.meshOptTriangles at hin
    rw [length_storeRange, List.length_replicate] at hin
    exact hin
  obtain ⟨_, _, hV, _⟩ := starts_le ext model hfits hwithin (i + 1)
  obtain ⟨hB, hG, _, _⟩ := starts_le ext model hfits hwithin (i + 1)
  have hVs := vertexStart_succ ext model i mesh hmesh
  have hB32 : GenerateMeshlets.maxMeshlets ext model * 64 < 2 ^ 32 := by
    rw [hB]; exact hfits
  obtain ⟨v, hv⟩ : ∃ v, (GenerateMeshlets.build ext model mesh).meshlet_vertices[
      c.vertex_offset + ((GenerateMeshlets.build ext model mesh).meshlet_triangles.getD
        (c.triangle_offset + t * 3 + e) 0).val]?
      = some v := ⟨_, List.getElem?_eq_getElem (by omega)⟩
  refine ⟨v, hv, ?_⟩
  have hfv := gen.vertices i mesh _ v hmesh (by omega) hv
  have hcorner : (GenerateMeshlets.packed
      (GenerateMeshlets.meshOptTriangles (GenerateMeshlets.bound ext mesh)
        (GenerateMeshlets.build ext model mesh)) c t).Unpack.corner e =
      ((GenerateMeshlets.build ext model mesh).meshlet_triangles.getD
        (c.triangle_offset + t * 3 + e) 0).val := by
    rw [unpack_packed _ c t (by omega), ← hread]
    unfold ShaderUint3.corner
    by_cases e0 : e = 0
    · subst e0; rfl
    · by_cases e1 : e = 1
      · subst e1; rfl
      · have e2 : e = 2 := by omega
        subst e2; rfl
  simp only [GetMeshletTriVertices.vertexIndex, gen.triangles i mesh k c t hmesh hc ht, hcorner]
  rw [Nat.mod_eq_of_lt (by omega)]
  have eidx : ((GenerateMeshlets.build ext model mesh).meshlet_triangles.getD
        (c.triangle_offset + t * 3 + e) 0).val +
      (c.vertex_offset + GenerateMeshlets.vertexStart ext model i) =
      GenerateMeshlets.vertexStart ext model i + (c.vertex_offset +
        ((GenerateMeshlets.build ext model mesh).meshlet_triangles.getD
          (c.triangle_offset + t * 3 + e) 0).val) := by
    omega
  rw [eidx, hfv]
  rfl

end

section
variable {F M H : Type}

/-- On a path that names a file, `CreateFromMeshData` checks that the file
exists, opens it for reading and runs `Serialize` under the reading driver on
its content; if the driver fails the call throws, and otherwise the model read
gets its buffers and its material textures. -/
theorem CreateFromMeshData_artifact (c : Collaborators F M H) (filePath : wstring)
    (self : Model F) (w : World) (content : List Byte)
    (h : w.files.lookup filePath = some content) :
    let w2 := (w.log (.FileExists filePath)).log (.Open filePath .Read)
    let r := c.Serialize FileReadSerializer self content
    let model := r.1.CreateBuffers
    let l := LoadMaterialResources c.LoadTexture model.meshMaterials model.textureDirectory
      model.forceSRGB model.materialTextures w2
    (r.2 = none → Model.CreateFromMeshData c filePath self w =
      { model := r.1, world := w2, error := some (c.IOException filePath) }) ∧
    (r.2 ≠ none → Model.CreateFromMeshData c filePath self w =
      { model := { model with
          meshMaterials := l.materials, materialTextures := l.materialTextures }
        world := l.world, error := l.error }) := by
  intro w2 r model l
  have hex : (w.FileExists filePath).1 = true := by
    unfold World.FileExists; rw [h]; rfl
  have hopen : ((w.FileExists filePath).2.OpenRead filePath).1 = some content := by
    unfold World.OpenRead World.FileExists; exact h
  have hw : ((w.FileExists filePath).2.OpenRead filePath).2 = w2 := rfl
  constructor
  · intro hr
    unfold Model.CreateFromMeshData
    simp only [hex, Bool.true_eq_false, if_false, hopen, hw]
    change r.2 = none at hr
    show (match r.2 with
      | none => _
      | some _ => _) = _
    rw [hr]
  · intro hr
    obtain ⟨rest, hrest⟩ := Option.ne_none_iff_exists'.mp hr
    unfold Model.CreateFromMeshData
    simp only [hex, Bool.true_eq_false, if_false, hopen, hw]
    change r.2 = some rest at hrest
    show (match r.2 with
      | none => _
      | some _ => _) = _
    rw [hrest]

end
set_option linter.unusedSectionVars false
section
variable {F M H : Type} [LinearOrder F] [Mul F] [Neg F] [One F]

/-- C14: when the cache path of the settings holds no artifact and a first
`CreateWithAssimp` call ends without an exception, that call has run the Assimp
reader once and written at exactly the cache path (every other file is as it
was) the bytes `content` that `Model::Serialize` wrote of the model. A second
call with the same settings in the world the first call left is
`CreateFromMeshData` on the artifact, after the three calls of the lookup: it
checks that the artifact exists, opens it for reading, and runs
`Model::Serialize` under the reading driver on those same bytes `content`; the
model it returns is the model read from them, with its buffers created and its
material textures loaded (or, if the reading driver fails, the call throws). It
does not run the importer: over both calls the importer has run exactly once. -/
theorem CreateWithAssimp_imports_once (c : Collaborators F M H)
    (settings : ModelLoadSettings F) (self1 self2 : Model F) (w : World) (cachePath : wstring)
    (hpath : (MakeModelCachePath c.toHashing settings w).1 = some cachePath)
    (hmiss : w.files.lookup cachePath = none)
    (hok : (CreateWithAssimp.run c settings self1 w).error = none) :
    ∃ (built : Model F) (content : List Byte),
      (CreateWithAssimp.run c settings self1 w).world.imports = w.imports + 1 ∧
      c.Serialize FileWriteSerializer built []
        = ((CreateWithAssimp.run c settings self1 w).model, some content) ∧
      (CreateWithAssimp.run c settings self1 w).world.files.lookup cachePath = some content ∧
      (∀ q, q ≠ cachePath →
        (CreateWithAssimp.run c settings self1 w).world.files.lookup q = w.files.lookup q) ∧
      CreateWithAssimp.run c settings self2 (CreateWithAssimp.run c settings self1 w).world
        = Model.CreateFromMeshData c cachePath self2
          ((((CreateWithAssimp.run c settings self1 w).world.log
            (.FileExists (settings.FilePath.getD []))).log
            (.ReadFileAsByteArray (settings.FilePath.getD []))).log (.FileExists cachePath)) ∧
      (let w2 := (((((CreateWithAssimp.run c settings self1 w).world.log
          (.FileExists (settings.FilePath.getD []))).log
          (.ReadFileAsByteArray (settings.FilePath.getD []))).log (.FileExists cachePath)).log
          (.FileExists cachePath)).log (.Open cachePath .Read)
        let r := c.Serialize FileReadSerializer self2 content
        let model := r.1.CreateBuffers
        let l := LoadMaterialResources c.LoadTexture model.meshMaterials model.textureDirectory
          model.forceSRGB model.materialTextures w2
        (r.2 = none →
          CreateWithAssimp.run c settings self2 (CreateWithAssimp.run c settings self1 w).world
            = { model := r.1, world := w2, error := some (c.IOException cachePath) }) ∧
        (r.2 ≠ none →
          CreateWithAssimp.run c settings self2 (CreateWithAssimp.run c settings self1 w).world
            = { model := { model with
                  meshMaterials := l.materials, materialTextures := l.materialTextures }
                world := l.world, error := l.error })) ∧
      (CreateWithAssimp.run c settings self2
        (CreateWithAssimp.run c settings self1 w).world).world.imports = w.imports + 1 := by
  have hsrc := MakeModelCachePath_some c.toHashing settings w cachePath hpath
  have hrun := run_miss c settings self1 w cachePath hsrc hpath hmiss
  rw [hrun] at hok ⊢
  obtain ⟨built, content, hs, hf, hi⟩ := miss_spec c settings cachePath self1 _ hok
  have hi3 : (((w.log (.FileExists (settings.FilePath.getD []))).log
      (.ReadFileAsByteArray (settings.FilePath.getD []))).log (.FileExists cachePath)).imports
      = w.imports := by
    rw [imports_log, imports_log, imports_log]; rfl
  have hne : settings.FilePath.getD [] ≠ cachePath := by
    intro e
    rw [e, hmiss] at hsrc
    simp at hsrc
  have hfile : ∀ q, (CreateWithAssimp.miss c settings cachePath self1
      (((w.log (.FileExists (settings.FilePath.getD []))).log
        (.ReadFileAsByteArray (settings.FilePath.getD []))).log
        (.FileExists cachePath))).world.files.lookup q
      = if q = cachePath then some content else w.files.lookup q := hf
  have hsrc2 : ((CreateWithAssimp.miss c settings cachePath self1
      (((w.log (.FileExists (settings.FilePath.getD []))).log
        (.ReadFileAsByteArray (settings.FilePath.getD []))).log
        (.FileExists cachePath))).world.files.lookup (settings.FilePath.getD [])).isSome
      = true := by
    rw [hfile, if_neg hne]; exact hsrc
  have hpath2 : (MakeModelCachePath c.toHashing settings (CreateWithAssimp.miss c settings cachePath
      self1 (((w.log (.FileExists (settings.FilePath.getD []))).log
        (.ReadFileAsByteArray (settings.FilePath.getD []))).log
        (.FileExists cachePath))).world).1 = some cachePath := by
    rw [(MakeModelCachePath_files c.toHashing settings _ w
      (by rw [hfile, if_neg hne])).1]
    exact hpath
  have hcontent : (CreateWithAssimp.miss c settings cachePath self1
      (((w.log (.FileExists (settings.FilePath.getD []))).log
        (.ReadFileAsByteArray (settings.FilePath.getD []))).log
        (.FileExists cachePath))).world.files.lookup cachePath = some content := by
    rw [hfile, if_pos rfl]
  have hhit : ((CreateWithAssimp.miss c settings cachePath self1
      (((w.log (.FileExists (settings.FilePath.getD []))).log
        (.ReadFileAsByteArray (settings.FilePath.getD []))).log
        (.FileExists cachePath))).world.files.lookup cachePath).isSome = true := by
    rw [hcontent]; rfl
  have hsecond := run_hit c settings self2 _ cachePath hsrc2 hpath2 hhit
  have hart := CreateFromMeshData_artifact c cachePath self2
    ((((CreateWithAssimp.miss c settings cachePath self1
      (((w.log (.FileExists (settings.FilePath.getD []))).log
        (.ReadFileAsByteArray (settings.FilePath.getD []))).log
        (.FileExists cachePath))).world.log (.FileExists (settings.FilePath.getD []))).log
        (.ReadFileAsByteArray (settings.FilePath.getD []))).log (.FileExists cachePath))
    content hcontent
  refine ⟨built, content, hi.trans (by rw [hi3]), hs, hcontent,
    fun q hq => by rw [hfile, if_neg hq], hsecond, ?_, ?_⟩
  · rw [hsecond]
    exact hart
  · rw [hsecond, CreateFromMeshData_imports, imports_log, imports_log, imports_log, hi, hi3]
    rfl

end
theorem CreateWithAssimp_imports_once_witness :
    ((MakeModelCachePath Examples.collaborators.toHashing Examples.settings Examples.world).1
        = some Examples.cachePath ∧
      Examples.world.files.lookup Examples.cachePath = none ∧
      (CreateWithAssimp.run Examples.collaborators Examples.settings Examples.model0
        Examples.world).error = none) ∧
    ∃ (built : Model Int) (content : List Byte),
      (CreateWithAssimp.run Examples.collaborators Examples.settings Examples.model0
        Examples.world).world.imports = Examples.world.imports + 1 ∧
      Examples.collaborators.Serialize FileWriteSerializer built []
        = ((CreateWithAssimp.run Examples.collaborators Examples.settings Examples.model0
            Examples.world).model, some content) ∧
      (CreateWithAssimp.run Examples.collaborators Examples.settings Examples.model0
        Examples.world).world.files.lookup Examples.cachePath = some content ∧
      (∀ q, q ≠ Examples.cachePath →
        (CreateWithAssimp.run Examples.collaborators Examples.settings Examples.model0
          Examples.world).world.files.lookup q = Examples.world.files.lookup q) ∧
      CreateWithAssimp.run Examples.collaborators Examples.settings Examples.model0
          (CreateWithAssimp.run Examples.collaborators Examples.settings Examples.model0
            Examples.world).world
        = Model.CreateFromMeshData Examples.collaborators Examples.cachePath Examples.model0
          ((((CreateWithAssimp.run Examples.collaborators Examples.settings Examples.model0
              Examples.world).world.log
            (.FileExists (Examples.settings.FilePath.getD []))).log
            (.ReadFileAsByteArray (Examples.settings.FilePath.getD []))).log
            (.FileExists Examples.cachePath)) ∧
      (let w2 := (((((CreateWithAssimp.run Examples.collaborators Examples.settings
          Examples.model0 Examples.world).world.log
          (.FileExists (Examples.settings.FilePath.getD []))).log
          (.ReadFileAsByteArray (Examples.settings.FilePath.getD []))).log
          (.FileExists Examples.cachePath)).log
          (.FileExists Examples.cachePath)).log (.Open Examples.cachePath .Read)
        let r := Examples.collaborators.Serialize FileReadSerializer Examples.model0 content
        let model := r.1.CreateBuffers
        let l := LoadMaterialResources Examples.collaborators.LoadTexture model.meshMaterials
          model.textureDirectory model.forceSRGB model.materialTextures w2
        (r.2 = none →
          CreateWithAssimp.run Examples.collaborators Examples.settings Examples.model0
              (CreateWithAssimp.run Examples.collaborators Examples.settings Examples.model0
                Examples.world).world
            = { model := r.1, world := w2
                error := some (Examples.collaborators.IOException Examples.cachePath) }) ∧
        (r.2 ≠ none →
          CreateWithAssimp.run Examples.collaborators Examples.settings Examples.model0
              (CreateWithAssimp.run Examples.collaborators Examples.settings Examples.model0
                Examples.world).world
            = { model := { model with
                  meshMaterials := l.materials, materialTextures := l.materialTextures }
                world := l.world, error := l.error })) ∧
      (CreateWithAssimp.run Examples.collaborators Examples.settings Examples.model0
        (CreateWithAssimp.run Examples.collaborators Examples.settings Examples.model0
          Examples.world).world).world.imports = Examples.world.imports + 1 :=
  ⟨⟨by decide, by decide, by decide⟩,
    CreateWithAssimp_imports_once Examples.collaborators Examples.settings Examples.model0
      Examples.model0 Examples.world Examples.cachePath (by decide) (by decide) (by decide)⟩

end SampleFramework12
